import Mathlib

/-!
# Inviscid flux and flux Jacobians of the aither solver

A shallow embedding of `src/inviscidFlux.cpp` (physical flux, `RoeFlux`,
`RoeFluxJacobian`).  The C++ `double` is read as an element of a linearly
ordered field `K` with exact arithmetic, and the library square root is an
explicit argument `sqrt : K → K`, so that every definition below is an
ordinary computable function.  The theorems instantiate `K` with `ℝ` and
`sqrt` with `Real.sqrt`; rounding, infinities and NaN are outside the model.
-/

namespace Aither

open Filter Topology

variable {K : Type} [LinearOrderedField K]

/-! ## Collaborator types -/

/-- Modelled from the spec: the class `vector3d<double>` (header `vector3d.h`,
not among the sources) is the "fixed-size 3D vector" of the vector/matrix
primitives; it holds the three Cartesian components. -/
structure vector3d (K : Type) where
  x : K
  y : K
  z : K

/-- Modelled from the spec: `vector3d::DotProd`, the Euclidean inner product. -/
def vector3d.DotProd (a b : vector3d K) : K :=
  a.x * b.x + a.y * b.y + a.z * b.z

/-- Modelled from the spec: `vector3d::MagSq`, the squared magnitude. -/
def vector3d.MagSq (a : vector3d K) : K :=
  a.x * a.x + a.y * a.y + a.z * a.z

/-- Modelled from the spec: `vector3d::Mag`, the magnitude ("a 3D vector whose
magnitude is face area"). -/
def vector3d.Mag (sqrt : K → K) (a : vector3d K) : K :=
  sqrt (a.x * a.x + a.y * a.y + a.z * a.z)

/-- Modelled from the spec: `vector3d::operator/` by a scalar, componentwise. -/
def vector3d.divScalar (a : vector3d K) (s : K) : vector3d K :=
  ⟨a.x / s, a.y / s, a.z / s⟩

/-- Modelled from the spec: unary minus of a `vector3d` (face-orientation
reversal), componentwise. -/
def vector3d.neg (a : vector3d K) : vector3d K :=
  ⟨-a.x, -a.y, -a.z⟩

/-- Modelled from the spec: the class `idealGas` (header `eos.h`, not among the
sources); the flux code only reads its ratio of specific heats `Gamma()`. -/
structure idealGas (K : Type) where
  gamma : K

/-- Accessor `idealGas::Gamma()`. -/
def idealGas.Gamma (eqnState : idealGas K) : K := eqnState.gamma

/-- Modelled from the spec: the class `primVars` (header `primVars.h`, not among
the sources), the "primitive flow state (density, velocity, pressure)". -/
structure primVars (K : Type) where
  rho : K
  u : K
  v : K
  w : K
  p : K

/-- Accessor `primVars::Rho()`. -/
def primVars.Rho (s : primVars K) : K := s.rho

/-- Accessor `primVars::U()`. -/
def primVars.U (s : primVars K) : K := s.u

/-- Accessor `primVars::V()`. -/
def primVars.V (s : primVars K) : K := s.v

/-- Accessor `primVars::W()`. -/
def primVars.W (s : primVars K) : K := s.w

/-- Accessor `primVars::P()`. -/
def primVars.P (s : primVars K) : K := s.p

/-- Accessor `primVars::Velocity()`. -/
def primVars.Velocity (s : primVars K) : vector3d K := ⟨s.u, s.v, s.w⟩

/-- Modelled from the spec: `primVars::Enthalpy(eqnState)` is not among the
sources; for the ideal gas the total enthalpy is
`gamma / (gamma - 1) * p / rho + 0.5 * |v|^2`. -/
def primVars.Enthalpy (s : primVars K) (eqnState : idealGas K) : K :=
  eqnState.Gamma / (eqnState.Gamma - 1.0) * s.P / s.Rho + 0.5 * s.Velocity.MagSq

/-- Modelled from the spec: `primVars::SoS(eqnState)` is not among the sources;
for the ideal gas the speed of sound is `sqrt(gamma * p / rho)`. -/
def primVars.SoS (sqrt : K → K) (s : primVars K) (eqnState : idealGas K) : K :=
  sqrt (eqnState.Gamma * s.P / s.Rho)

/-! ## `inviscidFlux` -/

/-- The five components of `class inviscidFlux`. -/
structure inviscidFlux (K : Type) where
  rhoVel : K
  rhoVelU : K
  rhoVelV : K
  rhoVelW : K
  rhoVelH : K

/-- Constructor `inviscidFlux::inviscidFlux(const primVars&, const idealGas&,
const vector3d<double>&)` (`inviscidFlux.cpp`, lines 13-22). -/
def inviscidFlux.ofState (sqrt : K → K) (state : primVars K) (eqnState : idealGas K)
    (areaVec : vector3d K) : inviscidFlux K :=
  let normArea := areaVec.divScalar (areaVec.Mag sqrt)
  let vel := state.Velocity
  { rhoVel := state.Rho * vel.DotProd normArea
    rhoVelU := state.Rho * vel.DotProd normArea * vel.x + state.P * normArea.x
    rhoVelV := state.Rho * vel.DotProd normArea * vel.y + state.P * normArea.y
    rhoVelW := state.Rho * vel.DotProd normArea * vel.z + state.P * normArea.z
    rhoVelH := state.Rho * vel.DotProd normArea * state.Enthalpy eqnState }

/-! ## `RoeFlux` -/

/-- The Harten entropy fix of `RoeFlux` (lines 113-120) applied to one acoustic
wave speed: `if (ws < entropyFix) ws = 0.5 * (ws * ws / entropyFix + entropyFix)`
with `entropyFix = 0.1`. -/
def entropyFixed (ws : K) : K :=
  let entropyFix : K := 0.1
  if ws < entropyFix then 0.5 * (ws * ws / entropyFix + entropyFix) else ws

/-- The local variables of `RoeFlux` (lines 67-188), which `RoeFluxJacobian`
recomputes with the same expressions (lines 227-299). -/
structure RoeLocals (K : Type) where
  denRatio : K
  rhoR : K
  uR : K
  vR : K
  wR : K
  hR : K
  aR : K
  velR : vector3d K
  areaNorm : vector3d K
  velRSum : K
  normVelDiff : K
  waveStrength : Fin 4 → K
  /-- The array `waveSpeed` as first initialised, before the entropy fix. -/
  waveSpeedUnfixed : Fin 4 → K
  /-- The array `waveSpeed` after the two entropy-fix statements. -/
  waveSpeed : Fin 4 → K
  lAcousticEigV : Fin 5 → K
  entropyEigV : Fin 5 → K
  rAcousticEigV : Fin 5 → K
  shearEigV : Fin 5 → K
  dissipation : Fin 5 → K

/-- The body of `RoeFlux` up to and including the dissipation loop. -/
def roeLocals (sqrt : K → K) (left right : primVars K) (eqnState : idealGas K)
    (areaVec : vector3d K) : RoeLocals K :=
  let denRatio := sqrt (right.Rho / left.Rho)
  let rhoR := left.Rho * denRatio
  let uR := (left.U + denRatio * right.U) / (1.0 + denRatio)
  let vR := (left.V + denRatio * right.V) / (1.0 + denRatio)
  let wR := (left.W + denRatio * right.W) / (1.0 + denRatio)
  let hR := (left.Enthalpy eqnState + denRatio * right.Enthalpy eqnState) / (1.0 + denRatio)
  let aR := sqrt ((eqnState.Gamma - 1.0) * (hR - 0.5 * (uR * uR + vR * vR + wR * wR)))
  let velR : vector3d K := ⟨uR, vR, wR⟩
  let areaNorm := areaVec.divScalar (areaVec.Mag sqrt)
  let velRSum := velR.DotProd areaNorm
  let normVelDiff := right.Velocity.DotProd areaNorm - left.Velocity.DotProd areaNorm
  let waveStrength : Fin 4 → K :=
    ![((right.P - left.P) - rhoR * aR * normVelDiff) / (2.0 * aR * aR),
      (right.Rho - left.Rho) - (right.P - left.P) / (aR * aR),
      ((right.P - left.P) + rhoR * aR * normVelDiff) / (2.0 * aR * aR),
      rhoR]
  let waveSpeedUnfixed : Fin 4 → K :=
    ![|velRSum - aR|, |velRSum|, |velRSum + aR|, |velRSum|]
  let waveSpeed : Fin 4 → K :=
    ![entropyFixed (waveSpeedUnfixed 0), waveSpeedUnfixed 1,
      entropyFixed (waveSpeedUnfixed 2), waveSpeedUnfixed 3]
  let lAcousticEigV : Fin 5 → K :=
    ![1.0, uR - aR * areaNorm.x, vR - aR * areaNorm.y, wR - aR * areaNorm.z,
      hR - aR * velRSum]
  let entropyEigV : Fin 5 → K :=
    ![1.0, uR, vR, wR, 0.5 * (uR * uR + vR * vR + wR * wR)]
  let rAcousticEigV : Fin 5 → K :=
    ![1.0, uR + aR * areaNorm.x, vR + aR * areaNorm.y, wR + aR * areaNorm.z,
      hR + aR * velRSum]
  let shearEigV : Fin 5 → K :=
    ![0.0,
      (right.U - left.U) - normVelDiff * areaNorm.x,
      (right.V - left.V) - normVelDiff * areaNorm.y,
      (right.W - left.W) - normVelDiff * areaNorm.z,
      uR * (right.U - left.U) + vR * (right.V - left.V) + wR * (right.W - left.W)
        - velRSum * normVelDiff]
  let dissipation : Fin 5 → K := fun ii =>
    waveSpeed 0 * waveStrength 0 * lAcousticEigV ii
      + waveSpeed 1 * waveStrength 1 * entropyEigV ii
      + waveSpeed 2 * waveStrength 2 * rAcousticEigV ii
      + waveSpeed 3 * waveStrength 3 * shearEigV ii
  { denRatio := denRatio, rhoR := rhoR, uR := uR, vR := vR, wR := wR, hR := hR, aR := aR,
    velR := velR, areaNorm := areaNorm, velRSum := velRSum, normVelDiff := normVelDiff,
    waveStrength := waveStrength, waveSpeedUnfixed := waveSpeedUnfixed,
    waveSpeed := waveSpeed, lAcousticEigV := lAcousticEigV, entropyEigV := entropyEigV,
    rAcousticEigV := rAcousticEigV, shearEigV := shearEigV, dissipation := dissipation }

/-- Function `RoeFlux` (`inviscidFlux.cpp`, lines 64-207): the returned flux,
paired with the value written to the output parameter `maxWS`. -/
def RoeFlux (sqrt : K → K) (left right : primVars K) (eqnState : idealGas K)
    (areaVec : vector3d K) : inviscidFlux K × K :=
  let l := roeLocals sqrt left right eqnState areaVec
  let maxWS := |l.velRSum| + l.aR
  let leftFlux := inviscidFlux.ofState sqrt left eqnState l.areaNorm
  let rightFlux := inviscidFlux.ofState sqrt right eqnState l.areaNorm
  ({ rhoVel := 0.5 * (leftFlux.rhoVel + rightFlux.rhoVel - l.dissipation 0)
     rhoVelU := 0.5 * (leftFlux.rhoVelU + rightFlux.rhoVelU - l.dissipation 1)
     rhoVelV := 0.5 * (leftFlux.rhoVelV + rightFlux.rhoVelV - l.dissipation 2)
     rhoVelW := 0.5 * (leftFlux.rhoVelW + rightFlux.rhoVelW - l.dissipation 3)
     rhoVelH := 0.5 * (leftFlux.rhoVelH + rightFlux.rhoVelH - l.dissipation 4) },
   maxWS)

/-! ## `RoeFluxJacobian` -/

/-- Modelled from the spec: the class `squareMatrix` (header `matrix.h`, not
among the sources) is the "small dense square matrix with arithmetic
operators"; the flux Jacobians are its 5 x 5 instances, indexed (row, column). -/
def squareMatrix (K : Type) : Type := Fin 5 → Fin 5 → K

/-- Modelled from the spec: `squareMatrix::Zero()`, every entry set to zero. -/
def squareMatrix.Zero : squareMatrix K := fun _ _ => 0

/-- Modelled from the spec: `squareMatrix::Data(r, c)`, the entry in row `r` and
column `c`. -/
def squareMatrix.Data (m : squareMatrix K) (r c : Fin 5) : K := m r c

/-- Modelled from the spec: `squareMatrix::SetData(r, c, val)`, which overwrites
the entry in row `r` and column `c` and leaves the others as they are. -/
def squareMatrix.SetData (m : squareMatrix K) (r c : Fin 5) (val : K) : squareMatrix K :=
  fun i j => if i = r ∧ j = c then val else m i j

/-- Modelled from the spec: `squareMatrix::operator*(double)`, entrywise. -/
def squareMatrix.scale (m : squareMatrix K) (s : K) : squareMatrix K :=
  fun i j => m i j * s

/-- Modelled from the spec: `operator*(double, squareMatrix)`, entrywise. -/
def squareMatrix.lscale (s : K) (m : squareMatrix K) : squareMatrix K :=
  fun i j => s * m i j

/-- Modelled from the spec: `squareMatrix::operator-`, entrywise. -/
def squareMatrix.sub (a b : squareMatrix K) : squareMatrix K :=
  fun i j => a i j - b i j

/-- `std::copysign(1.0, x)`; a real zero carries the sign of `+0.0`. -/
def copysignOne (x : K) : K := if x < 0 then -1.0 else 1.0

/-- The statements of `RoeFluxJacobian` headed "calculate flux derivatives ---
d(0.5*F(Ul))/d(Ul)" (lines 304-346 for the left state, 637-676 for the right
state): `Zero()`, the twenty-five `SetData` calls in source order, and the
final multiplication by 0.5.  `velSum` is `velLeftSum` resp. `velRightSum`. -/
def RoeFluxJacobian.physicalTerm (state : primVars K) (eqnState : idealGas K)
    (areaNorm : vector3d K) (velSum : K) : squareMatrix K :=
  let m : squareMatrix K := squareMatrix.Zero
  -- column zero
  let m := m.SetData 0 0 0.0
  let m := m.SetData 1 0
    (0.5 * (eqnState.Gamma - 1.0) * state.Velocity.MagSq * areaNorm.x - state.U * velSum)
  let m := m.SetData 2 0
    (0.5 * (eqnState.Gamma - 1.0) * state.Velocity.MagSq * areaNorm.y - state.V * velSum)
  let m := m.SetData 3 0
    (0.5 * (eqnState.Gamma - 1.0) * state.Velocity.MagSq * areaNorm.z - state.W * velSum)
  let m := m.SetData 4 0
    ((0.5 * (eqnState.Gamma - 1.0) * state.Velocity.MagSq - state.Enthalpy eqnState) * velSum)
  -- column one
  let m := m.SetData 1 0 areaNorm.x
  let m := m.SetData 1 1
    (state.U * areaNorm.x - (eqnState.Gamma - 1.0) * state.U * areaNorm.x + velSum)
  let m := m.SetData 1 2 (state.V * areaNorm.x - (eqnState.Gamma - 1.0) * state.U * areaNorm.y)
  let m := m.SetData 1 3 (state.W * areaNorm.x - (eqnState.Gamma - 1.0) * state.U * areaNorm.z)
  let m := m.SetData 1 4
    (state.Enthalpy eqnState * areaNorm.x - (eqnState.Gamma - 1.0) * state.U * velSum)
  -- column two
  let m := m.SetData 2 0 areaNorm.y
  let m := m.SetData 2 1 (state.U * areaNorm.y - (eqnState.Gamma - 1.0) * state.V * areaNorm.x)
  let m := m.SetData 2 2
    (state.V * areaNorm.y - (eqnState.Gamma - 1.0) * state.V * areaNorm.y + velSum)
  let m := m.SetData 2 3 (state.W * areaNorm.y - (eqnState.Gamma - 1.0) * state.V * areaNorm.z)
  let m := m.SetData 2 4
    (state.Enthalpy eqnState * areaNorm.y - (eqnState.Gamma - 1.0) * state.V * velSum)
  -- column three
  let m := m.SetData 3 0 areaNorm.z
  let m := m.SetData 3 1 (state.U * areaNorm.z - (eqnState.Gamma - 1.0) * state.W * areaNorm.x)
  let m := m.SetData 3 2 (state.V * areaNorm.z - (eqnState.Gamma - 1.0) * state.W * areaNorm.y)
  let m := m.SetData 3 3
    (state.W * areaNorm.z - (eqnState.Gamma - 1.0) * state.W * areaNorm.z + velSum)
  let m := m.SetData 3 4
    (state.Enthalpy eqnState * areaNorm.z - (eqnState.Gamma - 1.0) * state.W * velSum)
  -- column four
  let m := m.SetData 4 0 0.0
  let m := m.SetData 4 1 ((eqnState.Gamma - 1.0) * areaNorm.x)
  let m := m.SetData 4 2 ((eqnState.Gamma - 1.0) * areaNorm.y)
  let m := m.SetData 4 3 ((eqnState.Gamma - 1.0) * areaNorm.z)
  let m := m.SetData 4 4 (eqnState.Gamma * velSum)
  -- multiply by factor 1/2
  m.scale 0.5

/-- The derivative arrays that `RoeFluxJacobian` declares for one side (for the
left side `dQr_dUl`, `dAbsQr_dUl`, `dA_dUl`, ..., `dDeltW_dUl`; for the right
side the same names ending in `_dUr`). -/
structure RoeJacArrays (K : Type) where
  dQr : Fin 5 → K
  dAbsQr : Fin 5 → K
  dA : Fin 5 → K
  dR : Fin 5 → K
  dU : Fin 5 → K
  dV : Fin 5 → K
  dW : Fin 5 → K
  dH : Fin 5 → K
  dDeltR : Fin 5 → K
  dDeltP : Fin 5 → K
  dDeltVmag : Fin 5 → K
  dDeltU : Fin 5 → K
  dDeltV : Fin 5 → K
  dDeltW : Fin 5 → K

/-- The arrays `d*_dUl` of `RoeFluxJacobian` (lines 348-451). -/
def RoeFluxJacobian.leftArrays (sqrt : K → K) (left : primVars K) (eqnState : idealGas K)
    (l : RoeLocals K) : RoeJacArrays K :=
  let velLeftSum := left.Velocity.DotProd l.areaNorm
  let one_rl_r := 1.0 / (left.Rho + l.rhoR)
  { dQr := ![-0.5 * (velLeftSum + l.velRSum) * one_rl_r,
             l.areaNorm.x * one_rl_r,
             l.areaNorm.y * one_rl_r,
             l.areaNorm.z * one_rl_r,
             0.0]
    dAbsQr := ![-0.5 * copysignOne l.velRSum * (velLeftSum + l.velRSum) * one_rl_r,
                copysignOne l.velRSum * l.areaNorm.x * one_rl_r,
                copysignOne l.velRSum * l.areaNorm.y * one_rl_r,
                copysignOne l.velRSum * l.areaNorm.z * one_rl_r,
                0.0]
    dA := ![((0.5 * (eqnState.Gamma - 1.0) / l.aR)
                 * (0.5 * (l.velR.MagSq + left.Velocity.DotProd l.velR))
               + 0.5 * (left.Enthalpy eqnState - l.hR)
               - (left.SoS sqrt eqnState * left.SoS sqrt eqnState) / (eqnState.Gamma - 1.0)
               + 0.5 * (eqnState.Gamma - 2.0) * left.Velocity.MagSq) * one_rl_r,
            (-0.5 * (eqnState.Gamma - 1.0) * (l.uR + (eqnState.Gamma - 1.0) * left.U) / l.aR)
              * one_rl_r,
            (-0.5 * (eqnState.Gamma - 1.0) * (l.vR + (eqnState.Gamma - 1.0) * left.V) / l.aR)
              * one_rl_r,
            (-0.5 * (eqnState.Gamma - 1.0) * (l.wR + (eqnState.Gamma - 1.0) * left.W) / l.aR)
              * one_rl_r,
            (0.5 * eqnState.Gamma * (eqnState.Gamma - 1.0) / l.aR) * one_rl_r]
    dR := ![0.5 * l.rhoR / left.Rho, 0.0, 0.0, 0.0, 0.0]
    dU := ![-0.5 * (left.U + l.uR) * one_rl_r, one_rl_r, 0.0, 0.0, 0.0]
    dV := ![-0.5 * (left.V + l.vR) * one_rl_r, 0.0, one_rl_r, 0.0, 0.0]
    dW := ![-0.5 * (left.W + l.wR) * one_rl_r, 0.0, 0.0, one_rl_r, 0.0]
    dH := ![(0.5 * (left.Enthalpy eqnState - l.hR)
               - left.SoS sqrt eqnState * left.SoS sqrt eqnState / (eqnState.Gamma - 1.0)
               + 0.5 * (eqnState.Gamma - 2.0) * left.Velocity.MagSq) * one_rl_r,
            (1.0 - eqnState.Gamma) * left.U * one_rl_r,
            (1.0 - eqnState.Gamma) * left.V * one_rl_r,
            (1.0 - eqnState.Gamma) * left.W * one_rl_r,
            eqnState.Gamma * one_rl_r]
    dDeltR := ![-1.0, 0.0, 0.0, 0.0, 0.0]
    dDeltP := ![-0.5 * (eqnState.Gamma - 1.0) * left.Velocity.MagSq,
                (eqnState.Gamma - 1.0) * left.U,
                (eqnState.Gamma - 1.0) * left.V,
                (eqnState.Gamma - 1.0) * left.W,
                -1.0 * (eqnState.Gamma - 1.0)]
    dDeltVmag := ![velLeftSum / left.Rho,
                   -1.0 * l.areaNorm.x / left.Rho,
                   -1.0 * l.areaNorm.y / left.Rho,
                   -1.0 * l.areaNorm.z / left.Rho,
                   0.0]
    dDeltU := ![left.U / left.Rho, -1.0 / left.Rho, 0.0, 0.0, 0.0]
    dDeltV := ![left.V / left.Rho, 0.0, -1.0 / left.Rho, 0.0, 0.0]
    dDeltW := ![left.W / left.Rho, 0.0, 0.0, -1.0 / left.Rho, 0.0] }

/-- The arrays `d*_dUr` of `RoeFluxJacobian` (lines 678-781). -/
def RoeFluxJacobian.rightArrays (sqrt : K → K) (right : primVars K) (eqnState : idealGas K)
    (l : RoeLocals K) : RoeJacArrays K :=
  let velRightSum := right.Velocity.DotProd l.areaNorm
  let one_rr_r := 1.0 / (right.Rho + l.rhoR)
  { dQr := ![-0.5 * (velRightSum + l.velRSum) * one_rr_r,
             l.areaNorm.x * one_rr_r,
             l.areaNorm.y * one_rr_r,
             l.areaNorm.z * one_rr_r,
             0.0]
    dAbsQr := ![-0.5 * copysignOne l.velRSum * (velRightSum + l.velRSum) * one_rr_r,
                copysignOne l.velRSum * l.areaNorm.x * one_rr_r,
                copysignOne l.velRSum * l.areaNorm.y * one_rr_r,
                copysignOne l.velRSum * l.areaNorm.z * one_rr_r,
                0.0]
    dA := ![((0.5 * (eqnState.Gamma - 1.0) / l.aR)
                 * (0.5 * (l.velR.MagSq + right.Velocity.DotProd l.velR))
               + 0.5 * (right.Enthalpy eqnState - l.hR)
               - (right.SoS sqrt eqnState * right.SoS sqrt eqnState) / (eqnState.Gamma - 1.0)
               + 0.5 * (eqnState.Gamma - 2.0) * right.Velocity.MagSq) * one_rr_r,
            (-0.5 * (eqnState.Gamma - 1.0) * (l.uR + (eqnState.Gamma - 1.0) * right.U) / l.aR)
              * one_rr_r,
            (-0.5 * (eqnState.Gamma - 1.0) * (l.vR + (eqnState.Gamma - 1.0) * right.V) / l.aR)
              * one_rr_r,
            (-0.5 * (eqnState.Gamma - 1.0) * (l.wR + (eqnState.Gamma - 1.0) * right.W) / l.aR)
              * one_rr_r,
            (0.5 * eqnState.Gamma * (eqnState.Gamma - 1.0) / l.aR) * one_rr_r]
    dR := ![0.5 * l.rhoR / right.Rho, 0.0, 0.0, 0.0, 0.0]
    dU := ![-0.5 * (right.U + l.uR) * one_rr_r, one_rr_r, 0.0, 0.0, 0.0]
    dV := ![-0.5 * (right.V + l.vR) * one_rr_r, 0.0, one_rr_r, 0.0, 0.0]
    dW := ![-0.5 * (right.W + l.wR) * one_rr_r, 0.0, 0.0, one_rr_r, 0.0]
    dH := ![(0.5 * (right.Enthalpy eqnState - l.hR)
               - right.SoS sqrt eqnState * right.SoS sqrt eqnState / (eqnState.Gamma - 1.0)
               + 0.5 * (eqnState.Gamma - 2.0) * right.Velocity.MagSq) * one_rr_r,
            (1.0 - eqnState.Gamma) * right.U * one_rr_r,
            (1.0 - eqnState.Gamma) * right.V * one_rr_r,
            (1.0 - eqnState.Gamma) * right.W * one_rr_r,
            eqnState.Gamma * one_rr_r]
    dDeltR := ![1.0, 0.0, 0.0, 0.0, 0.0]
    dDeltP := ![0.5 * (eqnState.Gamma - 1.0) * right.Velocity.MagSq,
                -1.0 * (eqnState.Gamma - 1.0) * right.U,
                -1.0 * (eqnState.Gamma - 1.0) * right.V,
                -1.0 * (eqnState.Gamma - 1.0) * right.W,
                (eqnState.Gamma - 1.0)]
    dDeltVmag := ![-1.0 * velRightSum / right.Rho,
                   l.areaNorm.x / right.Rho,
                   l.areaNorm.y / right.Rho,
                   l.areaNorm.z / right.Rho,
                   0.0]
    dDeltU := ![-1.0 * right.U / right.Rho, 1.0 / right.Rho, 0.0, 0.0, 0.0]
    dDeltV := ![-1.0 * right.V / right.Rho, 0.0, 1.0 / right.Rho, 0.0, 0.0]
    dDeltW := ![-1.0 * right.W / right.Rho, 0.0, 0.0, 1.0 / right.Rho, 0.0] }

/-- The array `dWs1_dUl` (resp. `dWs1_dUr`) after the sign branch on
`velRSum - aR > 0.0` and before the entropy-fix statement (lines 454-464,
784-794). -/
def RoeFluxJacobian.dWs1Unfixed (l : RoeLocals K) (d : RoeJacArrays K) : Fin 5 → K := fun kk =>
  if l.velRSum - l.aR > 0.0 then d.dQr kk - d.dA kk else -1.0 * (d.dQr kk - d.dA kk)

/-- The array `dWs1_dUl` (resp. `dWs1_dUr`) after the entropy-fix statement
`if (waveSpeed[0] < entropyFix) dWs1[kk] = waveSpeed[0] / entropyFix * dWs1[kk]`
(lines 465-470, 795-800); `waveSpeed[0]` is the array entry as it stands there,
that is after the fix of lines 267-269. -/
def RoeFluxJacobian.dWs1 (l : RoeLocals K) (d : RoeJacArrays K) : Fin 5 → K := fun kk =>
  let entropyFix : K := 0.1
  if l.waveSpeed 0 < entropyFix then
    l.waveSpeed 0 / entropyFix * RoeFluxJacobian.dWs1Unfixed l d kk
  else RoeFluxJacobian.dWs1Unfixed l d kk

/-- The array `dWs3_dUl` (resp. `dWs3_dUr`) after the sign branch on
`velRSum + aR > 0.0` and before the entropy-fix statement (lines 491-501,
820-830). -/
def RoeFluxJacobian.dWs3Unfixed (l : RoeLocals K) (d : RoeJacArrays K) : Fin 5 → K := fun kk =>
  if l.velRSum + l.aR > 0.0 then d.dQr kk + d.dA kk else -1.0 * (d.dQr kk + d.dA kk)

/-- The array `dWs3_dUl` (resp. `dWs3_dUr`) after the entropy-fix statement
(lines 502-507, 831-836). -/
def RoeFluxJacobian.dWs3 (l : RoeLocals K) (d : RoeJacArrays K) : Fin 5 → K := fun kk =>
  let entropyFix : K := 0.1
  if l.waveSpeed 2 < entropyFix then
    l.waveSpeed 2 / entropyFix * RoeFluxJacobian.dWs3Unfixed l d kk
  else RoeFluxJacobian.dWs3Unfixed l d kk

/-- The part of `RoeFluxJacobian` that adds the dissipation derivatives to one
output matrix (lines 453-634 for `dF_dUl`, 783-962 for `dF_dUr`; the two
passages differ only in the names of the arrays).  `phys` is the matrix as
left by the physical-flux statements, `d` the derivative arrays of that side. -/
def RoeFluxJacobian.assemble (left right : primVars K) (l : RoeLocals K) (d : RoeJacArrays K)
    (phys : squareMatrix K) : squareMatrix K :=
  let pDiff := right.P - left.P
  let uDiff := right.U - left.U
  let vDiff := right.V - left.V
  let wDiff := right.W - left.W
  let dWs1 := RoeFluxJacobian.dWs1 l d
  let dWs3 := RoeFluxJacobian.dWs3 l d
  -- wave speed contributions
  let m : squareMatrix K := fun kk c =>
    phys.Data kk c - 0.5 * dWs1 c * l.waveStrength 0 * l.lAcousticEigV kk
  let m : squareMatrix K := fun kk c =>
    m.Data kk c - 0.5 * d.dAbsQr c * l.waveStrength 1 * l.entropyEigV kk
  let m : squareMatrix K := fun kk c =>
    m.Data kk c - 0.5 * dWs3 c * l.waveStrength 2 * l.rAcousticEigV kk
  let m : squareMatrix K := fun kk c =>
    m.Data kk c - 0.5 * d.dAbsQr c * l.waveStrength 3 * l.shearEigV kk
  -- wave strength contributions
  let dWst1 : Fin 5 → K := fun kk =>
    0.5 * (-2.0 * pDiff + l.rhoR * l.aR * l.normVelDiff) / l.aR ^ 3 * d.dA kk
      - 0.5 * l.normVelDiff / l.aR * d.dR kk
      + 0.5 * d.dDeltP kk / (l.aR * l.aR) - 0.5 * l.rhoR * d.dDeltVmag kk / l.aR
  let m : squareMatrix K := fun kk c =>
    m.Data kk c - 0.5 * l.waveSpeed 0 * dWst1 c * l.lAcousticEigV kk
  let dWst2 : Fin 5 → K := fun kk =>
    d.dDeltR kk - d.dDeltP kk / (l.aR * l.aR) + 2.0 * pDiff / l.aR ^ 3 * d.dA kk
  let m : squareMatrix K := fun kk c =>
    m.Data kk c - 0.5 * l.waveSpeed 1 * dWst2 c * l.entropyEigV kk
  let dWst3 : Fin 5 → K := fun kk =>
    0.5 * (-2.0 * pDiff - l.rhoR * l.aR * l.normVelDiff) / l.aR ^ 3 * d.dA kk
      + 0.5 * l.normVelDiff / l.aR * d.dR kk
      + 0.5 * d.dDeltP kk / (l.aR * l.aR) + 0.5 * l.rhoR * d.dDeltVmag kk / l.aR
  let m : squareMatrix K := fun kk c =>
    m.Data kk c - 0.5 * l.waveSpeed 2 * dWst3 c * l.rAcousticEigV kk
  let m : squareMatrix K := fun kk c =>
    m.Data kk c - 0.5 * l.waveSpeed 3 * d.dR c * l.shearEigV kk
  -- eigenvector contributions
  let dLAc : squareMatrix K := fun r kk =>
    ![0.0,
      d.dU kk - d.dA kk * l.areaNorm.x,
      d.dV kk - d.dA kk * l.areaNorm.y,
      d.dW kk - d.dA kk * l.areaNorm.z,
      d.dH kk - d.dA kk * l.velRSum - d.dQr kk * l.aR] r
  let m := m.sub (squareMatrix.lscale (0.5 * l.waveSpeed 0 * l.waveStrength 0) dLAc)
  let dEnt : squareMatrix K := fun r kk =>
    ![0.0, d.dU kk, d.dV kk, d.dW kk, l.uR * d.dU kk + l.vR * d.dV kk + l.wR * d.dW kk] r
  let m := m.sub (squareMatrix.lscale (0.5 * l.waveSpeed 1 * l.waveStrength 1) dEnt)
  let dRAc : squareMatrix K := fun r kk =>
    ![0.0,
      d.dU kk + d.dA kk * l.areaNorm.x,
      d.dV kk + d.dA kk * l.areaNorm.y,
      d.dW kk + d.dA kk * l.areaNorm.z,
      d.dH kk + d.dA kk * l.velRSum + d.dQr kk * l.aR] r
  let m := m.sub (squareMatrix.lscale (0.5 * l.waveSpeed 2 * l.waveStrength 2) dRAc)
  let dSh : squareMatrix K := fun r kk =>
    ![0.0,
      d.dDeltU kk - d.dDeltVmag kk * l.areaNorm.x,
      d.dDeltV kk - d.dDeltVmag kk * l.areaNorm.y,
      d.dDeltW kk - d.dDeltVmag kk * l.areaNorm.z,
      uDiff * d.dU kk + vDiff * d.dV kk + wDiff * d.dW kk - l.normVelDiff * d.dQr kk
        + l.uR * d.dDeltU kk + l.vR * d.dDeltV kk + l.wR * d.dDeltW kk
        - l.velRSum * d.dDeltVmag kk] r
  m.sub (squareMatrix.lscale (0.5 * l.waveSpeed 3 * l.waveStrength 3) dSh)

/-- The matrix held in `dF_dUl` when `RoeFluxJacobian` reaches line 348, just
before the first dissipation contribution is added. -/
def RoeFluxJacobian.physicalLeft (sqrt : K → K) (left right : primVars K)
    (eqnState : idealGas K) (areaVec : vector3d K) : squareMatrix K :=
  let l := roeLocals sqrt left right eqnState areaVec
  RoeFluxJacobian.physicalTerm left eqnState l.areaNorm (left.Velocity.DotProd l.areaNorm)

/-- The matrix held in `dF_dUr` when `RoeFluxJacobian` reaches line 678. -/
def RoeFluxJacobian.physicalRight (sqrt : K → K) (left right : primVars K)
    (eqnState : idealGas K) (areaVec : vector3d K) : squareMatrix K :=
  let l := roeLocals sqrt left right eqnState areaVec
  RoeFluxJacobian.physicalTerm right eqnState l.areaNorm (right.Velocity.DotProd l.areaNorm)

/-- Function `RoeFluxJacobian` (`inviscidFlux.cpp`, lines 210-965): the matrices
left in the output parameters `dF_dUl` and `dF_dUr`.  The function never
assigns its parameter `maxWS` (line 274 is commented out). -/
def RoeFluxJacobian (sqrt : K → K) (left right : primVars K) (eqnState : idealGas K)
    (areaVec : vector3d K) : squareMatrix K × squareMatrix K :=
  let l := roeLocals sqrt left right eqnState areaVec
  let dF_dUl := RoeFluxJacobian.assemble left right l
    (RoeFluxJacobian.leftArrays sqrt left eqnState l)
    (RoeFluxJacobian.physicalLeft sqrt left right eqnState areaVec)
  let dF_dUr := RoeFluxJacobian.assemble left right l
    (RoeFluxJacobian.rightArrays sqrt right eqnState l)
    (RoeFluxJacobian.physicalRight sqrt left right eqnState areaVec)
  (dF_dUl, dF_dUr)

/-- Modelled from the spec: `idealGas::GetPressFromEnergy(rho, energy, vel)` is
not among the sources; for the ideal gas the pressure of a state with specific
total energy `energy` and speed `vel` is
`(gamma - 1) * rho * (energy - 0.5 * vel * vel)`. -/
def idealGas.GetPressFromEnergy (eqnState : idealGas K) (rho energy vel : K) : K :=
  (eqnState.Gamma - 1.0) * rho * (energy - 0.5 * vel * vel)

/-- The primitive state that the constructor `inviscidFlux::inviscidFlux(const
colMatrix&, ...)` builds from the conserved variables
`(rho, rho*u, rho*v, rho*w, rho*E)` (lines 33-39). -/
def primVars.ofConserved (sqrt : K → K) (cons : Fin 5 → K) (eqnState : idealGas K) :
    primVars K :=
  let rho := cons 0
  let u := cons 1 / cons 0
  let v := cons 2 / cons 0
  let w := cons 3 / cons 0
  let energy := cons 4 / cons 0
  let vel : vector3d K := ⟨u, v, w⟩
  { rho := rho, u := u, v := v, w := w,
    p := eqnState.GetPressFromEnergy rho energy (vel.Mag sqrt) }

/-- Modelled from the spec: `primVars::ConsVars(eqnState)` is not among the
sources; the "conversion to a 5-component conserved vector" of the flow state,
`(rho, rho*u, rho*v, rho*w, rho*E)` with, for the ideal gas,
`rho*E = p / (gamma - 1) + 0.5 * rho * |v|^2`. -/
def primVars.ConsVars (s : primVars K) (eqnState : idealGas K) : Fin 5 → K :=
  ![s.Rho, s.Rho * s.U, s.Rho * s.V, s.Rho * s.W,
    s.P / (eqnState.Gamma - 1.0) + 0.5 * s.Rho * s.Velocity.MagSq]

/-- The state of the example scenario of the specification:
`rho = 1, u = v = w = 0, p = 1 / gamma` with `gamma = 1.4`. -/
def exampleState : primVars K := ⟨1, 0, 0, 0, 1 / 1.4⟩

/-- The factor by which the entropy-fix statement of `RoeFluxJacobian`
(`if (waveSpeed[k] < entropyFix) dWs[kk] = waveSpeed[k] / entropyFix * dWs[kk]`,
lines 466-470, 503-507, 796-800, 832-836) multiplies an acoustic wave-speed
derivative, as a function of the value `ws` that `waveSpeed[k]` holds there. -/
def RoeFluxJacobian.entropyFixFactor (ws : K) : K :=
  let entropyFix : K := 0.1
  if ws < entropyFix then ws / entropyFix else 1

/-! ## `ApproxRoeFluxJacobian` -/

/-- Modelled from the spec: `squareMatrix::operator+`, entrywise. -/
def squareMatrix.add (a b : squareMatrix K) : squareMatrix K :=
  fun i j => a i j + b i j

/-- Modelled from the spec: `squareMatrix::Identity()`, ones on the diagonal and
zeros elsewhere. -/
def squareMatrix.Identity : squareMatrix K := fun i j => if i = j then 1 else 0

/-- The twenty-five `SetData` calls, in source order, by which
`ApproxRoeFluxJacobian` fills `dF_dUl` (lines 1134-1169) and `dF_dUr` (lines
1175-1211) with the flux derivatives of one state, before the dissipation
matrix is added.  They are, call for call, the ones of `RoeFluxJacobian`.
`velNorm` is `velLeftNorm` resp. `velRightNorm`. -/
def ApproxRoeFluxJacobian.physicalStores (state : primVars K) (eqnState : idealGas K)
    (areaNorm : vector3d K) (velNorm : K) : squareMatrix K :=
  let m : squareMatrix K := squareMatrix.Zero
  -- column zero
  let m := m.SetData 0 0 (0.0)
  let m := m.SetData 1 0
    (0.5 * (eqnState.Gamma - 1.0) * state.Velocity.MagSq * areaNorm.x - state.U * velNorm)
  let m := m.SetData 2 0
    (0.5 * (eqnState.Gamma - 1.0) * state.Velocity.MagSq * areaNorm.y - state.V * velNorm)
  let m := m.SetData 3 0
    (0.5 * (eqnState.Gamma - 1.0) * state.Velocity.MagSq * areaNorm.z - state.W * velNorm)
  let m := m.SetData 4 0
    ((0.5 * (eqnState.Gamma - 1.0) * state.Velocity.MagSq - state.Enthalpy eqnState) * velNorm)
  -- column one
  let m := m.SetData 1 0 (areaNorm.x)
  let m := m.SetData 1 1
    (state.U * areaNorm.x - (eqnState.Gamma - 1.0) * state.U * areaNorm.x + velNorm)
  let m := m.SetData 1 2 (state.V * areaNorm.x - (eqnState.Gamma - 1.0) * state.U * areaNorm.y)
  let m := m.SetData 1 3 (state.W * areaNorm.x - (eqnState.Gamma - 1.0) * state.U * areaNorm.z)
  let m := m.SetData 1 4
    (state.Enthalpy eqnState * areaNorm.x - (eqnState.Gamma - 1.0) * state.U * velNorm)
  -- column two
  let m := m.SetData 2 0 (areaNorm.y)
  let m := m.SetData 2 1 (state.U * areaNorm.y - (eqnState.Gamma - 1.0) * state.V * areaNorm.x)
  let m := m.SetData 2 2
    (state.V * areaNorm.y - (eqnState.Gamma - 1.0) * state.V * areaNorm.y + velNorm)
  let m := m.SetData 2 3 (state.W * areaNorm.y - (eqnState.Gamma - 1.0) * state.V * areaNorm.z)
  let m := m.SetData 2 4
    (state.Enthalpy eqnState * areaNorm.y - (eqnState.Gamma - 1.0) * state.V * velNorm)
  -- column three
  let m := m.SetData 3 0 (areaNorm.z)
  let m := m.SetData 3 1 (state.U * areaNorm.z - (eqnState.Gamma - 1.0) * state.W * areaNorm.x)
  let m := m.SetData 3 2 (state.V * areaNorm.z - (eqnState.Gamma - 1.0) * state.W * areaNorm.y)
  let m := m.SetData 3 3
    (state.W * areaNorm.z - (eqnState.Gamma - 1.0) * state.W * areaNorm.z + velNorm)
  let m := m.SetData 3 4
    (state.Enthalpy eqnState * areaNorm.z - (eqnState.Gamma - 1.0) * state.W * velNorm)
  -- column four
  let m := m.SetData 4 0 (0.0)
  let m := m.SetData 4 1 ((eqnState.Gamma - 1.0) * areaNorm.x)
  let m := m.SetData 4 2 ((eqnState.Gamma - 1.0) * areaNorm.y)
  let m := m.SetData 4 3 ((eqnState.Gamma - 1.0) * areaNorm.z)
  let m := m.SetData 4 4 (eqnState.Gamma * velNorm)
  m

/-- The matrix `A` of `ApproxRoeFluxJacobian` after the statement
`A = fabs(velRNorm) * A` (lines 1013-1050), "contribution due to normal
velocity eigenvalues".  The Roe averages are computed as in `RoeFlux`
(lines 985-998); every entry of the freshly constructed `A` is assigned. -/
def ApproxRoeFluxJacobian.normalVelocityTerm (eqnState : idealGas K) (l : RoeLocals K) :
    squareMatrix K :=
  let m : squareMatrix K := squareMatrix.Zero
  -- column zero
  let m := m.SetData 0 0 (1.0 - 0.5 * (eqnState.Gamma - 1.0) * l.velR.MagSq / (l.aR * l.aR))
  let m := m.SetData 1 0
    (-(1.0 + 0.5 * (eqnState.Gamma - 1.0) * l.velR.MagSq / (l.aR * l.aR)) * l.uR + l.velRSum *
      l.areaNorm.x)
  let m := m.SetData 2 0
    (-(1.0 + 0.5 * (eqnState.Gamma - 1.0) * l.velR.MagSq / (l.aR * l.aR)) * l.vR + l.velRSum *
      l.areaNorm.y)
  let m := m.SetData 3 0
    (-(1.0 + 0.5 * (eqnState.Gamma - 1.0) * l.velR.MagSq / (l.aR * l.aR)) * l.wR + l.velRSum *
      l.areaNorm.z)
  let m := m.SetData 4 0
    (l.velRSum * l.velRSum - 0.5 * l.velR.MagSq * (1.0 + 0.5 * (eqnState.Gamma - 1.0) *
      l.velR.MagSq / (l.aR * l.aR)))
  -- column one
  let m := m.SetData 0 1 ((eqnState.Gamma - 1.0) / (l.aR * l.aR) * l.uR)
  let m := m.SetData 1 1
    ((eqnState.Gamma - 1.0) / (l.aR * l.aR) * l.uR * l.uR + 1.0 - l.areaNorm.x * l.areaNorm.x)
  let m := m.SetData 2 1
    ((eqnState.Gamma - 1.0) / (l.aR * l.aR) * l.vR * l.uR - l.areaNorm.y * l.areaNorm.x)
  let m := m.SetData 3 1
    ((eqnState.Gamma - 1.0) / (l.aR * l.aR) * l.wR * l.uR - l.areaNorm.z * l.areaNorm.x)
  let m := m.SetData 4 1
    ((1.0 + 0.5 * (eqnState.Gamma - 1.0) * l.velR.MagSq / (l.aR * l.aR)) * l.uR - l.velRSum *
      l.areaNorm.x)
  -- column two
  let m := m.SetData 0 2 ((eqnState.Gamma - 1.0) / (l.aR * l.aR) * l.vR)
  let m := m.SetData 1 2
    ((eqnState.Gamma - 1.0) / (l.aR * l.aR) * l.uR * l.vR - l.areaNorm.x * l.areaNorm.y)
  let m := m.SetData 2 2
    ((eqnState.Gamma - 1.0) / (l.aR * l.aR) * l.vR * l.vR + 1.0 - l.areaNorm.y * l.areaNorm.y)
  let m := m.SetData 3 2
    ((eqnState.Gamma - 1.0) / (l.aR * l.aR) * l.wR * l.vR - l.areaNorm.z * l.areaNorm.y)
  let m := m.SetData 4 2
    ((1.0 + 0.5 * (eqnState.Gamma - 1.0) * l.velR.MagSq / (l.aR * l.aR)) * l.vR - l.velRSum *
      l.areaNorm.y)
  -- column three
  let m := m.SetData 0 3 ((eqnState.Gamma - 1.0) / (l.aR * l.aR) * l.wR)
  let m := m.SetData 1 3
    ((eqnState.Gamma - 1.0) / (l.aR * l.aR) * l.uR * l.wR - l.areaNorm.x * l.areaNorm.z)
  let m := m.SetData 2 3
    ((eqnState.Gamma - 1.0) / (l.aR * l.aR) * l.vR * l.wR - l.areaNorm.y * l.areaNorm.z)
  let m := m.SetData 3 3
    ((eqnState.Gamma - 1.0) / (l.aR * l.aR) * l.wR * l.wR + 1.0 - l.areaNorm.z * l.areaNorm.z)
  let m := m.SetData 4 3
    ((1.0 + 0.5 * (eqnState.Gamma - 1.0) * l.velR.MagSq / (l.aR * l.aR)) * l.wR - l.velRSum *
      l.areaNorm.z)
  -- column four
  let m := m.SetData 0 4 (-(eqnState.Gamma - 1.0) / (l.aR * l.aR))
  let m := m.SetData 1 4 (-(eqnState.Gamma - 1.0) / (l.aR * l.aR) * l.uR)
  let m := m.SetData 2 4 (-(eqnState.Gamma - 1.0) / (l.aR * l.aR) * l.vR)
  let m := m.SetData 3 4 (-(eqnState.Gamma - 1.0) / (l.aR * l.aR) * l.wR)
  let m := m.SetData 4 4 (-(eqnState.Gamma - 1.0) / (l.aR * l.aR) * l.velR.MagSq / (l.aR * l.aR))
  squareMatrix.lscale |l.velRSum| m

/-- The matrix `temp` of `ApproxRoeFluxJacobian` as filled for the "u - c wave"
(lines 1053-1088), before it is scaled by `fabs(velRNorm - aR)`. -/
def ApproxRoeFluxJacobian.leftAcousticTerm (eqnState : idealGas K) (l : RoeLocals K) :
    squareMatrix K :=
  let m : squareMatrix K := squareMatrix.Zero
  -- column zero
  let m := m.SetData 0 0
    (0.25 * (eqnState.Gamma - 1.0) * l.velR.MagSq / (l.aR * l.aR) + 0.5 * l.velRSum / l.aR)
  let m := m.SetData 1 0
    ((l.uR - l.aR * l.areaNorm.x) * (0.25 * (eqnState.Gamma - 1.0) * l.velR.MagSq / (l.aR * l.aR)
      + 0.5 * l.velRSum / l.aR))
  let m := m.SetData 2 0
    ((l.vR - l.aR * l.areaNorm.y) * (0.25 * (eqnState.Gamma - 1.0) * l.velR.MagSq / (l.aR * l.aR)
      + 0.5 * l.velRSum / l.aR))
  let m := m.SetData 3 0
    ((l.wR - l.aR * l.areaNorm.z) * (0.25 * (eqnState.Gamma - 1.0) * l.velR.MagSq / (l.aR * l.aR)
      + 0.5 * l.velRSum / l.aR))
  let m := m.SetData 4 0
    ((l.hR - l.velRSum * l.aR * l.areaNorm.x) * (0.25 * (eqnState.Gamma - 1.0) * l.velR.MagSq /
      (l.aR * l.aR) + 0.5 * l.velRSum / l.aR))
  -- column one
  let m := m.SetData 0 1
    (-(eqnState.Gamma - 1.0) / (2.0 * l.aR * l.aR) * l.uR - l.areaNorm.x / (2.0 * l.aR ))
  let m := m.SetData 1 1
    ((l.uR - l.aR * l.areaNorm.x) * (-(eqnState.Gamma - 1.0) / (2.0 * l.aR * l.aR) * l.uR -
      l.areaNorm.x / (2.0 * l.aR)))
  let m := m.SetData 2 1
    ((l.vR - l.aR * l.areaNorm.y) * (-(eqnState.Gamma - 1.0) / (2.0 * l.aR * l.aR) * l.uR -
      l.areaNorm.x / (2.0 * l.aR)))
  let m := m.SetData 3 1
    ((l.wR - l.aR * l.areaNorm.z) * (-(eqnState.Gamma - 1.0) / (2.0 * l.aR * l.aR) * l.uR -
      l.areaNorm.x / (2.0 * l.aR)))
  let m := m.SetData 4 1
    ((l.hR - l.aR * l.velRSum) * (-(eqnState.Gamma - 1.0) / (2.0 * l.aR * l.aR) * l.uR -
      l.areaNorm.x / (2.0 * l.aR)))
  -- column two
  let m := m.SetData 0 2
    (-(eqnState.Gamma - 1.0) / (2.0 * l.aR * l.aR) * l.vR - l.areaNorm.y / (2.0 * l.aR ))
  let m := m.SetData 1 2
    ((l.uR - l.aR * l.areaNorm.x) * (-(eqnState.Gamma - 1.0) / (2.0 * l.aR * l.aR) * l.vR -
      l.areaNorm.y / (2.0 * l.aR)))
  let m := m.SetData 2 2
    ((l.vR - l.aR * l.areaNorm.y) * (-(eqnState.Gamma - 1.0) / (2.0 * l.aR * l.aR) * l.vR -
      l.areaNorm.y / (2.0 * l.aR)))
  let m := m.SetData 3 2
    ((l.wR - l.aR * l.areaNorm.z) * (-(eqnState.Gamma - 1.0) / (2.0 * l.aR * l.aR) * l.vR -
      l.areaNorm.y / (2.0 * l.aR)))
  let m := m.SetData 4 2
    ((l.hR - l.aR * l.velRSum) * (-(eqnState.Gamma - 1.0) / (2.0 * l.aR * l.aR) * l.vR -
      l.areaNorm.y / (2.0 * l.aR)))
  -- column three
  let m := m.SetData 0 3
    (-(eqnState.Gamma - 1.0) / (2.0 * l.aR * l.aR) * l.wR - l.areaNorm.z / (2.0 * l.aR ))
  let m := m.SetData 1 3
    ((l.uR - l.aR * l.areaNorm.x) * (-(eqnState.Gamma - 1.0) / (2.0 * l.aR * l.aR) * l.wR -
      l.areaNorm.z / (2.0 * l.aR)))
  let m := m.SetData 2 3
    ((l.vR - l.aR * l.areaNorm.y) * (-(eqnState.Gamma - 1.0) / (2.0 * l.aR * l.aR) * l.wR -
      l.areaNorm.z / (2.0 * l.aR)))
  let m := m.SetData 3 3
    ((l.wR - l.aR * l.areaNorm.z) * (-(eqnState.Gamma - 1.0) / (2.0 * l.aR * l.aR) * l.wR -
      l.areaNorm.z / (2.0 * l.aR)))
  let m := m.SetData 4 3
    ((l.hR - l.aR * l.velRSum) * (-(eqnState.Gamma - 1.0) / (2.0 * l.aR * l.aR) * l.wR -
      l.areaNorm.z / (2.0 * l.aR)))
  -- column four
  let m := m.SetData 0 4 ((eqnState.Gamma - 1.0) / (2.0 * l.aR * l.aR))
  let m := m.SetData 1 4
    ((l.uR - l.aR * l.areaNorm.x) * (eqnState.Gamma - 1.0) / (2.0 * l.aR * l.aR))
  let m := m.SetData 2 4
    ((l.vR - l.aR * l.areaNorm.y) * (eqnState.Gamma - 1.0) / (2.0 * l.aR * l.aR))
  let m := m.SetData 3 4
    ((l.wR - l.aR * l.areaNorm.z) * (eqnState.Gamma - 1.0) / (2.0 * l.aR * l.aR))
  let m := m.SetData 4 4 ((l.hR - l.aR * l.velRSum) * (eqnState.Gamma - 1.0) / (2.0 * l.aR * l.aR))
  m

/-- The matrix `temp` of `ApproxRoeFluxJacobian` as refilled for the "u + c wave"
(lines 1094-1127), before it is scaled by `fabs(velRNorm + aR)`. -/
def ApproxRoeFluxJacobian.rightAcousticTerm (eqnState : idealGas K) (l : RoeLocals K) :
    squareMatrix K :=
  let m : squareMatrix K := squareMatrix.Zero
  -- column zero
  let m := m.SetData 0 0
    (0.25 * (eqnState.Gamma - 1.0) * l.velR.MagSq / (l.aR * l.aR) - 0.5 * l.velRSum / l.aR)
  let m := m.SetData 1 0
    ((l.uR + l.aR * l.areaNorm.x) * (0.25 * (eqnState.Gamma - 1.0) * l.velR.MagSq / (l.aR * l.aR)
      - 0.5 * l.velRSum / l.aR))
  let m := m.SetData 2 0
    ((l.vR + l.aR * l.areaNorm.y) * (0.25 * (eqnState.Gamma - 1.0) * l.velR.MagSq / (l.aR * l.aR)
      - 0.5 * l.velRSum / l.aR))
  let m := m.SetData 3 0
    ((l.wR + l.aR * l.areaNorm.z) * (0.25 * (eqnState.Gamma - 1.0) * l.velR.MagSq / (l.aR * l.aR)
      - 0.5 * l.velRSum / l.aR))
  let m := m.SetData 4 0
    ((l.hR + l.velRSum * l.aR * l.areaNorm.x) * (0.25 * (eqnState.Gamma - 1.0) * l.velR.MagSq /
      (l.aR * l.aR) - 0.5 * l.velRSum / l.aR))
  -- column one
  let m := m.SetData 0 1
    (-(eqnState.Gamma - 1.0) / (2.0 * l.aR * l.aR) * l.uR + l.areaNorm.x / (2.0 * l.aR ))
  let m := m.SetData 1 1
    ((l.uR + l.aR * l.areaNorm.x) * (-(eqnState.Gamma - 1.0) / (2.0 * l.aR * l.aR) * l.uR +
      l.areaNorm.x / (2.0 * l.aR)))
  let m := m.SetData 2 1
    ((l.vR + l.aR * l.areaNorm.y) * (-(eqnState.Gamma - 1.0) / (2.0 * l.aR * l.aR) * l.uR +
      l.areaNorm.x / (2.0 * l.aR)))
  let m := m.SetData 3 1
    ((l.wR + l.aR * l.areaNorm.z) * (-(eqnState.Gamma - 1.0) / (2.0 * l.aR * l.aR) * l.uR +
      l.areaNorm.x / (2.0 * l.aR)))
  let m := m.SetData 4 1
    ((l.hR + l.aR * l.velRSum) * (-(eqnState.Gamma - 1.0) / (2.0 * l.aR * l.aR) * l.uR +
      l.areaNorm.x / (2.0 * l.aR)))
  -- column two
  let m := m.SetData 0 2
    (-(eqnState.Gamma - 1.0) / (2.0 * l.aR * l.aR) * l.vR + l.areaNorm.y / (2.0 * l.aR ))
  let m := m.SetData 1 2
    ((l.uR + l.aR * l.areaNorm.x) * (-(eqnState.Gamma - 1.0) / (2.0 * l.aR * l.aR) * l.vR +
      l.areaNorm.y / (2.0 * l.aR)))
  let m := m.SetData 2 2
    ((l.vR + l.aR * l.areaNorm.y) * (-(eqnState.Gamma - 1.0) / (2.0 * l.aR * l.aR) * l.vR +
      l.areaNorm.y / (2.0 * l.aR)))
  let m := m.SetData 3 2
    ((l.wR + l.aR * l.areaNorm.z) * (-(eqnState.Gamma - 1.0) / (2.0 * l.aR * l.aR) * l.vR +
      l.areaNorm.y / (2.0 * l.aR)))
  let m := m.SetData 4 2
    ((l.hR + l.aR * l.velRSum) * (-(eqnState.Gamma - 1.0) / (2.0 * l.aR * l.aR) * l.vR +
      l.areaNorm.y / (2.0 * l.aR)))
  -- column three
  let m := m.SetData 0 3
    (-(eqnState.Gamma - 1.0) / (2.0 * l.aR * l.aR) * l.wR + l.areaNorm.z / (2.0 * l.aR ))
  let m := m.SetData 1 3
    ((l.uR + l.aR * l.areaNorm.x) * (-(eqnState.Gamma - 1.0) / (2.0 * l.aR * l.aR) * l.wR +
      l.areaNorm.z / (2.0 * l.aR)))
  let m := m.SetData 2 3
    ((l.vR + l.aR * l.areaNorm.y) * (-(eqnState.Gamma - 1.0) / (2.0 * l.aR * l.aR) * l.wR +
      l.areaNorm.z / (2.0 * l.aR)))
  let m := m.SetData 3 3
    ((l.wR + l.aR * l.areaNorm.z) * (-(eqnState.Gamma - 1.0) / (2.0 * l.aR * l.aR) * l.wR +
      l.areaNorm.z / (2.0 * l.aR)))
  let m := m.SetData 4 3
    ((l.hR + l.aR * l.velRSum) * (-(eqnState.Gamma - 1.0) / (2.0 * l.aR * l.aR) * l.wR +
      l.areaNorm.z / (2.0 * l.aR)))
  -- column four
  let m := m.SetData 0 4 ((eqnState.Gamma - 1.0) / (2.0 * l.aR * l.aR))
  let m := m.SetData 1 4
    ((l.uR + l.aR * l.areaNorm.x) * (eqnState.Gamma - 1.0) / (2.0 * l.aR * l.aR))
  let m := m.SetData 2 4
    ((l.vR + l.aR * l.areaNorm.y) * (eqnState.Gamma - 1.0) / (2.0 * l.aR * l.aR))
  let m := m.SetData 3 4
    ((l.wR + l.aR * l.areaNorm.z) * (eqnState.Gamma - 1.0) / (2.0 * l.aR * l.aR))
  let m := m.SetData 4 4 ((l.hR + l.aR * l.velRSum) * (eqnState.Gamma - 1.0) / (2.0 * l.aR * l.aR))
  m

/-- The dissipation matrix `A` of `ApproxRoeFluxJacobian` as it stands at line
1130, after `A = A + (fabs(velRNorm - aR) * temp)` and
`A = A + (fabs(velRNorm + aR) * temp)`. -/
def ApproxRoeFluxJacobian.dissipationMatrix (eqnState : idealGas K) (l : RoeLocals K) :
    squareMatrix K :=
  let A := ApproxRoeFluxJacobian.normalVelocityTerm eqnState l
  let A := A.add (squareMatrix.lscale |l.velRSum - l.aR|
    (ApproxRoeFluxJacobian.leftAcousticTerm eqnState l))
  A.add (squareMatrix.lscale |l.velRSum + l.aR|
    (ApproxRoeFluxJacobian.rightAcousticTerm eqnState l))

/-- Function `ApproxRoeFluxJacobian` (`inviscidFlux.cpp`, lines 968-1215): the
matrices left in `dF_dUl` and `dF_dUr`.  The parameter `maxWS` is never
assigned. -/
def ApproxRoeFluxJacobian (sqrt : K → K) (left right : primVars K) (eqnState : idealGas K)
    (areaVec : vector3d K) : squareMatrix K × squareMatrix K :=
  let l := roeLocals sqrt left right eqnState areaVec
  let velLeftNorm := left.Velocity.DotProd l.areaNorm
  let velRightNorm := right.Velocity.DotProd l.areaNorm
  let A := ApproxRoeFluxJacobian.dissipationMatrix eqnState l
  let dF_dUl := ApproxRoeFluxJacobian.physicalStores left eqnState l.areaNorm velLeftNorm
  let dF_dUl := squareMatrix.lscale 0.5 (dF_dUl.add A)
  let dF_dUr := ApproxRoeFluxJacobian.physicalStores right eqnState l.areaNorm velRightNorm
  let dF_dUr := squareMatrix.lscale 0.5 (dF_dUr.sub A)
  (dF_dUl, dF_dUr)

/-! ## `LaxFriedrichsFluxJacobian`, `LaxFriedrichsFlux` -/

/-- Modelled from the spec: `vector3d::operator+`, componentwise. -/
def vector3d.add (a b : vector3d K) : vector3d K := ⟨a.x + b.x, a.y + b.y, a.z + b.z⟩

/-- Modelled from the spec: `operator*(double, vector3d)`, componentwise. -/
def vector3d.lscale (s : K) (a : vector3d K) : vector3d K := ⟨s * a.x, s * a.y, s * a.z⟩

/-- Modelled from the spec: `primVars::operator+`, componentwise on the
primitive vector (rho, u, v, w, p). -/
def primVars.add (a b : primVars K) : primVars K :=
  ⟨a.rho + b.rho, a.u + b.u, a.v + b.v, a.w + b.w, a.p + b.p⟩

/-- Modelled from the spec: `operator*(double, primVars)`, componentwise on the
primitive vector (rho, u, v, w, p). -/
def primVars.lscale (s : K) (a : primVars K) : primVars K :=
  ⟨s * a.rho, s * a.u, s * a.v, s * a.w, s * a.p⟩

/-- The twenty-five `SetData` calls, in source order, by which
`LaxFriedrichsFluxJacobian` fills `dF_dUl` (lines 1266-1300) and `dF_dUr`
(lines 1305-1339) with the flux derivatives of one state, after `Zero()`.
`velNorm` is `velLeftNorm` resp. `velRightNorm`. -/
def LaxFriedrichsFluxJacobian.physicalStores (state : primVars K) (eqnState : idealGas K)
    (areaNorm : vector3d K) (velNorm : K) : squareMatrix K :=
  let m : squareMatrix K := squareMatrix.Zero
  -- column zero
  let m := m.SetData 0 0 (0.0)
  let m := m.SetData 1 0
    (0.5 * (eqnState.Gamma - 1.0) * state.Velocity.MagSq * areaNorm.x - state.U * velNorm)
  let m := m.SetData 2 0
    (0.5 * (eqnState.Gamma - 1.0) * state.Velocity.MagSq * areaNorm.y - state.V * velNorm)
  let m := m.SetData 3 0
    (0.5 * (eqnState.Gamma - 1.0) * state.Velocity.MagSq * areaNorm.z - state.W * velNorm)
  let m := m.SetData 4 0
    ((0.5 * (eqnState.Gamma - 1.0) * state.Velocity.MagSq - state.Enthalpy eqnState) * velNorm)
  -- column one
  let m := m.SetData 0 1 (areaNorm.x)
  let m := m.SetData 1 1
    (state.U * areaNorm.x - (eqnState.Gamma - 1.0) * state.U * areaNorm.x + velNorm)
  let m := m.SetData 2 1 (state.V * areaNorm.x - (eqnState.Gamma - 1.0) * state.U * areaNorm.y)
  let m := m.SetData 3 1 (state.W * areaNorm.x - (eqnState.Gamma - 1.0) * state.U * areaNorm.z)
  let m := m.SetData 4 1
    (state.Enthalpy eqnState * areaNorm.x - (eqnState.Gamma - 1.0) * state.U * velNorm)
  -- column two
  let m := m.SetData 0 2 (areaNorm.y)
  let m := m.SetData 1 2 (state.U * areaNorm.y - (eqnState.Gamma - 1.0) * state.V * areaNorm.x)
  let m := m.SetData 2 2
    (state.V * areaNorm.y - (eqnState.Gamma - 1.0) * state.V * areaNorm.y + velNorm)
  let m := m.SetData 3 2 (state.W * areaNorm.y - (eqnState.Gamma - 1.0) * state.V * areaNorm.z)
  let m := m.SetData 4 2
    (state.Enthalpy eqnState * areaNorm.y - (eqnState.Gamma - 1.0) * state.V * velNorm)
  -- column three
  let m := m.SetData 0 3 (areaNorm.z)
  let m := m.SetData 1 3 (state.U * areaNorm.z - (eqnState.Gamma - 1.0) * state.W * areaNorm.x)
  let m := m.SetData 2 3 (state.V * areaNorm.z - (eqnState.Gamma - 1.0) * state.W * areaNorm.y)
  let m := m.SetData 3 3
    (state.W * areaNorm.z - (eqnState.Gamma - 1.0) * state.W * areaNorm.z + velNorm)
  let m := m.SetData 4 3
    (state.Enthalpy eqnState * areaNorm.z - (eqnState.Gamma - 1.0) * state.W * velNorm)
  -- column four
  let m := m.SetData 0 4 (0.0)
  let m := m.SetData 1 4 ((eqnState.Gamma - 1.0) * areaNorm.x)
  let m := m.SetData 2 4 ((eqnState.Gamma - 1.0) * areaNorm.y)
  let m := m.SetData 3 4 ((eqnState.Gamma - 1.0) * areaNorm.z)
  let m := m.SetData 4 4 (eqnState.Gamma * velNorm)
  m

/-- The values that `LaxFriedrichsFluxJacobian` leaves in its four output
parameters. -/
structure LaxFriedrichsJacobianResult (K : Type) where
  specRadL : K
  specRadR : K
  dF_dUl : squareMatrix K
  dF_dUr : squareMatrix K

/-- Function `LaxFriedrichsFluxJacobian` (`inviscidFlux.cpp`, lines 1219-1344). -/
def LaxFriedrichsFluxJacobian (sqrt : K → K) (left right : primVars K) (eqnState : idealGas K)
    (areaVec : vector3d K) : LaxFriedrichsJacobianResult K :=
  let areaNorm := areaVec.divScalar (areaVec.Mag sqrt)
  let avgVel := vector3d.lscale 0.5 (left.Velocity.add right.Velocity)
  let avgVelNorm := avgVel.DotProd areaNorm
  let avgSoS := 0.5 * (left.SoS sqrt eqnState + right.SoS sqrt eqnState)
  let velLeftNorm := left.Velocity.DotProd areaNorm
  let velRightNorm := right.Velocity.DotProd areaNorm
  let specRadL := |avgVelNorm| + avgSoS
  let specRadR := |avgVelNorm| + avgSoS
  let dissLeft := squareMatrix.lscale specRadL squareMatrix.Identity
  let dissRight := squareMatrix.lscale specRadR squareMatrix.Identity
  let dF_dUl := LaxFriedrichsFluxJacobian.physicalStores left eqnState areaNorm velLeftNorm
  let dF_dUl := squareMatrix.lscale 0.5 (dF_dUl.add dissLeft)
  let dF_dUr := LaxFriedrichsFluxJacobian.physicalStores right eqnState areaNorm velRightNorm
  let dF_dUr := squareMatrix.lscale 0.5 (dF_dUr.sub dissRight)
  { specRadL := specRadL, specRadR := specRadR, dF_dUl := dF_dUl, dF_dUr := dF_dUr }

/-- Function `ConvSpecRad` (lines 1819-1827), the convective spectral radius of
one state. -/
def ConvSpecRad (sqrt : K → K) (fArea : vector3d K) (state : primVars K)
    (eqnState : idealGas K) : K :=
  let normArea := fArea.divScalar (fArea.Mag sqrt)
  let a := state.SoS sqrt eqnState
  let u := state.Velocity.DotProd normArea
  |u| + a

/-- Function `LaxFriedrichsFlux` (lines 1796-1815): the returned flux, paired
with the value written to `maxWS`. -/
def LaxFriedrichsFlux (sqrt : K → K) (left right : primVars K) (eqnState : idealGas K)
    (fArea : vector3d K) : inviscidFlux K × K :=
  let lFlux := inviscidFlux.ofState sqrt left eqnState fArea
  let rFlux := inviscidFlux.ofState sqrt right eqnState fArea
  let maxWS := ConvSpecRad sqrt fArea (primVars.lscale 0.5 (left.add right)) eqnState
  let lCons := left.ConsVars eqnState
  let rCons := right.ConsVars eqnState
  ({ rhoVel := 0.5 * (rFlux.rhoVel + lFlux.rhoVel - maxWS * (rCons 0 - lCons 0))
     rhoVelU := 0.5 * (rFlux.rhoVelU + lFlux.rhoVelU - maxWS * (rCons 1 - lCons 1))
     rhoVelV := 0.5 * (rFlux.rhoVelV + lFlux.rhoVelV - maxWS * (rCons 2 - lCons 2))
     rhoVelW := 0.5 * (rFlux.rhoVelW + lFlux.rhoVelW - maxWS * (rCons 3 - lCons 3))
     rhoVelH := 0.5 * (rFlux.rhoVelH + lFlux.rhoVelH - maxWS * (rCons 4 - lCons 4)) },
   maxWS)

/-- Member function `inviscidFlux::ConvertToColMatrix` (lines 1772-1780): the
five components in the order mass, x-, y-, z-momentum, energy. -/
def inviscidFlux.ConvertToColMatrix (f : inviscidFlux K) : Fin 5 → K :=
  ![f.rhoVel, f.rhoVelU, f.rhoVelV, f.rhoVelW, f.rhoVelH]

/-! ## Size checks and the conserved-variable constructor -/

/-- Modelled from the spec: the class `colMatrix` (header `matrix.h`, not among
the sources), a column vector with its number of entries `Size()` and its
entries `Data(i)`. -/
structure colMatrix (K : Type) where
  size : Nat
  data : Nat → K

/-- Accessor `colMatrix::Size()`. -/
def colMatrix.Size (c : colMatrix K) : Nat := c.size

/-- Accessor `colMatrix::Data(i)`. -/
def colMatrix.Data (c : colMatrix K) (i : Nat) : K := c.data i

/-- How a call ends: it returns a value, or the process is terminated by
`exit(...)` after the given text was written to `cerr`. -/
inductive Outcome (α : Type) where
  | returned (value : α) : Outcome α
  | exited (message : String) : Outcome α

/-- Constructor `inviscidFlux::inviscidFlux(const colMatrix&, const idealGas&,
const vector3d<double>&)` (lines 25-49): the size test with its `exit(0)` comes
first; the entries of `cons` are read only after it. -/
def inviscidFlux.ofColMatrix (sqrt : K → K) (cons : colMatrix K) (eqnState : idealGas K)
    (areaVec : vector3d K) : Outcome (inviscidFlux K) :=
  if cons.Size ≠ 5 then
    Outcome.exited ("ERROR: Error in inviscidFlux::inviscidFlux. Column matrix of "
      ++ "conservative variables is not the correct size!")
  else
    let state := primVars.ofConserved sqrt
      ![cons.Data 0, cons.Data 1, cons.Data 2, cons.Data 3, cons.Data 4] eqnState
    let normArea := areaVec.divScalar (areaVec.Mag sqrt)
    let vel := state.Velocity
    Outcome.returned
      { rhoVel := state.Rho * vel.DotProd normArea
        rhoVelU := state.Rho * vel.DotProd normArea * vel.x + state.P * normArea.x
        rhoVelV := state.Rho * vel.DotProd normArea * vel.y + state.P * normArea.y
        rhoVelW := state.Rho * vel.DotProd normArea * vel.z + state.P * normArea.z
        rhoVelH := state.Rho * vel.DotProd normArea * state.Enthalpy eqnState }

/-- What the statement block that opens `RoeFluxJacobian`,
`ApproxRoeFluxJacobian` and `LaxFriedrichsFluxJacobian` does
(`if ((dF_dUl.Size() != 5) || (dF_dUr.Size() != 5)) { cerr << "ERROR: ..." << endl; }`,
lines 221-224, 979-982, 1230-1233): `message` is the text written to `cerr`, if
any, and `leaves` tells whether control leaves the function there.  The block
holds the `cerr` statement only (no `return`, no `exit`), so control always
goes on to the next statement. -/
structure SizeCheck where
  message : Option String
  leaves : Bool

/-- The size check of `RoeFluxJacobian` and `ApproxRoeFluxJacobian` (lines
221-224, 979-982), for output matrices of sizes `sizeL` and `sizeR`. -/
def RoeFluxJacobian.sizeCheck (sizeL sizeR : Nat) : SizeCheck :=
  if sizeL ≠ 5 ∨ sizeR ≠ 5 then
    { message := some "ERROR: Input matricies to RoeFLuxJacobian function are not the correct size!"
      leaves := false }
  else { message := none, leaves := false }

/-- The size check of `LaxFriedrichsFluxJacobian` (lines 1230-1233). -/
def LaxFriedrichsFluxJacobian.sizeCheck (sizeL sizeR : Nat) : SizeCheck :=
  if sizeL ≠ 5 ∨ sizeR ≠ 5 then
    { message := some
        "ERROR: Input matricies to LaxFreidrichsFLuxJacobian function are not the correct size!"
      leaves := false }
  else { message := none, leaves := false }

/-- The size check of the conserved-variable constructor (lines 28-31), in the
same terms: its block ends in `exit(0)`. -/
def inviscidFlux.sizeCheck (size : Nat) : SizeCheck :=
  if size ≠ 5 then
    { message := some ("ERROR: Error in inviscidFlux::inviscidFlux. Column matrix of "
        ++ "conservative variables is not the correct size!")
      leaves := true }
  else { message := none, leaves := false }

/-! ## Boundary dispatch -/

/-- The collaborators of the boundary routines that are not among the sources,
taken as parameters: the reconstruction settings `inputVars.Kappa()` and
`inputVars.Limiter()`, the ghost-state rule `primVars::GetGhostState(bcName,
normArea, surf, inputVars, eqnState)` and the two reconstructions
`primVars::FaceReconConst()` and `primVars::FaceReconMUSCL(...)`, each with the
object it is called on as first argument. -/
structure BoundaryCollaborators (K : Type) where
  Kappa : K
  Limiter : String
  GetGhostState : primVars K → String → vector3d K → String → primVars K
  FaceReconConst : primVars K → primVars K
  FaceReconMUSCL : primVars K → primVars K → primVars K → String → K → String →
    K → K → K → primVars K

/-- The value of a string literal used as an operand of `||`: the array decays
to a non-null pointer, which converts to `true`. -/
def stringLiteralAsCondition (_literal : String) : Bool := true

/-- What `BoundaryFlux` hands back: the returned flux, the value of the
parameter `maxWS` after the call and the text written to `cerr`, if any. -/
structure BoundaryFluxResult (K : Type) where
  flux : inviscidFlux K
  maxWS : K
  message : Option String

/-- Function `BoundaryFlux` (`inviscidFlux.cpp`, lines 1348-1593).  `flux0` is
the default-constructed `inviscidFlux flux` and `maxWS0` the value of `maxWS`
on entry. -/
def BoundaryFlux (sqrt : K → K) (c : BoundaryCollaborators K) (bcName : String)
    (areaVec : vector3d K) (state1 state2 : primVars K) (eqnState : idealGas K)
    (surf : String) (maxWS0 : K) (up2face upwind : K) (flux0 : inviscidFlux K) :
    BoundaryFluxResult K :=
  let normArea := areaVec.divScalar (areaVec.Mag sqrt)
  let state := if bcName = "slipWall" then state1 else state1
  if bcName = "subsonicInflow" then
    if c.Kappa = -2.0 then
      let ghostState1 := c.GetGhostState state bcName normArea surf
      let (lState, rState) :=
        if surf = "il" ∨ surf = "jl" ∨ surf = "kl" then
          (c.FaceReconConst ghostState1, c.FaceReconConst state)
        else
          (c.FaceReconConst state, c.FaceReconConst ghostState1)
      let r := RoeFlux sqrt lState rState eqnState normArea
      { flux := r.1, maxWS := r.2, message := none }
    else
      let ghostState1 := c.GetGhostState state bcName normArea surf
      let ghostState2 := ghostState1
      let (lState, rState) :=
        if surf = "il" ∨ surf = "jl" ∨ surf = "kl" then
          (c.FaceReconMUSCL ghostState1 ghostState2 state1 "left" c.Kappa c.Limiter
              up2face upwind (up2face * 2.0),
            c.FaceReconMUSCL state1 state2 ghostState1 "right" c.Kappa c.Limiter
              up2face upwind (up2face * 2.0))
        else
          (c.FaceReconMUSCL state1 state2 ghostState1 "left" c.Kappa c.Limiter
              up2face upwind (up2face * 2.0),
            c.FaceReconMUSCL ghostState1 ghostState2 state1 "right" c.Kappa c.Limiter
              up2face upwind (up2face * 2.0))
      let r := RoeFlux sqrt lState rState eqnState normArea
      { flux := r.1, maxWS := r.2, message := none }
  else if bcName = "subsonicOutflow" then
    if c.Kappa = -2.0 then
      let ghostState1 := c.GetGhostState state bcName normArea surf
      let (lState, rState) :=
        if surf = "il" ∨ surf = "jl" ∨ surf = "kl" then
          (c.FaceReconConst ghostState1, c.FaceReconConst state)
        else
          (c.FaceReconConst state, c.FaceReconConst ghostState1)
      let r := RoeFlux sqrt lState rState eqnState normArea
      { flux := r.1, maxWS := r.2, message := none }
    else
      let ghostState1 := c.GetGhostState state bcName normArea surf
      let ghostState2 := ghostState1
      let (lState, rState) :=
        if surf = "il" ∨ surf = "jl" ∨ surf = "kl" then
          (c.FaceReconMUSCL ghostState1 ghostState2 state1 "left" c.Kappa c.Limiter
              up2face upwind (up2face * 2.0),
            c.FaceReconMUSCL state1 state2 ghostState1 "right" c.Kappa c.Limiter
              up2face upwind (up2face * 2.0))
        else
          (c.FaceReconMUSCL state1 state2 ghostState1 "left" c.Kappa c.Limiter
              up2face upwind (up2face * 2.0),
            c.FaceReconMUSCL ghostState1 ghostState2 state1 "right" c.Kappa c.Limiter
              up2face upwind (up2face * 2.0))
      let r := RoeFlux sqrt lState rState eqnState normArea
      { flux := r.1, maxWS := r.2, message := none }
  else if bcName = "supersonicInflow" then
    if c.Kappa = -2.0 then
      let ghostState1 := c.GetGhostState state bcName normArea surf
      let (lState, rState) :=
        if surf = "il" ∨ surf = "jl" ∨ surf = "kl" then
          (c.FaceReconConst ghostState1, c.FaceReconConst state)
        else
          (c.FaceReconConst state, c.FaceReconConst ghostState1)
      let r := RoeFlux sqrt lState rState eqnState normArea
      { flux := r.1, maxWS := r.2, message := none }
    else
      let ghostState1 := c.GetGhostState state bcName normArea surf
      let ghostState2 := ghostState1
      let (lState, rState) :=
        if surf = "il" ∨ surf = "jl" ∨ surf = "kl" then
          (c.FaceReconMUSCL ghostState1 ghostState2 state1 "left" c.Kappa c.Limiter
              up2face upwind (up2face * 2.0),
            c.FaceReconMUSCL state1 state2 ghostState1 "right" c.Kappa c.Limiter
              up2face upwind (up2face * 2.0))
        else
          (c.FaceReconMUSCL state1 state2 ghostState1 "left" c.Kappa c.Limiter
              up2face upwind (up2face * 2.0),
            c.FaceReconMUSCL ghostState1 ghostState2 state1 "right" c.Kappa c.Limiter
              up2face upwind (up2face * 2.0))
      let r := RoeFlux sqrt lState rState eqnState normArea
      { flux := r.1, maxWS := r.2, message := none }
  else if bcName = "supersonicOutflow" then
    if c.Kappa = -2.0 then
      let ghostState1 := c.GetGhostState state bcName normArea surf
      let (lState, rState) :=
        if surf = "il" ∨ surf = "jl" ∨ surf = "kl" then
          (c.FaceReconConst ghostState1, c.FaceReconConst state)
        else
          (c.FaceReconConst state, c.FaceReconConst ghostState1)
      let r := RoeFlux sqrt lState rState eqnState normArea
      { flux := r.1, maxWS := r.2, message := none }
    else
      let ghostState1 := c.GetGhostState state bcName normArea surf
      let ghostState2 := ghostState1
      let (lState, rState) :=
        if surf = "il" ∨ surf = "jl" ∨ surf = "kl" then
          (c.FaceReconMUSCL ghostState1 ghostState2 state1 "left" c.Kappa c.Limiter
              up2face upwind (up2face * 2.0),
            c.FaceReconMUSCL state1 state2 ghostState1 "right" c.Kappa c.Limiter
              up2face upwind (up2face * 2.0))
        else
          (c.FaceReconMUSCL state1 state2 ghostState1 "left" c.Kappa c.Limiter
              up2face upwind (up2face * 2.0),
            c.FaceReconMUSCL ghostState1 ghostState2 state1 "right" c.Kappa c.Limiter
              up2face upwind (up2face * 2.0))
      let r := RoeFlux sqrt lState rState eqnState normArea
      { flux := r.1, maxWS := r.2, message := none }
  else if bcName = "slipWall" ∨ stringLiteralAsCondition "viscousWall" = true then
    if c.Kappa = -2.0 then
      let ghostState1 := c.GetGhostState state1 "slipWall" normArea surf
      let (lState, rState) :=
        if surf = "il" ∨ surf = "jl" ∨ surf = "kl" then
          (c.FaceReconConst ghostState1, c.FaceReconConst state1)
        else
          (c.FaceReconConst state1, c.FaceReconConst ghostState1)
      let r := RoeFlux sqrt lState rState eqnState normArea
      { flux := r.1, maxWS := r.2, message := none }
    else
      let ghostState1 := c.GetGhostState state1 "slipWall" normArea surf
      let ghostState2 := c.GetGhostState state2 "slipWall" normArea surf
      let (lState, rState) :=
        if surf = "il" ∨ surf = "jl" ∨ surf = "kl" then
          (c.FaceReconMUSCL ghostState1 ghostState2 state1 "left" c.Kappa c.Limiter
              up2face upwind (up2face * 2.0),
            c.FaceReconMUSCL state1 state2 ghostState1 "right" c.Kappa c.Limiter
              up2face upwind (up2face * 2.0))
        else
          (c.FaceReconMUSCL state1 state2 ghostState1 "left" c.Kappa c.Limiter
              up2face upwind (up2face * 2.0),
            c.FaceReconMUSCL ghostState1 ghostState2 state1 "right" c.Kappa c.Limiter
              up2face upwind (up2face * 2.0))
      let r := RoeFlux sqrt lState rState eqnState normArea
      { flux := r.1, maxWS := r.2, message := none }
  else if bcName = "characteristic" then
    if c.Kappa = -2.0 then
      let ghostState1 := c.GetGhostState state1 bcName normArea surf
      let (lState, rState) :=
        if surf = "il" ∨ surf = "jl" ∨ surf = "kl" then
          (c.FaceReconConst ghostState1, c.FaceReconConst state1)
        else
          (c.FaceReconConst state1, c.FaceReconConst ghostState1)
      let r := RoeFlux sqrt lState rState eqnState normArea
      { flux := r.1, maxWS := r.2, message := none }
    else
      let ghostState1 := c.GetGhostState state1 bcName normArea surf
      let ghostState2 := c.GetGhostState state2 bcName normArea surf
      let (lState, rState) :=
        if surf = "il" ∨ surf = "jl" ∨ surf = "kl" then
          (c.FaceReconMUSCL ghostState1 ghostState2 state1 "left" c.Kappa c.Limiter
              up2face upwind (up2face * 2.0),
            c.FaceReconMUSCL state1 state2 ghostState1 "right" c.Kappa c.Limiter
              up2face upwind (up2face * 2.0))
        else
          (c.FaceReconMUSCL state1 state2 ghostState1 "left" c.Kappa c.Limiter
              up2face upwind (up2face * 2.0),
            c.FaceReconMUSCL ghostState1 ghostState2 state1 "right" c.Kappa c.Limiter
              up2face upwind (up2face * 2.0))
      let r := RoeFlux sqrt lState rState eqnState normArea
      { flux := r.1, maxWS := r.2, message := none }
  else
    { flux := flux0, maxWS := maxWS0,
      message := some ("ERROR: Boundary condition " ++ bcName ++ " is not recognized!") }

/-- What `BoundaryFluxJacobian` hands back when it returns: the returned
matrix, the value of the parameter `maxWS` after the call and the text written
to `cerr`, if any. -/
structure BoundaryJacobianResult (K : Type) where
  fluxJac : squareMatrix K
  maxWS : K
  message : Option String

/-- The statements of the wall branch of `BoundaryFluxJacobian` that fill
`fluxJac` (lines 1660-1678): `Zero()` and the fifteen `SetData` calls. -/
def BoundaryFluxJacobian.wallJacobian (state : primVars K) (eqnState : idealGas K)
    (normArea : vector3d K) : squareMatrix K :=
  let m : squareMatrix K := squareMatrix.Zero
  let m := m.SetData 1 0 (0.5 * (eqnState.Gamma - 1.0) * state.Velocity.MagSq * normArea.x)
  let m := m.SetData 1 1 (-1.0 * (eqnState.Gamma - 1.0) * state.U * normArea.x)
  let m := m.SetData 1 2 (-1.0 * (eqnState.Gamma - 1.0) * state.V * normArea.x)
  let m := m.SetData 1 3 (-1.0 * (eqnState.Gamma - 1.0) * state.W * normArea.x)
  let m := m.SetData 1 4 ((eqnState.Gamma - 1.0) * normArea.x)
  let m := m.SetData 2 0 (0.5 * (eqnState.Gamma - 1.0) * state.Velocity.MagSq * normArea.y)
  let m := m.SetData 2 1 (-1.0 * (eqnState.Gamma - 1.0) * state.U * normArea.y)
  let m := m.SetData 2 2 (-1.0 * (eqnState.Gamma - 1.0) * state.V * normArea.y)
  let m := m.SetData 2 3 (-1.0 * (eqnState.Gamma - 1.0) * state.W * normArea.y)
  let m := m.SetData 2 4 ((eqnState.Gamma - 1.0) * normArea.y)
  let m := m.SetData 3 0 (0.5 * (eqnState.Gamma - 1.0) * state.Velocity.MagSq * normArea.z)
  let m := m.SetData 3 1 (-1.0 * (eqnState.Gamma - 1.0) * state.U * normArea.z)
  let m := m.SetData 3 2 (-1.0 * (eqnState.Gamma - 1.0) * state.V * normArea.z)
  let m := m.SetData 3 3 (-1.0 * (eqnState.Gamma - 1.0) * state.W * normArea.z)
  let m := m.SetData 3 4 ((eqnState.Gamma - 1.0) * normArea.z)
  m

/-- The dispatch on `fluxJacType` inside the non-wall branch of
`BoundaryFluxJacobian` (lines 1616-1629, 1637-1650): the matrices `fluxJacL`,
`fluxJacR` and the spectral radii `maxWSL`, `maxWSR` after it (the latter stay
`0.0` unless the Lax-Friedrichs routine is called), or the `exit(1)`. -/
def BoundaryFluxJacobian.dispatch (sqrt : K → K) (fluxJacType : String)
    (lState rState : primVars K) (eqnState : idealGas K) (normArea : vector3d K) :
    Outcome (squareMatrix K × squareMatrix K × Option (K × K)) :=
  if fluxJacType = "approximateRoe" then
    let r := ApproxRoeFluxJacobian sqrt lState rState eqnState normArea
    Outcome.returned (r.1, r.2, none)
  else if fluxJacType = "exactRoe" then
    let r := RoeFluxJacobian sqrt lState rState eqnState normArea
    Outcome.returned (r.1, r.2, none)
  else if fluxJacType = "laxFriedrichs" then
    let r := LaxFriedrichsFluxJacobian sqrt lState rState eqnState normArea
    Outcome.returned (r.dF_dUl, r.dF_dUr, some (r.specRadL, r.specRadR))
  else
    Outcome.exited ("ERROR: Inviscid flux jacobian type " ++ fluxJacType
      ++ " is not recognized!")

/-- Function `BoundaryFluxJacobian` (`inviscidFlux.cpp`, lines 1595-1690).
`fluxJac0` is the freshly constructed `squareMatrix fluxJac(5)` and `maxWS0` the
value of `maxWS` on entry. -/
def BoundaryFluxJacobian (sqrt : K → K) (c : BoundaryCollaborators K) (bcName : String)
    (areaVec : vector3d K) (state : primVars K) (eqnState : idealGas K)
    (surf fluxJacType : String) (maxWS0 : K) (fluxJac0 : squareMatrix K) :
    Outcome (BoundaryJacobianResult K) :=
  let normArea := areaVec.divScalar (areaVec.Mag sqrt)
  if bcName = "subsonicInflow" ∨ bcName = "subsonicOutflow" ∨ bcName = "supersonicInflow"
      ∨ bcName = "supersonicOutflow" ∨ bcName = "characteristic" then
    let ghostState1 := c.GetGhostState state bcName normArea surf
    if surf = "il" ∨ surf = "jl" ∨ surf = "kl" then
      let lState := c.FaceReconConst ghostState1
      let rState := c.FaceReconConst state
      match BoundaryFluxJacobian.dispatch sqrt fluxJacType lState rState eqnState normArea with
      | Outcome.exited msg => Outcome.exited msg
      | Outcome.returned (_, fluxJacR, specRad) =>
        Outcome.returned
          { fluxJac := fluxJacR
            maxWS := match specRad with
              | some (_, maxWSR) => maxWSR
              | none => maxWS0
            message := none }
    else
      let rState := c.FaceReconConst ghostState1
      let lState := c.FaceReconConst state
      match BoundaryFluxJacobian.dispatch sqrt fluxJacType lState rState eqnState normArea with
      | Outcome.exited msg => Outcome.exited msg
      | Outcome.returned (fluxJacL, _, specRad) =>
        Outcome.returned
          { fluxJac := fluxJacL
            maxWS := match specRad with
              | some (maxWSL, _) => maxWSL
              | none => maxWS0
            message := none }
  else if bcName = "slipWall" ∨ stringLiteralAsCondition "viscousWall" = true then
    Outcome.returned
      { fluxJac := BoundaryFluxJacobian.wallJacobian state eqnState normArea
        maxWS := state.SoS sqrt eqnState
        message := none }
  else
    Outcome.returned
      { fluxJac := fluxJac0, maxWS := maxWS0,
        message := some ("ERROR: Boundary condition " ++ bcName ++ " is not recognized!") }

/-! ## `SetFlux` and the arithmetic of `inviscidFlux` -/

/-- Member function `inviscidFlux::SetFlux` (`inviscidFlux.cpp`, lines 51-60):
the object after the call; all five members are overwritten. -/
def inviscidFlux.SetFlux (sqrt : K → K) (_self : inviscidFlux K) (state : primVars K)
    (eqnState : idealGas K) (areaVec : vector3d K) : inviscidFlux K :=
  let normArea := areaVec.divScalar (areaVec.Mag sqrt)
  let vel := state.Velocity
  { rhoVel := state.Rho * vel.DotProd normArea
    rhoVelU := state.Rho * vel.DotProd normArea * vel.x + state.P * normArea.x
    rhoVelV := state.Rho * vel.DotProd normArea * vel.y + state.P * normArea.y
    rhoVelW := state.Rho * vel.DotProd normArea * vel.z + state.P * normArea.z
    rhoVelH := state.Rho * vel.DotProd normArea * state.Enthalpy eqnState }

/-- Member `inviscidFlux::operator*(const double&)` (lines 1704-1712). -/
def inviscidFlux.mulScalar (self : inviscidFlux K) (scalar : K) : inviscidFlux K :=
  { rhoVel := self.rhoVel * scalar
    rhoVelU := self.rhoVelU * scalar
    rhoVelV := self.rhoVelV * scalar
    rhoVelW := self.rhoVelW * scalar
    rhoVelH := self.rhoVelH * scalar }

/-- Friend `operator*(const double&, const inviscidFlux&)` (lines 1715-1723). -/
def inviscidFlux.scalarMul (scalar : K) (flux : inviscidFlux K) : inviscidFlux K :=
  { rhoVel := flux.rhoVel * scalar
    rhoVelU := flux.rhoVelU * scalar
    rhoVelV := flux.rhoVelV * scalar
    rhoVelW := flux.rhoVelW * scalar
    rhoVelH := flux.rhoVelH * scalar }

/-- Member `inviscidFlux::operator+` (lines 1726-1734). -/
def inviscidFlux.add (self invf2 : inviscidFlux K) : inviscidFlux K :=
  { rhoVel := self.rhoVel + invf2.rhoVel
    rhoVelU := self.rhoVelU + invf2.rhoVelU
    rhoVelV := self.rhoVelV + invf2.rhoVelV
    rhoVelW := self.rhoVelW + invf2.rhoVelW
    rhoVelH := self.rhoVelH + invf2.rhoVelH }

/-- Member `inviscidFlux::operator-` (lines 1737-1745). -/
def inviscidFlux.sub (self invf2 : inviscidFlux K) : inviscidFlux K :=
  { rhoVel := self.rhoVel - invf2.rhoVel
    rhoVelU := self.rhoVelU - invf2.rhoVelU
    rhoVelV := self.rhoVelV - invf2.rhoVelV
    rhoVelW := self.rhoVelW - invf2.rhoVelW
    rhoVelH := self.rhoVelH - invf2.rhoVelH }

/-- Member `inviscidFlux::operator/(const double&)` (lines 1749-1757). -/
def inviscidFlux.divScalar (self : inviscidFlux K) (scalar : K) : inviscidFlux K :=
  { rhoVel := self.rhoVel / scalar
    rhoVelU := self.rhoVelU / scalar
    rhoVelV := self.rhoVelV / scalar
    rhoVelW := self.rhoVelW / scalar
    rhoVelH := self.rhoVelH / scalar }

/-- Friend `operator/(const double&, const inviscidFlux&)` (lines 1760-1768). -/
def inviscidFlux.scalarDiv (scalar : K) (flux : inviscidFlux K) : inviscidFlux K :=
  { rhoVel := scalar / flux.rhoVel
    rhoVelU := scalar / flux.rhoVelU
    rhoVelV := scalar / flux.rhoVelV
    rhoVelW := scalar / flux.rhoVelW
    rhoVelH := scalar / flux.rhoVelH }

/-! ## The wall: pressure-only flux and reflected state -/

/-- The pressure-only flux `(0, p n_x, p n_y, p n_z, 0)` of the specification's
account of the wall Jacobian, as a function of the conserved variables: `p` is
the pressure of the state with these conserved variables. It is the reference
against which the stored wall Jacobian is compared; the source has no such
function. -/
def pressureOnlyFlux (sqrt : K → K) (cons : Fin 5 → K) (eqnState : idealGas K)
    (n : vector3d K) : Fin 5 → K :=
  let p := (primVars.ofConserved sqrt cons eqnState).P
  ![0, p * n.x, p * n.y, p * n.z, 0]

/-- The wall reflection of a state in the specification's words: same density
and pressure, velocity `v - 2 (v . n) n`. The ghost-state rule of the source
(`primVars::GetGhostState`) is not among the sources; this is the reflected
state that the statement about the wall flux speaks of. -/
def wallReflection (S : primVars K) (n : vector3d K) : primVars K :=
  { rho := S.rho
    u := S.u - 2 * S.Velocity.DotProd n * n.x
    v := S.v - 2 * S.Velocity.DotProd n * n.y
    w := S.w - 2 * S.Velocity.DotProd n * n.z
    p := S.p }

/-! ## `fluxJacobian` -/

/-- The operations of the class `squareMatrix` that `fluxJacobian.hpp` uses. The
header `matrix.hpp` that declares them is not among the sources, so they are
parameters: the compound assignments with a matrix and with a `double` (each
giving the left operand after the assignment), the two operators with a `double`
on the left, and `Zero()`. -/
structure squareMatrixOps (M K : Type) where
  addAssign : M → M → M
  subAssign : M → M → M
  mulAssign : M → M → M
  divAssign : M → M → M
  addAssignScalar : M → K → M
  subAssignScalar : M → K → M
  mulAssignScalar : M → K → M
  divAssignScalar : M → K → M
  scalarSub : K → M → M
  scalarDiv : K → M → M
  Zero : M → M

/-- The two data members of `class fluxJacobian` (`fluxJacobian.hpp`, lines
49-50). -/
structure fluxJacobian (M : Type) where
  flowJacobian_ : M
  turbJacobian_ : M

/-- Accessor `fluxJacobian::FlowJacobian()` (line 69). -/
def fluxJacobian.FlowJacobian {M : Type} (J : fluxJacobian M) : M := J.flowJacobian_

/-- Accessor `fluxJacobian::TurbulenceJacobian()` (line 70). -/
def fluxJacobian.TurbulenceJacobian {M : Type} (J : fluxJacobian M) : M := J.turbJacobian_

/-- Member `fluxJacobian::AddToFlowJacobian` (line 72): the object after the call. -/
def fluxJacobian.AddToFlowJacobian {M K : Type} (ops : squareMatrixOps M K)
    (J : fluxJacobian M) (jac : M) : fluxJacobian M :=
  { flowJacobian_ := ops.addAssign J.flowJacobian_ jac, turbJacobian_ := J.turbJacobian_ }

/-- Member `fluxJacobian::AddToTurbJacobian` (line 73): the object after the call. -/
def fluxJacobian.AddToTurbJacobian {M K : Type} (ops : squareMatrixOps M K)
    (J : fluxJacobian M) (jac : M) : fluxJacobian M :=
  { flowJacobian_ := J.flowJacobian_, turbJacobian_ := ops.addAssign J.turbJacobian_ jac }

/-- Member `fluxJacobian::SubtractFromFlowJacobian` (line 74): the object after
the call. -/
def fluxJacobian.SubtractFromFlowJacobian {M K : Type} (ops : squareMatrixOps M K)
    (J : fluxJacobian M) (jac : M) : fluxJacobian M :=
  { flowJacobian_ := ops.subAssign J.flowJacobian_ jac, turbJacobian_ := J.turbJacobian_ }

/-- Member `fluxJacobian::SubtractFromTurbJacobian` (line 75): the object after
the call. -/
def fluxJacobian.SubtractFromTurbJacobian {M K : Type} (ops : squareMatrixOps M K)
    (J : fluxJacobian M) (jac : M) : fluxJacobian M :=
  { flowJacobian_ := J.flowJacobian_, turbJacobian_ := ops.subAssign J.turbJacobian_ jac }

/-- Member `fluxJacobian::Zero` (lines 93-96): the object after the call. -/
def fluxJacobian.Zero {M K : Type} (ops : squareMatrixOps M K) (J : fluxJacobian M) :
    fluxJacobian M :=
  { flowJacobian_ := ops.Zero J.flowJacobian_, turbJacobian_ := ops.Zero J.turbJacobian_ }

/-- Member `fluxJacobian::operator+=(const fluxJacobian&)` (lines 141-145). -/
def fluxJacobian.addAssign {M K : Type} (ops : squareMatrixOps M K)
    (J other : fluxJacobian M) : fluxJacobian M :=
  { flowJacobian_ := ops.addAssign J.flowJacobian_ other.flowJacobian_
    turbJacobian_ := ops.addAssign J.turbJacobian_ other.turbJacobian_ }

/-- Member `fluxJacobian::operator-=(const fluxJacobian&)` (lines 148-152). -/
def fluxJacobian.subAssign {M K : Type} (ops : squareMatrixOps M K)
    (J other : fluxJacobian M) : fluxJacobian M :=
  { flowJacobian_ := ops.subAssign J.flowJacobian_ other.flowJacobian_
    turbJacobian_ := ops.subAssign J.turbJacobian_ other.turbJacobian_ }

/-- Member `fluxJacobian::operator*=(const fluxJacobian&)` (lines 155-159). -/
def fluxJacobian.mulAssign {M K : Type} (ops : squareMatrixOps M K)
    (J other : fluxJacobian M) : fluxJacobian M :=
  { flowJacobian_ := ops.mulAssign J.flowJacobian_ other.flowJacobian_
    turbJacobian_ := ops.mulAssign J.turbJacobian_ other.turbJacobian_ }

/-- Member `fluxJacobian::operator/=(const fluxJacobian&)` (lines 162-166). -/
def fluxJacobian.divAssign {M K : Type} (ops : squareMatrixOps M K)
    (J other : fluxJacobian M) : fluxJacobian M :=
  { flowJacobian_ := ops.divAssign J.flowJacobian_ other.flowJacobian_
    turbJacobian_ := ops.divAssign J.turbJacobian_ other.turbJacobian_ }

/-- Member `fluxJacobian::operator+=(const double&)` (lines 186-190). -/
def fluxJacobian.addAssignScalar {M K : Type} (ops : squareMatrixOps M K)
    (J : fluxJacobian M) (scalar : K) : fluxJacobian M :=
  { flowJacobian_ := ops.addAssignScalar J.flowJacobian_ scalar
    turbJacobian_ := ops.addAssignScalar J.turbJacobian_ scalar }

/-- Member `fluxJacobian::operator-=(const double&)` (lines 193-197). -/
def fluxJacobian.subAssignScalar {M K : Type} (ops : squareMatrixOps M K)
    (J : fluxJacobian M) (scalar : K) : fluxJacobian M :=
  { flowJacobian_ := ops.subAssignScalar J.flowJacobian_ scalar
    turbJacobian_ := ops.subAssignScalar J.turbJacobian_ scalar }

/-- Member `fluxJacobian::operator*=(const double&)` (lines 200-204). -/
def fluxJacobian.mulAssignScalar {M K : Type} (ops : squareMatrixOps M K)
    (J : fluxJacobian M) (scalar : K) : fluxJacobian M :=
  { flowJacobian_ := ops.mulAssignScalar J.flowJacobian_ scalar
    turbJacobian_ := ops.mulAssignScalar J.turbJacobian_ scalar }

/-- Member `fluxJacobian::operator/=(const double&)` (lines 207-211). -/
def fluxJacobian.divAssignScalar {M K : Type} (ops : squareMatrixOps M K)
    (J : fluxJacobian M) (scalar : K) : fluxJacobian M :=
  { flowJacobian_ := ops.divAssignScalar J.flowJacobian_ scalar
    turbJacobian_ := ops.divAssignScalar J.turbJacobian_ scalar }

/-- Friend `operator-(const double&, fluxJacobian)` (lines 217-221). -/
def fluxJacobian.scalarSub {M K : Type} (ops : squareMatrixOps M K) (lhs : K)
    (rhs : fluxJacobian M) : fluxJacobian M :=
  { flowJacobian_ := ops.scalarSub lhs rhs.flowJacobian_
    turbJacobian_ := ops.scalarSub lhs rhs.turbJacobian_ }

/-- Friend `operator/(const double&, fluxJacobian)` (lines 227-231). -/
def fluxJacobian.scalarDiv {M K : Type} (ops : squareMatrixOps M K) (lhs : K)
    (rhs : fluxJacobian M) : fluxJacobian M :=
  { flowJacobian_ := ops.scalarDiv lhs rhs.flowJacobian_
    turbJacobian_ := ops.scalarDiv lhs rhs.turbJacobian_ }

/-! ## Thermodynamic model -/

/-- The members of a `thermodynamic` object that `Cp`, `Cv` and
`TemperatureFromSpecEnergy` call. They are declared in `thermodynamic.hpp`,
which is not among the sources, and are parameters: the number of species and
the per-species specific heats at a temperature. -/
structure thermodynamic (K : Type) where
  NumSpecies : Nat
  SpeciesCp : K → Nat → K
  SpeciesCv : K → Nat → K

/-- Function `thermodynamic::Cp` (`thermodynamic.cpp`, lines 50-58). The macro
`MSG_ASSERT` (header `macros.hpp`) is not among the sources; it is taken to stop
the run with its message when its condition fails. `mf[ss]` is read for
`ss < NumSpecies = mf.size()` only. -/
def thermodynamic.Cp (th : thermodynamic K) (t : K) (mf : List K) : Outcome K :=
  if th.NumSpecies ≠ mf.length then Outcome.exited "species size mismatch"
  else
    Outcome.returned
      ((List.range th.NumSpecies).foldl
        (fun cp ss => cp + mf.getD ss 0 * th.SpeciesCp t ss) 0.0)

/-- Function `thermodynamic::Cv` (`thermodynamic.cpp`, lines 60-68), with
`MSG_ASSERT` as in `thermodynamic.Cp`. -/
def thermodynamic.Cv (th : thermodynamic K) (t : K) (mf : List K) : Outcome K :=
  if th.NumSpecies ≠ mf.length then Outcome.exited "species size mismatch"
  else
    Outcome.returned
      ((List.range th.NumSpecies).foldl
        (fun cv ss => cv + mf.getD ss 0 * th.SpeciesCv t ss) 0.0)

/-- Function `caloricallyPerfect::TemperatureFromSpecEnergy`
(`thermodynamic.cpp`, lines 72-76). -/
def caloricallyPerfect.TemperatureFromSpecEnergy (th : thermodynamic K) (e : K)
    (mf : List K) : Outcome K :=
  let t : K := 1.0
  match th.Cv t mf with
  | Outcome.exited msg => Outcome.exited msg
  | Outcome.returned cv => Outcome.returned (e / cv)

/-! ## The output parameters of the Roe Jacobian routines -/

/-- The three output parameters of `RoeFluxJacobian` and of
`ApproxRoeFluxJacobian` (`double &maxWS, squareMatrix &dF_dUl, squareMatrix
&dF_dUr`) after a call. -/
structure JacobianOutputs (K : Type) where
  maxWS : K
  dF_dUl : squareMatrix K
  dF_dUr : squareMatrix K

/-- A call of `RoeFluxJacobian` (`inviscidFlux.cpp`, lines 210-965) as a map
from the values its output parameters hold on entry to the values they hold on
return. The body assigns `dF_dUl` and `dF_dUr`; its only statement naming
`maxWS` (line 274) is commented out. -/
def RoeFluxJacobian.call (sqrt : K → K) (left right : primVars K) (eqnState : idealGas K)
    (areaVec : vector3d K) (entry : JacobianOutputs K) : JacobianOutputs K :=
  let r := RoeFluxJacobian sqrt left right eqnState areaVec
  { maxWS := entry.maxWS, dF_dUl := r.1, dF_dUr := r.2 }

/-- A call of `ApproxRoeFluxJacobian` (`inviscidFlux.cpp`, lines 968-1215) as a
map from the values its output parameters hold on entry to the values they hold
on return. The body assigns `dF_dUl` and `dF_dUr` and has no statement naming
`maxWS`. -/
def ApproxRoeFluxJacobian.call (sqrt : K → K) (left right : primVars K)
    (eqnState : idealGas K) (areaVec : vector3d K) (entry : JacobianOutputs K) :
    JacobianOutputs K :=
  let r := ApproxRoeFluxJacobian sqrt left right eqnState areaVec
  { maxWS := entry.maxWS, dF_dUl := r.1, dF_dUr := r.2 }

/-! ## Thermally perfect gas -/

/-- The members of a `thermallyPerfect` object that `SpeciesSpecEnergy`,
`SpeciesSpecEnthalpy`, `SpecEnergy` and `SpecEnthalpy` call. They are declared
in `thermodynamic.hpp`, which is not among the sources, and are parameters: the
number of species and the per-species lookups `R(ss)`, `N(ss)` and
`VibEqTerm(t, ss)`, taken at any `int` index. -/
structure thermallyPerfect (K : Type) where
  NumSpecies : Nat
  R : Int → K
  N : Int → K
  VibEqTerm : K → Int → K

/-- Function `thermallyPerfect::SpeciesSpecEnergy` (`thermodynamic.cpp`, lines
80-84), with `MSG_ASSERT` stopping the run when its condition
`ss <= NumSpecies()` fails. -/
def thermallyPerfect.SpeciesSpecEnergy (th : thermallyPerfect K) (t : K) (ss : Int) :
    Outcome K :=
  if ¬ (ss ≤ (th.NumSpecies : Int)) then Outcome.exited "species out of range"
  else Outcome.returned (th.R ss * (th.N ss * t + th.VibEqTerm t ss))

/-- Function `thermallyPerfect::SpeciesSpecEnthalpy` (`thermodynamic.cpp`, lines
97-101), with `MSG_ASSERT` as in `thermallyPerfect.SpeciesSpecEnergy`. -/
def thermallyPerfect.SpeciesSpecEnthalpy (th : thermallyPerfect K) (t : K) (ss : Int) :
    Outcome K :=
  if ¬ (ss ≤ (th.NumSpecies : Int)) then Outcome.exited "species out of range"
  else Outcome.returned (th.R ss * ((th.N ss + 1) * t + th.VibEqTerm t ss))

/-- One pass of the loop body `acc += mf[ss] * f(ss)` where the call `f(ss)`
may stop the run. -/
def accumulateSpecies (mf : List K) (f : Int → Outcome K) (acc : Outcome K) (ss : Nat) :
    Outcome K :=
  match acc with
  | Outcome.exited msg => Outcome.exited msg
  | Outcome.returned a =>
    match f (ss : Int) with
    | Outcome.exited msg => Outcome.exited msg
    | Outcome.returned x => Outcome.returned (a + mf.getD ss 0 * x)

/-- Function `thermallyPerfect::SpecEnergy` (`thermodynamic.cpp`, lines 86-95). -/
def thermallyPerfect.SpecEnergy (th : thermallyPerfect K) (t : K) (mf : List K) :
    Outcome K :=
  if th.NumSpecies ≠ mf.length then Outcome.exited "species size mismatch"
  else
    (List.range th.NumSpecies).foldl
      (accumulateSpecies mf (th.SpeciesSpecEnergy t)) (Outcome.returned 0.0)

/-- Function `thermallyPerfect::SpecEnthalpy` (`thermodynamic.cpp`, lines
103-112). -/
def thermallyPerfect.SpecEnthalpy (th : thermallyPerfect K) (t : K) (mf : List K) :
    Outcome K :=
  if th.NumSpecies ≠ mf.length then Outcome.exited "species size mismatch"
  else
    (List.range th.NumSpecies).foldl
      (accumulateSpecies mf (th.SpeciesSpecEnthalpy t)) (Outcome.returned 0.0)

/-! ## Auxiliary facts -/

theorem zero_lit : (0.0 : K) = 0 := by norm_num

theorem vector3d.sumSq_pos (A : vector3d ℝ) (hA : A ≠ ⟨0, 0, 0⟩) :
    0 < A.x * A.x + A.y * A.y + A.z * A.z := by
  have h : A.x ≠ 0 ∨ A.y ≠ 0 ∨ A.z ≠ 0 := by
    by_contra hc
    push_neg at hc
    apply hA
    cases A
    simp_all
  rcases h with h | h | h
  · have := mul_self_pos.mpr h; nlinarith [mul_self_nonneg A.y, mul_self_nonneg A.z]
  · have := mul_self_pos.mpr h; nlinarith [mul_self_nonneg A.x, mul_self_nonneg A.z]
  · have := mul_self_pos.mpr h; nlinarith [mul_self_nonneg A.y, mul_self_nonneg A.x]

theorem vector3d.Mag_pos (A : vector3d ℝ) (hA : A ≠ ⟨0, 0, 0⟩) : 0 < A.Mag Real.sqrt :=
  Real.sqrt_pos.mpr (vector3d.sumSq_pos A hA)

theorem vector3d.Mag_normalized (A : vector3d ℝ) (hA : A ≠ ⟨0, 0, 0⟩) :
    (A.divScalar (A.Mag Real.sqrt)).Mag Real.sqrt = 1 := by
  have hpos := vector3d.sumSq_pos A hA
  have hm0 := vector3d.Mag_pos A hA
  simp only [vector3d.divScalar, vector3d.Mag] at hm0 ⊢
  have hmm := Real.mul_self_sqrt hpos.le
  set m := Real.sqrt (A.x * A.x + A.y * A.y + A.z * A.z) with hm
  have : A.x / m * (A.x / m) + A.y / m * (A.y / m) + A.z / m * (A.z / m) = 1 := by
    field_simp
    nlinarith
  rw [this, Real.sqrt_one]

theorem vector3d.normalize_idem (A : vector3d ℝ) (hA : A ≠ ⟨0, 0, 0⟩) :
    (A.divScalar (A.Mag Real.sqrt)).divScalar ((A.divScalar (A.Mag Real.sqrt)).Mag Real.sqrt)
      = A.divScalar (A.Mag Real.sqrt) := by
  rw [vector3d.Mag_normalized A hA]
  simp [vector3d.divScalar]

theorem vector3d.Mag_neg (A : vector3d ℝ) : A.neg.Mag Real.sqrt = A.Mag Real.sqrt := by
  simp [vector3d.Mag, vector3d.neg]

/-- The scalar locals of `RoeFlux`, each in terms of the ones computed before it. -/
theorem roeLocals_fields (sqrt : K → K) (left right : primVars K) (eqnState : idealGas K)
    (areaVec : vector3d K) {l : RoeLocals K}
    (hl : l = roeLocals sqrt left right eqnState areaVec) :
    l.denRatio = sqrt (right.rho / left.rho) ∧
    l.rhoR = left.rho * l.denRatio ∧
    l.uR = (left.u + l.denRatio * right.u) / (1 + l.denRatio) ∧
    l.vR = (left.v + l.denRatio * right.v) / (1 + l.denRatio) ∧
    l.wR = (left.w + l.denRatio * right.w) / (1 + l.denRatio) ∧
    l.hR = (left.Enthalpy eqnState + l.denRatio * right.Enthalpy eqnState)
      / (1 + l.denRatio) ∧
    l.aR = sqrt ((eqnState.gamma - 1)
      * (l.hR - 1 / 2 * (l.uR * l.uR + l.vR * l.vR + l.wR * l.wR))) ∧
    l.areaNorm = areaVec.divScalar (areaVec.Mag sqrt) ∧
    l.velRSum = l.uR * l.areaNorm.x + l.vR * l.areaNorm.y + l.wR * l.areaNorm.z ∧
    l.normVelDiff = (right.u * l.areaNorm.x + right.v * l.areaNorm.y + right.w * l.areaNorm.z)
      - (left.u * l.areaNorm.x + left.v * l.areaNorm.y + left.w * l.areaNorm.z) := by
  subst hl
  simp only [roeLocals, primVars.U, primVars.V, primVars.W, primVars.Rho, idealGas.Gamma,
    vector3d.DotProd, primVars.Velocity]
  norm_num

/-- The array locals of `RoeFlux`, each in terms of the scalar locals. -/
theorem roeLocals_waves (sqrt : K → K) (left right : primVars K) (eqnState : idealGas K)
    (areaVec : vector3d K) {l : RoeLocals K}
    (hl : l = roeLocals sqrt left right eqnState areaVec) :
    l.waveStrength =
      ![((right.p - left.p) - l.rhoR * l.aR * l.normVelDiff) / (2 * l.aR * l.aR),
        (right.rho - left.rho) - (right.p - left.p) / (l.aR * l.aR),
        ((right.p - left.p) + l.rhoR * l.aR * l.normVelDiff) / (2 * l.aR * l.aR),
        l.rhoR] ∧
    l.waveSpeedUnfixed
      = ![|l.velRSum - l.aR|, |l.velRSum|, |l.velRSum + l.aR|, |l.velRSum|] ∧
    l.waveSpeed = ![entropyFixed |l.velRSum - l.aR|, |l.velRSum|,
        entropyFixed |l.velRSum + l.aR|, |l.velRSum|] ∧
    l.lAcousticEigV = ![1, l.uR - l.aR * l.areaNorm.x, l.vR - l.aR * l.areaNorm.y,
        l.wR - l.aR * l.areaNorm.z, l.hR - l.aR * l.velRSum] ∧
    l.entropyEigV
      = ![1, l.uR, l.vR, l.wR, 1 / 2 * (l.uR * l.uR + l.vR * l.vR + l.wR * l.wR)] ∧
    l.rAcousticEigV = ![1, l.uR + l.aR * l.areaNorm.x, l.vR + l.aR * l.areaNorm.y,
        l.wR + l.aR * l.areaNorm.z, l.hR + l.aR * l.velRSum] ∧
    l.shearEigV = ![0, (right.u - left.u) - l.normVelDiff * l.areaNorm.x,
        (right.v - left.v) - l.normVelDiff * l.areaNorm.y,
        (right.w - left.w) - l.normVelDiff * l.areaNorm.z,
        l.uR * (right.u - left.u) + l.vR * (right.v - left.v) + l.wR * (right.w - left.w)
          - l.velRSum * l.normVelDiff] ∧
    (∀ ii, l.dissipation ii =
      l.waveSpeed 0 * l.waveStrength 0 * l.lAcousticEigV ii
        + l.waveSpeed 1 * l.waveStrength 1 * l.entropyEigV ii
        + l.waveSpeed 2 * l.waveStrength 2 * l.rAcousticEigV ii
        + l.waveSpeed 3 * l.waveStrength 3 * l.shearEigV ii) := by
  subst hl
  simp only [roeLocals, primVars.U, primVars.V, primVars.W, primVars.Rho, primVars.P,
    idealGas.Gamma, vector3d.DotProd, primVars.Velocity]
  norm_num

theorem roeLocals_dissipation_same (sqrt : K → K) (S : primVars K) (eqnState : idealGas K)
    (A : vector3d K) (ii : Fin 5) : (roeLocals sqrt S S eqnState A).dissipation ii = 0 := by
  simp only [roeLocals]
  fin_cases ii <;>
    simp [primVars.Velocity, vector3d.DotProd, primVars.P, primVars.Rho, primVars.U,
      primVars.V, primVars.W, zero_lit]

/-- Exchanging the two states and reversing the area vector leaves the Roe
averages unchanged and reverses the unit normal and the normal Roe velocity. -/
theorem roeLocals_swap (L R : primVars ℝ) (g : idealGas ℝ) (A : vector3d ℝ)
    (hL : 0 < L.rho) (hR : 0 < R.rho)
    {l l' : RoeLocals ℝ} (hl : l = roeLocals Real.sqrt L R g A)
    (hl' : l' = roeLocals Real.sqrt R L g A.neg) :
    l'.rhoR = l.rhoR ∧ l'.uR = l.uR ∧ l'.vR = l.vR ∧ l'.wR = l.wR ∧ l'.hR = l.hR ∧
    l'.aR = l.aR ∧ l'.areaNorm = l.areaNorm.neg ∧ l'.velRSum = -l.velRSum ∧
    l'.normVelDiff = l.normVelDiff := by
  obtain ⟨hd, hrho, hu, hv, hw, hh, ha, hn, hq, hdv⟩ := roeLocals_fields Real.sqrt L R g A hl
  obtain ⟨hd', hrho', hu', hv', hw', hh', ha', hn', hq', hdv'⟩ :=
    roeLocals_fields Real.sqrt R L g A.neg hl'
  have hdpos : 0 < l.denRatio := by
    rw [hd]; exact Real.sqrt_pos.mpr (div_pos hR hL)
  have hdinv : l'.denRatio = l.denRatio⁻¹ := by
    rw [hd, hd', ← Real.sqrt_inv, inv_div]
  have hdd : l.denRatio * l.denRatio = R.rho / L.rho := by
    rw [hd]; exact Real.mul_self_sqrt (div_pos hR hL).le
  have hRrho : R.rho = L.rho * (l.denRatio * l.denRatio) := by
    rw [hdd]; field_simp
  have e1 : l'.rhoR = l.rhoR := by
    rw [hrho, hrho', hdinv, hRrho]; field_simp; ring
  have e2 : l'.uR = l.uR := by
    rw [hu, hu', hdinv]; field_simp; ring
  have e3 : l'.vR = l.vR := by
    rw [hv, hv', hdinv]; field_simp; ring
  have e4 : l'.wR = l.wR := by
    rw [hw, hw', hdinv]; field_simp; ring
  have e5 : l'.hR = l.hR := by
    rw [hh, hh', hdinv]; field_simp; ring
  have e6 : l'.aR = l.aR := by
    rw [ha, ha', e2, e3, e4, e5]
  have e7 : l'.areaNorm = l.areaNorm.neg := by
    rw [hn, hn', vector3d.Mag_neg]
    simp [vector3d.divScalar, vector3d.neg, neg_div]
  have e8 : l'.velRSum = -l.velRSum := by
    rw [hq, hq', e2, e3, e4, e7]; simp only [vector3d.neg]; ring
  have e9 : l'.normVelDiff = l.normVelDiff := by
    rw [hdv, hdv', e7]; simp only [vector3d.neg]; ring
  exact ⟨e1, e2, e3, e4, e5, e6, e7, e8, e9⟩

theorem roeLocals_dissipation_swap (L R : primVars ℝ) (g : idealGas ℝ) (A : vector3d ℝ)
    (hL : 0 < L.rho) (hR : 0 < R.rho) (ii : Fin 5) :
    (roeLocals Real.sqrt R L g A.neg).dissipation ii
      = -(roeLocals Real.sqrt L R g A).dissipation ii := by
  obtain ⟨e1, e2, e3, e4, e5, e6, e7, e8, e9⟩ :=
    roeLocals_swap L R g A hL hR (rfl : roeLocals Real.sqrt L R g A = _)
      (rfl : roeLocals Real.sqrt R L g A.neg = _)
  obtain ⟨w1, -, w3, w4, w5, w6, w7, w8⟩ := roeLocals_waves Real.sqrt L R g A rfl
  obtain ⟨w1', -, w3', w4', w5', w6', w7', w8'⟩ := roeLocals_waves Real.sqrt R L g A.neg rfl
  rw [w8, w8', w1, w1', w3, w3', w4, w4', w5, w5', w6, w6', w7, w7', e1, e2, e3, e4, e5, e6, e7,
    e8, e9]
  have h1 : |-(roeLocals Real.sqrt L R g A).velRSum - (roeLocals Real.sqrt L R g A).aR|
      = |(roeLocals Real.sqrt L R g A).velRSum + (roeLocals Real.sqrt L R g A).aR| := by
    rw [← abs_neg]; ring_nf
  have h2 : |-(roeLocals Real.sqrt L R g A).velRSum + (roeLocals Real.sqrt L R g A).aR|
      = |(roeLocals Real.sqrt L R g A).velRSum - (roeLocals Real.sqrt L R g A).aR| := by
    rw [← abs_neg]; ring_nf
  rw [h1, h2, abs_neg]
  generalize (roeLocals Real.sqrt L R g A).velRSum = q
  generalize (roeLocals Real.sqrt L R g A).aR = a
  generalize entropyFixed |q + a| = s2
  generalize entropyFixed |q - a| = s0
  fin_cases ii <;> simp [vector3d.neg] <;> ring

theorem inviscidFlux.ofState_neg (S : primVars ℝ) (g : idealGas ℝ) (n : vector3d ℝ) :
    inviscidFlux.ofState Real.sqrt S g n.neg =
      { rhoVel := -(inviscidFlux.ofState Real.sqrt S g n).rhoVel
        rhoVelU := -(inviscidFlux.ofState Real.sqrt S g n).rhoVelU
        rhoVelV := -(inviscidFlux.ofState Real.sqrt S g n).rhoVelV
        rhoVelW := -(inviscidFlux.ofState Real.sqrt S g n).rhoVelW
        rhoVelH := -(inviscidFlux.ofState Real.sqrt S g n).rhoVelH } := by
  simp only [inviscidFlux.ofState, vector3d.Mag_neg]
  simp only [vector3d.neg, vector3d.divScalar, vector3d.DotProd, primVars.Velocity]
  congr 1 <;> ring

/-- For coincident states the Roe averages are the values of the state itself. -/
theorem roeLocals_same_state (S : primVars ℝ) (g : idealGas ℝ) (A : vector3d ℝ)
    (hrho : 0 < S.rho) (hg : 1 < g.gamma) {l : RoeLocals ℝ}
    (hl : l = roeLocals Real.sqrt S S g A) :
    l.denRatio = 1 ∧ l.rhoR = S.rho ∧ l.uR = S.u ∧ l.vR = S.v ∧ l.wR = S.w ∧
    l.hR = S.Enthalpy g ∧ l.aR = Real.sqrt (g.gamma * S.p / S.rho) := by
  obtain ⟨hd, hr, hu, hv, hw, hh, ha, -, -, -⟩ := roeLocals_fields Real.sqrt S S g A hl
  have d1 : l.denRatio = 1 := by rw [hd, div_self hrho.ne', Real.sqrt_one]
  have e2 : l.uR = S.u := by rw [hu, d1]; ring
  have e3 : l.vR = S.v := by rw [hv, d1]; ring
  have e4 : l.wR = S.w := by rw [hw, d1]; ring
  have e5 : l.hR = S.Enthalpy g := by rw [hh, d1]; ring
  refine ⟨d1, by rw [hr, d1, mul_one], e2, e3, e4, e5, ?_⟩
  rw [ha, e2, e3, e4, e5]
  congr 1
  have hg1 : g.gamma - 1 ≠ 0 := by linarith
  simp only [primVars.Enthalpy, idealGas.Gamma, primVars.P, primVars.Rho, primVars.Velocity,
    vector3d.MagSq]
  norm_num
  field_simp
  ring

/-- The entropy fix as one continuous expression. -/
theorem entropyFixed_closed_form (s : ℝ) :
    entropyFixed s = s + 5 * (min (s - 1 / 10) 0) ^ 2 := by
  simp only [entropyFixed]
  have h01 : (0.1 : ℝ) = 1 / 10 := by norm_num
  have h05 : (0.5 : ℝ) = 1 / 2 := by norm_num
  rw [h01, h05]
  split_ifs with h
  · rw [min_eq_left (by linarith)]; ring
  · rw [min_eq_right (by linarith)]; ring

theorem entropyFixed_continuous : Continuous (entropyFixed : ℝ → ℝ) := by
  have h : (entropyFixed : ℝ → ℝ) = fun s => s + 5 * (min (s - 1 / 10) 0) ^ 2 := by
    funext s; exact entropyFixed_closed_form s
  rw [h]
  fun_prop

theorem entropyFixed_threshold : entropyFixed (0.1 : ℝ) = 0.1 := by
  simp [entropyFixed]

theorem entropyFixed_lt_iff (s : ℝ) (hs : 0 ≤ s) : entropyFixed s < 0.1 ↔ s < 0.1 := by
  simp only [entropyFixed]
  have h01 : (0.1 : ℝ) = 1 / 10 := by norm_num
  have h05 : (0.5 : ℝ) = 1 / 2 := by norm_num
  rw [h01, h05]
  split_ifs with h
  · constructor
    · intro _; exact h
    · intro _; nlinarith
  · rfl

/-- The left state obtained by adding `t` to the fifth conserved variable of
`(rho=1, u=1, v=2, w=0, p=1/1.4)`. -/
theorem ofConserved_energy_line (t : ℝ) :
    primVars.ofConserved Real.sqrt
      (fun i => (⟨1, 1, 2, 0, 1 / 1.4⟩ : primVars ℝ).ConsVars ⟨1.4⟩ i + if i = 4 then t else 0)
      ⟨1.4⟩ = ⟨1, 1, 2, 0, 1 / 1.4 + (1.4 - 1) * t⟩ := by
  have h5 : Real.sqrt 5 * Real.sqrt 5 = 5 := Real.mul_self_sqrt (by norm_num)
  simp only [primVars.ofConserved, primVars.ConsVars, idealGas.GetPressFromEnergy, vector3d.Mag,
    primVars.Rho, primVars.U, primVars.V, primVars.W, primVars.P, primVars.Velocity,
    vector3d.MagSq, idealGas.Gamma]
  simp
  norm_num
  rw [mul_assoc, h5]
  ring

/-- Along that line the x-momentum component of `RoeFlux` through the face
`(0,1,0)` stays equal to 2 as long as `t < 1`. -/
theorem RoeFlux_rhoVelU_energy_line (t : ℝ) (ht : t < 1) :
    (RoeFlux Real.sqrt (⟨1, 1, 2, 0, 1 / 1.4 + (1.4 - 1) * t⟩ : primVars ℝ)
      ⟨1, 1, 2, 0, 1 / 1.4⟩ ⟨1.4⟩ ⟨0, 1, 0⟩).1.rhoVelU = 2 := by
  set L : primVars ℝ := ⟨1, 1, 2, 0, 1 / 1.4 + (1.4 - 1) * t⟩ with hL
  set R : primVars ℝ := ⟨1, 1, 2, 0, 1 / 1.4⟩ with hR
  set l := roeLocals Real.sqrt L R ⟨1.4⟩ ⟨0, 1, 0⟩ with hl
  obtain ⟨hd, hr, hu, hv, hw, hh, ha, hn, hq, hdv⟩ :=
    roeLocals_fields Real.sqrt L R ⟨1.4⟩ ⟨0, 1, 0⟩ hl
  obtain ⟨w1, w2, w3, w4, w5, w6, w7, w8⟩ := roeLocals_waves Real.sqrt L R ⟨1.4⟩ ⟨0, 1, 0⟩ hl
  have d1 : l.denRatio = 1 := by rw [hd]; norm_num [L, R]
  have e2 : l.uR = 1 := by rw [hu, d1]; norm_num [L, R]
  have e3 : l.vR = 2 := by rw [hv, d1]; norm_num [L, R]
  have e4 : l.wR = 0 := by rw [hw, d1]; norm_num [L, R]
  have hn' : l.areaNorm = ⟨0, 1, 0⟩ := by
    rw [hn]; simp [vector3d.divScalar, vector3d.Mag]
  have hq' : l.velRSum = 2 := by rw [hq, e2, e3, e4, hn']; norm_num
  have hdv' : l.normVelDiff = 0 := by rw [hdv, hn']; norm_num [L, R]
  have ha0 : 0 ≤ l.aR := by rw [ha]; exact Real.sqrt_nonneg _
  have ha1 : l.aR ≤ 1.9 := by
    rw [ha, Real.sqrt_le_iff]
    refine ⟨by norm_num, ?_⟩
    rw [hh, d1, e2, e3, e4]
    norm_num [L, R, primVars.Enthalpy, idealGas.Gamma, primVars.P, primVars.Rho,
      primVars.Velocity, vector3d.MagSq]
    linarith
  have hs0 : entropyFixed |l.velRSum - l.aR| = 2 - l.aR := by
    rw [hq', abs_of_pos (by linarith [(by norm_num : (1.9 : ℝ) < 2)])]
    simp only [entropyFixed]
    rw [if_neg]
    norm_num
    linarith [(by norm_num : (1.9 : ℝ) = 19 / 10)]
  have hs2 : entropyFixed |l.velRSum + l.aR| = 2 + l.aR := by
    rw [hq', abs_of_pos (by linarith)]
    simp only [entropyFixed]
    rw [if_neg]
    norm_num
    linarith
  have hdiss : l.dissipation 1 = 0 := by
    rw [w8, w1, w3, w4, w5, w6, w7, hs0, hs2, hq', hn', hdv', e2, e3, e4]
    simp
    ring
  simp only [RoeFlux, ← hl, hdiss, hn', inviscidFlux.ofState]
  norm_num [L, R, vector3d.divScalar, vector3d.Mag, vector3d.DotProd, primVars.Velocity,
    primVars.Rho, primVars.P]

/-- Half the squared magnitude, as it comes out of `vector3d.Mag` applied
twice. -/
theorem half_mag_sq (a b c : ℝ) :
    0.5 * Real.sqrt (a * a + b * b + c * c) * Real.sqrt (a * a + b * b + c * c)
      = 0.5 * (a * a + b * b + c * c) := by
  rw [mul_assoc, Real.mul_self_sqrt
    (by nlinarith [mul_self_nonneg a, mul_self_nonneg b, mul_self_nonneg c])]

/-- The flux of the state built from the conserved variables `U`, written
without the square root of the speed. -/
theorem ofState_ofConserved (U : Fin 5 → ℝ) (g : idealGas ℝ) (A : vector3d ℝ) :
    inviscidFlux.ofState Real.sqrt (primVars.ofConserved Real.sqrt U g) g A
      = { rhoVel := U 0 * (U 1 / U 0 * (A.divScalar (A.Mag Real.sqrt)).x
          + U 2 / U 0 * (A.divScalar (A.Mag Real.sqrt)).y
          + U 3 / U 0 * (A.divScalar (A.Mag Real.sqrt)).z)
          rhoVelU := U 0 * (U 1 / U 0 * (A.divScalar (A.Mag Real.sqrt)).x
          + U 2 / U 0 * (A.divScalar (A.Mag Real.sqrt)).y
          + U 3 / U 0 * (A.divScalar (A.Mag Real.sqrt)).z) * (U 1 / U 0)
            + (g.gamma - 1.0) * U 0 * (U 4 / U 0 - 0.5 * (U 1 / U 0 * (U 1 / U 0) + U 2 / U 0 * (U 2 / U 0)
              + U 3 / U 0 * (U 3 / U 0))) * (A.divScalar (A.Mag Real.sqrt)).x
          rhoVelV := U 0 * (U 1 / U 0 * (A.divScalar (A.Mag Real.sqrt)).x
          + U 2 / U 0 * (A.divScalar (A.Mag Real.sqrt)).y
          + U 3 / U 0 * (A.divScalar (A.Mag Real.sqrt)).z) * (U 2 / U 0)
            + (g.gamma - 1.0) * U 0 * (U 4 / U 0 - 0.5 * (U 1 / U 0 * (U 1 / U 0) + U 2 / U 0 * (U 2 / U 0)
              + U 3 / U 0 * (U 3 / U 0))) * (A.divScalar (A.Mag Real.sqrt)).y
          rhoVelW := U 0 * (U 1 / U 0 * (A.divScalar (A.Mag Real.sqrt)).x
          + U 2 / U 0 * (A.divScalar (A.Mag Real.sqrt)).y
          + U 3 / U 0 * (A.divScalar (A.Mag Real.sqrt)).z) * (U 3 / U 0)
            + (g.gamma - 1.0) * U 0 * (U 4 / U 0 - 0.5 * (U 1 / U 0 * (U 1 / U 0) + U 2 / U 0 * (U 2 / U 0)
              + U 3 / U 0 * (U 3 / U 0))) * (A.divScalar (A.Mag Real.sqrt)).z
          rhoVelH := U 0 * (U 1 / U 0 * (A.divScalar (A.Mag Real.sqrt)).x
          + U 2 / U 0 * (A.divScalar (A.Mag Real.sqrt)).y
          + U 3 / U 0 * (A.divScalar (A.Mag Real.sqrt)).z)
            * (g.gamma / (g.gamma - 1.0) * ((g.gamma - 1.0) * U 0 * (U 4 / U 0 - 0.5 * (U 1 / U 0 * (U 1 / U 0) + U 2 / U 0 * (U 2 / U 0)
              + U 3 / U 0 * (U 3 / U 0)))) / U 0
              + 0.5 * (U 1 / U 0 * (U 1 / U 0) + U 2 / U 0 * (U 2 / U 0)
              + U 3 / U 0 * (U 3 / U 0))) } := by
  simp only [inviscidFlux.ofState, primVars.ofConserved, idealGas.GetPressFromEnergy,
    vector3d.Mag, primVars.Rho, primVars.P, primVars.Velocity, primVars.Enthalpy,
    vector3d.DotProd, vector3d.MagSq, idealGas.Gamma, half_mag_sq]

set_option maxHeartbeats 1600000 in
/-- Row 0 of the matrix stored by `LaxFriedrichsFluxJacobian` for one state
holds the derivatives of the `rhoVel` component of the physical flux with
respect to the five conserved variables. -/
theorem eulerJacobian_row0 (S : primVars ℝ) (g : idealGas ℝ) (A : vector3d ℝ)
    (hrho : S.rho ≠ 0) (hg : g.gamma ≠ 1) (j : Fin 5) :
    HasDerivAt (fun t : ℝ =>
      (inviscidFlux.ofState Real.sqrt
        (primVars.ofConserved Real.sqrt
          (fun k => S.ConsVars g k + if k = j then t else 0) g) g A).rhoVel)
      (LaxFriedrichsFluxJacobian.physicalStores S g (A.divScalar (A.Mag Real.sqrt))
        (S.Velocity.DotProd (A.divScalar (A.Mag Real.sqrt))) 0 j) 0 := by
  obtain ⟨c, hc⟩ : ∃ c : Fin 5 → ℝ → ℝ,
      c = fun k t => S.ConsVars g k + if k = j then t else 0 := ⟨_, rfl⟩
  obtain ⟨n, hn⟩ : ∃ n : vector3d ℝ, n = A.divScalar (A.Mag Real.sqrt) := ⟨_, rfl⟩
  have hcd : ∀ k, HasDerivAt (c k) (if k = j then 1 else 0) 0 := by
    intro k
    rw [hc]
    by_cases hk : k = j
    · simp only [hk, if_true]
      exact (hasDerivAt_id (0 : ℝ)).const_add _
    · simp only [hk, if_false, add_zero]
      exact hasDerivAt_const _ _
  have hc0 : ∀ k, c k 0 = S.ConsVars g k := by
    intro k; rw [hc]; simp
  have h00 : c 0 0 ≠ 0 := by
    rw [hc0]; simpa [primVars.ConsVars, primVars.Rho] using hrho
  have hg1 : g.gamma - 1 ≠ 0 := sub_ne_zero.mpr hg
  have hfun : ∀ t : ℝ, (fun k => S.ConsVars g k + if k = j then t else 0) = fun k => c k t := by
    intro t; rw [hc]
  have hr := hcd 0
  have hu := (hcd 1).div (hcd 0) h00
  have hv := (hcd 2).div (hcd 0) h00
  have hw := (hcd 3).div (hcd 0) h00
  have he := (hcd 4).div (hcd 0) h00
  have hq := ((hu.mul_const n.x).add (hv.mul_const n.y)).add (hw.mul_const n.z)
  have hKE := ((hu.mul hu).add (hv.mul hv)).add (hw.mul hw)
  have hP := (hr.const_mul (g.gamma - 1.0)).mul (he.sub (hKE.const_mul 0.5))
  have hF0 := hr.mul hq
  simp only [hfun, ofState_ofConserved, ← hn]
  refine (hF0.congr_of_eventuallyEq (Eventually.of_forall fun t => rfl)).congr_deriv ?_
  simp only [hc0]
  obtain ⟨gm, hgm⟩ : ∃ gm : ℝ, gm = g.gamma - 1.0 := ⟨_, rfl⟩
  have hgm0 : gm ≠ 0 := by rw [hgm]; rwa [show (1.0 : ℝ) = 1 by norm_num]
  have hgam : g.gamma = gm + 1.0 := by rw [hgm]; ring
  fin_cases j
  all_goals
    simp only [LaxFriedrichsFluxJacobian.physicalStores, squareMatrix.SetData,
      squareMatrix.Zero, primVars.ConsVars, primVars.Rho, primVars.U, primVars.V,
      primVars.W, primVars.P, primVars.Velocity, vector3d.MagSq, vector3d.DotProd,
      idealGas.Gamma, primVars.Enthalpy]
    simp only [Fin.zero_eta, Fin.mk_one, Fin.reduceFinMk, Fin.isValue, Fin.reduceEq, if_true,
      if_false, and_true, and_false, true_and, false_and, Matrix.cons_val_zero,
      Matrix.cons_val_one, Matrix.head_cons, Matrix.cons_val_two, Matrix.tail_cons,
      Matrix.cons_val_three, Matrix.cons_val_four, ite_true, ite_false, ← hgm]
    try simp only [hgam]
    field_simp
    ring

set_option maxHeartbeats 1600000 in
/-- Row 1 of the matrix stored by `LaxFriedrichsFluxJacobian` for one state
holds the derivatives of the `rhoVelU` component of the physical flux with
respect to the five conserved variables. -/
theorem eulerJacobian_row1 (S : primVars ℝ) (g : idealGas ℝ) (A : vector3d ℝ)
    (hrho : S.rho ≠ 0) (hg : g.gamma ≠ 1) (j : Fin 5) :
    HasDerivAt (fun t : ℝ =>
      (inviscidFlux.ofState Real.sqrt
        (primVars.ofConserved Real.sqrt
          (fun k => S.ConsVars g k + if k = j then t else 0) g) g A).rhoVelU)
      (LaxFriedrichsFluxJacobian.physicalStores S g (A.divScalar (A.Mag Real.sqrt))
        (S.Velocity.DotProd (A.divScalar (A.Mag Real.sqrt))) 1 j) 0 := by
  obtain ⟨c, hc⟩ : ∃ c : Fin 5 → ℝ → ℝ,
      c = fun k t => S.ConsVars g k + if k = j then t else 0 := ⟨_, rfl⟩
  obtain ⟨n, hn⟩ : ∃ n : vector3d ℝ, n = A.divScalar (A.Mag Real.sqrt) := ⟨_, rfl⟩
  have hcd : ∀ k, HasDerivAt (c k) (if k = j then 1 else 0) 0 := by
    intro k
    rw [hc]
    by_cases hk : k = j
    · simp only [hk, if_true]
      exact (hasDerivAt_id (0 : ℝ)).const_add _
    · simp only [hk, if_false, add_zero]
      exact hasDerivAt_const _ _
  have hc0 : ∀ k, c k 0 = S.ConsVars g k := by
    intro k; rw [hc]; simp
  have h00 : c 0 0 ≠ 0 := by
    rw [hc0]; simpa [primVars.ConsVars, primVars.Rho] using hrho
  have hg1 : g.gamma - 1 ≠ 0 := sub_ne_zero.mpr hg
  have hfun : ∀ t : ℝ, (fun k => S.ConsVars g k + if k = j then t else 0) = fun k => c k t := by
    intro t; rw [hc]
  have hr := hcd 0
  have hu := (hcd 1).div (hcd 0) h00
  have hv := (hcd 2).div (hcd 0) h00
  have hw := (hcd 3).div (hcd 0) h00
  have he := (hcd 4).div (hcd 0) h00
  have hq := ((hu.mul_const n.x).add (hv.mul_const n.y)).add (hw.mul_const n.z)
  have hKE := ((hu.mul hu).add (hv.mul hv)).add (hw.mul hw)
  have hP := (hr.const_mul (g.gamma - 1.0)).mul (he.sub (hKE.const_mul 0.5))
  have hF0 := hr.mul hq
  have hF := (hF0.mul hu).add (hP.mul_const n.x)
  simp only [hfun, ofState_ofConserved, ← hn]
  refine (hF.congr_of_eventuallyEq (Eventually.of_forall fun t => rfl)).congr_deriv ?_
  simp only [hc0]
  obtain ⟨gm, hgm⟩ : ∃ gm : ℝ, gm = g.gamma - 1.0 := ⟨_, rfl⟩
  have hgm0 : gm ≠ 0 := by rw [hgm]; rwa [show (1.0 : ℝ) = 1 by norm_num]
  have hgam : g.gamma = gm + 1.0 := by rw [hgm]; ring
  fin_cases j
  all_goals
    simp only [LaxFriedrichsFluxJacobian.physicalStores, squareMatrix.SetData,
      squareMatrix.Zero, primVars.ConsVars, primVars.Rho, primVars.U, primVars.V,
      primVars.W, primVars.P, primVars.Velocity, vector3d.MagSq, vector3d.DotProd,
      idealGas.Gamma, primVars.Enthalpy]
    simp only [Fin.zero_eta, Fin.mk_one, Fin.reduceFinMk, Fin.isValue, Fin.reduceEq, if_true,
      if_false, and_true, and_false, true_and, false_and, Matrix.cons_val_zero,
      Matrix.cons_val_one, Matrix.head_cons, Matrix.cons_val_two, Matrix.tail_cons,
      Matrix.cons_val_three, Matrix.cons_val_four, ite_true, ite_false, ← hgm]
    try simp only [hgam]
    field_simp
    ring

set_option maxHeartbeats 1600000 in
/-- Row 2 of the matrix stored by `LaxFriedrichsFluxJacobian` for one state
holds the derivatives of the `rhoVelV` component of the physical flux with
respect to the five conserved variables. -/
theorem eulerJacobian_row2 (S : primVars ℝ) (g : idealGas ℝ) (A : vector3d ℝ)
    (hrho : S.rho ≠ 0) (hg : g.gamma ≠ 1) (j : Fin 5) :
    HasDerivAt (fun t : ℝ =>
      (inviscidFlux.ofState Real.sqrt
        (primVars.ofConserved Real.sqrt
          (fun k => S.ConsVars g k + if k = j then t else 0) g) g A).rhoVelV)
      (LaxFriedrichsFluxJacobian.physicalStores S g (A.divScalar (A.Mag Real.sqrt))
        (S.Velocity.DotProd (A.divScalar (A.Mag Real.sqrt))) 2 j) 0 := by
  obtain ⟨c, hc⟩ : ∃ c : Fin 5 → ℝ → ℝ,
      c = fun k t => S.ConsVars g k + if k = j then t else 0 := ⟨_, rfl⟩
  obtain ⟨n, hn⟩ : ∃ n : vector3d ℝ, n = A.divScalar (A.Mag Real.sqrt) := ⟨_, rfl⟩
  have hcd : ∀ k, HasDerivAt (c k) (if k = j then 1 else 0) 0 := by
    intro k
    rw [hc]
    by_cases hk : k = j
    · simp only [hk, if_true]
      exact (hasDerivAt_id (0 : ℝ)).const_add _
    · simp only [hk, if_false, add_zero]
      exact hasDerivAt_const _ _
  have hc0 : ∀ k, c k 0 = S.ConsVars g k := by
    intro k; rw [hc]; simp
  have h00 : c 0 0 ≠ 0 := by
    rw [hc0]; simpa [primVars.ConsVars, primVars.Rho] using hrho
  have hg1 : g.gamma - 1 ≠ 0 := sub_ne_zero.mpr hg
  have hfun : ∀ t : ℝ, (fun k => S.ConsVars g k + if k = j then t else 0) = fun k => c k t := by
    intro t; rw [hc]
  have hr := hcd 0
  have hu := (hcd 1).div (hcd 0) h00
  have hv := (hcd 2).div (hcd 0) h00
  have hw := (hcd 3).div (hcd 0) h00
  have he := (hcd 4).div (hcd 0) h00
  have hq := ((hu.mul_const n.x).add (hv.mul_const n.y)).add (hw.mul_const n.z)
  have hKE := ((hu.mul hu).add (hv.mul hv)).add (hw.mul hw)
  have hP := (hr.const_mul (g.gamma - 1.0)).mul (he.sub (hKE.const_mul 0.5))
  have hF0 := hr.mul hq
  have hF := (hF0.mul hv).add (hP.mul_const n.y)
  simp only [hfun, ofState_ofConserved, ← hn]
  refine (hF.congr_of_eventuallyEq (Eventually.of_forall fun t => rfl)).congr_deriv ?_
  simp only [hc0]
  obtain ⟨gm, hgm⟩ : ∃ gm : ℝ, gm = g.gamma - 1.0 := ⟨_, rfl⟩
  have hgm0 : gm ≠ 0 := by rw [hgm]; rwa [show (1.0 : ℝ) = 1 by norm_num]
  have hgam : g.gamma = gm + 1.0 := by rw [hgm]; ring
  fin_cases j
  all_goals
    simp only [LaxFriedrichsFluxJacobian.physicalStores, squareMatrix.SetData,
      squareMatrix.Zero, primVars.ConsVars, primVars.Rho, primVars.U, primVars.V,
      primVars.W, primVars.P, primVars.Velocity, vector3d.MagSq, vector3d.DotProd,
      idealGas.Gamma, primVars.Enthalpy]
    simp only [Fin.zero_eta, Fin.mk_one, Fin.reduceFinMk, Fin.isValue, Fin.reduceEq, if_true,
      if_false, and_true, and_false, true_and, false_and, Matrix.cons_val_zero,
      Matrix.cons_val_one, Matrix.head_cons, Matrix.cons_val_two, Matrix.tail_cons,
      Matrix.cons_val_three, Matrix.cons_val_four, ite_true, ite_false, ← hgm]
    try simp only [hgam]
    field_simp
    ring

set_option maxHeartbeats 1600000 in
/-- Row 3 of the matrix stored by `LaxFriedrichsFluxJacobian` for one state
holds the derivatives of the `rhoVelW` component of the physical flux with
respect to the five conserved variables. -/
theorem eulerJacobian_row3 (S : primVars ℝ) (g : idealGas ℝ) (A : vector3d ℝ)
    (hrho : S.rho ≠ 0) (hg : g.gamma ≠ 1) (j : Fin 5) :
    HasDerivAt (fun t : ℝ =>
      (inviscidFlux.ofState Real.sqrt
        (primVars.ofConserved Real.sqrt
          (fun k => S.ConsVars g k + if k = j then t else 0) g) g A).rhoVelW)
      (LaxFriedrichsFluxJacobian.physicalStores S g (A.divScalar (A.Mag Real.sqrt))
        (S.Velocity.DotProd (A.divScalar (A.Mag Real.sqrt))) 3 j) 0 := by
  obtain ⟨c, hc⟩ : ∃ c : Fin 5 → ℝ → ℝ,
      c = fun k t => S.ConsVars g k + if k = j then t else 0 := ⟨_, rfl⟩
  obtain ⟨n, hn⟩ : ∃ n : vector3d ℝ, n = A.divScalar (A.Mag Real.sqrt) := ⟨_, rfl⟩
  have hcd : ∀ k, HasDerivAt (c k) (if k = j then 1 else 0) 0 := by
    intro k
    rw [hc]
    by_cases hk : k = j
    · simp only [hk, if_true]
      exact (hasDerivAt_id (0 : ℝ)).const_add _
    · simp only [hk, if_false, add_zero]
      exact hasDerivAt_const _ _
  have hc0 : ∀ k, c k 0 = S.ConsVars g k := by
    intro k; rw [hc]; simp
  have h00 : c 0 0 ≠ 0 := by
    rw [hc0]; simpa [primVars.ConsVars, primVars.Rho] using hrho
  have hg1 : g.gamma - 1 ≠ 0 := sub_ne_zero.mpr hg
  have hfun : ∀ t : ℝ, (fun k => S.ConsVars g k + if k = j then t else 0) = fun k => c k t := by
    intro t; rw [hc]
  have hr := hcd 0
  have hu := (hcd 1).div (hcd 0) h00
  have hv := (hcd 2).div (hcd 0) h00
  have hw := (hcd 3).div (hcd 0) h00
  have he := (hcd 4).div (hcd 0) h00
  have hq := ((hu.mul_const n.x).add (hv.mul_const n.y)).add (hw.mul_const n.z)
  have hKE := ((hu.mul hu).add (hv.mul hv)).add (hw.mul hw)
  have hP := (hr.const_mul (g.gamma - 1.0)).mul (he.sub (hKE.const_mul 0.5))
  have hF0 := hr.mul hq
  have hF := (hF0.mul hw).add (hP.mul_const n.z)
  simp only [hfun, ofState_ofConserved, ← hn]
  refine (hF.congr_of_eventuallyEq (Eventually.of_forall fun t => rfl)).congr_deriv ?_
  simp only [hc0]
  obtain ⟨gm, hgm⟩ : ∃ gm : ℝ, gm = g.gamma - 1.0 := ⟨_, rfl⟩
  have hgm0 : gm ≠ 0 := by rw [hgm]; rwa [show (1.0 : ℝ) = 1 by norm_num]
  have hgam : g.gamma = gm + 1.0 := by rw [hgm]; ring
  fin_cases j
  all_goals
    simp only [LaxFriedrichsFluxJacobian.physicalStores, squareMatrix.SetData,
      squareMatrix.Zero, primVars.ConsVars, primVars.Rho, primVars.U, primVars.V,
      primVars.W, primVars.P, primVars.Velocity, vector3d.MagSq, vector3d.DotProd,
      idealGas.Gamma, primVars.Enthalpy]
    simp only [Fin.zero_eta, Fin.mk_one, Fin.reduceFinMk, Fin.isValue, Fin.reduceEq, if_true,
      if_false, and_true, and_false, true_and, false_and, Matrix.cons_val_zero,
      Matrix.cons_val_one, Matrix.head_cons, Matrix.cons_val_two, Matrix.tail_cons,
      Matrix.cons_val_three, Matrix.cons_val_four, ite_true, ite_false, ← hgm]
    try simp only [hgam]
    field_simp
    ring

set_option maxHeartbeats 1600000 in
/-- Row 4 of the matrix stored by `LaxFriedrichsFluxJacobian` for one state
holds the derivatives of the `rhoVelH` component of the physical flux with
respect to the five conserved variables. -/
theorem eulerJacobian_row4 (S : primVars ℝ) (g : idealGas ℝ) (A : vector3d ℝ)
    (hrho : S.rho ≠ 0) (hg : g.gamma ≠ 1) (j : Fin 5) :
    HasDerivAt (fun t : ℝ =>
      (inviscidFlux.ofState Real.sqrt
        (primVars.ofConserved Real.sqrt
          (fun k => S.ConsVars g k + if k = j then t else 0) g) g A).rhoVelH)
      (LaxFriedrichsFluxJacobian.physicalStores S g (A.divScalar (A.Mag Real.sqrt))
        (S.Velocity.DotProd (A.divScalar (A.Mag Real.sqrt))) 4 j) 0 := by
  obtain ⟨c, hc⟩ : ∃ c : Fin 5 → ℝ → ℝ,
      c = fun k t => S.ConsVars g k + if k = j then t else 0 := ⟨_, rfl⟩
  obtain ⟨n, hn⟩ : ∃ n : vector3d ℝ, n = A.divScalar (A.Mag Real.sqrt) := ⟨_, rfl⟩
  have hcd : ∀ k, HasDerivAt (c k) (if k = j then 1 else 0) 0 := by
    intro k
    rw [hc]
    by_cases hk : k = j
    · simp only [hk, if_true]
      exact (hasDerivAt_id (0 : ℝ)).const_add _
    · simp only [hk, if_false, add_zero]
      exact hasDerivAt_const _ _
  have hc0 : ∀ k, c k 0 = S.ConsVars g k := by
    intro k; rw [hc]; simp
  have h00 : c 0 0 ≠ 0 := by
    rw [hc0]; simpa [primVars.ConsVars, primVars.Rho] using hrho
  have hg1 : g.gamma - 1 ≠ 0 := sub_ne_zero.mpr hg
  have hfun : ∀ t : ℝ, (fun k => S.ConsVars g k + if k = j then t else 0) = fun k => c k t := by
    intro t; rw [hc]
  have hr := hcd 0
  have hu := (hcd 1).div (hcd 0) h00
  have hv := (hcd 2).div (hcd 0) h00
  have hw := (hcd 3).div (hcd 0) h00
  have he := (hcd 4).div (hcd 0) h00
  have hq := ((hu.mul_const n.x).add (hv.mul_const n.y)).add (hw.mul_const n.z)
  have hKE := ((hu.mul hu).add (hv.mul hv)).add (hw.mul hw)
  have hP := (hr.const_mul (g.gamma - 1.0)).mul (he.sub (hKE.const_mul 0.5))
  have hF0 := hr.mul hq
  have hH := ((hP.const_mul (g.gamma / (g.gamma - 1.0))).div hr h00).add (hKE.const_mul 0.5)
  have hF := hF0.mul hH
  simp only [hfun, ofState_ofConserved, ← hn]
  refine (hF.congr_of_eventuallyEq (Eventually.of_forall fun t => rfl)).congr_deriv ?_
  simp only [hc0]
  obtain ⟨gm, hgm⟩ : ∃ gm : ℝ, gm = g.gamma - 1.0 := ⟨_, rfl⟩
  have hgm0 : gm ≠ 0 := by rw [hgm]; rwa [show (1.0 : ℝ) = 1 by norm_num]
  have hgam : g.gamma = gm + 1.0 := by rw [hgm]; ring
  fin_cases j
  all_goals
    simp only [LaxFriedrichsFluxJacobian.physicalStores, squareMatrix.SetData,
      squareMatrix.Zero, primVars.ConsVars, primVars.Rho, primVars.U, primVars.V,
      primVars.W, primVars.P, primVars.Velocity, vector3d.MagSq, vector3d.DotProd,
      idealGas.Gamma, primVars.Enthalpy]
    simp only [Fin.zero_eta, Fin.mk_one, Fin.reduceFinMk, Fin.isValue, Fin.reduceEq, if_true,
      if_false, and_true, and_false, true_and, false_and, Matrix.cons_val_zero,
      Matrix.cons_val_one, Matrix.head_cons, Matrix.cons_val_two, Matrix.tail_cons,
      Matrix.cons_val_three, Matrix.cons_val_four, ite_true, ite_false, ← hgm]
    try simp only [hgam]
    field_simp
    ring

/-- The matrix stored by `LaxFriedrichsFluxJacobian` for one state is the
Jacobian of its physical flux: entry (i,j) is the derivative of flux component
`i` with respect to the conserved variable `j`. -/
theorem eulerJacobian_hasDerivAt (S : primVars ℝ) (g : idealGas ℝ) (A : vector3d ℝ)
    (hrho : S.rho ≠ 0) (hg : g.gamma ≠ 1) (i j : Fin 5) :
    HasDerivAt (fun t : ℝ =>
      (inviscidFlux.ofState Real.sqrt
        (primVars.ofConserved Real.sqrt
          (fun k => S.ConsVars g k + if k = j then t else 0) g) g A).ConvertToColMatrix i)
      (LaxFriedrichsFluxJacobian.physicalStores S g (A.divScalar (A.Mag Real.sqrt))
        (S.Velocity.DotProd (A.divScalar (A.Mag Real.sqrt))) i j) 0 := by
  fin_cases i
  · exact eulerJacobian_row0 S g A hrho hg j
  · exact eulerJacobian_row1 S g A hrho hg j
  · exact eulerJacobian_row2 S g A hrho hg j
  · exact eulerJacobian_row3 S g A hrho hg j
  · exact eulerJacobian_row4 S g A hrho hg j

/-- The physical-flux block stored by `ApproxRoeFluxJacobian` for one state
has a zero row 0, and its entry (1,0) is the x component of the normal. -/
theorem physicalStores_row0_col0 (state : primVars ℝ) (g : idealGas ℝ) (n : vector3d ℝ)
    (q : ℝ) :
    (∀ j : Fin 5, ApproxRoeFluxJacobian.physicalStores state g n q 0 j = 0) ∧
    ApproxRoeFluxJacobian.physicalStores state g n q 1 0 = n.x := by
  constructor
  · intro j
    simp [ApproxRoeFluxJacobian.physicalStores, squareMatrix.SetData, squareMatrix.Zero, zero_lit]
  · simp [ApproxRoeFluxJacobian.physicalStores, squareMatrix.SetData, squareMatrix.Zero, zero_lit]

/-- The Roe locals at the coincident states `(rho=1, u=3, v=2, w=0,
p=1/1.4)`, `gamma = 1.4`, area vector `(0,1,0)`. -/
theorem S1_locals_y {l : RoeLocals ℝ}
    (hl : l = roeLocals Real.sqrt ⟨1, 3, 2, 0, 1 / 1.4⟩ ⟨1, 3, 2, 0, 1 / 1.4⟩ ⟨1.4⟩ ⟨0, 1, 0⟩) :
    l.rhoR = 1 ∧ l.uR = 3 ∧ l.vR = 2 ∧ l.wR = 0 ∧ l.hR = 9 ∧ l.aR = 1 ∧
    l.areaNorm = ⟨0, 1, 0⟩ ∧ l.velRSum = 2 ∧ l.velR = ⟨3, 2, 0⟩ := by
  obtain ⟨d1, r1, e2, e3, e4, e5, e6⟩ :=
    roeLocals_same_state ⟨1, 3, 2, 0, 1 / 1.4⟩ ⟨1.4⟩ ⟨0, 1, 0⟩ (by norm_num) (by norm_num) hl
  obtain ⟨-, -, -, -, -, -, -, hn, hq, -⟩ := roeLocals_fields Real.sqrt _ _ _ _ hl
  have hn' : l.areaNorm = ⟨0, 1, 0⟩ := by
    rw [hn]; simp [vector3d.divScalar, vector3d.Mag]
  have hv : l.velR = ⟨l.uR, l.vR, l.wR⟩ := by subst hl; rfl
  refine ⟨by rw [r1], by rw [e2], by rw [e3], by rw [e4], ?_, ?_, hn', ?_, ?_⟩
  · rw [e5]; norm_num [primVars.Enthalpy, idealGas.Gamma, primVars.P, primVars.Rho,
      primVars.Velocity, vector3d.MagSq]
  · rw [e6]; norm_num
  · rw [hq, e2, e3, e4, hn']; norm_num
  · rw [hv, e2, e3, e4]

/-- The Roe locals at the coincident states `(rho=1, u=3, v=2, w=0,
p=1/1.4)`, `gamma = 1.4`, area vector `(1,0,0)`. -/
theorem S1_locals_x {l : RoeLocals ℝ}
    (hl : l = roeLocals Real.sqrt ⟨1, 3, 2, 0, 1 / 1.4⟩ ⟨1, 3, 2, 0, 1 / 1.4⟩ ⟨1.4⟩ ⟨1, 0, 0⟩) :
    l.rhoR = 1 ∧ l.uR = 3 ∧ l.vR = 2 ∧ l.wR = 0 ∧ l.hR = 9 ∧ l.aR = 1 ∧
    l.areaNorm = ⟨1, 0, 0⟩ ∧ l.velRSum = 3 ∧ l.velR = ⟨3, 2, 0⟩ ∧ l.normVelDiff = 0 := by
  obtain ⟨d1, r1, e2, e3, e4, e5, e6⟩ :=
    roeLocals_same_state ⟨1, 3, 2, 0, 1 / 1.4⟩ ⟨1.4⟩ ⟨1, 0, 0⟩ (by norm_num) (by norm_num) hl
  obtain ⟨-, -, -, -, -, -, -, hn, hq, hdv⟩ := roeLocals_fields Real.sqrt _ _ _ _ hl
  have hn' : l.areaNorm = ⟨1, 0, 0⟩ := by
    rw [hn]; simp [vector3d.divScalar, vector3d.Mag]
  have hv : l.velR = ⟨l.uR, l.vR, l.wR⟩ := by subst hl; rfl
  refine ⟨by rw [r1], by rw [e2], by rw [e3], by rw [e4], ?_, ?_, hn', ?_, ?_, ?_⟩
  · rw [e5]; norm_num [primVars.Enthalpy, idealGas.Gamma, primVars.P, primVars.Rho,
      primVars.Velocity, vector3d.MagSq]
  · rw [e6]; norm_num
  · rw [hq, e2, e3, e4, hn']; norm_num
  · rw [hv, e2, e3, e4]
  · rw [hdv]; ring

/-- Columns one to four of the two acoustic contribution matrices of
`ApproxRoeFluxJacobian` are scalar multiples of the acoustic eigenvectors of
`RoeFlux`, the scalar being the entry in row 0. -/
theorem acousticTerm_columns_one_to_four (L R : primVars ℝ) (eqnState : idealGas ℝ)
    (A : vector3d ℝ) (i j : Fin 5) (hj : j ≠ 0) :
    ApproxRoeFluxJacobian.leftAcousticTerm eqnState (roeLocals Real.sqrt L R eqnState A) i j
      = ApproxRoeFluxJacobian.leftAcousticTerm eqnState (roeLocals Real.sqrt L R eqnState A) 0 j
        * (roeLocals Real.sqrt L R eqnState A).lAcousticEigV i ∧
    ApproxRoeFluxJacobian.rightAcousticTerm eqnState (roeLocals Real.sqrt L R eqnState A) i j
      = ApproxRoeFluxJacobian.rightAcousticTerm eqnState (roeLocals Real.sqrt L R eqnState A) 0 j
        * (roeLocals Real.sqrt L R eqnState A).rAcousticEigV i := by
  obtain ⟨l, hl⟩ : ∃ l, l = roeLocals Real.sqrt L R eqnState A := ⟨_, rfl⟩
  obtain ⟨-, -, -, w4, -, w6, -, -⟩ := roeLocals_waves Real.sqrt _ _ _ _ hl
  rw [← hl, w4, w6]
  constructor
  · fin_cases j
    · exact absurd rfl hj
    all_goals
      fin_cases i <;>
      simp only [ApproxRoeFluxJacobian.leftAcousticTerm, squareMatrix.SetData, squareMatrix.Zero,
        Fin.zero_eta, Fin.mk_one, Fin.reduceFinMk, Fin.isValue, Fin.reduceEq, if_true, if_false,
        and_true, and_false, true_and, false_and, and_self, Matrix.cons_val_zero,
        Matrix.cons_val_one, Matrix.head_cons, Matrix.cons_val_two, Matrix.tail_cons,
        Matrix.cons_val_three, Matrix.cons_val_four, ite_true, ite_false] <;>
      ring
  · fin_cases j
    · exact absurd rfl hj
    all_goals
      fin_cases i <;>
      simp only [ApproxRoeFluxJacobian.rightAcousticTerm, squareMatrix.SetData, squareMatrix.Zero,
        Fin.zero_eta, Fin.mk_one, Fin.reduceFinMk, Fin.isValue, Fin.reduceEq, if_true, if_false,
        and_true, and_false, true_and, false_and, and_self, Matrix.cons_val_zero,
        Matrix.cons_val_one, Matrix.head_cons, Matrix.cons_val_two, Matrix.tail_cons,
        Matrix.cons_val_three, Matrix.cons_val_four, ite_true, ite_false] <;>
      ring


/-- The accumulation loop `acc += f(ss)` over `ss = 0 .. n-1`, started at zero,
is the sum of `f` over the first `n` indices. -/
theorem foldl_range_add (f : Nat → K) (n : Nat) :
    (List.range n).foldl (fun acc ss => acc + f ss) 0 = ∑ ss in Finset.range n, f ss := by
  induction n with
  | zero => simp
  | succ n ih => rw [List.range_succ, List.foldl_append, ih, Finset.sum_range_succ]; rfl

/-- The wall branch of `BoundaryFlux` with first-order reconstruction: the Roe
flux of the slip-wall ghost state and the interior state, in the order given by
the face side. -/
theorem BoundaryFlux_slipWall_first_order (c : BoundaryCollaborators ℝ)
    (areaVec : vector3d ℝ) (state1 state2 : primVars ℝ) (eqnState : idealGas ℝ)
    (surf : String) (maxWS0 up2face upwind : ℝ) (flux0 : inviscidFlux ℝ)
    (hk : c.Kappa = -2) :
    BoundaryFlux Real.sqrt c "slipWall" areaVec state1 state2 eqnState surf maxWS0 up2face
        upwind flux0
      = if surf = "il" ∨ surf = "jl" ∨ surf = "kl" then
          { flux := (RoeFlux Real.sqrt
              (c.FaceReconConst (c.GetGhostState state1 "slipWall"
                (areaVec.divScalar (areaVec.Mag Real.sqrt)) surf))
              (c.FaceReconConst state1) eqnState
              (areaVec.divScalar (areaVec.Mag Real.sqrt))).1
            maxWS := (RoeFlux Real.sqrt
              (c.FaceReconConst (c.GetGhostState state1 "slipWall"
                (areaVec.divScalar (areaVec.Mag Real.sqrt)) surf))
              (c.FaceReconConst state1) eqnState
              (areaVec.divScalar (areaVec.Mag Real.sqrt))).2
            message := none }
        else
          { flux := (RoeFlux Real.sqrt (c.FaceReconConst state1)
              (c.FaceReconConst (c.GetGhostState state1 "slipWall"
                (areaVec.divScalar (areaVec.Mag Real.sqrt)) surf)) eqnState
              (areaVec.divScalar (areaVec.Mag Real.sqrt))).1
            maxWS := (RoeFlux Real.sqrt (c.FaceReconConst state1)
              (c.FaceReconConst (c.GetGhostState state1 "slipWall"
                (areaVec.divScalar (areaVec.Mag Real.sqrt)) surf)) eqnState
              (areaVec.divScalar (areaVec.Mag Real.sqrt))).2
            message := none } := by
  have hk' : c.Kappa = -2.0 := by rw [hk]; norm_num
  simp only [BoundaryFlux, stringLiteralAsCondition, hk']
  simp only [String.reduceEq, if_false, if_true, true_or]
  split_ifs <;> rfl

/-- The value `RoeFlux` writes to `maxWS`, in terms of its locals. -/
theorem RoeFlux_snd (sqrt : K → K) (left right : primVars K) (eqnState : idealGas K)
    (areaVec : vector3d K) :
    (RoeFlux sqrt left right eqnState areaVec).2
      = |(roeLocals sqrt left right eqnState areaVec).velRSum|
        + (roeLocals sqrt left right eqnState areaVec).aR := rfl

/-- Scaling a non-zero vector by a positive factor does not change its
normalisation. -/
theorem vector3d.normalize_lscale (A : vector3d ℝ) (k : ℝ) (hA : A ≠ ⟨0, 0, 0⟩)
    (hk : 0 < k) :
    (vector3d.lscale k A).divScalar ((vector3d.lscale k A).Mag Real.sqrt)
      = A.divScalar (A.Mag Real.sqrt) := by
  have hm0 := vector3d.Mag_pos A hA
  have hmag : (vector3d.lscale k A).Mag Real.sqrt = k * A.Mag Real.sqrt := by
    simp only [vector3d.Mag, vector3d.lscale]
    rw [show k * A.x * (k * A.x) + k * A.y * (k * A.y) + k * A.z * (k * A.z)
      = k * k * (A.x * A.x + A.y * A.y + A.z * A.z) by ring,
      Real.sqrt_mul (mul_self_nonneg k), Real.sqrt_mul_self hk.le]
  rw [hmag]
  simp only [vector3d.divScalar, vector3d.lscale]
  have e : ∀ x : ℝ, k * x / (k * A.Mag Real.sqrt) = x / A.Mag Real.sqrt := by
    intro x
    field_simp
    ring
  rw [e, e, e]

/-- The pressure of the state with conserved variables `U`, written without the
square root of the speed. -/
theorem ofConserved_P (U : Fin 5 → ℝ) (g : idealGas ℝ) :
    (primVars.ofConserved Real.sqrt U g).P
      = (g.gamma - 1.0) * U 0 * (U 4 / U 0 - 0.5 * (U 1 / U 0 * (U 1 / U 0)
          + U 2 / U 0 * (U 2 / U 0) + U 3 / U 0 * (U 3 / U 0))) := by
  simp only [primVars.ofConserved, idealGas.GetPressFromEnergy, vector3d.Mag, primVars.P,
    idealGas.Gamma, half_mag_sq]

/-- The derivatives of the pressure with respect to the five conserved
variables are `(gamma - 1) * (0.5 |v|^2, -u, -v, -w, 1)`. -/
theorem pressure_hasDerivAt (S : primVars ℝ) (g : idealGas ℝ) (hrho : S.rho ≠ 0)
    (j : Fin 5) :
    HasDerivAt (fun t : ℝ =>
      (primVars.ofConserved Real.sqrt
        (fun k => S.ConsVars g k + if k = j then t else 0) g).P)
      ((g.gamma - 1) * ![0.5 * S.Velocity.MagSq, -S.u, -S.v, -S.w, 1] j) 0 := by
  obtain ⟨c, hc⟩ : ∃ c : Fin 5 → ℝ → ℝ,
      c = fun k t => S.ConsVars g k + if k = j then t else 0 := ⟨_, rfl⟩
  have hcd : ∀ k, HasDerivAt (c k) (if k = j then 1 else 0) 0 := by
    intro k
    rw [hc]
    by_cases hkj : k = j
    · simp only [hkj, if_true]
      exact (hasDerivAt_id 0).const_add _
    · simp only [hkj, if_false, add_zero]
      exact hasDerivAt_const _ _
  have hc0 : ∀ k, c k 0 = S.ConsVars g k := by
    intro k; rw [hc]; simp
  have h00 : c 0 0 ≠ 0 := by
    rw [hc0]; simpa [primVars.ConsVars, primVars.Rho] using hrho
  have hfun : ∀ t : ℝ, (fun k => S.ConsVars g k + if k = j then t else 0) = fun k => c k t := by
    intro t; rw [hc]
  have hu := (hcd 1).div (hcd 0) h00
  have hv := (hcd 2).div (hcd 0) h00
  have hw := (hcd 3).div (hcd 0) h00
  have he := (hcd 4).div (hcd 0) h00
  have hKE := ((hu.mul hu).add (hv.mul hv)).add (hw.mul hw)
  have hP := ((hcd 0).const_mul (g.gamma - 1.0)).mul (he.sub (hKE.const_mul 0.5))
  simp only [hfun, ofConserved_P]
  refine (hP.congr_of_eventuallyEq (Eventually.of_forall fun t => rfl)).congr_deriv ?_
  simp only [hc0]
  fin_cases j
  all_goals
    simp only [primVars.ConsVars, primVars.Rho, primVars.U, primVars.V, primVars.W, primVars.P,
      primVars.Velocity, vector3d.MagSq, idealGas.Gamma]
    simp only [Fin.zero_eta, Fin.mk_one, Fin.reduceFinMk, Fin.isValue, Fin.reduceEq, if_true,
      if_false, Matrix.cons_val_zero, Matrix.cons_val_one, Matrix.head_cons,
      Matrix.cons_val_two, Matrix.tail_cons, Matrix.cons_val_three, Matrix.cons_val_four,
      ite_true, ite_false]
    field_simp
    ring

/-- The rows of the wall Jacobian: row `i` for `i = 1, 2, 3` is `n_i * (gamma - 1)`
times `(0.5 |v|^2, -u, -v, -w, 1)`, rows 0 and 4 are zero. -/
theorem wallJacobian_rows (state : primVars ℝ) (eqnState : idealGas ℝ) (n : vector3d ℝ)
    (i j : Fin 5) :
    BoundaryFluxJacobian.wallJacobian state eqnState n i j
      = ![0, n.x, n.y, n.z, 0] i
        * ((eqnState.gamma - 1) * ![0.5 * state.Velocity.MagSq, -state.u, -state.v, -state.w, 1] j) := by
  fin_cases i <;> fin_cases j <;>
    simp [BoundaryFluxJacobian.wallJacobian, squareMatrix.SetData, squareMatrix.Zero,
      idealGas.Gamma, primVars.U, primVars.V, primVars.W] <;> ring

/-- A normalised non-zero vector has unit squared magnitude. -/
theorem vector3d.normalized_sumSq (A : vector3d ℝ) (hA : A ≠ ⟨0, 0, 0⟩) :
    (A.divScalar (A.Mag Real.sqrt)).x * (A.divScalar (A.Mag Real.sqrt)).x
      + (A.divScalar (A.Mag Real.sqrt)).y * (A.divScalar (A.Mag Real.sqrt)).y
      + (A.divScalar (A.Mag Real.sqrt)).z * (A.divScalar (A.Mag Real.sqrt)).z = 1 := by
  have h := vector3d.Mag_normalized A hA
  have h1 := (Real.sqrt_eq_iff_mul_self_eq_of_pos (by norm_num : (0 : ℝ) < 1)).mp h
  rw [← h1]; norm_num

/-- The Roe flux of two states of equal density and pressure whose velocities
are mirror images of each other in the face: no mass flux, no energy flux, and a
momentum flux along the normal. -/
theorem RoeFlux_mirror_states (L R : primVars ℝ) (g : idealGas ℝ) (A : vector3d ℝ)
    (hA : A ≠ ⟨0, 0, 0⟩) (hL : 0 < L.rho) (hrho : R.rho = L.rho) (hp : R.p = L.p)
    (hu : R.u = L.u - 2 * L.Velocity.DotProd (A.divScalar (A.Mag Real.sqrt))
      * (A.divScalar (A.Mag Real.sqrt)).x)
    (hv : R.v = L.v - 2 * L.Velocity.DotProd (A.divScalar (A.Mag Real.sqrt))
      * (A.divScalar (A.Mag Real.sqrt)).y)
    (hw : R.w = L.w - 2 * L.Velocity.DotProd (A.divScalar (A.Mag Real.sqrt))
      * (A.divScalar (A.Mag Real.sqrt)).z) :
    (RoeFlux Real.sqrt L R g A).1.rhoVel = 0 ∧
    (RoeFlux Real.sqrt L R g A).1.rhoVelH = 0 ∧
    (∃ c : ℝ,
      (RoeFlux Real.sqrt L R g A).1.rhoVelU = c * (A.divScalar (A.Mag Real.sqrt)).x ∧
      (RoeFlux Real.sqrt L R g A).1.rhoVelV = c * (A.divScalar (A.Mag Real.sqrt)).y ∧
      (RoeFlux Real.sqrt L R g A).1.rhoVelW = c * (A.divScalar (A.Mag Real.sqrt)).z ∧
      (L.Velocity.DotProd (A.divScalar (A.Mag Real.sqrt)) = 0 → c = L.p)) := by
  obtain ⟨l, hl⟩ : ∃ l, l = roeLocals Real.sqrt L R g A := ⟨_, rfl⟩
  obtain ⟨hd, hr, h2, h3, h4, -, -, hn, hq, hdv⟩ := roeLocals_fields Real.sqrt L R g A hl
  obtain ⟨w1, -, w3, w4, w5, w6, w7, w8⟩ := roeLocals_waves Real.sqrt L R g A hl
  have hnn := vector3d.normalized_sumSq A hA
  have hidem := vector3d.normalize_idem A hA
  rw [← hn] at hnn hidem hu hv hw
  obtain ⟨n, hnd⟩ : ∃ n : vector3d ℝ, n = l.areaNorm := ⟨_, rfl⟩
  rw [← hn]
  rw [← hnd] at hnn hidem hu hv hw hq hdv w4 w6 w7 ⊢
  obtain ⟨q, hqd⟩ : ∃ q : ℝ, q = L.Velocity.DotProd n := ⟨_, rfl⟩
  rw [← hqd] at hu hv hw ⊢
  have hq' : L.u * n.x + L.v * n.y + L.w * n.z = q := by
    rw [hqd]; rfl
  have d1 : l.denRatio = 1 := by rw [hd, hrho, div_self hL.ne', Real.sqrt_one]
  have e2 : l.uR = L.u - q * n.x := by rw [h2, d1, hu]; ring
  have e3 : l.vR = L.v - q * n.y := by rw [h3, d1, hv]; ring
  have e4 : l.wR = L.w - q * n.z := by rw [h4, d1, hw]; ring
  have eq0 : l.velRSum = 0 := by
    rw [hq, e2, e3, e4]
    linear_combination hq' - q * hnn
  have edv : l.normVelDiff = -2 * q := by
    rw [hdv, hu, hv, hw]
    linear_combination (-2 * q) * hnn
  have ews : l.waveSpeed 2 = l.waveSpeed 0 := by
    rw [w3, eq0]; simp
  have ews1 : l.waveSpeed 1 = 0 := by rw [w3, eq0]; simp
  have ews3 : l.waveSpeed 3 = 0 := by rw [w3, eq0]; simp
  have estr : l.waveStrength 2 = -l.waveStrength 0 := by
    rw [w1, hp]; simp; ring
  have hdis : ∀ ii, l.dissipation ii
      = l.waveSpeed 0 * l.waveStrength 0 * (l.lAcousticEigV ii - l.rAcousticEigV ii) := by
    intro ii
    rw [w8 ii, ews, ews1, ews3, estr]; ring
  have hRq : R.u * n.x + R.v * n.y + R.w * n.z = -q := by
    rw [hu, hv, hw]
    linear_combination hq' - 2 * q * hnn
  have hmag : R.Velocity.MagSq = L.Velocity.MagSq := by
    simp only [primVars.Velocity, vector3d.MagSq]
    rw [hu, hv, hw]
    linear_combination (-4 * q) * hq' + 4 * q * q * hnn
  have hH : R.Enthalpy g = L.Enthalpy g := by
    simp only [primVars.Enthalpy, primVars.P, primVars.Rho, hmag, hp, hrho]
  have hfl : ∀ S : primVars ℝ, inviscidFlux.ofState Real.sqrt S g n
      = { rhoVel := S.rho * (S.u * n.x + S.v * n.y + S.w * n.z)
          rhoVelU := S.rho * (S.u * n.x + S.v * n.y + S.w * n.z) * S.u + S.p * n.x
          rhoVelV := S.rho * (S.u * n.x + S.v * n.y + S.w * n.z) * S.v + S.p * n.y
          rhoVelW := S.rho * (S.u * n.x + S.v * n.y + S.w * n.z) * S.w + S.p * n.z
          rhoVelH := S.rho * (S.u * n.x + S.v * n.y + S.w * n.z) * S.Enthalpy g } := by
    intro S
    simp only [inviscidFlux.ofState, hidem]
    rfl
  have hflux : (RoeFlux Real.sqrt L R g A).1
      = { rhoVel := 0.5 * ((inviscidFlux.ofState Real.sqrt L g n).rhoVel
            + (inviscidFlux.ofState Real.sqrt R g n).rhoVel - l.dissipation 0)
          rhoVelU := 0.5 * ((inviscidFlux.ofState Real.sqrt L g n).rhoVelU
            + (inviscidFlux.ofState Real.sqrt R g n).rhoVelU - l.dissipation 1)
          rhoVelV := 0.5 * ((inviscidFlux.ofState Real.sqrt L g n).rhoVelV
            + (inviscidFlux.ofState Real.sqrt R g n).rhoVelV - l.dissipation 2)
          rhoVelW := 0.5 * ((inviscidFlux.ofState Real.sqrt L g n).rhoVelW
            + (inviscidFlux.ofState Real.sqrt R g n).rhoVelW - l.dissipation 3)
          rhoVelH := 0.5 * ((inviscidFlux.ofState Real.sqrt L g n).rhoVelH
            + (inviscidFlux.ofState Real.sqrt R g n).rhoVelH - l.dissipation 4) } := by
    rw [hnd, hl]; rfl
  rw [hflux]
  simp only [hfl, hdis, w4, w6, hq', hRq, hH, hrho, hp, eq0]
  simp only [Matrix.cons_val_zero, Matrix.cons_val_one, Matrix.head_cons, Matrix.cons_val_two,
    Matrix.tail_cons, Matrix.cons_val_three, Matrix.cons_val_four]
  refine ⟨by ring, by ring,
    L.rho * q * q + L.p + l.waveSpeed 0 * l.waveStrength 0 * l.aR, ?_, ?_, ?_, ?_⟩
  · rw [e2, hu]; ring
  · rw [e3, hv]; ring
  · rw [e4, hw]; ring
  · intro hq0
    have : l.waveStrength 0 = 0 := by
      rw [w1, hp, edv, hq0]; simp
    rw [this, hq0]; ring

/-- The Roe density, the Roe velocity and the Roe normal velocity of `RoeFlux` as
expressions in the two states. -/
theorem roeLocals_averages (sqrt : K → K) (L R : primVars K) (g : idealGas K)
    (A : vector3d K) :
    (roeLocals sqrt L R g A).rhoR = L.rho * sqrt (R.rho / L.rho) ∧
    (roeLocals sqrt L R g A).uR
      = (L.u + sqrt (R.rho / L.rho) * R.u) / (1.0 + sqrt (R.rho / L.rho)) ∧
    (roeLocals sqrt L R g A).vR
      = (L.v + sqrt (R.rho / L.rho) * R.v) / (1.0 + sqrt (R.rho / L.rho)) ∧
    (roeLocals sqrt L R g A).wR
      = (L.w + sqrt (R.rho / L.rho) * R.w) / (1.0 + sqrt (R.rho / L.rho)) ∧
    (roeLocals sqrt L R g A).velRSum
      = (roeLocals sqrt L R g A).uR * (A.divScalar (A.Mag sqrt)).x
        + (roeLocals sqrt L R g A).vR * (A.divScalar (A.Mag sqrt)).y
        + (roeLocals sqrt L R g A).wR * (A.divScalar (A.Mag sqrt)).z :=
  ⟨rfl, rfl, rfl, rfl, rfl⟩

/-- Derivatives of the Roe density and of a Roe velocity component along a curve of
left states: `c0` is the left density, `c1` the left momentum component. -/
theorem roeAverage_hasDerivAt_left (c0 c1 : ℝ → ℝ) (e0 e1 rR uRt : ℝ)
    (h0 : HasDerivAt c0 e0 0) (h1 : HasDerivAt c1 e1 0) (hpos : 0 < c0 0) (hR : 0 < rR) :
    HasDerivAt (fun t => c0 t * Real.sqrt (rR / c0 t))
      (e0 * (0.5 * (c0 0 * Real.sqrt (rR / c0 0)) / c0 0)) 0 ∧
    HasDerivAt (fun t => (c1 t / c0 t + Real.sqrt (rR / c0 t) * uRt)
        / (1.0 + Real.sqrt (rR / c0 t)))
      (e0 * (-0.5 * (c1 0 / c0 0
            + (c1 0 / c0 0 + Real.sqrt (rR / c0 0) * uRt) / (1.0 + Real.sqrt (rR / c0 0)))
          * (1.0 / (c0 0 + c0 0 * Real.sqrt (rR / c0 0))))
        + e1 * (1.0 / (c0 0 + c0 0 * Real.sqrt (rR / c0 0)))) 0 := by
  have h00 : c0 0 ≠ 0 := hpos.ne'
  have hratio : rR / c0 0 ≠ 0 := (div_pos hR hpos).ne'
  have hD := ((hasDerivAt_const (0 : ℝ) rR).div h0 h00).sqrt hratio
  obtain ⟨D, hDdef⟩ : ∃ D : ℝ, D = Real.sqrt (rR / c0 0) := ⟨_, rfl⟩
  have hDD : D * D = rR / c0 0 := by
    rw [hDdef]; exact Real.mul_self_sqrt (div_pos hR hpos).le
  have hRrho : rR = c0 0 * (D * D) := by rw [hDD]; field_simp
  have hD0 : 0 < D := by rw [hDdef]; exact Real.sqrt_pos.mpr (div_pos hR hpos)
  have hDne : D ≠ 0 := hD0.ne'
  have h1D : (1.0 : ℝ) + Real.sqrt (rR / c0 0) ≠ 0 := by
    rw [← hDdef, show (1.0 : ℝ) = 1 by norm_num]; positivity
  have h1D' : (1 : ℝ) + D ≠ 0 := by positivity
  have hsum : c0 0 + c0 0 * D ≠ 0 := by positivity
  refine ⟨?_, ?_⟩
  · refine (h0.mul hD).congr_deriv ?_
    simp only [← hDdef, Pi.div_apply]
    rw [hRrho]
    field_simp
    ring
  · refine (((h1.div h0 h00).add (hD.mul_const uRt)).div (hD.const_add 1.0) h1D).congr_deriv ?_
    simp only [← hDdef, Pi.div_apply, Pi.add_apply, Pi.mul_apply]
    rw [hRrho, show (1.0 : ℝ) = 1 by norm_num]
    field_simp
    ring

/-- Derivatives of the Roe density and of a Roe velocity component along a curve of
right states: `c0` is the right density, `c1` the right momentum component. -/
theorem roeAverage_hasDerivAt_right (c0 c1 : ℝ → ℝ) (e0 e1 rL uLt : ℝ)
    (h0 : HasDerivAt c0 e0 0) (h1 : HasDerivAt c1 e1 0) (hpos : 0 < c0 0) (hL : 0 < rL) :
    HasDerivAt (fun t => rL * Real.sqrt (c0 t / rL))
      (e0 * (0.5 * (rL * Real.sqrt (c0 0 / rL)) / c0 0)) 0 ∧
    HasDerivAt (fun t => (uLt + Real.sqrt (c0 t / rL) * (c1 t / c0 t))
        / (1.0 + Real.sqrt (c0 t / rL)))
      (e0 * (-0.5 * (c1 0 / c0 0
            + (uLt + Real.sqrt (c0 0 / rL) * (c1 0 / c0 0)) / (1.0 + Real.sqrt (c0 0 / rL)))
          * (1.0 / (c0 0 + rL * Real.sqrt (c0 0 / rL))))
        + e1 * (1.0 / (c0 0 + rL * Real.sqrt (c0 0 / rL)))) 0 := by
  have h00 : c0 0 ≠ 0 := hpos.ne'
  have hLne : rL ≠ 0 := hL.ne'
  have hratio : c0 0 / rL ≠ 0 := (div_pos hpos hL).ne'
  have hD := (h0.div_const rL).sqrt hratio
  obtain ⟨D, hDdef⟩ : ∃ D : ℝ, D = Real.sqrt (c0 0 / rL) := ⟨_, rfl⟩
  have hDD : D * D = c0 0 / rL := by
    rw [hDdef]; exact Real.mul_self_sqrt (div_pos hpos hL).le
  have hc : c0 0 = rL * (D * D) := by rw [hDD]; field_simp
  have hD0 : 0 < D := by rw [hDdef]; exact Real.sqrt_pos.mpr (div_pos hpos hL)
  have hDne : D ≠ 0 := hD0.ne'
  have h1D : (1.0 : ℝ) + Real.sqrt (c0 0 / rL) ≠ 0 := by
    rw [← hDdef, show (1.0 : ℝ) = 1 by norm_num]; positivity
  have h1D' : (1 : ℝ) + D ≠ 0 := by positivity
  refine ⟨?_, ?_⟩
  · refine (hD.const_mul rL).congr_deriv ?_
    simp only [← hDdef]
    rw [hc]
    field_simp
    ring
  · refine ((hD.mul (h1.div h0 h00)).const_add uLt |>.div (hD.const_add 1.0) h1D).congr_deriv ?_
    simp only [← hDdef, Pi.div_apply, Pi.add_apply, Pi.mul_apply]
    rw [hc, show (1.0 : ℝ) = 1 by norm_num]
    have h2 : rL * (D * D) + rL * D ≠ 0 := by positivity
    field_simp
    ring

/-- A curve of conserved states through `S` that moves only variable `j`. -/
theorem conserved_curve (S : primVars ℝ) (g : idealGas ℝ) (j : Fin 5) (hS : 0 < S.rho) :
    ∃ c : Fin 5 → ℝ → ℝ, (c = fun k t => S.ConsVars g k + if k = j then t else 0) ∧
      (∀ k, HasDerivAt (c k) (if k = j then 1 else 0) 0) ∧ c 0 0 = S.rho ∧
      c 1 0 / c 0 0 = S.u ∧ c 2 0 / c 0 0 = S.v ∧ c 3 0 / c 0 0 = S.w := by
  refine ⟨_, rfl, ?_, ?_, ?_, ?_, ?_⟩
  · intro k
    by_cases hk : k = j
    · simp only [hk, if_true]
      exact (hasDerivAt_id (0 : ℝ)).const_add _
    · simp only [hk, if_false, add_zero]
      exact hasDerivAt_const _ _
  · simp [primVars.ConsVars, primVars.Rho]
  · have := hS.ne'
    simp [primVars.ConsVars, primVars.Rho, primVars.U]
    field_simp
  · have := hS.ne'
    simp [primVars.ConsVars, primVars.Rho, primVars.V]
    field_simp
  · have := hS.ne'
    simp [primVars.ConsVars, primVars.Rho, primVars.W]
    field_simp

/-- Entry `j` of a five-entry array as a combination of unit-vector coefficients. -/
theorem array_entry_combination (a b c d : ℝ) (j : Fin 5) :
    (if (0 : Fin 5) = j then 1 else 0) * a + (if (1 : Fin 5) = j then 1 else 0) * b
      + (if (2 : Fin 5) = j then 1 else 0) * c + (if (3 : Fin 5) = j then 1 else 0) * d
      = ![a, b, c, d, (0.0 : ℝ)] j := by
  fin_cases j <;> simp [zero_lit]

/-- The arrays `dR_dUl`, `dU_dUl`, `dV_dUl`, `dW_dUl`, `dQr_dUl` hold the derivatives
of the Roe density, the Roe velocity components and the Roe normal velocity with
respect to the left conserved variables. -/
theorem roeAverages_left_hasDerivAt (L R : primVars ℝ) (g : idealGas ℝ) (A : vector3d ℝ)
    (hL : 0 < L.rho) (hR : 0 < R.rho) (j : Fin 5) :
    HasDerivAt (fun t : ℝ => (roeLocals Real.sqrt (primVars.ofConserved Real.sqrt
        (fun k => L.ConsVars g k + if k = j then t else 0) g) R g A).rhoR)
      ((RoeFluxJacobian.leftArrays Real.sqrt L g (roeLocals Real.sqrt L R g A)).dR j) 0 ∧
    HasDerivAt (fun t : ℝ => (roeLocals Real.sqrt (primVars.ofConserved Real.sqrt
        (fun k => L.ConsVars g k + if k = j then t else 0) g) R g A).uR)
      ((RoeFluxJacobian.leftArrays Real.sqrt L g (roeLocals Real.sqrt L R g A)).dU j) 0 ∧
    HasDerivAt (fun t : ℝ => (roeLocals Real.sqrt (primVars.ofConserved Real.sqrt
        (fun k => L.ConsVars g k + if k = j then t else 0) g) R g A).vR)
      ((RoeFluxJacobian.leftArrays Real.sqrt L g (roeLocals Real.sqrt L R g A)).dV j) 0 ∧
    HasDerivAt (fun t : ℝ => (roeLocals Real.sqrt (primVars.ofConserved Real.sqrt
        (fun k => L.ConsVars g k + if k = j then t else 0) g) R g A).wR)
      ((RoeFluxJacobian.leftArrays Real.sqrt L g (roeLocals Real.sqrt L R g A)).dW j) 0 ∧
    HasDerivAt (fun t : ℝ => (roeLocals Real.sqrt (primVars.ofConserved Real.sqrt
        (fun k => L.ConsVars g k + if k = j then t else 0) g) R g A).velRSum)
      ((RoeFluxJacobian.leftArrays Real.sqrt L g (roeLocals Real.sqrt L R g A)).dQr j) 0 := by
  obtain ⟨n, hn⟩ : ∃ n : vector3d ℝ, n = A.divScalar (A.Mag Real.sqrt) := ⟨_, rfl⟩
  obtain ⟨a1, a2, a3, a4, a5⟩ := roeLocals_averages Real.sqrt L R g A
  obtain ⟨c, hc, hcd, hc0, hc1, hc2, hc3⟩ := conserved_curve L g j hL
  have hpos : 0 < c 0 0 := by rw [hc0]; exact hL
  have hfun : ∀ t : ℝ,
      (fun k => L.ConsVars g k + if k = j then t else 0) = fun k => c k t := by
    intro t; rw [hc]
  have hu := roeAverage_hasDerivAt_left (c 0) (c 1) _ _ R.rho R.u (hcd 0) (hcd 1) hpos hR
  have hv := roeAverage_hasDerivAt_left (c 0) (c 2) _ _ R.rho R.v (hcd 0) (hcd 2) hpos hR
  have hw := roeAverage_hasDerivAt_left (c 0) (c 3) _ _ R.rho R.w (hcd 0) (hcd 3) hpos hR
  have hq := ((hu.2.mul_const n.x).add (hv.2.mul_const n.y)).add (hw.2.mul_const n.z)
  simp only [hfun]
  rw [hc1, hc0] at hu
  rw [hc2, hc0] at hv
  rw [hc3, hc0] at hw
  rw [hc1, hc2, hc3, hc0] at hq
  rw [← a1, ← a2] at hu
  rw [← a1, ← a3] at hv
  rw [← a1, ← a4] at hw
  rw [← a1, ← a2, ← a3, ← a4] at hq
  have hA : (roeLocals Real.sqrt L R g A).areaNorm = n := hn.symm ▸ rfl
  rw [hn] at hq
  rw [← hn] at a5
  refine ⟨?_, ?_, ?_, ?_, ?_⟩
  · refine (hu.1.congr_of_eventuallyEq (Eventually.of_forall fun t => rfl)).congr_deriv ?_
    simp only [RoeFluxJacobian.leftArrays, primVars.Rho]
    rw [← array_entry_combination]
    ring
  · refine (hu.2.congr_of_eventuallyEq (Eventually.of_forall fun t => rfl)).congr_deriv ?_
    simp only [RoeFluxJacobian.leftArrays, primVars.Rho, primVars.U]
    rw [← array_entry_combination, zero_lit]
    ring
  · refine (hv.2.congr_of_eventuallyEq (Eventually.of_forall fun t => rfl)).congr_deriv ?_
    simp only [RoeFluxJacobian.leftArrays, primVars.Rho, primVars.V]
    rw [← array_entry_combination, zero_lit]
    ring
  · refine (hw.2.congr_of_eventuallyEq (Eventually.of_forall fun t => rfl)).congr_deriv ?_
    simp only [RoeFluxJacobian.leftArrays, primVars.Rho, primVars.W]
    rw [← array_entry_combination, zero_lit]
    ring
  · refine (hq.congr_of_eventuallyEq (Eventually.of_forall fun t => rfl)).congr_deriv ?_
    rw [← hn]
    simp only [RoeFluxJacobian.leftArrays, hA, primVars.Velocity, vector3d.DotProd,
      primVars.Rho, primVars.U, primVars.V, primVars.W]
    rw [← array_entry_combination, a5]
    ring

/-- The arrays `dR_dUr`, `dU_dUr`, `dV_dUr`, `dW_dUr`, `dQr_dUr` hold the derivatives
of the Roe density, the Roe velocity components and the Roe normal velocity with
respect to the right conserved variables. -/
theorem roeAverages_right_hasDerivAt (L R : primVars ℝ) (g : idealGas ℝ) (A : vector3d ℝ)
    (hL : 0 < L.rho) (hR : 0 < R.rho) (j : Fin 5) :
    HasDerivAt (fun t : ℝ => (roeLocals Real.sqrt L (primVars.ofConserved Real.sqrt
        (fun k => R.ConsVars g k + if k = j then t else 0) g) g A).rhoR)
      ((RoeFluxJacobian.rightArrays Real.sqrt R g (roeLocals Real.sqrt L R g A)).dR j) 0 ∧
    HasDerivAt (fun t : ℝ => (roeLocals Real.sqrt L (primVars.ofConserved Real.sqrt
        (fun k => R.ConsVars g k + if k = j then t else 0) g) g A).uR)
      ((RoeFluxJacobian.rightArrays Real.sqrt R g (roeLocals Real.sqrt L R g A)).dU j) 0 ∧
    HasDerivAt (fun t : ℝ => (roeLocals Real.sqrt L (primVars.ofConserved Real.sqrt
        (fun k => R.ConsVars g k + if k = j then t else 0) g) g A).vR)
      ((RoeFluxJacobian.rightArrays Real.sqrt R g (roeLocals Real.sqrt L R g A)).dV j) 0 ∧
    HasDerivAt (fun t : ℝ => (roeLocals Real.sqrt L (primVars.ofConserved Real.sqrt
        (fun k => R.ConsVars g k + if k = j then t else 0) g) g A).wR)
      ((RoeFluxJacobian.rightArrays Real.sqrt R g (roeLocals Real.sqrt L R g A)).dW j) 0 ∧
    HasDerivAt (fun t : ℝ => (roeLocals Real.sqrt L (primVars.ofConserved Real.sqrt
        (fun k => R.ConsVars g k + if k = j then t else 0) g) g A).velRSum)
      ((RoeFluxJacobian.rightArrays Real.sqrt R g (roeLocals Real.sqrt L R g A)).dQr j) 0 := by
  obtain ⟨n, hn⟩ : ∃ n : vector3d ℝ, n = A.divScalar (A.Mag Real.sqrt) := ⟨_, rfl⟩
  obtain ⟨a1, a2, a3, a4, a5⟩ := roeLocals_averages Real.sqrt L R g A
  obtain ⟨c, hc, hcd, hc0, hc1, hc2, hc3⟩ := conserved_curve R g j hR
  have hpos : 0 < c 0 0 := by rw [hc0]; exact hR
  have hfun : ∀ t : ℝ,
      (fun k => R.ConsVars g k + if k = j then t else 0) = fun k => c k t := by
    intro t; rw [hc]
  have hu := roeAverage_hasDerivAt_right (c 0) (c 1) _ _ L.rho L.u (hcd 0) (hcd 1) hpos hL
  have hv := roeAverage_hasDerivAt_right (c 0) (c 2) _ _ L.rho L.v (hcd 0) (hcd 2) hpos hL
  have hw := roeAverage_hasDerivAt_right (c 0) (c 3) _ _ L.rho L.w (hcd 0) (hcd 3) hpos hL
  have hq := ((hu.2.mul_const n.x).add (hv.2.mul_const n.y)).add (hw.2.mul_const n.z)
  simp only [hfun]
  rw [hc1, hc0] at hu
  rw [hc2, hc0] at hv
  rw [hc3, hc0] at hw
  rw [hc1, hc2, hc3, hc0] at hq
  rw [← a1, ← a2] at hu
  rw [← a1, ← a3] at hv
  rw [← a1, ← a4] at hw
  rw [← a1, ← a2, ← a3, ← a4] at hq
  have hA : (roeLocals Real.sqrt L R g A).areaNorm = n := hn.symm ▸ rfl
  rw [hn] at hq
  rw [← hn] at a5
  refine ⟨?_, ?_, ?_, ?_, ?_⟩
  · refine (hu.1.congr_of_eventuallyEq (Eventually.of_forall fun t => rfl)).congr_deriv ?_
    simp only [RoeFluxJacobian.rightArrays, primVars.Rho]
    rw [← array_entry_combination]
    ring
  · refine (hu.2.congr_of_eventuallyEq (Eventually.of_forall fun t => rfl)).congr_deriv ?_
    simp only [RoeFluxJacobian.rightArrays, primVars.Rho, primVars.U]
    rw [← array_entry_combination, zero_lit]
    ring
  · refine (hv.2.congr_of_eventuallyEq (Eventually.of_forall fun t => rfl)).congr_deriv ?_
    simp only [RoeFluxJacobian.rightArrays, primVars.Rho, primVars.V]
    rw [← array_entry_combination, zero_lit]
    ring
  · refine (hw.2.congr_of_eventuallyEq (Eventually.of_forall fun t => rfl)).congr_deriv ?_
    simp only [RoeFluxJacobian.rightArrays, primVars.Rho, primVars.W]
    rw [← array_entry_combination, zero_lit]
    ring
  · refine (hq.congr_of_eventuallyEq (Eventually.of_forall fun t => rfl)).congr_deriv ?_
    rw [← hn]
    simp only [RoeFluxJacobian.rightArrays, hA, primVars.Velocity, vector3d.DotProd,
      primVars.Rho, primVars.U, primVars.V, primVars.W]
    rw [← array_entry_combination, a5]
    ring

/-- The sum of the four Roe waves, written with the Roe averages: mass
component. -/
theorem roeWaveSum_mass (a dp dr dq r : ℝ) (ha : a ≠ 0) :
    (dp - r * a * dq) / (2 * a * a) * 1 + (dr - dp / (a * a)) * 1
      + (dp + r * a * dq) / (2 * a * a) * 1 + r * 0 = dr := by
  field_simp
  ring

/-- The sum of the four Roe waves, written with the Roe averages: a momentum
component. -/
theorem roeWaveSum_momentum (a dp dr dq r u du nx : ℝ) (ha : a ≠ 0) :
    (dp - r * a * dq) / (2 * a * a) * (u - a * nx) + (dr - dp / (a * a)) * u
      + (dp + r * a * dq) / (2 * a * a) * (u + a * nx) + r * (du - dq * nx)
      = u * dr + r * du := by
  field_simp
  ring

/-- The sum of the four Roe waves, written with the Roe averages: energy
component, with the Roe enthalpy `a^2/(gamma-1) + ke`. -/
theorem roeWaveSum_energy (a dp dr dq r q gm ke uvd : ℝ) (ha : a ≠ 0) (hg : gm ≠ 0) :
    (dp - r * a * dq) / (2 * a * a) * (a * a / gm + ke - a * q) + (dr - dp / (a * a)) * ke
      + (dp + r * a * dq) / (2 * a * a) * (a * a / gm + ke + a * q) + r * (uvd - q * dq)
      = dp / gm + ke * dr + r * uvd := by
  field_simp
  ring

/-- Roe averaging of a product: with `rhoR = rhoL * D`, `rho_R = rhoL * D^2` and
`uR = (uL + D * u_R) / (1 + D)`, the jump of `rho * u` is
`uR * (rho_R - rho_L) + rhoR * (u_R - u_L)`. -/
theorem roeAverage_jump_linear (rhoL D uL uR : ℝ) (hD : 1 + D ≠ 0) :
    (uL + D * uR) / (1 + D) * (rhoL * (D * D) - rhoL) + rhoL * D * (uR - uL)
      = rhoL * (D * D) * uR - rhoL * uL := by
  field_simp
  ring

/-- Roe averaging of a square: the jump of `rho * u^2` is
`uR^2 * (rho_R - rho_L) + 2 * rhoR * uR * (u_R - u_L)`. -/
theorem roeAverage_jump_square (rhoL D uL uR : ℝ) (hD : 1 + D ≠ 0) :
    (uL + D * uR) / (1 + D) * ((uL + D * uR) / (1 + D)) * (rhoL * (D * D) - rhoL)
        + 2 * (rhoL * D) * ((uL + D * uR) / (1 + D)) * (uR - uL)
      = rhoL * (D * D) * (uR * uR) - rhoL * (uL * uL) := by
  field_simp
  ring

/-- The dissipation of `RoeFlux` when the four wave speeds are the eigenvalues
`q - a`, `q`, `q + a`, `q` times a common sign `s`: mass component. -/
theorem roeWaveFlux_mass (a dp dr dq r q s : ℝ) (ha : a ≠ 0) :
    s * (q - a) * ((dp - r * a * dq) / (2 * a * a)) * 1
      + s * q * (dr - dp / (a * a)) * 1
      + s * (q + a) * ((dp + r * a * dq) / (2 * a * a)) * 1 + s * q * r * 0
      = s * (q * dr + r * dq) := by
  field_simp
  ring

/-- The dissipation of `RoeFlux` with signed eigenvalues as wave speeds: a
momentum component. -/
theorem roeWaveFlux_momentum (a dp dr dq r q s u du nx : ℝ) (ha : a ≠ 0) :
    s * (q - a) * ((dp - r * a * dq) / (2 * a * a)) * (u - a * nx)
      + s * q * (dr - dp / (a * a)) * u
      + s * (q + a) * ((dp + r * a * dq) / (2 * a * a)) * (u + a * nx)
      + s * q * r * (du - dq * nx)
      = s * (u * q * dr + u * r * dq + q * r * du + dp * nx) := by
  field_simp
  ring

/-- The dissipation of `RoeFlux` with signed eigenvalues as wave speeds: energy
component, for a Roe enthalpy `h = a^2/(gamma-1) + ke`. -/
theorem roeWaveFlux_energy (a dp dr dq r q s gm ke uvd h : ℝ) (ha : a ≠ 0) (hg : gm ≠ 0)
    (hh : h = a * a / gm + ke) :
    s * (q - a) * ((dp - r * a * dq) / (2 * a * a)) * (h - a * q)
      + s * q * (dr - dp / (a * a)) * ke
      + s * (q + a) * ((dp + r * a * dq) / (2 * a * a)) * (h + a * q)
      + s * q * r * (uvd - q * dq)
      = s * (q * dp / gm + q * dp + h * r * dq + q * ke * dr + q * r * uvd) := by
  subst hh
  field_simp
  ring

/-- Roe averaging of a product of two quantities: the jump of `rho * u * v` is
`uR * vR * (rho_R - rho_L) + rhoR * uR * (v_R - v_L) + rhoR * vR * (u_R - u_L)`. -/
theorem roeAverage_jump_product (rhoL D uL uR vL vR : ℝ) (hD : 1 + D ≠ 0) :
    (uL + D * uR) / (1 + D) * ((vL + D * vR) / (1 + D)) * (rhoL * (D * D) - rhoL)
        + rhoL * D * ((uL + D * uR) / (1 + D)) * (vR - vL)
        + rhoL * D * ((vL + D * vR) / (1 + D)) * (uR - uL)
      = rhoL * (D * D) * (uR * vR) - rhoL * (uL * vL) := by
  field_simp
  ring

/-- For positive densities and pressures and `gamma > 1` the argument of the
square root that gives the Roe speed of sound is positive. -/
theorem roeLocals_aR_arg_pos (L R : primVars ℝ) (g : idealGas ℝ) (A : vector3d ℝ)
    (hL : 0 < L.rho) (hR : 0 < R.rho) (hpL : 0 < L.p) (hpR : 0 < R.p) (hg : 1 < g.gamma)
    {l : RoeLocals ℝ} (hl : l = roeLocals Real.sqrt L R g A) :
    0 < (g.gamma - 1) * (l.hR - 1 / 2 * (l.uR * l.uR + l.vR * l.vR + l.wR * l.wR)) := by
  obtain ⟨hd, -, h2, h3, h4, h5, -, -, -, -⟩ := roeLocals_fields Real.sqrt L R g A hl
  obtain ⟨D, hD⟩ : ∃ D : ℝ, D = l.denRatio := ⟨_, rfl⟩
  rw [← hD] at hd h2 h3 h4 h5
  have hDpos : 0 < D := by rw [hd]; exact Real.sqrt_pos.mpr (div_pos hR hL)
  have hg1 : 0 < g.gamma - 1 := by linarith
  have h1D : 0 < 1 + D := by positivity
  have hcL : 0 < g.gamma / (g.gamma - 1) * L.p / L.rho := by positivity
  have hcR : 0 < g.gamma / (g.gamma - 1) * R.p / R.rho := by positivity
  have key : l.hR - 1 / 2 * (l.uR * l.uR + l.vR * l.vR + l.wR * l.wR)
      = (g.gamma / (g.gamma - 1) * L.p / L.rho + D * (g.gamma / (g.gamma - 1) * R.p / R.rho))
          / (1 + D)
        + 1 / 2 * D * ((L.u - R.u) * (L.u - R.u) + (L.v - R.v) * (L.v - R.v)
          + (L.w - R.w) * (L.w - R.w)) / ((1 + D) * (1 + D)) := by
    rw [h5, h2, h3, h4]
    simp only [primVars.Enthalpy, idealGas.Gamma, primVars.P, primVars.Rho, primVars.Velocity,
      vector3d.MagSq]
    rw [show (1.0 : ℝ) = 1 by norm_num, show (0.5 : ℝ) = 1 / 2 by norm_num]
    field_simp
    ring
  rw [key]
  have hsq : 0 ≤ (L.u - R.u) * (L.u - R.u) + (L.v - R.v) * (L.v - R.v)
      + (L.w - R.w) * (L.w - R.w) := by
    nlinarith [mul_self_nonneg (L.u - R.u), mul_self_nonneg (L.v - R.v),
      mul_self_nonneg (L.w - R.w)]
  have t1 : 0 < (g.gamma / (g.gamma - 1) * L.p / L.rho
      + D * (g.gamma / (g.gamma - 1) * R.p / R.rho)) / (1 + D) := by positivity
  have t2 : 0 ≤ 1 / 2 * D * ((L.u - R.u) * (L.u - R.u) + (L.v - R.v) * (L.v - R.v)
      + (L.w - R.w) * (L.w - R.w)) / ((1 + D) * (1 + D)) := by positivity
  exact mul_pos hg1 (by linarith)

/-- When the wave speeds of `RoeFlux` are the eigenvalues `q - a`, `q`, `q + a`,
`q` times a common sign `s` and the Roe speed of sound is not zero, the
dissipation is `s` times the jump of the physical flux (Roe's property). -/
theorem roeLocals_dissipation_signed (L R : primVars ℝ) (g : idealGas ℝ) (A : vector3d ℝ)
    (hL : 0 < L.rho) (hR : 0 < R.rho) (s : ℝ) {l : RoeLocals ℝ}
    (hl : l = roeLocals Real.sqrt L R g A) (ha : l.aR ≠ 0)
    (hws : l.waveSpeed = ![s * (l.velRSum - l.aR), s * l.velRSum, s * (l.velRSum + l.aR),
      s * l.velRSum]) (ii : Fin 5) :
    l.dissipation ii
      = s * ((inviscidFlux.ofState Real.sqrt R g A).ConvertToColMatrix ii
        - (inviscidFlux.ofState Real.sqrt L g A).ConvertToColMatrix ii) := by
  obtain ⟨hd, hr, h2, h3, h4, h5, h6, hn, hq, hdv⟩ := roeLocals_fields Real.sqrt L R g A hl
  obtain ⟨w1, -, -, w4, w5, w6, w7, w8⟩ := roeLocals_waves Real.sqrt L R g A hl
  obtain ⟨n, hnd⟩ : ∃ n : vector3d ℝ, n = l.areaNorm := ⟨_, rfl⟩
  rw [← hnd] at hq hdv w4 w6 w7 hn
  obtain ⟨D, hD⟩ : ∃ D : ℝ, D = l.denRatio := ⟨_, rfl⟩
  rw [← hD] at hd hr h2 h3 h4 h5
  have hDpos : 0 < D := by rw [hd]; exact Real.sqrt_pos.mpr (div_pos hR hL)
  have hDD : D * D = R.rho / L.rho := by rw [hd]; exact Real.mul_self_sqrt (div_pos hR hL).le
  have hRrho : R.rho = L.rho * (D * D) := by rw [hDD]; field_simp
  have h1D : 1 + D ≠ 0 := by positivity
  have harg : 0 < (g.gamma - 1)
      * (l.hR - 1 / 2 * (l.uR * l.uR + l.vR * l.vR + l.wR * l.wR)) := by
    by_contra hneg
    exact ha (by rw [h6]; exact Real.sqrt_eq_zero_of_nonpos (not_lt.mp hneg))
  have haa : l.aR * l.aR = (g.gamma - 1)
      * (l.hR - 1 / 2 * (l.uR * l.uR + l.vR * l.vR + l.wR * l.wR)) := by
    rw [h6]; exact Real.mul_self_sqrt harg.le
  have hg1 : g.gamma - 1 ≠ 0 := by
    intro h0; rw [h0, zero_mul] at harg; exact lt_irrefl _ harg
  have hH : l.hR = l.aR * l.aR / (g.gamma - 1)
      + 1 / 2 * (l.uR * l.uR + l.vR * l.vR + l.wR * l.wR) := by
    rw [haa]; field_simp; ring
  have hq' : l.velRSum = ((L.u * n.x + L.v * n.y + L.w * n.z)
      + D * (R.u * n.x + R.v * n.y + R.w * n.z)) / (1 + D) := by
    rw [hq, h2, h3, h4]; field_simp; ring
  have hE : ∀ S : primVars ℝ, S.rho ≠ 0 → S.rho * S.Enthalpy g
      = S.p / (g.gamma - 1) + S.p + 1 / 2 * S.rho * (S.u * S.u + S.v * S.v + S.w * S.w) := by
    intro S hS
    simp only [primVars.Enthalpy, idealGas.Gamma, primVars.P, primVars.Rho, primVars.Velocity,
      vector3d.MagSq]
    rw [show (1.0 : ℝ) = 1 by norm_num, show (0.5 : ℝ) = 1 / 2 by norm_num]
    field_simp
    ring
  have hEL := hE L hL.ne'
  have hER := hE R hR.ne'
  -- Roe averaging identities in the locals
  have Iq := roeAverage_jump_linear L.rho D (L.u * n.x + L.v * n.y + L.w * n.z)
    (R.u * n.x + R.v * n.y + R.w * n.z) h1D
  have IH := roeAverage_jump_linear L.rho D (L.Enthalpy g) (R.Enthalpy g) h1D
  have Iuq := roeAverage_jump_product L.rho D L.u R.u (L.u * n.x + L.v * n.y + L.w * n.z)
    (R.u * n.x + R.v * n.y + R.w * n.z) h1D
  have Ivq := roeAverage_jump_product L.rho D L.v R.v (L.u * n.x + L.v * n.y + L.w * n.z)
    (R.u * n.x + R.v * n.y + R.w * n.z) h1D
  have Iwq := roeAverage_jump_product L.rho D L.w R.w (L.u * n.x + L.v * n.y + L.w * n.z)
    (R.u * n.x + R.v * n.y + R.w * n.z) h1D
  have IHq := roeAverage_jump_product L.rho D (L.Enthalpy g) (R.Enthalpy g)
    (L.u * n.x + L.v * n.y + L.w * n.z) (R.u * n.x + R.v * n.y + R.w * n.z) h1D
  have Sx := roeAverage_jump_square L.rho D L.u R.u h1D
  have Sy := roeAverage_jump_square L.rho D L.v R.v h1D
  have Sz := roeAverage_jump_square L.rho D L.w R.w h1D
  rw [← hq'] at Iq Iuq Ivq Iwq IHq
  rw [← h2] at Iuq Sx
  rw [← h3] at Ivq Sy
  rw [← h4] at Iwq Sz
  rw [← h5] at IH IHq
  rw [← hr, ← hRrho] at Iq IH Iuq Ivq Iwq IHq Sx Sy Sz
  rw [← hdv] at Iq Iuq Ivq Iwq IHq
  obtain ⟨a, hadef⟩ : ∃ a : ℝ, a = l.aR := ⟨_, rfl⟩
  rw [← hadef] at ha hH w1 w4 w6 hws
  have hfl : ∀ S : primVars ℝ, inviscidFlux.ofState Real.sqrt S g A
      = { rhoVel := S.rho * (S.u * n.x + S.v * n.y + S.w * n.z)
          rhoVelU := S.rho * (S.u * n.x + S.v * n.y + S.w * n.z) * S.u + S.p * n.x
          rhoVelV := S.rho * (S.u * n.x + S.v * n.y + S.w * n.z) * S.v + S.p * n.y
          rhoVelW := S.rho * (S.u * n.x + S.v * n.y + S.w * n.z) * S.w + S.p * n.z
          rhoVelH := S.rho * (S.u * n.x + S.v * n.y + S.w * n.z) * S.Enthalpy g } := by
    intro S
    simp only [inviscidFlux.ofState, ← hn]
    rfl
  rw [w8 ii, hws, w1, w4, w5, w6, w7, hfl, hfl]
  fin_cases ii
  · simp only [Fin.zero_eta, Fin.isValue, Matrix.cons_val_zero, Matrix.cons_val_one,
      Matrix.head_cons, Matrix.cons_val_two, Matrix.tail_cons, Matrix.cons_val_three,
      inviscidFlux.ConvertToColMatrix]
    linear_combination roeWaveFlux_mass a (R.p - L.p) (R.rho - L.rho) l.normVelDiff l.rhoR
      l.velRSum s ha + s * Iq
  · simp only [Fin.mk_one, Fin.isValue, Matrix.cons_val_zero, Matrix.cons_val_one,
      Matrix.head_cons, Matrix.cons_val_two, Matrix.tail_cons, Matrix.cons_val_three,
      inviscidFlux.ConvertToColMatrix]
    linear_combination roeWaveFlux_momentum a (R.p - L.p) (R.rho - L.rho) l.normVelDiff l.rhoR
      l.velRSum s l.uR (R.u - L.u) n.x ha + s * Iuq
  · simp only [Fin.reduceFinMk, Fin.isValue, Matrix.cons_val_zero, Matrix.cons_val_one,
      Matrix.head_cons, Matrix.cons_val_two, Matrix.tail_cons, Matrix.cons_val_three,
      inviscidFlux.ConvertToColMatrix]
    linear_combination roeWaveFlux_momentum a (R.p - L.p) (R.rho - L.rho) l.normVelDiff l.rhoR
      l.velRSum s l.vR (R.v - L.v) n.y ha + s * Ivq
  · simp only [Fin.reduceFinMk, Fin.isValue, Matrix.cons_val_zero, Matrix.cons_val_one,
      Matrix.head_cons, Matrix.cons_val_two, Matrix.tail_cons, Matrix.cons_val_three,
      inviscidFlux.ConvertToColMatrix]
    linear_combination roeWaveFlux_momentum a (R.p - L.p) (R.rho - L.rho) l.normVelDiff l.rhoR
      l.velRSum s l.wR (R.w - L.w) n.z ha + s * Iwq
  · simp only [Fin.reduceFinMk, Fin.isValue, Matrix.cons_val_zero, Matrix.cons_val_one,
      Matrix.head_cons, Matrix.cons_val_two, Matrix.tail_cons, Matrix.cons_val_three,
      Matrix.cons_val_four, inviscidFlux.ConvertToColMatrix]
    linear_combination roeWaveFlux_energy a (R.p - L.p) (R.rho - L.rho) l.normVelDiff l.rhoR
        l.velRSum s (g.gamma - 1) (1 / 2 * (l.uR * l.uR + l.vR * l.vR + l.wR * l.wR))
        (l.uR * (R.u - L.u) + l.vR * (R.v - L.v) + l.wR * (R.w - L.w)) l.hR ha hg1 hH
      + s * IHq - s * l.velRSum * IH - s * l.velRSum * (hER - hEL)
      + s * l.velRSum / 2 * (Sx + Sy + Sz)

/-- Building the physical flux from the normalised area vector gives the flux
built from the area vector itself. -/
theorem inviscidFlux.ofState_normalized (S : primVars ℝ) (g : idealGas ℝ) (A : vector3d ℝ)
    (hA : A ≠ ⟨0, 0, 0⟩) :
    inviscidFlux.ofState Real.sqrt S g (A.divScalar (A.Mag Real.sqrt))
      = inviscidFlux.ofState Real.sqrt S g A := by
  simp only [inviscidFlux.ofState, vector3d.normalize_idem A hA]

/-- The flux of `RoeFlux` in terms of the two physical fluxes and the
dissipation. -/
theorem RoeFlux_fst (L R : primVars ℝ) (g : idealGas ℝ) (A : vector3d ℝ)
    (hA : A ≠ ⟨0, 0, 0⟩) :
    (RoeFlux Real.sqrt L R g A).1
      = { rhoVel := 0.5 * ((inviscidFlux.ofState Real.sqrt L g A).rhoVel
            + (inviscidFlux.ofState Real.sqrt R g A).rhoVel
            - (roeLocals Real.sqrt L R g A).dissipation 0)
          rhoVelU := 0.5 * ((inviscidFlux.ofState Real.sqrt L g A).rhoVelU
            + (inviscidFlux.ofState Real.sqrt R g A).rhoVelU
            - (roeLocals Real.sqrt L R g A).dissipation 1)
          rhoVelV := 0.5 * ((inviscidFlux.ofState Real.sqrt L g A).rhoVelV
            + (inviscidFlux.ofState Real.sqrt R g A).rhoVelV
            - (roeLocals Real.sqrt L R g A).dissipation 2)
          rhoVelW := 0.5 * ((inviscidFlux.ofState Real.sqrt L g A).rhoVelW
            + (inviscidFlux.ofState Real.sqrt R g A).rhoVelW
            - (roeLocals Real.sqrt L R g A).dissipation 3)
          rhoVelH := 0.5 * ((inviscidFlux.ofState Real.sqrt L g A).rhoVelH
            + (inviscidFlux.ofState Real.sqrt R g A).rhoVelH
            - (roeLocals Real.sqrt L R g A).dissipation 4) } := by
  have hn : (roeLocals Real.sqrt L R g A).areaNorm = A.divScalar (A.Mag Real.sqrt) := rfl
  rw [← inviscidFlux.ofState_normalized L g A hA, ← inviscidFlux.ofState_normalized R g A hA,
    ← hn]
  rfl

/-- The central flux minus `s` times half the flux jump is the left flux for
`s = 1` and the right flux for `s = -1`. -/
theorem inviscidFlux.upwind_combination (F G : inviscidFlux ℝ) (d : Fin 5 → ℝ) (s : ℝ)
    (hd : ∀ ii, d ii = s * (G.ConvertToColMatrix ii - F.ConvertToColMatrix ii)) :
    (s = 1 → ({ rhoVel := 0.5 * (F.rhoVel + G.rhoVel - d 0)
                rhoVelU := 0.5 * (F.rhoVelU + G.rhoVelU - d 1)
                rhoVelV := 0.5 * (F.rhoVelV + G.rhoVelV - d 2)
                rhoVelW := 0.5 * (F.rhoVelW + G.rhoVelW - d 3)
                rhoVelH := 0.5 * (F.rhoVelH + G.rhoVelH - d 4) } : inviscidFlux ℝ) = F) ∧
    (s = -1 → ({ rhoVel := 0.5 * (F.rhoVel + G.rhoVel - d 0)
                 rhoVelU := 0.5 * (F.rhoVelU + G.rhoVelU - d 1)
                 rhoVelV := 0.5 * (F.rhoVelV + G.rhoVelV - d 2)
                 rhoVelW := 0.5 * (F.rhoVelW + G.rhoVelW - d 3)
                 rhoVelH := 0.5 * (F.rhoVelH + G.rhoVelH - d 4) } : inviscidFlux ℝ) = G) := by
  rw [hd 0, hd 1, hd 2, hd 3, hd 4]
  cases F
  cases G
  simp only [inviscidFlux.ConvertToColMatrix, Matrix.cons_val_zero, Matrix.cons_val_one,
    Matrix.head_cons, Matrix.cons_val_two, Matrix.tail_cons, Matrix.cons_val_three,
    Matrix.cons_val_four]
  constructor
  · intro hs; subst hs; congr 1 <;> ring
  · intro hs; subst hs; congr 1 <;> ring

/-- The Roe locals for the supersonic pair `L = (rho=1, u=3, v=w=0, p=1)`,
`R = (rho=4, u=6, v=w=0, p=4/7)`, `gamma = 1.4`, area vector `(1,0,0)`: the Roe
normal velocity is 5 and the Roe speed of sound is 1. -/
theorem supersonic_example_locals {l : RoeLocals ℝ}
    (hl : l = roeLocals Real.sqrt ⟨1, 3, 0, 0, 1⟩ ⟨4, 6, 0, 0, 4 / 7⟩ ⟨1.4⟩ ⟨1, 0, 0⟩) :
    l.velRSum = 5 ∧ l.aR = 1 := by
  obtain ⟨hd, -, h2, h3, h4, h5, h6, hn, hq, -⟩ := roeLocals_fields Real.sqrt _ _ _ _ hl
  have h4' : Real.sqrt 4 = 2 := by
    rw [show (4 : ℝ) = 2 * 2 by norm_num]; exact Real.sqrt_mul_self (by norm_num)
  have d1 : l.denRatio = 2 := by rw [hd]; norm_num [h4']
  rw [d1] at h2 h3 h4 h5
  have e2 : l.uR = 5 := by rw [h2]; norm_num
  have e3 : l.vR = 0 := by rw [h3]; norm_num
  have e4 : l.wR = 0 := by rw [h4]; norm_num
  have e5 : l.hR = 15 := by
    rw [h5]; norm_num [primVars.Enthalpy, idealGas.Gamma, primVars.P, primVars.Rho,
      primVars.Velocity, vector3d.MagSq]
  have hn' : l.areaNorm = ⟨1, 0, 0⟩ := by
    rw [hn]; simp [vector3d.divScalar, vector3d.Mag]
  refine ⟨by rw [hq, e2, e3, e4, hn']; norm_num, ?_⟩
  rw [h6, e2, e3, e4, e5]
  rw [show ((⟨1.4⟩ : idealGas ℝ).gamma - 1) * (15 - 1 / 2 * (5 * 5 + 0 * 0 + 0 * 0)) = 1
    by norm_num, Real.sqrt_one]

/-- The Roe locals for the same supersonic pair seen from the other side, area
vector `(-1,0,0)`: the Roe normal velocity is -5 and the Roe speed of sound is 1. -/
theorem supersonic_example_locals_reversed {l : RoeLocals ℝ}
    (hl : l = roeLocals Real.sqrt ⟨1, 3, 0, 0, 1⟩ ⟨4, 6, 0, 0, 4 / 7⟩ ⟨1.4⟩ ⟨-1, 0, 0⟩) :
    l.velRSum = -5 ∧ l.aR = 1 := by
  obtain ⟨hd, -, h2, h3, h4, h5, h6, hn, hq, -⟩ := roeLocals_fields Real.sqrt _ _ _ _ hl
  have h4' : Real.sqrt 4 = 2 := by
    rw [show (4 : ℝ) = 2 * 2 by norm_num]; exact Real.sqrt_mul_self (by norm_num)
  have d1 : l.denRatio = 2 := by rw [hd]; norm_num [h4']
  rw [d1] at h2 h3 h4 h5
  have e2 : l.uR = 5 := by rw [h2]; norm_num
  have e3 : l.vR = 0 := by rw [h3]; norm_num
  have e4 : l.wR = 0 := by rw [h4]; norm_num
  have e5 : l.hR = 15 := by
    rw [h5]; norm_num [primVars.Enthalpy, idealGas.Gamma, primVars.P, primVars.Rho,
      primVars.Velocity, vector3d.MagSq]
  have hn' : l.areaNorm = ⟨-1, 0, 0⟩ := by
    rw [hn]; simp [vector3d.divScalar, vector3d.Mag]
  refine ⟨by rw [hq, e2, e3, e4, hn']; norm_num, ?_⟩
  rw [h6, e2, e3, e4, e5]
  rw [show ((⟨1.4⟩ : idealGas ℝ).gamma - 1) * (15 - 1 / 2 * (5 * 5 + 0 * 0 + 0 * 0)) = 1
    by norm_num, Real.sqrt_one]

/-- The dissipation part of `RoeFluxJacobian` under the exchange that maps the
right-state half of one call to the left-state half of the mirrored call: when the
Roe averages agree, the normal and the normal Roe velocity are reversed, the two
acoustic waves trade places and the derivative arrays change sign as listed, every
entry of the assembled matrix changes sign. -/
theorem RoeFluxJacobian.assemble_mirror (left right : primVars ℝ) (l l' : RoeLocals ℝ)
    (d d' : RoeJacArrays ℝ) (phys phys' : squareMatrix ℝ)
    (hphys : ∀ i j, phys' i j = -phys i j)
    (e1 : l'.rhoR = l.rhoR) (e2 : l'.uR = l.uR) (e3 : l'.vR = l.vR) (e4 : l'.wR = l.wR)
    (e6 : l'.aR = l.aR) (e7 : l'.areaNorm = l.areaNorm.neg) (e8 : l'.velRSum = -l.velRSum)
    (e9 : l'.normVelDiff = l.normVelDiff)
    (s0 : l'.waveStrength 0 = -l.waveStrength 2) (s1 : l'.waveStrength 1 = -l.waveStrength 1)
    (s2 : l'.waveStrength 2 = -l.waveStrength 0) (s3 : l'.waveStrength 3 = l.waveStrength 3)
    (v0 : l'.waveSpeed 0 = l.waveSpeed 2) (v1 : l'.waveSpeed 1 = l.waveSpeed 1)
    (v2 : l'.waveSpeed 2 = l.waveSpeed 0) (v3 : l'.waveSpeed 3 = l.waveSpeed 3)
    (g0 : ∀ kk, l'.lAcousticEigV kk = l.rAcousticEigV kk)
    (g1 : ∀ kk, l'.entropyEigV kk = l.entropyEigV kk)
    (g2 : ∀ kk, l'.rAcousticEigV kk = l.lAcousticEigV kk)
    (g3 : ∀ kk, l'.shearEigV kk = -l.shearEigV kk)
    (a1 : ∀ kk, d'.dQr kk = -d.dQr kk) (a2 : ∀ kk, d'.dAbsQr kk = d.dAbsQr kk)
    (a3 : ∀ kk, d'.dA kk = d.dA kk) (a4 : ∀ kk, d'.dR kk = d.dR kk)
    (a5 : ∀ kk, d'.dU kk = d.dU kk) (a6 : ∀ kk, d'.dV kk = d.dV kk)
    (a7 : ∀ kk, d'.dW kk = d.dW kk) (a8 : ∀ kk, d'.dH kk = d.dH kk)
    (a9 : ∀ kk, d'.dDeltR kk = -d.dDeltR kk) (a10 : ∀ kk, d'.dDeltP kk = -d.dDeltP kk)
    (a11 : ∀ kk, d'.dDeltVmag kk = d.dDeltVmag kk) (a12 : ∀ kk, d'.dDeltU kk = -d.dDeltU kk)
    (a13 : ∀ kk, d'.dDeltV kk = -d.dDeltV kk) (a14 : ∀ kk, d'.dDeltW kk = -d.dDeltW kk)
    (b1 : ∀ kk, RoeFluxJacobian.dWs1 l' d' kk = RoeFluxJacobian.dWs3 l d kk)
    (b3 : ∀ kk, RoeFluxJacobian.dWs3 l' d' kk = RoeFluxJacobian.dWs1 l d kk)
    (i j : Fin 5) :
    RoeFluxJacobian.assemble right left l' d' phys' i j
      = -RoeFluxJacobian.assemble left right l d phys i j := by
  simp only [RoeFluxJacobian.assemble, squareMatrix.sub, squareMatrix.lscale,
    squareMatrix.Data, hphys, e1, e2, e3, e4, e6, e7, e8, e9, s0, s1, s2, s3, v0, v1, v2, v3,
    g0, g1, g2, g3, a1, a2, a3, a4, a5, a6, a7, a8, a9, a10, a11, a12, a13, a14, b1, b3,
    vector3d.neg, primVars.P, primVars.U, primVars.V, primVars.W]
  fin_cases i <;> simp <;> ring

/-- The wave strengths, wave speeds and eigenvectors of the mirrored call of
`RoeFlux`: the two acoustic waves trade places, the wave strengths of the acoustic
and entropy waves and the shear eigenvector change sign. -/
theorem roeLocals_waves_swap (L R : primVars ℝ) (g : idealGas ℝ) (A : vector3d ℝ)
    (hL : 0 < L.rho) (hR : 0 < R.rho)
    {l l' : RoeLocals ℝ} (hl : l = roeLocals Real.sqrt L R g A)
    (hl' : l' = roeLocals Real.sqrt R L g A.neg) :
    (l'.waveStrength 0 = -l.waveStrength 2 ∧ l'.waveStrength 1 = -l.waveStrength 1 ∧
      l'.waveStrength 2 = -l.waveStrength 0 ∧ l'.waveStrength 3 = l.waveStrength 3) ∧
    (l'.waveSpeed 0 = l.waveSpeed 2 ∧ l'.waveSpeed 1 = l.waveSpeed 1 ∧
      l'.waveSpeed 2 = l.waveSpeed 0 ∧ l'.waveSpeed 3 = l.waveSpeed 3) ∧
    (∀ kk, l'.lAcousticEigV kk = l.rAcousticEigV kk) ∧
    (∀ kk, l'.entropyEigV kk = l.entropyEigV kk) ∧
    (∀ kk, l'.rAcousticEigV kk = l.lAcousticEigV kk) ∧
    (∀ kk, l'.shearEigV kk = -l.shearEigV kk) := by
  obtain ⟨e1, e2, e3, e4, e5, e6, e7, e8, e9⟩ := roeLocals_swap L R g A hL hR hl hl'
  obtain ⟨w1, -, w3, w4, w5, w6, w7, -⟩ := roeLocals_waves Real.sqrt L R g A hl
  obtain ⟨w1', -, w3', w4', w5', w6', w7', -⟩ := roeLocals_waves Real.sqrt R L g A.neg hl'
  rw [w1, w1', w3, w3', w4, w4', w5, w5', w6, w6', w7, w7', e1, e2, e3, e4, e5, e6, e7,
    e8, e9]
  have h1 : |-l.velRSum - l.aR| = |l.velRSum + l.aR| := by
    rw [← abs_neg]; ring_nf
  have h2 : |-l.velRSum + l.aR| = |l.velRSum - l.aR| := by
    rw [← abs_neg]; ring_nf
  rw [h1, h2, abs_neg]
  refine ⟨⟨?_, ?_, ?_, ?_⟩, ⟨?_, ?_, ?_, ?_⟩, ?_, ?_, ?_, ?_⟩
  · simp; ring
  · simp; ring
  · simp; ring
  · simp
  · simp
  · simp
  · simp
  · simp
  · intro kk; fin_cases kk <;> simp [vector3d.neg]
  · intro kk; fin_cases kk <;> simp
  · intro kk; fin_cases kk <;> simp [vector3d.neg] <;> ring1
  · intro kk; fin_cases kk <;> simp [vector3d.neg] <;> ring1

/-- The value of `std::copysign(1.0, x)` at the reversed argument, away from zero. -/
theorem copysignOne_neg (x : ℝ) (hx : x ≠ 0) : copysignOne (-x) = -copysignOne x := by
  unfold copysignOne
  rcases lt_or_gt_of_ne hx with h | h
  · have h1 : ¬ (-x < 0) := by linarith
    simp [h, h1]
  · have h1 : ¬ (x < 0) := by linarith
    have h2 : -x < 0 := by linarith
    simp [h1, h2]

/-- The left-state derivative arrays of the mirrored call against the right-state
derivative arrays of the original call. -/
theorem RoeFluxJacobian.arrays_swap (R : primVars ℝ) (g : idealGas ℝ) (l l' : RoeLocals ℝ)
    (e1 : l'.rhoR = l.rhoR) (e2 : l'.uR = l.uR) (e3 : l'.vR = l.vR) (e4 : l'.wR = l.wR)
    (e5 : l'.hR = l.hR) (ev : l'.velR = l.velR)
    (e6 : l'.aR = l.aR) (e7 : l'.areaNorm = l.areaNorm.neg) (e8 : l'.velRSum = -l.velRSum)
    (hq : l.velRSum ≠ 0) (kk : Fin 5) :
    (RoeFluxJacobian.leftArrays Real.sqrt R g l').dQr kk
      = -(RoeFluxJacobian.rightArrays Real.sqrt R g l).dQr kk ∧
    (RoeFluxJacobian.leftArrays Real.sqrt R g l').dAbsQr kk
      = (RoeFluxJacobian.rightArrays Real.sqrt R g l).dAbsQr kk ∧
    (RoeFluxJacobian.leftArrays Real.sqrt R g l').dA kk
      = (RoeFluxJacobian.rightArrays Real.sqrt R g l).dA kk ∧
    (RoeFluxJacobian.leftArrays Real.sqrt R g l').dR kk
      = (RoeFluxJacobian.rightArrays Real.sqrt R g l).dR kk ∧
    (RoeFluxJacobian.leftArrays Real.sqrt R g l').dU kk
      = (RoeFluxJacobian.rightArrays Real.sqrt R g l).dU kk ∧
    (RoeFluxJacobian.leftArrays Real.sqrt R g l').dV kk
      = (RoeFluxJacobian.rightArrays Real.sqrt R g l).dV kk ∧
    (RoeFluxJacobian.leftArrays Real.sqrt R g l').dW kk
      = (RoeFluxJacobian.rightArrays Real.sqrt R g l).dW kk ∧
    (RoeFluxJacobian.leftArrays Real.sqrt R g l').dH kk
      = (RoeFluxJacobian.rightArrays Real.sqrt R g l).dH kk ∧
    (RoeFluxJacobian.leftArrays Real.sqrt R g l').dDeltR kk
      = -(RoeFluxJacobian.rightArrays Real.sqrt R g l).dDeltR kk ∧
    (RoeFluxJacobian.leftArrays Real.sqrt R g l').dDeltP kk
      = -(RoeFluxJacobian.rightArrays Real.sqrt R g l).dDeltP kk ∧
    (RoeFluxJacobian.leftArrays Real.sqrt R g l').dDeltVmag kk
      = (RoeFluxJacobian.rightArrays Real.sqrt R g l).dDeltVmag kk ∧
    (RoeFluxJacobian.leftArrays Real.sqrt R g l').dDeltU kk
      = -(RoeFluxJacobian.rightArrays Real.sqrt R g l).dDeltU kk ∧
    (RoeFluxJacobian.leftArrays Real.sqrt R g l').dDeltV kk
      = -(RoeFluxJacobian.rightArrays Real.sqrt R g l).dDeltV kk ∧
    (RoeFluxJacobian.leftArrays Real.sqrt R g l').dDeltW kk
      = -(RoeFluxJacobian.rightArrays Real.sqrt R g l).dDeltW kk := by
  simp only [RoeFluxJacobian.leftArrays, RoeFluxJacobian.rightArrays, e1, e2, e3, e4, e5, ev,
    e6, e7, e8, copysignOne_neg _ hq, vector3d.neg, vector3d.DotProd]
  generalize copysignOne l.velRSum = s
  refine ⟨?_, ?_, ?_, ?_, ?_, ?_, ?_, ?_, ?_, ?_, ?_, ?_, ?_, ?_⟩ <;>
    fin_cases kk <;> simp [zero_lit] <;> first | ring1 | (left; ring1)

/-- The acoustic wave-speed derivative arrays of the mirrored call: away from the
sign ties `velRSum - aR = 0` and `velRSum + aR = 0` the array `dWs1` of one call is
the array `dWs3` of the other. -/
theorem RoeFluxJacobian.dWs_swap (l l' : RoeLocals ℝ) (d d' : RoeJacArrays ℝ)
    (e6 : l'.aR = l.aR) (e8 : l'.velRSum = -l.velRSum)
    (v0 : l'.waveSpeed 0 = l.waveSpeed 2) (v2 : l'.waveSpeed 2 = l.waveSpeed 0)
    (a1 : ∀ kk, d'.dQr kk = -d.dQr kk) (a3 : ∀ kk, d'.dA kk = d.dA kk)
    (hm : l.velRSum - l.aR ≠ 0) (hp : l.velRSum + l.aR ≠ 0) (kk : Fin 5) :
    RoeFluxJacobian.dWs1 l' d' kk = RoeFluxJacobian.dWs3 l d kk ∧
    RoeFluxJacobian.dWs3 l' d' kk = RoeFluxJacobian.dWs1 l d kk := by
  have u1 : RoeFluxJacobian.dWs1Unfixed l' d' kk = RoeFluxJacobian.dWs3Unfixed l d kk := by
    simp only [RoeFluxJacobian.dWs1Unfixed, RoeFluxJacobian.dWs3Unfixed, e6, e8, a1, a3,
      zero_lit]
    rcases lt_or_gt_of_ne hp with h | h
    · have h1 : -l.velRSum - l.aR > 0 := by linarith
      have h2 : ¬ (l.velRSum + l.aR > 0) := by linarith
      rw [if_pos h1, if_neg h2]; ring
    · have h1 : ¬ (-l.velRSum - l.aR > 0) := by linarith
      rw [if_neg h1, if_pos h]; ring
  have u3 : RoeFluxJacobian.dWs3Unfixed l' d' kk = RoeFluxJacobian.dWs1Unfixed l d kk := by
    simp only [RoeFluxJacobian.dWs1Unfixed, RoeFluxJacobian.dWs3Unfixed, e6, e8, a1, a3,
      zero_lit]
    rcases lt_or_gt_of_ne hm with h | h
    · have h1 : -l.velRSum + l.aR > 0 := by linarith
      have h2 : ¬ (l.velRSum - l.aR > 0) := by linarith
      rw [if_pos h1, if_neg h2]; ring
    · have h1 : ¬ (-l.velRSum + l.aR > 0) := by linarith
      rw [if_neg h1, if_pos h]; ring
  constructor
  · simp only [RoeFluxJacobian.dWs1, RoeFluxJacobian.dWs3, u1, v0]
  · simp only [RoeFluxJacobian.dWs1, RoeFluxJacobian.dWs3, u3, v2]

/-- The physical-flux statements of `RoeFluxJacobian` are odd in the pair of the
unit normal and the normal velocity. -/
theorem RoeFluxJacobian.physicalTerm_neg (S : primVars ℝ) (g : idealGas ℝ) (n : vector3d ℝ)
    (q : ℝ) (i j : Fin 5) :
    RoeFluxJacobian.physicalTerm S g n.neg (-q) i j
      = -RoeFluxJacobian.physicalTerm S g n q i j := by
  fin_cases i <;> fin_cases j <;>
    simp [RoeFluxJacobian.physicalTerm, squareMatrix.SetData, squareMatrix.scale,
      squareMatrix.Zero, vector3d.neg, zero_lit] <;> ring

/-- The species loop with a per-species function that returns on every index
below `n` accumulates the weighted sum of its values. -/
theorem foldl_accumulateSpecies (mf : List K) (f : Int → Outcome K) (v : Nat → K) (n : Nat)
    (hf : ∀ ss : Nat, ss < n → f (ss : Int) = Outcome.returned (v ss)) (a : K) :
    (List.range n).foldl (accumulateSpecies mf f) (Outcome.returned a)
      = Outcome.returned (a + ∑ ss in Finset.range n, mf.getD ss 0 * v ss) := by
  induction n with
  | zero => simp
  | succ n ih =>
    rw [List.range_succ, List.foldl_append, ih (fun ss h => hf ss (Nat.lt_succ_of_lt h)),
      Finset.sum_range_succ]
    simp only [List.foldl_cons, List.foldl_nil, accumulateSpecies, hf n (Nat.lt_succ_self n)]
    rw [add_assoc]

/-! ## The claims -/

/-- C1. Uniform-flow consistency of `RoeFlux`: for every state `S` with positive
density and every non-zero area vector `A`, all five components of the
dissipation of `RoeFlux(S, S, A)` are zero and the returned flux is the
single-sided physical flux of `S`: mass `rho*q`, momentum `rho*q*v + p*n`,
energy `rho*q*H`, with `n = A/|A|` and `q = v.n`.  (In exact arithmetic the
proof does not need the density to be positive.) -/
theorem RoeFlux_uniform_flow (S : primVars ℝ) (eqnState : idealGas ℝ) (A : vector3d ℝ)
    (_hrho : 0 < S.rho) (hA : A ≠ ⟨0, 0, 0⟩) :
    (∀ ii : Fin 5, (roeLocals Real.sqrt S S eqnState A).dissipation ii = 0) ∧
    (RoeFlux Real.sqrt S S eqnState A).1 =
      { rhoVel := S.rho * S.Velocity.DotProd (A.divScalar (A.Mag Real.sqrt))
        rhoVelU := S.rho * S.Velocity.DotProd (A.divScalar (A.Mag Real.sqrt)) * S.u
          + S.p * (A.divScalar (A.Mag Real.sqrt)).x
        rhoVelV := S.rho * S.Velocity.DotProd (A.divScalar (A.Mag Real.sqrt)) * S.v
          + S.p * (A.divScalar (A.Mag Real.sqrt)).y
        rhoVelW := S.rho * S.Velocity.DotProd (A.divScalar (A.Mag Real.sqrt)) * S.w
          + S.p * (A.divScalar (A.Mag Real.sqrt)).z
        rhoVelH := S.rho * S.Velocity.DotProd (A.divScalar (A.Mag Real.sqrt))
          * S.Enthalpy eqnState } := by
  refine ⟨fun ii => roeLocals_dissipation_same _ S eqnState A ii, ?_⟩
  have hn := vector3d.normalize_idem A hA
  have hl : (roeLocals Real.sqrt S S eqnState A).areaNorm = A.divScalar (A.Mag Real.sqrt) := rfl
  simp only [RoeFlux, roeLocals_dissipation_same, inviscidFlux.ofState, hl, hn]
  simp only [primVars.Rho, primVars.P, primVars.Velocity]
  congr 1 <;> ring

/-- The example scenario of C1: for `S = (rho=1, u=v=w=0, p=1/1.4)`, the area
vector `(1,0,0)` and `gamma = 1.4` the dissipation vanishes and the flux is
`(0, 1/1.4, 0, 0, 0)`. -/
theorem RoeFlux_uniform_flow_witness :
    (∀ ii : Fin 5,
      (roeLocals Real.sqrt exampleState exampleState ⟨1.4⟩ ⟨1, 0, 0⟩).dissipation ii = 0) ∧
    (RoeFlux Real.sqrt exampleState exampleState ⟨1.4⟩ ⟨1, 0, 0⟩).1
      = ⟨0, 1 / 1.4, 0, 0, 0⟩ := by
  have h := RoeFlux_uniform_flow exampleState ⟨1.4⟩ ⟨1, 0, 0⟩ (by norm_num [exampleState])
    (by simp)
  refine ⟨h.1, ?_⟩
  rw [h.2]
  simp [exampleState, vector3d.divScalar, vector3d.Mag, vector3d.DotProd, primVars.Velocity]

/-- C2. Flux antisymmetry under face-orientation reversal: for every pair of
states `L`, `R` with positive densities and every non-zero area vector `A`, each
of the five components of `RoeFlux(L, R, A)` is the negative of the same
component of `RoeFlux(R, L, -A)`, whether or not the entropy fix is active.
(In exact arithmetic the proof does not need the area vector to be non-zero.) -/
theorem RoeFlux_antisymmetry (L R : primVars ℝ) (eqnState : idealGas ℝ) (A : vector3d ℝ)
    (hL : 0 < L.rho) (hR : 0 < R.rho) (_hA : A ≠ ⟨0, 0, 0⟩) :
    (RoeFlux Real.sqrt L R eqnState A).1.rhoVel
      = -(RoeFlux Real.sqrt R L eqnState A.neg).1.rhoVel ∧
    (RoeFlux Real.sqrt L R eqnState A).1.rhoVelU
      = -(RoeFlux Real.sqrt R L eqnState A.neg).1.rhoVelU ∧
    (RoeFlux Real.sqrt L R eqnState A).1.rhoVelV
      = -(RoeFlux Real.sqrt R L eqnState A.neg).1.rhoVelV ∧
    (RoeFlux Real.sqrt L R eqnState A).1.rhoVelW
      = -(RoeFlux Real.sqrt R L eqnState A.neg).1.rhoVelW ∧
    (RoeFlux Real.sqrt L R eqnState A).1.rhoVelH
      = -(RoeFlux Real.sqrt R L eqnState A.neg).1.rhoVelH := by
  have hn : (roeLocals Real.sqrt R L eqnState A.neg).areaNorm
      = (roeLocals Real.sqrt L R eqnState A).areaNorm.neg :=
    (roeLocals_swap L R eqnState A hL hR rfl rfl).2.2.2.2.2.2.1
  simp only [RoeFlux, hn, inviscidFlux.ofState_neg,
    roeLocals_dissipation_swap L R eqnState A hL hR]
  refine ⟨?_, ?_, ?_, ?_, ?_⟩ <;> ring

/-- An instance of C2 with distinct states and an oblique area vector: the
mass fluxes of `RoeFlux(L, R, A)` and `RoeFlux(R, L, -A)` are opposite. -/
theorem RoeFlux_antisymmetry_witness :
    (RoeFlux Real.sqrt ⟨1, 1, 0, 0, 1⟩ ⟨2, 0, 1, 0, 3⟩ ⟨1.4⟩ ⟨1, 2, 2⟩).1.rhoVel
      = -(RoeFlux Real.sqrt ⟨2, 0, 1, 0, 3⟩ ⟨1, 1, 0, 0, 1⟩ ⟨1.4⟩
          (vector3d.neg ⟨1, 2, 2⟩)).1.rhoVel :=
  (RoeFlux_antisymmetry ⟨1, 1, 0, 0, 1⟩ ⟨2, 0, 1, 0, 3⟩ ⟨1.4⟩ ⟨1, 2, 2⟩
    (by norm_num) (by norm_num) (by simp)).1

/-- C3 (evaluated at a failing input). At `L = R = (rho=1, u=1, v=2, w=0,
p=1/1.4)`, unit normal `(0,1,0)` and `gamma = 1.4` (Roe values `q = 2`, `a = 1`,
away from every kink) the conserved variables of `L` convert back to `L`, the
x-momentum component of `RoeFlux` has derivative `0` with respect to the fifth
left conserved variable `rho*E`, and entry (1,4) of the `dF_dUl` returned by
`RoeFluxJacobian` is `-2/5`. -/
theorem RoeFluxJacobian_energy_column_mismatch :
    primVars.ofConserved Real.sqrt ((⟨1, 1, 2, 0, 1 / 1.4⟩ : primVars ℝ).ConsVars ⟨1.4⟩) ⟨1.4⟩
      = ⟨1, 1, 2, 0, 1 / 1.4⟩ ∧
    HasDerivAt (fun t : ℝ =>
      (RoeFlux Real.sqrt
        (primVars.ofConserved Real.sqrt
          (fun i => (⟨1, 1, 2, 0, 1 / 1.4⟩ : primVars ℝ).ConsVars ⟨1.4⟩ i
            + if i = 4 then t else 0)
          ⟨1.4⟩)
        ⟨1, 1, 2, 0, 1 / 1.4⟩ ⟨1.4⟩ ⟨0, 1, 0⟩).1.rhoVelU) 0 0 ∧
    (RoeFluxJacobian Real.sqrt (⟨1, 1, 2, 0, 1 / 1.4⟩ : primVars ℝ) ⟨1, 1, 2, 0, 1 / 1.4⟩
      ⟨1.4⟩ ⟨0, 1, 0⟩).1 1 4 = -(2 / 5) := by
  refine ⟨?_, ?_, ?_⟩
  · have h := ofConserved_energy_line 0
    simp only [mul_zero, add_zero, ite_self] at h
    exact h
  · refine (hasDerivAt_const (0 : ℝ) (2 : ℝ)).congr_of_eventuallyEq ?_
    filter_upwards [Iio_mem_nhds (show (0 : ℝ) < 1 by norm_num)] with t ht
    rw [ofConserved_energy_line t]
    exact RoeFlux_rhoVelU_energy_line t ht
  · set S : primVars ℝ := ⟨1, 1, 2, 0, 1 / 1.4⟩ with hS
    set l := roeLocals Real.sqrt S S ⟨1.4⟩ ⟨0, 1, 0⟩ with hl
    obtain ⟨d1, r1, e2, e3, e4, e5, e6⟩ :=
      roeLocals_same_state S ⟨1.4⟩ ⟨0, 1, 0⟩ (by norm_num [S]) (by norm_num) hl
    obtain ⟨-, -, -, -, -, -, -, hn, hq, hdv⟩ := roeLocals_fields Real.sqrt S S ⟨1.4⟩ ⟨0, 1, 0⟩ hl
    obtain ⟨w1, w2, w3, w4, w5, w6, w7, -⟩ := roeLocals_waves Real.sqrt S S ⟨1.4⟩ ⟨0, 1, 0⟩ hl
    have ha : l.aR = 1 := by rw [e6]; norm_num [S]
    have hn' : l.areaNorm = ⟨0, 1, 0⟩ := by
      rw [hn]; simp [vector3d.divScalar, vector3d.Mag]
    have hq' : l.velRSum = 2 := by rw [hq, e2, e3, e4, hn']; norm_num [S]
    have hdv' : l.normVelDiff = 0 := by rw [hdv]; ring
    have hh' : l.hR = 5 := by
      rw [e5]; norm_num [S, primVars.Enthalpy, idealGas.Gamma, primVars.P, primVars.Rho,
        primVars.Velocity, vector3d.MagSq]
    have hvelR : l.velR = ⟨l.uR, l.vR, l.wR⟩ := rfl
    simp only [RoeFluxJacobian, RoeFluxJacobian.assemble, RoeFluxJacobian.physicalLeft,
      RoeFluxJacobian.physicalTerm, squareMatrix.sub, squareMatrix.lscale, squareMatrix.Data,
      squareMatrix.SetData, squareMatrix.scale, squareMatrix.Zero,
      RoeFluxJacobian.dWs1, RoeFluxJacobian.dWs3, RoeFluxJacobian.dWs1Unfixed,
      RoeFluxJacobian.dWs3Unfixed, RoeFluxJacobian.leftArrays, ← hl]
    rw [w1, w3, w4, w5, w6, w7]
    simp only [hvelR, ha, hn', hq', hdv', hh', e2, e3, e4, r1]
    simp [S, primVars.Enthalpy, idealGas.Gamma, primVars.P, primVars.Rho, primVars.U,
      primVars.V, primVars.W, primVars.Velocity, vector3d.MagSq, vector3d.DotProd, primVars.SoS,
      entropyFixed, copysignOne]
    norm_num

/-- C4 (what the code stores). For every input, the matrix that
`RoeFluxJacobian` holds in `dF_dUl` (resp. `dF_dUr`) just before the first
dissipation contribution has an all-zero row 0 and the column 0
`0.5 * (0, n_x, n_y, n_z, 0)`: the statements headed "column one" to "column
four" write rows 1 to 4, so the values `0.5*(gamma-1)*|v|^2*n - v*q` first
written to column 0 are overwritten and `n_x, n_y, n_z` never reach row 0. -/
theorem RoeFluxJacobian_physical_term_stores (L R : primVars ℝ) (eqnState : idealGas ℝ)
    (A : vector3d ℝ) :
    (∀ j : Fin 5, RoeFluxJacobian.physicalLeft Real.sqrt L R eqnState A 0 j = 0) ∧
    (∀ j : Fin 5, RoeFluxJacobian.physicalRight Real.sqrt L R eqnState A 0 j = 0) ∧
    (∀ i : Fin 5, RoeFluxJacobian.physicalLeft Real.sqrt L R eqnState A i 0
      = 0.5 * ![0, (A.divScalar (A.Mag Real.sqrt)).x, (A.divScalar (A.Mag Real.sqrt)).y,
          (A.divScalar (A.Mag Real.sqrt)).z, 0] i) ∧
    (∀ i : Fin 5, RoeFluxJacobian.physicalRight Real.sqrt L R eqnState A i 0
      = 0.5 * ![0, (A.divScalar (A.Mag Real.sqrt)).x, (A.divScalar (A.Mag Real.sqrt)).y,
          (A.divScalar (A.Mag Real.sqrt)).z, 0] i) := by
  have hn : (roeLocals Real.sqrt L R eqnState A).areaNorm = A.divScalar (A.Mag Real.sqrt) := rfl
  refine ⟨?_, ?_, ?_, ?_⟩
  · intro j
    simp [RoeFluxJacobian.physicalLeft, RoeFluxJacobian.physicalTerm, squareMatrix.SetData,
      squareMatrix.scale, squareMatrix.Zero, zero_lit]
  · intro j
    simp [RoeFluxJacobian.physicalRight, RoeFluxJacobian.physicalTerm, squareMatrix.SetData,
      squareMatrix.scale, squareMatrix.Zero, zero_lit]
  · intro i
    simp only [RoeFluxJacobian.physicalLeft, hn]
    fin_cases i <;>
      simp [RoeFluxJacobian.physicalTerm, squareMatrix.SetData, squareMatrix.scale,
        squareMatrix.Zero, zero_lit] <;> ring
  · intro i
    simp only [RoeFluxJacobian.physicalRight, hn]
    fin_cases i <;>
      simp [RoeFluxJacobian.physicalTerm, squareMatrix.SetData, squareMatrix.scale,
        squareMatrix.Zero, zero_lit] <;> ring

/-- C5. `RoeFlux` reports `maxWS = |velR . n| + aR` with `velR`, `aR` the Roe
velocity and speed of sound and `n = A/|A|`; this is the unfixed entropy-wave
speed plus `aR`, so no entropy-fixed speed enters it.  For `L == R = S` with
positive density under the ideal gas (`gamma > 1`) it is
`|v.n| + sqrt(gamma*p/rho)`. -/
theorem RoeFlux_maxWS (L R S : primVars ℝ) (eqnState : idealGas ℝ) (A : vector3d ℝ)
    (hrho : 0 < S.rho) (hgamma : 1 < eqnState.gamma) :
    (RoeFlux Real.sqrt L R eqnState A).2
      = |(roeLocals Real.sqrt L R eqnState A).velR.DotProd (A.divScalar (A.Mag Real.sqrt))|
        + (roeLocals Real.sqrt L R eqnState A).aR ∧
    (RoeFlux Real.sqrt L R eqnState A).2
      = (roeLocals Real.sqrt L R eqnState A).waveSpeedUnfixed 1
        + (roeLocals Real.sqrt L R eqnState A).aR ∧
    (RoeFlux Real.sqrt S S eqnState A).2
      = |S.Velocity.DotProd (A.divScalar (A.Mag Real.sqrt))|
        + Real.sqrt (eqnState.gamma * S.p / S.rho) := by
  refine ⟨rfl, rfl, ?_⟩
  obtain ⟨-, -, e2, e3, e4, -, e6⟩ := roeLocals_same_state S eqnState A hrho hgamma rfl
  obtain ⟨-, -, -, -, -, -, -, hn, hq, -⟩ := roeLocals_fields Real.sqrt S S eqnState A rfl
  show |(roeLocals Real.sqrt S S eqnState A).velRSum| + (roeLocals Real.sqrt S S eqnState A).aR = _
  rw [e6, hq, e2, e3, e4, hn]
  rfl

/-- The example scenario of C5: for `S = (rho=1, v=0, p=1/1.4)`, `gamma = 1.4`
and the area vector `(1,0,0)`, `maxWS = 1`, the speed of sound of `S`. -/
theorem RoeFlux_maxWS_witness :
    (RoeFlux Real.sqrt exampleState exampleState ⟨1.4⟩ ⟨1, 0, 0⟩).2 = 1 ∧
    exampleState.SoS Real.sqrt (⟨1.4⟩ : idealGas ℝ) = 1 := by
  have h := (RoeFlux_maxWS exampleState exampleState exampleState ⟨1.4⟩ ⟨1, 0, 0⟩
    (by norm_num [exampleState]) (by norm_num)).2.2
  rw [h]
  constructor
  · norm_num [exampleState, vector3d.divScalar, vector3d.Mag, vector3d.DotProd,
      primVars.Velocity]
  · norm_num [exampleState, primVars.SoS, idealGas.Gamma, primVars.P, primVars.Rho]

/-- C6. Entropy fix in `RoeFlux`: with `s` the unfixed speed `|q - a|` of the
left acoustic wave (resp. `|q + a|` of the right one), the speed that enters
the dissipation is `0.5*(s*s/0.1 + 0.1)` if `s < 0.1` and `s` otherwise; the
entropy and shear wave speeds are `|q|`, unmodified. -/
theorem RoeFlux_entropy_fix (L R : primVars ℝ) (eqnState : idealGas ℝ) (A : vector3d ℝ) :
    let l := roeLocals Real.sqrt L R eqnState A
    l.waveSpeedUnfixed 0 = |l.velRSum - l.aR| ∧
    l.waveSpeedUnfixed 2 = |l.velRSum + l.aR| ∧
    (l.waveSpeed 0 = if l.waveSpeedUnfixed 0 < 0.1
      then 0.5 * (l.waveSpeedUnfixed 0 * l.waveSpeedUnfixed 0 / 0.1 + 0.1)
      else l.waveSpeedUnfixed 0) ∧
    (l.waveSpeed 2 = if l.waveSpeedUnfixed 2 < 0.1
      then 0.5 * (l.waveSpeedUnfixed 2 * l.waveSpeedUnfixed 2 / 0.1 + 0.1)
      else l.waveSpeedUnfixed 2) ∧
    l.waveSpeed 1 = |l.velRSum| ∧
    l.waveSpeed 3 = |l.velRSum| ∧
    (∀ ii : Fin 5, l.dissipation ii
      = l.waveSpeed 0 * l.waveStrength 0 * l.lAcousticEigV ii
        + l.waveSpeed 1 * l.waveStrength 1 * l.entropyEigV ii
        + l.waveSpeed 2 * l.waveStrength 2 * l.rAcousticEigV ii
        + l.waveSpeed 3 * l.waveStrength 3 * l.shearEigV ii) := by
  intro l
  obtain ⟨-, w2, w3, -, -, -, -, w8⟩ :=
    roeLocals_waves Real.sqrt L R eqnState A (rfl : l = roeLocals Real.sqrt L R eqnState A)
  refine ⟨?_, ?_, ?_, ?_, ?_, ?_, w8⟩
  · rw [w2]; simp
  · rw [w2]; simp
  · rw [w2, w3]; simp [entropyFixed]
  · rw [w2, w3]; simp [entropyFixed]
  · rw [w3]; simp
  · rw [w3]; simp

/-- C7. Entropy-fix continuity at the branch boundary: the fixed acoustic speed
`f` satisfies `f(0.1) = 0.1`, tends to `0.1` as `s -> 0.1` from below and is
continuous at `0.1`; the factor that `RoeFluxJacobian` applies to the acoustic
wave-speed derivatives (`dWs1`, `dWs3`) tends to `1` as the unfixed speed tends
to `0.1` from below and is `1` at and above the threshold. -/
theorem entropy_fix_continuity :
    entropyFixed (0.1 : ℝ) = 0.1 ∧
    Tendsto (entropyFixed : ℝ → ℝ) (𝓝[<] 0.1) (𝓝 0.1) ∧
    ContinuousAt (entropyFixed : ℝ → ℝ) 0.1 ∧
    Tendsto (fun s : ℝ => RoeFluxJacobian.entropyFixFactor (entropyFixed s)) (𝓝[<] 0.1) (𝓝 1) ∧
    (∀ s : ℝ, 0.1 ≤ s → RoeFluxJacobian.entropyFixFactor (entropyFixed s) = 1) ∧
    (∀ (l : RoeLocals ℝ) (d : RoeJacArrays ℝ) (kk : Fin 5),
      RoeFluxJacobian.dWs1 l d kk
        = RoeFluxJacobian.entropyFixFactor (l.waveSpeed 0) * RoeFluxJacobian.dWs1Unfixed l d kk ∧
      RoeFluxJacobian.dWs3 l d kk
        = RoeFluxJacobian.entropyFixFactor (l.waveSpeed 2)
          * RoeFluxJacobian.dWs3Unfixed l d kk) := by
  have hc := entropyFixed_continuous
  have ht : Tendsto (entropyFixed : ℝ → ℝ) (𝓝[<] 0.1) (𝓝 0.1) := by
    have := (hc.tendsto (0.1 : ℝ)).mono_left (nhdsWithin_le_nhds (s := Set.Iio (0.1 : ℝ)))
    rwa [entropyFixed_threshold] at this
  refine ⟨entropyFixed_threshold, ht, hc.continuousAt, ?_, ?_, ?_⟩
  · have hdiv : Tendsto (fun s : ℝ => entropyFixed s / 0.1) (𝓝[<] 0.1) (𝓝 1) := by
      have := ht.div_const (0.1 : ℝ)
      rwa [div_self (by norm_num : (0.1 : ℝ) ≠ 0)] at this
    refine hdiv.congr' ?_
    have hmem : Set.Ioo (0 : ℝ) 0.1 ∈ 𝓝[<] (0.1 : ℝ) :=
      Ioo_mem_nhdsWithin_Iio (by norm_num)
    filter_upwards [hmem] with s hs
    have : entropyFixed s < 0.1 := (entropyFixed_lt_iff s hs.1.le).mpr hs.2
    simp [RoeFluxJacobian.entropyFixFactor, this]
  · intro s hs
    have h0 : (0 : ℝ) ≤ s := by linarith [(by norm_num : (0 : ℝ) ≤ 0.1)]
    have : ¬ entropyFixed s < 0.1 := by
      rw [entropyFixed_lt_iff s h0]; exact not_lt.mpr hs
    simp [RoeFluxJacobian.entropyFixFactor, this]
  · intro l d kk
    simp only [RoeFluxJacobian.dWs1, RoeFluxJacobian.dWs3, RoeFluxJacobian.entropyFixFactor]
    constructor <;> split_ifs <;> simp

/-- C8. Entropy-fix branch mirroring: for every input and each acoustic wave, the
test `waveSpeed[k] < entropyFix` of `RoeFluxJacobian`, which reads the speed
already fixed, holds if and only if the unfixed speed is below `0.1`, which is
when `RoeFlux` replaces that speed; the left-state and right-state halves take
the same branch. -/
theorem entropy_fix_branch_mirror (L R : primVars ℝ) (eqnState : idealGas ℝ) (A : vector3d ℝ) :
    let l := roeLocals Real.sqrt L R eqnState A
    let dl := RoeFluxJacobian.leftArrays Real.sqrt L eqnState l
    let dr := RoeFluxJacobian.rightArrays Real.sqrt R eqnState l
    (l.waveSpeed 0 < 0.1 ↔ l.waveSpeedUnfixed 0 < 0.1) ∧
    (l.waveSpeed 2 < 0.1 ↔ l.waveSpeedUnfixed 2 < 0.1) ∧
    (l.waveSpeed 0 = if l.waveSpeedUnfixed 0 < 0.1
      then 0.5 * (l.waveSpeedUnfixed 0 * l.waveSpeedUnfixed 0 / 0.1 + 0.1)
      else l.waveSpeedUnfixed 0) ∧
    (l.waveSpeed 2 = if l.waveSpeedUnfixed 2 < 0.1
      then 0.5 * (l.waveSpeedUnfixed 2 * l.waveSpeedUnfixed 2 / 0.1 + 0.1)
      else l.waveSpeedUnfixed 2) ∧
    (∀ kk : Fin 5,
      RoeFluxJacobian.dWs1 l dl kk = (if l.waveSpeedUnfixed 0 < 0.1
        then l.waveSpeed 0 / 0.1 * RoeFluxJacobian.dWs1Unfixed l dl kk
        else RoeFluxJacobian.dWs1Unfixed l dl kk) ∧
      RoeFluxJacobian.dWs1 l dr kk = (if l.waveSpeedUnfixed 0 < 0.1
        then l.waveSpeed 0 / 0.1 * RoeFluxJacobian.dWs1Unfixed l dr kk
        else RoeFluxJacobian.dWs1Unfixed l dr kk) ∧
      RoeFluxJacobian.dWs3 l dl kk = (if l.waveSpeedUnfixed 2 < 0.1
        then l.waveSpeed 2 / 0.1 * RoeFluxJacobian.dWs3Unfixed l dl kk
        else RoeFluxJacobian.dWs3Unfixed l dl kk) ∧
      RoeFluxJacobian.dWs3 l dr kk = (if l.waveSpeedUnfixed 2 < 0.1
        then l.waveSpeed 2 / 0.1 * RoeFluxJacobian.dWs3Unfixed l dr kk
        else RoeFluxJacobian.dWs3Unfixed l dr kk)) := by
  intro l dl dr
  obtain ⟨-, w2, w3, -, -, -, -, -⟩ :=
    roeLocals_waves Real.sqrt L R eqnState A (rfl : l = roeLocals Real.sqrt L R eqnState A)
  have h0 : l.waveSpeed 0 = entropyFixed (l.waveSpeedUnfixed 0) := by rw [w2, w3]; simp
  have h2 : l.waveSpeed 2 = entropyFixed (l.waveSpeedUnfixed 2) := by rw [w2, w3]; simp
  have n0 : 0 ≤ l.waveSpeedUnfixed 0 := by rw [w2]; simp
  have n2 : 0 ≤ l.waveSpeedUnfixed 2 := by rw [w2]; simp
  have i0 : l.waveSpeed 0 < 0.1 ↔ l.waveSpeedUnfixed 0 < 0.1 := by
    rw [h0]; exact entropyFixed_lt_iff _ n0
  have i2 : l.waveSpeed 2 < 0.1 ↔ l.waveSpeedUnfixed 2 < 0.1 := by
    rw [h2]; exact entropyFixed_lt_iff _ n2
  refine ⟨i0, i2, ?_, ?_, ?_⟩
  · rw [h0]; rfl
  · rw [h2]; rfl
  · intro kk
    simp only [RoeFluxJacobian.dWs1, RoeFluxJacobian.dWs3, i0, i2]
    exact ⟨trivial, trivial, trivial, trivial⟩

/-- C9 (evaluated at a failing input). At `L = R = (rho=1, u=1.05, v=w=0,
p=1/1.4)`, area vector `(1,0,0)` and `gamma = 1.4` the unfixed left acoustic
speed is `s = 0.05`, the fixed one `0.0625`; entry 1 of `dWs1_dUl` is `0.647`
before the entropy-fix statement and `0.625 * 0.647` after it, whereas
`(s/0.1)` times the unfixed derivative is `0.5 * 0.647`. -/
theorem entropy_fix_factor_uses_fixed_speed :
    let S : primVars ℝ := ⟨1, 1.05, 0, 0, 1 / 1.4⟩
    let l := roeLocals Real.sqrt S S ⟨1.4⟩ ⟨1, 0, 0⟩
    let dl := RoeFluxJacobian.leftArrays Real.sqrt S ⟨1.4⟩ l
    l.waveSpeedUnfixed 0 = 0.05 ∧
    l.waveSpeed 0 = 0.0625 ∧
    RoeFluxJacobian.dWs1Unfixed l dl 1 = 0.647 ∧
    RoeFluxJacobian.dWs1 l dl 1 = 0.625 * 0.647 ∧
    l.waveSpeedUnfixed 0 / 0.1 * RoeFluxJacobian.dWs1Unfixed l dl 1 = 0.5 * 0.647 := by
  intro S l dl
  obtain ⟨d1, r1, e2, e3, e4, e5, e6⟩ :=
    roeLocals_same_state S ⟨1.4⟩ ⟨1, 0, 0⟩ (by norm_num [S]) (by norm_num)
      (rfl : l = roeLocals Real.sqrt S S ⟨1.4⟩ ⟨1, 0, 0⟩)
  obtain ⟨-, -, -, -, -, -, -, hn, hq, -⟩ :=
    roeLocals_fields Real.sqrt S S ⟨1.4⟩ ⟨1, 0, 0⟩ (rfl : l = roeLocals Real.sqrt S S ⟨1.4⟩ ⟨1, 0, 0⟩)
  obtain ⟨-, w2, w3, -, -, -, -, -⟩ :=
    roeLocals_waves Real.sqrt S S ⟨1.4⟩ ⟨1, 0, 0⟩ (rfl : l = roeLocals Real.sqrt S S ⟨1.4⟩ ⟨1, 0, 0⟩)
  have ha : l.aR = 1 := by
    rw [e6]; norm_num [S]
  have hn' : l.areaNorm = ⟨1, 0, 0⟩ := by
    rw [hn]; simp [vector3d.divScalar, vector3d.Mag]
  have hq' : l.velRSum = 1.05 := by
    rw [hq, e2, e3, e4, hn']; norm_num [S]
  have hu0 : l.waveSpeedUnfixed 0 = 0.05 := by
    rw [w2, hq', ha]; norm_num [abs_of_pos]
  have hw0 : l.waveSpeed 0 = 0.0625 := by
    rw [w3, hq', ha]; norm_num [abs_of_pos, entropyFixed]
  have hS : S.SoS Real.sqrt ⟨1.4⟩ = 1 := by
    norm_num [primVars.SoS, S, idealGas.Gamma, primVars.P, primVars.Rho]
  have hun : RoeFluxJacobian.dWs1Unfixed l dl 1 = 0.647 := by
    simp only [RoeFluxJacobian.dWs1Unfixed, dl, RoeFluxJacobian.leftArrays, hq', ha, hn', e2, r1]
    norm_num [S, primVars.Rho, primVars.U, idealGas.Gamma]
  refine ⟨hu0, hw0, hun, ?_, ?_⟩
  · simp only [RoeFluxJacobian.dWs1, hw0, hun]
    norm_num
  · rw [hu0, hun]; norm_num

/-- C10. Acoustic-wave sign tie-break: in `RoeFluxJacobian` the sign multiplying
`dQr - dA` (resp. `dQr + dA`) is `+1` when `q - a > 0` (resp. `q + a > 0`) and
`-1` otherwise, the same in the left-state and right-state derivatives, and this
sign times `q - a` (resp. `q + a`) is the absolute value that `RoeFlux` takes,
for every input, the ties `q - a = 0` and `q + a = 0` included. -/
theorem acoustic_sign_tie_break (L R : primVars ℝ) (eqnState : idealGas ℝ) (A : vector3d ℝ) :
    let l := roeLocals Real.sqrt L R eqnState A
    let dl := RoeFluxJacobian.leftArrays Real.sqrt L eqnState l
    let dr := RoeFluxJacobian.rightArrays Real.sqrt R eqnState l
    let sigma1 : ℝ := if l.velRSum - l.aR > 0 then 1 else -1
    let sigma3 : ℝ := if l.velRSum + l.aR > 0 then 1 else -1
    (∀ kk : Fin 5,
      RoeFluxJacobian.dWs1Unfixed l dl kk = sigma1 * (dl.dQr kk - dl.dA kk) ∧
      RoeFluxJacobian.dWs1Unfixed l dr kk = sigma1 * (dr.dQr kk - dr.dA kk) ∧
      RoeFluxJacobian.dWs3Unfixed l dl kk = sigma3 * (dl.dQr kk + dl.dA kk) ∧
      RoeFluxJacobian.dWs3Unfixed l dr kk = sigma3 * (dr.dQr kk + dr.dA kk)) ∧
    sigma1 * (l.velRSum - l.aR) = |l.velRSum - l.aR| ∧
    |l.velRSum - l.aR| = l.waveSpeedUnfixed 0 ∧
    sigma3 * (l.velRSum + l.aR) = |l.velRSum + l.aR| ∧
    |l.velRSum + l.aR| = l.waveSpeedUnfixed 2 := by
  intro l dl dr sigma1 sigma3
  obtain ⟨-, w2, -, -, -, -, -, -⟩ :=
    roeLocals_waves Real.sqrt L R eqnState A (rfl : l = roeLocals Real.sqrt L R eqnState A)
  refine ⟨?_, ?_, ?_, ?_, ?_⟩
  · intro kk
    simp only [RoeFluxJacobian.dWs1Unfixed, RoeFluxJacobian.dWs3Unfixed, sigma1, sigma3, zero_lit]
    refine ⟨?_, ?_, ?_, ?_⟩ <;> split_ifs <;> norm_num
  · simp only [sigma1]
    split_ifs with h
    · rw [abs_of_pos h]; ring
    · rw [abs_of_nonpos (not_lt.mp h)]; ring
  · rw [w2]; simp
  · simp only [sigma3]
    split_ifs with h
    · rw [abs_of_pos h]; ring
    · rw [abs_of_nonpos (not_lt.mp h)]; ring
  · rw [w2]; simp

/-- C11 (what the code stores, and a failing input). For every input,
`ApproxRoeFluxJacobian` returns `dF_dUl = 0.5*(P_L + A)` and
`dF_dUr = 0.5*(P_R - A)` with one and the same dissipation matrix `A`, but the
block `P_S` it stores for the physical flux is not the Jacobian of that flux:
its row 0 is zero and its entry (1,0) is `n_x`, the value that belongs to
(0,1). Hence row 0 of `dF_dUl + dF_dUr` is zero and entry (1,0) of the sum is
`n_x`. At `L = R = (rho=1, u=1, v=w=0, p=1/1.4)`, `gamma = 1.4`, area vector
`(1,0,0)` the derivative of the mass flux with respect to `rho*u` is 1, while
entry (0,1) of `dF_dUl + dF_dUr` is 0. -/
theorem ApproxRoeFluxJacobian_structure (L R : primVars ℝ) (eqnState : idealGas ℝ)
    (A : vector3d ℝ) :
    let l := roeLocals Real.sqrt L R eqnState A
    let D := ApproxRoeFluxJacobian.dissipationMatrix eqnState l
    let PL := ApproxRoeFluxJacobian.physicalStores L eqnState l.areaNorm
      (L.Velocity.DotProd l.areaNorm)
    let PR := ApproxRoeFluxJacobian.physicalStores R eqnState l.areaNorm
      (R.Velocity.DotProd l.areaNorm)
    let J := ApproxRoeFluxJacobian Real.sqrt L R eqnState A
    (∀ i j : Fin 5, J.1 i j = 0.5 * (PL i j + D i j)) ∧
    (∀ i j : Fin 5, J.2 i j = 0.5 * (PR i j - D i j)) ∧
    (∀ j : Fin 5, PL 0 j = 0) ∧ (∀ j : Fin 5, PR 0 j = 0) ∧
    PL 1 0 = (A.divScalar (A.Mag Real.sqrt)).x ∧
    PR 1 0 = (A.divScalar (A.Mag Real.sqrt)).x ∧
    (∀ j : Fin 5, J.1 0 j + J.2 0 j = 0) ∧
    J.1 1 0 + J.2 1 0 = (A.divScalar (A.Mag Real.sqrt)).x ∧
    HasDerivAt (fun t : ℝ =>
      (inviscidFlux.ofState Real.sqrt
        (primVars.ofConserved Real.sqrt
          (fun k => (⟨1, 1, 0, 0, 1 / 1.4⟩ : primVars ℝ).ConsVars ⟨1.4⟩ k
            + if k = 1 then t else 0) ⟨1.4⟩) ⟨1.4⟩ ⟨1, 0, 0⟩).ConvertToColMatrix 0) 1 0 ∧
    (ApproxRoeFluxJacobian Real.sqrt (⟨1, 1, 0, 0, 1 / 1.4⟩ : primVars ℝ) ⟨1, 1, 0, 0, 1 / 1.4⟩
        ⟨1.4⟩ ⟨1, 0, 0⟩).1 0 1
      + (ApproxRoeFluxJacobian Real.sqrt (⟨1, 1, 0, 0, 1 / 1.4⟩ : primVars ℝ)
        ⟨1, 1, 0, 0, 1 / 1.4⟩ ⟨1.4⟩ ⟨1, 0, 0⟩).2 0 1 = 0 := by
  intro l D PL PR J
  have hn : l.areaNorm = A.divScalar (A.Mag Real.sqrt) := rfl
  have h1 : ∀ i j : Fin 5, J.1 i j = 0.5 * (PL i j + D i j) := fun i j => rfl
  have h2 : ∀ i j : Fin 5, J.2 i j = 0.5 * (PR i j - D i j) := fun i j => rfl
  have hL : (∀ j : Fin 5, PL 0 j = 0) ∧ PL 1 0 = l.areaNorm.x :=
    physicalStores_row0_col0 L eqnState l.areaNorm (L.Velocity.DotProd l.areaNorm)
  have hR : (∀ j : Fin 5, PR 0 j = 0) ∧ PR 1 0 = l.areaNorm.x :=
    physicalStores_row0_col0 R eqnState l.areaNorm (R.Velocity.DotProd l.areaNorm)
  have hsum : ∀ (S T : primVars ℝ) (g : idealGas ℝ) (B : vector3d ℝ) (j : Fin 5),
      (ApproxRoeFluxJacobian Real.sqrt S T g B).1 0 j
        + (ApproxRoeFluxJacobian Real.sqrt S T g B).2 0 j = 0 := by
    intro S T g B j
    have e1 : (ApproxRoeFluxJacobian Real.sqrt S T g B).1 0 j
        = 0.5 * (ApproxRoeFluxJacobian.physicalStores S g (roeLocals Real.sqrt S T g B).areaNorm
            (S.Velocity.DotProd (roeLocals Real.sqrt S T g B).areaNorm) 0 j
          + ApproxRoeFluxJacobian.dissipationMatrix g (roeLocals Real.sqrt S T g B) 0 j) := rfl
    have e2 : (ApproxRoeFluxJacobian Real.sqrt S T g B).2 0 j
        = 0.5 * (ApproxRoeFluxJacobian.physicalStores T g (roeLocals Real.sqrt S T g B).areaNorm
            (T.Velocity.DotProd (roeLocals Real.sqrt S T g B).areaNorm) 0 j
          - ApproxRoeFluxJacobian.dissipationMatrix g (roeLocals Real.sqrt S T g B) 0 j) := rfl
    rw [e1, e2, (physicalStores_row0_col0 S g _ _).1 j, (physicalStores_row0_col0 T g _ _).1 j]
    ring
  refine ⟨h1, h2, hL.1, hR.1, ?_, ?_, hsum L R eqnState A, ?_, ?_, hsum _ _ _ _ 1⟩
  · rw [← hn]; exact hL.2
  · rw [← hn]; exact hR.2
  · rw [h1, h2, hL.2, hR.2, hn]; ring
  · refine (eulerJacobian_hasDerivAt (⟨1, 1, 0, 0, 1 / 1.4⟩ : primVars ℝ) ⟨1.4⟩ ⟨1, 0, 0⟩
      (by norm_num) (by norm_num) 0 1).congr_deriv ?_
    simp [LaxFriedrichsFluxJacobian.physicalStores, squareMatrix.SetData, squareMatrix.Zero,
      vector3d.divScalar, vector3d.Mag]

/-- C12 (evaluated at a failing input). In `ApproxRoeFluxJacobian`, columns
one to four of the `u - c` and of the `u + c` contribution matrix are, for
every input, a multiple of the acoustic eigenvector of `RoeFlux` for the same
wave. Column zero is not: at `L = R = (rho=1, u=3, v=2, w=0, p=1/1.4)`,
`gamma = 1.4`, area vector `(0,1,0)` (Roe state `q = 2`, `a = 1`, `H = 9`) the
eigenvectors are `(1,3,1,0,7)` and `(1,3,3,0,11)`, while column zero of the
`u - c` matrix starts with 23/10 and ends with 207/10 (not 7 * 23/10), and
column zero of the `u + c` matrix starts with 3/10 and ends with 27/10 (not
11 * 3/10): entry (4,0) is built from `hR` minus or plus
`velRNorm * aR * areaNorm.X()` where the other columns use `aR * velRNorm`. -/
theorem ApproxRoe_acoustic_column_zero_not_eigenvector :
    (∀ (L R : primVars ℝ) (g : idealGas ℝ) (A : vector3d ℝ) (i : Fin 5),
      let l := roeLocals Real.sqrt L R g A
      let T := ApproxRoeFluxJacobian.leftAcousticTerm g l
      let T' := ApproxRoeFluxJacobian.rightAcousticTerm g l
      (T i 1 = T 0 1 * l.lAcousticEigV i ∧ T i 2 = T 0 2 * l.lAcousticEigV i ∧
        T i 3 = T 0 3 * l.lAcousticEigV i ∧ T i 4 = T 0 4 * l.lAcousticEigV i) ∧
      (T' i 1 = T' 0 1 * l.rAcousticEigV i ∧ T' i 2 = T' 0 2 * l.rAcousticEigV i ∧
        T' i 3 = T' 0 3 * l.rAcousticEigV i ∧ T' i 4 = T' 0 4 * l.rAcousticEigV i)) ∧
    let l := roeLocals Real.sqrt (⟨1, 3, 2, 0, 1 / 1.4⟩ : primVars ℝ) ⟨1, 3, 2, 0, 1 / 1.4⟩
      ⟨1.4⟩ ⟨0, 1, 0⟩
    let T := ApproxRoeFluxJacobian.leftAcousticTerm (⟨1.4⟩ : idealGas ℝ) l
    let T' := ApproxRoeFluxJacobian.rightAcousticTerm (⟨1.4⟩ : idealGas ℝ) l
    l.lAcousticEigV = ![1, 3, 1, 0, 7] ∧ l.rAcousticEigV = ![1, 3, 3, 0, 11] ∧
    T 0 0 = 23 / 10 ∧ T 4 0 = 207 / 10 ∧ T' 0 0 = 3 / 10 ∧ T' 4 0 = 27 / 10 ∧
    (¬ ∃ c : ℝ, ∀ i : Fin 5, T i 0 = c * l.lAcousticEigV i) ∧
    (¬ ∃ c : ℝ, ∀ i : Fin 5, T' i 0 = c * l.rAcousticEigV i) := by
  refine ⟨fun L R g A i =>
    ⟨⟨(acousticTerm_columns_one_to_four L R g A i 1 (by decide)).1,
      (acousticTerm_columns_one_to_four L R g A i 2 (by decide)).1,
      (acousticTerm_columns_one_to_four L R g A i 3 (by decide)).1,
      (acousticTerm_columns_one_to_four L R g A i 4 (by decide)).1⟩,
     ⟨(acousticTerm_columns_one_to_four L R g A i 1 (by decide)).2,
      (acousticTerm_columns_one_to_four L R g A i 2 (by decide)).2,
      (acousticTerm_columns_one_to_four L R g A i 3 (by decide)).2,
      (acousticTerm_columns_one_to_four L R g A i 4 (by decide)).2⟩⟩, ?_⟩
  intro l T T'
  obtain ⟨r1, e2, e3, e4, e5, e6, hn, hq, hv⟩ := S1_locals_y (rfl : l = _)
  obtain ⟨-, -, -, w4, -, w6, -, -⟩ := roeLocals_waves Real.sqrt _ _ _ _ (rfl : l = _)
  have hl : l.lAcousticEigV = ![1, 3, 1, 0, 7] := by
    rw [w4, e2, e3, e4, e5, e6, hn, hq]; norm_num
  have hr : l.rAcousticEigV = ![1, 3, 3, 0, 11] := by
    rw [w6, e2, e3, e4, e5, e6, hn, hq]; norm_num
  have t00 : T 0 0 = 23 / 10 := by
    simp only [T, ApproxRoeFluxJacobian.leftAcousticTerm, e2, e3, e4, e5, e6, hn, hq, hv]
    simp [squareMatrix.SetData, squareMatrix.Zero, idealGas.Gamma, vector3d.MagSq]
    norm_num
  have t40 : T 4 0 = 207 / 10 := by
    simp only [T, ApproxRoeFluxJacobian.leftAcousticTerm, e2, e3, e4, e5, e6, hn, hq, hv]
    simp [squareMatrix.SetData, squareMatrix.Zero, idealGas.Gamma, vector3d.MagSq]
    norm_num
  have t00' : T' 0 0 = 3 / 10 := by
    simp only [T', ApproxRoeFluxJacobian.rightAcousticTerm, e2, e3, e4, e5, e6, hn, hq, hv]
    simp [squareMatrix.SetData, squareMatrix.Zero, idealGas.Gamma, vector3d.MagSq]
    norm_num
  have t40' : T' 4 0 = 27 / 10 := by
    simp only [T', ApproxRoeFluxJacobian.rightAcousticTerm, e2, e3, e4, e5, e6, hn, hq, hv]
    simp [squareMatrix.SetData, squareMatrix.Zero, idealGas.Gamma, vector3d.MagSq]
    norm_num
  refine ⟨hl, hr, t00, t40, t00', t40', ?_, ?_⟩
  · rintro ⟨c, hc⟩
    have h0 := hc 0
    have h4 := hc 4
    rw [hl, t00] at h0
    rw [hl, t40] at h4
    simp at h0 h4
    rw [← h0] at h4
    norm_num at h4
  · rintro ⟨c, hc⟩
    have h0 := hc 0
    have h4 := hc 4
    rw [hr, t00'] at h0
    rw [hr, t40'] at h4
    simp at h0 h4
    rw [← h0] at h4
    norm_num at h4

/-- C13 (evaluated at a failing input). At the coincident states
`L = R = (rho=1, u=3, v=2, w=0, p=1/1.4)`, `gamma = 1.4`, area vector
`(1,0,0)`, the Roe state has `q = 3`, `a = 1`, so that `|q - a| = 2` and
`|q + a| = 4` are both at least 0.1 and no entropy fix is active; entry (1,0) of
`dF_dUl` is -36/5 from `ApproxRoeFluxJacobian` and -27/10 from
`RoeFluxJacobian`, so the two functions return different matrices. -/
theorem ApproxRoe_differs_from_exact_at_coincident_states :
    let S : primVars ℝ := ⟨1, 3, 2, 0, 1 / 1.4⟩
    let l := roeLocals Real.sqrt S S ⟨1.4⟩ ⟨1, 0, 0⟩
    l.velRSum = 3 ∧ l.aR = 1 ∧
    (0.1 : ℝ) ≤ |l.velRSum - l.aR| ∧ (0.1 : ℝ) ≤ |l.velRSum + l.aR| ∧
    (ApproxRoeFluxJacobian Real.sqrt S S ⟨1.4⟩ ⟨1, 0, 0⟩).1 1 0 = -(36 / 5) ∧
    (RoeFluxJacobian Real.sqrt S S ⟨1.4⟩ ⟨1, 0, 0⟩).1 1 0 = -(27 / 10) ∧
    (ApproxRoeFluxJacobian Real.sqrt S S ⟨1.4⟩ ⟨1, 0, 0⟩).1
      ≠ (RoeFluxJacobian Real.sqrt S S ⟨1.4⟩ ⟨1, 0, 0⟩).1 := by
  intro S l
  obtain ⟨r1, e2, e3, e4, e5, e6, hn, hq, hv, hdv⟩ := S1_locals_x (rfl : l = _)
  obtain ⟨w1, w2, w3, w4, w5, w6, w7, -⟩ := roeLocals_waves Real.sqrt S S ⟨1.4⟩ ⟨1, 0, 0⟩
    (rfl : l = _)
  have key : (ApproxRoeFluxJacobian Real.sqrt S S ⟨1.4⟩ ⟨1, 0, 0⟩).1 1 0 = -(36 / 5) ∧
      (RoeFluxJacobian Real.sqrt S S ⟨1.4⟩ ⟨1, 0, 0⟩).1 1 0 = -(27 / 10) := by
    refine ⟨?_, ?_⟩
    · simp only [ApproxRoeFluxJacobian, ApproxRoeFluxJacobian.dissipationMatrix,
        ApproxRoeFluxJacobian.normalVelocityTerm, ApproxRoeFluxJacobian.leftAcousticTerm,
        ApproxRoeFluxJacobian.rightAcousticTerm, ApproxRoeFluxJacobian.physicalStores,
        squareMatrix.lscale, squareMatrix.add, squareMatrix.sub]
      simp only [show roeLocals Real.sqrt S S ⟨1.4⟩ ⟨1, 0, 0⟩ = l from rfl,
        e2, e3, e4, e5, e6, hn, hq, hv]
      simp [squareMatrix.SetData, squareMatrix.Zero, idealGas.Gamma, vector3d.MagSq, S,
        primVars.Velocity, vector3d.DotProd, primVars.U, primVars.V, primVars.W,
        primVars.Enthalpy, primVars.P, primVars.Rho]
      norm_num [abs_of_pos]
    · simp only [RoeFluxJacobian, RoeFluxJacobian.assemble, RoeFluxJacobian.physicalLeft,
        RoeFluxJacobian.physicalTerm, squareMatrix.sub, squareMatrix.lscale, squareMatrix.Data,
        squareMatrix.SetData, squareMatrix.scale, squareMatrix.Zero,
        RoeFluxJacobian.dWs1, RoeFluxJacobian.dWs3, RoeFluxJacobian.dWs1Unfixed,
        RoeFluxJacobian.dWs3Unfixed, RoeFluxJacobian.leftArrays,
        show roeLocals Real.sqrt S S ⟨1.4⟩ ⟨1, 0, 0⟩ = l from rfl]
      rw [w1, w3, w4, w5, w6, w7]
      simp only [hv, e6, hn, hq, hdv, e5, e2, e3, e4, r1]
      simp [S, primVars.Enthalpy, idealGas.Gamma, primVars.P, primVars.Rho, primVars.U,
        primVars.V, primVars.W, primVars.Velocity, vector3d.MagSq, vector3d.DotProd,
        primVars.SoS, entropyFixed, copysignOne]
      norm_num [abs_of_pos]
  refine ⟨hq, e6, ?_, ?_, key.1, key.2, ?_⟩
  · rw [hq, e6]; norm_num [abs_of_pos]
  · rw [hq, e6]; norm_num [abs_of_pos]
  · intro h
    have h10 := congrFun (congrFun h 1) 0
    rw [key.1, key.2] at h10
    norm_num at h10

/-- C14. For all states with positive density and every `gamma > 1`,
`LaxFriedrichsFluxJacobian` sets `specRadL = specRadR = |0.5*(v_L + v_R) . n| +
0.5*(SoS(L) + SoS(R))` and returns `dF_dUl = 0.5*(J_L + specRad*I)`,
`dF_dUr = 0.5*(J_R - specRad*I)`, where entry (i,j) of `J_S` is the derivative
of component `i` of the physical flux of `S` with respect to the conserved
variable `j`; for `L == R` the sum of the two matrices is `J` and their
difference is `specRad*I`. -/
theorem LaxFriedrichsFluxJacobian_formula (L R : primVars ℝ) (eqnState : idealGas ℝ)
    (A : vector3d ℝ) (hL : 0 < L.rho) (hR : 0 < R.rho) (hgamma : 1 < eqnState.gamma) :
    let r := LaxFriedrichsFluxJacobian Real.sqrt L R eqnState A
    let s := LaxFriedrichsFluxJacobian Real.sqrt L L eqnState A
    let n := A.divScalar (A.Mag Real.sqrt)
    let JL := LaxFriedrichsFluxJacobian.physicalStores L eqnState n (L.Velocity.DotProd n)
    let JR := LaxFriedrichsFluxJacobian.physicalStores R eqnState n (R.Velocity.DotProd n)
    r.specRadL = |(vector3d.lscale 0.5 (L.Velocity.add R.Velocity)).DotProd n|
      + 0.5 * (L.SoS Real.sqrt eqnState + R.SoS Real.sqrt eqnState) ∧
    r.specRadR = r.specRadL ∧
    (∀ i j : Fin 5, r.dF_dUl i j = 0.5 * (JL i j + r.specRadL * if i = j then 1 else 0)) ∧
    (∀ i j : Fin 5, r.dF_dUr i j = 0.5 * (JR i j - r.specRadR * if i = j then 1 else 0)) ∧
    (∀ i j : Fin 5, HasDerivAt (fun t : ℝ =>
      (inviscidFlux.ofState Real.sqrt
        (primVars.ofConserved Real.sqrt
          (fun k => L.ConsVars eqnState k + if k = j then t else 0) eqnState)
        eqnState A).ConvertToColMatrix i) (JL i j) 0) ∧
    (∀ i j : Fin 5, HasDerivAt (fun t : ℝ =>
      (inviscidFlux.ofState Real.sqrt
        (primVars.ofConserved Real.sqrt
          (fun k => R.ConsVars eqnState k + if k = j then t else 0) eqnState)
        eqnState A).ConvertToColMatrix i) (JR i j) 0) ∧
    (∀ i j : Fin 5, s.dF_dUl i j + s.dF_dUr i j = JL i j) ∧
    (∀ i j : Fin 5, s.dF_dUl i j - s.dF_dUr i j = s.specRadL * if i = j then 1 else 0) := by
  intro r s n JL JR
  have h3 : ∀ i j : Fin 5,
      r.dF_dUl i j = 0.5 * (JL i j + r.specRadL * if i = j then 1 else 0) := fun i j => rfl
  have h4 : ∀ i j : Fin 5,
      r.dF_dUr i j = 0.5 * (JR i j - r.specRadR * if i = j then 1 else 0) := fun i j => rfl
  have s3 : ∀ i j : Fin 5,
      s.dF_dUl i j = 0.5 * (JL i j + s.specRadL * if i = j then 1 else 0) := fun i j => rfl
  have s4 : ∀ i j : Fin 5,
      s.dF_dUr i j = 0.5 * (JL i j - s.specRadL * if i = j then 1 else 0) := fun i j => rfl
  refine ⟨rfl, rfl, h3, h4, ?_, ?_, ?_, ?_⟩
  · exact fun i j => eulerJacobian_hasDerivAt L eqnState A hL.ne' hgamma.ne' i j
  · exact fun i j => eulerJacobian_hasDerivAt R eqnState A hR.ne' hgamma.ne' i j
  · intro i j; rw [s3, s4]; ring
  · intro i j; rw [s3, s4]; ring

/-- An instance of C14: `L = (rho=1, u=v=w=0, p=1/1.4)`, `R = (rho=1, u=v=w=0,
p=35)`, `gamma = 1.4`, area vector `(1,0,0)` give the spectral radius
`0.5*(1 + 7) = 4` and `dF_dUl(0,1) = 0.5*n_x = 1/2`. -/
theorem LaxFriedrichsFluxJacobian_formula_witness :
    (LaxFriedrichsFluxJacobian Real.sqrt (⟨1, 0, 0, 0, 1 / 1.4⟩ : primVars ℝ)
      ⟨1, 0, 0, 0, 35⟩ ⟨1.4⟩ ⟨1, 0, 0⟩).specRadL = 4 ∧
    (LaxFriedrichsFluxJacobian Real.sqrt (⟨1, 0, 0, 0, 1 / 1.4⟩ : primVars ℝ)
      ⟨1, 0, 0, 0, 35⟩ ⟨1.4⟩ ⟨1, 0, 0⟩).dF_dUl 0 1 = 1 / 2 := by
  have h := LaxFriedrichsFluxJacobian_formula (⟨1, 0, 0, 0, 1 / 1.4⟩ : primVars ℝ)
    ⟨1, 0, 0, 0, 35⟩ ⟨1.4⟩ ⟨1, 0, 0⟩ (by norm_num) (by norm_num) (by norm_num)
  have h49 : Real.sqrt 49 = 7 := by
    rw [show (49 : ℝ) = 7 * 7 by norm_num]; exact Real.sqrt_mul_self (by norm_num)
  have a1 : (⟨1, 0, 0, 0, 1 / 1.4⟩ : primVars ℝ).SoS Real.sqrt ⟨1.4⟩ = 1 := by
    norm_num [primVars.SoS, idealGas.Gamma, primVars.P, primVars.Rho]
  have a7 : (⟨1, 0, 0, 0, 35⟩ : primVars ℝ).SoS Real.sqrt ⟨1.4⟩ = 7 := by
    simp only [primVars.SoS, idealGas.Gamma, primVars.P, primVars.Rho]
    rw [show (1.4 : ℝ) * 35 / 1 = 49 by norm_num]; exact h49
  have hs := h.1
  rw [a1, a7] at hs
  have hs' : (LaxFriedrichsFluxJacobian Real.sqrt (⟨1, 0, 0, 0, 1 / 1.4⟩ : primVars ℝ)
      ⟨1, 0, 0, 0, 35⟩ ⟨1.4⟩ ⟨1, 0, 0⟩).specRadL = 4 := by
    rw [hs]
    norm_num [vector3d.lscale, vector3d.add, primVars.Velocity, vector3d.DotProd]
  refine ⟨hs', ?_⟩
  rw [h.2.2.1 0 1]
  simp [LaxFriedrichsFluxJacobian.physicalStores, squareMatrix.SetData, squareMatrix.Zero,
    vector3d.divScalar, vector3d.Mag]
  norm_num

/-- C15 (amended). `LaxFriedrichsFlux` returns, componentwise,
`0.5*(F(L) + F(R)) - 0.5*specRad*(U_R - U_L)` and reports `specRad` as
`maxWS`, where `specRad` is `ConvSpecRad` of the arithmetic mean `0.5*(L + R)`
of the two primitive states: `|0.5*(v_L + v_R) . n|` plus the speed of sound
of the averaged state, `sqrt(gamma * 0.5(p_L + p_R) / (0.5(rho_L + rho_R)))`.
`LaxFriedrichsFluxJacobian` uses the average `0.5*(SoS(L) + SoS(R))` of the two
speeds of sound instead; the two spectral radii agree when `L == R`. -/
theorem LaxFriedrichsFlux_formula (L R : primVars ℝ) (eqnState : idealGas ℝ) (A : vector3d ℝ) :
    let F := LaxFriedrichsFlux Real.sqrt L R eqnState A
    let FL := inviscidFlux.ofState Real.sqrt L eqnState A
    let FR := inviscidFlux.ofState Real.sqrt R eqnState A
    let n := A.divScalar (A.Mag Real.sqrt)
    (∀ i : Fin 5, F.1.ConvertToColMatrix i
      = 0.5 * (FL.ConvertToColMatrix i + FR.ConvertToColMatrix i)
        - 0.5 * F.2 * (R.ConsVars eqnState i - L.ConsVars eqnState i)) ∧
    F.2 = ConvSpecRad Real.sqrt A (primVars.lscale 0.5 (L.add R)) eqnState ∧
    F.2 = |(vector3d.lscale 0.5 (L.Velocity.add R.Velocity)).DotProd n|
      + Real.sqrt (eqnState.gamma * (0.5 * (L.p + R.p)) / (0.5 * (L.rho + R.rho))) ∧
    (LaxFriedrichsFluxJacobian Real.sqrt L R eqnState A).specRadL
      = |(vector3d.lscale 0.5 (L.Velocity.add R.Velocity)).DotProd n|
        + 0.5 * (L.SoS Real.sqrt eqnState + R.SoS Real.sqrt eqnState) ∧
    (LaxFriedrichsFlux Real.sqrt L L eqnState A).2
      = (LaxFriedrichsFluxJacobian Real.sqrt L L eqnState A).specRadL := by
  intro F FL FR n
  refine ⟨?_, rfl, rfl, rfl, ?_⟩
  · intro i
    fin_cases i <;> simp [F, FL, FR, LaxFriedrichsFlux, inviscidFlux.ConvertToColMatrix] <;> ring
  · simp only [LaxFriedrichsFlux, LaxFriedrichsFluxJacobian, ConvSpecRad, primVars.lscale,
      primVars.add, primVars.SoS, primVars.Velocity, vector3d.lscale, vector3d.add,
      primVars.P, primVars.Rho]
    have h : ∀ x : ℝ, 0.5 * (x + x) = x := fun x => by ring
    simp only [h]

/-- C15 (counterexample). For `L = (rho=1, u=v=w=0, p=1/1.4)`,
`R = (rho=1, u=v=w=0, p=35)`, `gamma = 1.4` and area vector `(1,0,0)` the
speeds of sound are 1 and 7; `LaxFriedrichsFlux` reports `maxWS = 5` (the speed
of sound of the averaged state), while `LaxFriedrichsFluxJacobian` computes the
spectral radius 4 (the average of the two speeds of sound). -/
theorem LaxFriedrichsFlux_specRad_differs :
    (LaxFriedrichsFlux Real.sqrt (⟨1, 0, 0, 0, 1 / 1.4⟩ : primVars ℝ) ⟨1, 0, 0, 0, 35⟩ ⟨1.4⟩
      ⟨1, 0, 0⟩).2 = 5 ∧
    (LaxFriedrichsFluxJacobian Real.sqrt (⟨1, 0, 0, 0, 1 / 1.4⟩ : primVars ℝ) ⟨1, 0, 0, 0, 35⟩
      ⟨1.4⟩ ⟨1, 0, 0⟩).specRadL = 4 ∧
    (⟨1, 0, 0, 0, 1 / 1.4⟩ : primVars ℝ).SoS Real.sqrt ⟨1.4⟩ = 1 ∧
    (⟨1, 0, 0, 0, 35⟩ : primVars ℝ).SoS Real.sqrt ⟨1.4⟩ = 7 ∧
    (LaxFriedrichsFlux Real.sqrt (⟨1, 0, 0, 0, 1 / 1.4⟩ : primVars ℝ) ⟨1, 0, 0, 0, 35⟩ ⟨1.4⟩
      ⟨1, 0, 0⟩).2
      ≠ (LaxFriedrichsFluxJacobian Real.sqrt (⟨1, 0, 0, 0, 1 / 1.4⟩ : primVars ℝ)
        ⟨1, 0, 0, 0, 35⟩ ⟨1.4⟩ ⟨1, 0, 0⟩).specRadL := by
  have h25 : Real.sqrt 25 = 5 := by
    rw [show (25 : ℝ) = 5 * 5 by norm_num]; exact Real.sqrt_mul_self (by norm_num)
  have h49 : Real.sqrt 49 = 7 := by
    rw [show (49 : ℝ) = 7 * 7 by norm_num]; exact Real.sqrt_mul_self (by norm_num)
  have a1 : (⟨1, 0, 0, 0, 1 / 1.4⟩ : primVars ℝ).SoS Real.sqrt ⟨1.4⟩ = 1 := by
    norm_num [primVars.SoS, idealGas.Gamma, primVars.P, primVars.Rho]
  have a7 : (⟨1, 0, 0, 0, 35⟩ : primVars ℝ).SoS Real.sqrt ⟨1.4⟩ = 7 := by
    simp only [primVars.SoS, idealGas.Gamma, primVars.P, primVars.Rho]
    rw [show (1.4 : ℝ) * 35 / 1 = 49 by norm_num]; exact h49
  have hF : (LaxFriedrichsFlux Real.sqrt (⟨1, 0, 0, 0, 1 / 1.4⟩ : primVars ℝ)
      ⟨1, 0, 0, 0, 35⟩ ⟨1.4⟩ ⟨1, 0, 0⟩).2 = 5 := by
    simp only [LaxFriedrichsFlux, ConvSpecRad, primVars.lscale, primVars.add, primVars.SoS,
      primVars.Velocity, vector3d.DotProd, idealGas.Gamma, primVars.P, primVars.Rho]
    rw [show (1.4 : ℝ) * (0.5 * (1 / 1.4 + 35)) / (0.5 * (1 + 1)) = 25 by norm_num, h25]
    norm_num
  have hJ : (LaxFriedrichsFluxJacobian Real.sqrt (⟨1, 0, 0, 0, 1 / 1.4⟩ : primVars ℝ)
      ⟨1, 0, 0, 0, 35⟩ ⟨1.4⟩ ⟨1, 0, 0⟩).specRadL = 4 := by
    simp only [LaxFriedrichsFluxJacobian, a1, a7]
    norm_num [vector3d.lscale, vector3d.add, primVars.Velocity, vector3d.DotProd]
  refine ⟨hF, hJ, a1, a7, ?_⟩
  rw [hF, hJ]
  norm_num

/-- C16 (evaluated at a failing input). For the name `"periodic"`, which is none
of the seven boundary-condition names, `BoundaryFlux` writes nothing to `cerr`
and returns exactly what it returns for `"slipWall"`, and
`BoundaryFluxJacobian` returns the wall Jacobian with `maxWS` set to the speed
of sound: the test `bcName == "slipWall" || "viscousWall"` is true for every
name, so the final `else` with the error message is never reached. -/
theorem boundary_unrecognized_name_takes_wall_branch (c : BoundaryCollaborators ℝ)
    (areaVec : vector3d ℝ) (state1 state2 : primVars ℝ) (eqnState : idealGas ℝ)
    (surf fluxJacType : String) (maxWS0 up2face upwind : ℝ) (flux0 : inviscidFlux ℝ)
    (fluxJac0 : squareMatrix ℝ) :
    (BoundaryFlux Real.sqrt c "periodic" areaVec state1 state2 eqnState surf maxWS0
        up2face upwind flux0).message = none ∧
    BoundaryFlux Real.sqrt c "periodic" areaVec state1 state2 eqnState surf maxWS0
        up2face upwind flux0
      = BoundaryFlux Real.sqrt c "slipWall" areaVec state1 state2 eqnState surf maxWS0
        up2face upwind flux0 ∧
    BoundaryFluxJacobian Real.sqrt c "periodic" areaVec state1 eqnState surf fluxJacType
        maxWS0 fluxJac0
      = Outcome.returned
          { fluxJac := BoundaryFluxJacobian.wallJacobian state1 eqnState
              (areaVec.divScalar (areaVec.Mag Real.sqrt))
            maxWS := state1.SoS Real.sqrt eqnState
            message := none } := by
  refine ⟨?_, ?_, ?_⟩
  · simp only [BoundaryFlux, stringLiteralAsCondition]
    simp
    split_ifs <;> rfl
  · simp only [BoundaryFlux, stringLiteralAsCondition]
    simp
  · simp only [BoundaryFluxJacobian, stringLiteralAsCondition]
    simp

/-- C17 (amended). `BoundaryFluxJacobian` terminates with the
unrecognized-Jacobian-type error if and only if `bcName` is one of the five
non-wall kinds (subsonicInflow, subsonicOutflow, supersonicInflow,
supersonicOutflow, characteristic) and `fluxJacType` is none of
"approximateRoe", "exactRoe", "laxFriedrichs", for every face side; in the wall
branch `fluxJacType` is not inspected. -/
theorem BoundaryFluxJacobian_exits_iff (c : BoundaryCollaborators ℝ) (bcName : String)
    (areaVec : vector3d ℝ) (state : primVars ℝ) (eqnState : idealGas ℝ)
    (surf fluxJacType : String) (maxWS0 : ℝ) (fluxJac0 : squareMatrix ℝ) :
    (∃ msg, BoundaryFluxJacobian Real.sqrt c bcName areaVec state eqnState surf fluxJacType
        maxWS0 fluxJac0 = Outcome.exited msg) ↔
      ((bcName = "subsonicInflow" ∨ bcName = "subsonicOutflow" ∨ bcName = "supersonicInflow"
          ∨ bcName = "supersonicOutflow" ∨ bcName = "characteristic") ∧
        ¬(fluxJacType = "approximateRoe" ∨ fluxJacType = "exactRoe"
          ∨ fluxJacType = "laxFriedrichs")) := by
  simp only [BoundaryFluxJacobian, BoundaryFluxJacobian.dispatch, stringLiteralAsCondition]
  by_cases hb : bcName = "subsonicInflow" ∨ bcName = "subsonicOutflow"
      ∨ bcName = "supersonicInflow" ∨ bcName = "supersonicOutflow" ∨ bcName = "characteristic"
  · rw [if_pos hb]
    by_cases h1 : fluxJacType = "approximateRoe"
    · simp [hb, h1]; split_ifs <;> simp
    · by_cases h2 : fluxJacType = "exactRoe"
      · simp [hb, h1, h2]; split_ifs <;> simp
      · by_cases h3 : fluxJacType = "laxFriedrichs"
        · simp [hb, h1, h2, h3]; split_ifs <;> simp
        · simp [hb, h1, h2, h3]
  · rw [if_neg hb]
    simp [hb]

/-- C17 (counterexample). For `bcName = "slipWall"` and the Jacobian type
`"bogus"`, which is none of the three recognized names, `BoundaryFluxJacobian`
returns the wall Jacobian and raises no error. -/
theorem BoundaryFluxJacobian_wall_ignores_type :
    BoundaryFluxJacobian Real.sqrt
        (⟨-2, "none", fun s _ _ _ => s, fun s => s, fun s _ _ _ _ _ _ _ _ => s⟩ :
          BoundaryCollaborators ℝ)
        "slipWall" ⟨1, 0, 0⟩ exampleState ⟨1.4⟩ "il" "bogus" 0 squareMatrix.Zero
      = Outcome.returned
          { fluxJac := BoundaryFluxJacobian.wallJacobian exampleState ⟨1.4⟩
              ((⟨1, 0, 0⟩ : vector3d ℝ).divScalar (vector3d.Mag Real.sqrt ⟨1, 0, 0⟩))
            maxWS := exampleState.SoS Real.sqrt ⟨1.4⟩
            message := none } ∧
    ¬("bogus" = "approximateRoe" ∨ "bogus" = "exactRoe" ∨ "bogus" = "laxFriedrichs") := by
  constructor
  · simp [BoundaryFluxJacobian, stringLiteralAsCondition]
  · decide

/-- C18. Constructing an `inviscidFlux` from a conserved-variable column
terminates without a flux if and only if the size of the column is not 5; when
it is not 5 the outcome does not depend on the entries of the column (the test
precedes every read and division), and when it is 5 the flux of the state built
from the five entries is returned. -/
theorem inviscidFlux_ofColMatrix_size_check (cons : colMatrix ℝ) (eqnState : idealGas ℝ)
    (areaVec : vector3d ℝ) :
    ((∃ msg, inviscidFlux.ofColMatrix Real.sqrt cons eqnState areaVec = Outcome.exited msg)
      ↔ cons.Size ≠ 5) ∧
    (cons.Size ≠ 5 → ∀ data' : Nat → ℝ,
      inviscidFlux.ofColMatrix Real.sqrt ⟨cons.size, data'⟩ eqnState areaVec
        = inviscidFlux.ofColMatrix Real.sqrt cons eqnState areaVec) ∧
    (cons.Size = 5 →
      inviscidFlux.ofColMatrix Real.sqrt cons eqnState areaVec
        = Outcome.returned (inviscidFlux.ofState Real.sqrt
            (primVars.ofConserved Real.sqrt
              ![cons.Data 0, cons.Data 1, cons.Data 2, cons.Data 3, cons.Data 4] eqnState)
            eqnState areaVec)) := by
  refine ⟨?_, ?_, ?_⟩
  · by_cases h : cons.Size = 5
    · simp [inviscidFlux.ofColMatrix, h]
    · simp [inviscidFlux.ofColMatrix, h]
  · intro h data'
    have h' : (⟨cons.size, data'⟩ : colMatrix ℝ).Size ≠ 5 := h
    simp only [inviscidFlux.ofColMatrix, if_pos h, if_pos h']
  · intro h
    simp [inviscidFlux.ofColMatrix, h, inviscidFlux.ofState]

/-- An instance of C18: a column of size 4 ends the run, whatever its entries,
and the column `(1, 1, 0, 0, 2)` of size 5 gives a flux. -/
theorem inviscidFlux_ofColMatrix_size_check_witness :
    (∃ msg, inviscidFlux.ofColMatrix Real.sqrt (⟨4, fun _ => 0⟩ : colMatrix ℝ) ⟨1.4⟩ ⟨1, 0, 0⟩
      = Outcome.exited msg) ∧
    (∃ f, inviscidFlux.ofColMatrix Real.sqrt
      (⟨5, fun k => if k = 0 ∨ k = 1 then 1 else if k = 4 then 2 else 0⟩ : colMatrix ℝ)
      ⟨1.4⟩ ⟨1, 0, 0⟩ = Outcome.returned f) :=
  ⟨(inviscidFlux_ofColMatrix_size_check ⟨4, fun _ => 0⟩ ⟨1.4⟩ ⟨1, 0, 0⟩).1.2 (by decide),
   ⟨_, (inviscidFlux_ofColMatrix_size_check
      ⟨5, fun k => if k = 0 ∨ k = 1 then 1 else if k = 4 then 2 else 0⟩ ⟨1.4⟩ ⟨1, 0, 0⟩).2.2
      rfl⟩⟩

/-- C19 (evaluated at a failing input). For output matrices of any sizes the
size check that opens `RoeFluxJacobian`, `ApproxRoeFluxJacobian` and
`LaxFriedrichsFluxJacobian` does not leave the function: for sizes 6 and 5 it
writes its message and control goes on to the statements that write the
matrices, whereas the size check of the conserved-variable constructor ends the
run. -/
theorem jacobian_size_check_does_not_abort (sizeL sizeR : Nat) :
    (RoeFluxJacobian.sizeCheck sizeL sizeR).leaves = false ∧
    (LaxFriedrichsFluxJacobian.sizeCheck sizeL sizeR).leaves = false ∧
    (RoeFluxJacobian.sizeCheck 6 5).message
      = some "ERROR: Input matricies to RoeFLuxJacobian function are not the correct size!" ∧
    (inviscidFlux.sizeCheck 6).leaves = true := by
  refine ⟨?_, ?_, ?_, ?_⟩
  · simp only [RoeFluxJacobian.sizeCheck]; split_ifs <;> rfl
  · simp only [LaxFriedrichsFluxJacobian.sizeCheck]; split_ifs <;> rfl
  · simp [RoeFluxJacobian.sizeCheck]
  · simp [inviscidFlux.sizeCheck]

/-- The wall Jacobian has zero mass and energy rows, and its first column is
`0.5*(gamma-1)*|v|^2` times `(0, n_x, n_y, n_z, 0)`. -/
theorem wallJacobian_entries (state : primVars ℝ) (eqnState : idealGas ℝ) (n : vector3d ℝ) :
    (∀ j : Fin 5, BoundaryFluxJacobian.wallJacobian state eqnState n 0 j = 0) ∧
    (∀ j : Fin 5, BoundaryFluxJacobian.wallJacobian state eqnState n 4 j = 0) ∧
    (∀ i : Fin 5, BoundaryFluxJacobian.wallJacobian state eqnState n i 0
      = 0.5 * (eqnState.gamma - 1) * state.Velocity.MagSq * ![0, n.x, n.y, n.z, 0] i) := by
  refine ⟨?_, ?_, ?_⟩
  · intro j
    simp [BoundaryFluxJacobian.wallJacobian, squareMatrix.SetData, squareMatrix.Zero]
  · intro j
    simp [BoundaryFluxJacobian.wallJacobian, squareMatrix.SetData, squareMatrix.Zero]
  · intro i
    fin_cases i <;>
      simp [BoundaryFluxJacobian.wallJacobian, squareMatrix.SetData, squareMatrix.Zero,
        idealGas.Gamma] <;> norm_num

/-- C20 (amended). For `bcName = "slipWall"`, every state, every non-zero area
vector, every face side and every `fluxJacType`, `BoundaryFluxJacobian` returns
a matrix whose row 0 is all zero and whose column 0 is
`0.5*(gamma-1)*|v|^2 * (0, n_x, n_y, n_z, 0)` with `n = A/|A|`. -/
theorem BoundaryFluxJacobian_slipWall (c : BoundaryCollaborators ℝ) (areaVec : vector3d ℝ)
    (state : primVars ℝ) (eqnState : idealGas ℝ) (surf fluxJacType : String) (maxWS0 : ℝ)
    (fluxJac0 : squareMatrix ℝ) (_hA : areaVec ≠ ⟨0, 0, 0⟩) :
    ∃ r : BoundaryJacobianResult ℝ,
      BoundaryFluxJacobian Real.sqrt c "slipWall" areaVec state eqnState surf fluxJacType
        maxWS0 fluxJac0 = Outcome.returned r ∧
      (∀ j : Fin 5, r.fluxJac 0 j = 0) ∧
      (∀ i : Fin 5, r.fluxJac i 0
        = 0.5 * (eqnState.gamma - 1) * state.Velocity.MagSq
          * ![0, (areaVec.divScalar (areaVec.Mag Real.sqrt)).x,
              (areaVec.divScalar (areaVec.Mag Real.sqrt)).y,
              (areaVec.divScalar (areaVec.Mag Real.sqrt)).z, 0] i) := by
  refine ⟨⟨BoundaryFluxJacobian.wallJacobian state eqnState
      (areaVec.divScalar (areaVec.Mag Real.sqrt)), state.SoS Real.sqrt eqnState, none⟩,
    ?_, ?_, ?_⟩
  · simp [BoundaryFluxJacobian, stringLiteralAsCondition]
  · exact (wallJacobian_entries state eqnState
      (areaVec.divScalar (areaVec.Mag Real.sqrt))).1
  · exact (wallJacobian_entries state eqnState
      (areaVec.divScalar (areaVec.Mag Real.sqrt))).2.2

/-- An instance of the amended C20: state `(rho=1, u=1, v=w=0, p=1/1.4)`, area
vector `(1,0,0)`, `gamma = 1.4`; row 0 is zero and entry (1,0) is `1/5`. -/
theorem BoundaryFluxJacobian_slipWall_witness :
    ∃ r : BoundaryJacobianResult ℝ,
      BoundaryFluxJacobian Real.sqrt
        (⟨-2, "none", fun s _ _ _ => s, fun s => s, fun s _ _ _ _ _ _ _ _ => s⟩ :
          BoundaryCollaborators ℝ)
        "slipWall" ⟨1, 0, 0⟩ ⟨1, 1, 0, 0, 1 / 1.4⟩ ⟨1.4⟩ "il" "exactRoe" 0 squareMatrix.Zero
        = Outcome.returned r ∧
      (∀ j : Fin 5, r.fluxJac 0 j = 0) ∧ r.fluxJac 1 0 = 1 / 5 := by
  obtain ⟨r, h1, h2, h3⟩ := BoundaryFluxJacobian_slipWall
    (⟨-2, "none", fun s _ _ _ => s, fun s => s, fun s _ _ _ _ _ _ _ _ => s⟩ :
      BoundaryCollaborators ℝ) ⟨1, 0, 0⟩ ⟨1, 1, 0, 0, 1 / 1.4⟩ ⟨1.4⟩ "il" "exactRoe" 0
    squareMatrix.Zero (by simp)
  refine ⟨r, h1, h2, ?_⟩
  rw [h3 1]
  norm_num [primVars.Velocity, vector3d.MagSq, vector3d.divScalar, vector3d.Mag]

/-- C20 (counterexample). For `bcName = "slipWall"`, the state `(rho=1, u=1,
v=w=0, p=1/1.4)`, the area vector `(1,0,0)` and `gamma = 1.4`, entry (1,0) of
the returned matrix is not zero, so column 0 is not all zero. -/
theorem BoundaryFluxJacobian_slipWall_first_column_nonzero :
    ∃ r : BoundaryJacobianResult ℝ,
      BoundaryFluxJacobian Real.sqrt
        (⟨-2, "none", fun s _ _ _ => s, fun s => s, fun s _ _ _ _ _ _ _ _ => s⟩ :
          BoundaryCollaborators ℝ)
        "slipWall" ⟨1, 0, 0⟩ ⟨1, 1, 0, 0, 1 / 1.4⟩ ⟨1.4⟩ "il" "exactRoe" 0 squareMatrix.Zero
        = Outcome.returned r ∧ r.fluxJac 1 0 ≠ 0 := by
  refine ⟨⟨BoundaryFluxJacobian.wallJacobian ⟨1, 1, 0, 0, 1 / 1.4⟩ ⟨1.4⟩
      ((⟨1, 0, 0⟩ : vector3d ℝ).divScalar (vector3d.Mag Real.sqrt ⟨1, 0, 0⟩)),
      primVars.SoS Real.sqrt ⟨1, 1, 0, 0, 1 / 1.4⟩ ⟨1.4⟩, none⟩, ?_, ?_⟩
  · simp [BoundaryFluxJacobian, stringLiteralAsCondition]
  · show BoundaryFluxJacobian.wallJacobian _ _ _ 1 0 ≠ 0
    rw [(wallJacobian_entries _ _ _).2.2 1]
    norm_num [primVars.Velocity, vector3d.MagSq, vector3d.divScalar, vector3d.Mag]

/-- C21. Wall Jacobian closed form: for `bcName` "slipWall" or "viscousWall" and
a state of positive density, `BoundaryFluxJacobian` returns, with `n = A/|A|`,
the matrix whose rows 1, 2, 3 are `n_x`, `n_y`, `n_z` times
`(gamma-1) * (0.5|v|^2, -u, -v, -w, 1)` and whose rows 0 and 4 are zero; entry
(i,j) is the derivative of component `i` of the pressure-only flux
`(0, p n_x, p n_y, p n_z, 0)` with respect to the conserved variable `j`;
`maxWS` is the speed of sound of the state; and the result is the same for all
`surf`, `fluxJacType` and collaborators. -/
theorem wall_jacobian_closed_form (c : BoundaryCollaborators ℝ) (bcName : String)
    (areaVec : vector3d ℝ) (state : primVars ℝ) (eqnState : idealGas ℝ)
    (surf fluxJacType : String) (maxWS0 : ℝ) (fluxJac0 : squareMatrix ℝ)
    (hb : bcName = "slipWall" ∨ bcName = "viscousWall") (hrho : 0 < state.rho) :
    ∃ W : squareMatrix ℝ,
      BoundaryFluxJacobian Real.sqrt c bcName areaVec state eqnState surf fluxJacType
          maxWS0 fluxJac0
        = Outcome.returned ⟨W, state.SoS Real.sqrt eqnState, none⟩ ∧
      (∀ j : Fin 5, W 0 j = 0) ∧ (∀ j : Fin 5, W 4 j = 0) ∧
      (∀ j : Fin 5, W 1 j = (areaVec.divScalar (areaVec.Mag Real.sqrt)).x
        * ((eqnState.gamma - 1)
          * ![0.5 * state.Velocity.MagSq, -state.u, -state.v, -state.w, 1] j)) ∧
      (∀ j : Fin 5, W 2 j = (areaVec.divScalar (areaVec.Mag Real.sqrt)).y
        * ((eqnState.gamma - 1)
          * ![0.5 * state.Velocity.MagSq, -state.u, -state.v, -state.w, 1] j)) ∧
      (∀ j : Fin 5, W 3 j = (areaVec.divScalar (areaVec.Mag Real.sqrt)).z
        * ((eqnState.gamma - 1)
          * ![0.5 * state.Velocity.MagSq, -state.u, -state.v, -state.w, 1] j)) ∧
      (∀ i j : Fin 5, HasDerivAt (fun t : ℝ =>
        pressureOnlyFlux Real.sqrt
          (fun k => state.ConsVars eqnState k + if k = j then t else 0) eqnState
          (areaVec.divScalar (areaVec.Mag Real.sqrt)) i) (W i j) 0) ∧
      (∀ (c' : BoundaryCollaborators ℝ) (surf' fluxJacType' : String),
        BoundaryFluxJacobian Real.sqrt c' bcName areaVec state eqnState surf' fluxJacType'
            maxWS0 fluxJac0
          = BoundaryFluxJacobian Real.sqrt c bcName areaVec state eqnState surf fluxJacType
            maxWS0 fluxJac0) := by
  obtain ⟨n, hn⟩ : ∃ n : vector3d ℝ, n = areaVec.divScalar (areaVec.Mag Real.sqrt) :=
    ⟨_, rfl⟩
  have hret : ∀ (c' : BoundaryCollaborators ℝ) (surf' fluxJacType' : String),
      BoundaryFluxJacobian Real.sqrt c' bcName areaVec state eqnState surf' fluxJacType'
          maxWS0 fluxJac0
        = Outcome.returned ⟨BoundaryFluxJacobian.wallJacobian state eqnState n,
            state.SoS Real.sqrt eqnState, none⟩ := by
    intro c' surf' fluxJacType'
    rcases hb with hb | hb <;> subst hb <;>
      simp [BoundaryFluxJacobian, stringLiteralAsCondition, hn]
  rw [← hn]
  refine ⟨BoundaryFluxJacobian.wallJacobian state eqnState n, hret c surf fluxJacType,
    ?_, ?_, ?_, ?_, ?_, ?_, ?_⟩
  · intro j; rw [wallJacobian_rows]; simp
  · intro j; rw [wallJacobian_rows]; simp
  · intro j; rw [wallJacobian_rows]; simp
  · intro j; rw [wallJacobian_rows]; simp
  · intro j; rw [wallJacobian_rows]; simp
  · intro i j
    rw [wallJacobian_rows]
    have hp := pressure_hasDerivAt state eqnState hrho.ne' j
    fin_cases i
    · simpa [pressureOnlyFlux] using hasDerivAt_const (0 : ℝ) (0 : ℝ)
    · simpa [pressureOnlyFlux, mul_comm] using hp.mul_const n.x
    · simpa [pressureOnlyFlux, mul_comm] using hp.mul_const n.y
    · simpa [pressureOnlyFlux, mul_comm] using hp.mul_const n.z
    · simpa [pressureOnlyFlux] using hasDerivAt_const (0 : ℝ) (0 : ℝ)
  · intro c' surf' fluxJacType'
    rw [hret, hret]

/-- An instance of C21: for "slipWall", the state `(rho=1, u=1, v=w=0,
p=1/1.4)`, `gamma = 1.4` and the area vector `(1,0,0)` the returned matrix has
the entries `(1,0) = 1/5`, `(1,1) = -2/5`, `(1,4) = 2/5`. -/
theorem wall_jacobian_closed_form_witness :
    ∃ W : squareMatrix ℝ,
      BoundaryFluxJacobian Real.sqrt
          (⟨-2, "none", fun s _ _ _ => s, fun s => s, fun s _ _ _ _ _ _ _ _ => s⟩ :
            BoundaryCollaborators ℝ)
          "slipWall" ⟨1, 0, 0⟩ ⟨1, 1, 0, 0, 1 / 1.4⟩ ⟨1.4⟩ "il" "exactRoe" 0 squareMatrix.Zero
        = Outcome.returned ⟨W, (⟨1, 1, 0, 0, 1 / 1.4⟩ : primVars ℝ).SoS Real.sqrt ⟨1.4⟩, none⟩ ∧
      W 1 0 = 1 / 5 ∧ W 1 1 = -(2 / 5) ∧ W 1 4 = 2 / 5 := by
  obtain ⟨W, h0, -, -, h1, -, -, -, -⟩ := wall_jacobian_closed_form
    (⟨-2, "none", fun s _ _ _ => s, fun s => s, fun s _ _ _ _ _ _ _ _ => s⟩ :
      BoundaryCollaborators ℝ)
    "slipWall" ⟨1, 0, 0⟩ ⟨1, 1, 0, 0, 1 / 1.4⟩ ⟨1.4⟩ "il" "exactRoe" 0 squareMatrix.Zero
    (Or.inl rfl) (by norm_num)
  refine ⟨W, h0, ?_, ?_, ?_⟩
  · rw [h1 0]
    norm_num [primVars.Velocity, vector3d.MagSq, vector3d.divScalar, vector3d.Mag]
  · rw [h1 1]
    norm_num [primVars.Velocity, vector3d.MagSq, vector3d.divScalar, vector3d.Mag]
  · rw [h1 4]
    norm_num [primVars.Velocity, vector3d.MagSq, vector3d.divScalar, vector3d.Mag]

/-- C22 (evaluated at a failing input). For the four inflow/outflow kinds, with
first-order reconstruction and on side "il", the ghost state of `BoundaryFlux`
comes from the ghost-state rule called with `bcName` itself. For `bcName = "characteristic"` it
does not: for all arguments `BoundaryFlux` returns what it returns for
"slipWall", whose ghost state is `GetGhostState("slipWall", ...)`. With a
ghost-state rule that answers the interior state for "slipWall" and the state
with pressure 35 otherwise, interior state `(rho=1, u=v=w=0, p=1/1.4)`,
`gamma = 1.4`, area vector `(1,0,0)`, side "il", `BoundaryFlux` reports
`maxWS = 1`, while `RoeFlux` on the "characteristic" ghost state reports 5. -/
theorem BoundaryFlux_characteristic_takes_wall_ghost_state :
    (∀ (limiter : String) (ghost : primVars ℝ → String → vector3d ℝ → String → primVars ℝ)
        (recon : primVars ℝ → primVars ℝ)
        (muscl : primVars ℝ → primVars ℝ → primVars ℝ → String → ℝ → String → ℝ → ℝ → ℝ →
          primVars ℝ)
        (kind : Fin 4) (areaVec : vector3d ℝ) (state1 state2 : primVars ℝ)
        (eqnState : idealGas ℝ) (maxWS0 up2face upwind : ℝ) (flux0 : inviscidFlux ℝ),
      (BoundaryFlux Real.sqrt ⟨-2, limiter, ghost, recon, muscl⟩
          (![("subsonicInflow" : String), "subsonicOutflow", "supersonicInflow",
            "supersonicOutflow"] kind)
          areaVec state1 state2 eqnState "il" maxWS0 up2face upwind flux0).flux
        = (RoeFlux Real.sqrt
            (recon (ghost state1
              (![("subsonicInflow" : String), "subsonicOutflow", "supersonicInflow",
                "supersonicOutflow"] kind)
              (areaVec.divScalar (areaVec.Mag Real.sqrt)) "il"))
            (recon state1) eqnState (areaVec.divScalar (areaVec.Mag Real.sqrt))).1) ∧
    (∀ (c : BoundaryCollaborators ℝ) (areaVec : vector3d ℝ) (state1 state2 : primVars ℝ)
        (eqnState : idealGas ℝ) (surf : String) (maxWS0 up2face upwind : ℝ)
        (flux0 : inviscidFlux ℝ),
      BoundaryFlux Real.sqrt c "characteristic" areaVec state1 state2 eqnState surf maxWS0
          up2face upwind flux0
        = BoundaryFlux Real.sqrt c "slipWall" areaVec state1 state2 eqnState surf maxWS0
          up2face upwind flux0) ∧
    (BoundaryFlux Real.sqrt
        (⟨-2, "none", fun s name _ _ => if name = "slipWall" then s else ⟨s.rho, s.u, s.v, s.w, 35⟩,
          fun s => s, fun s _ _ _ _ _ _ _ _ => s⟩ : BoundaryCollaborators ℝ)
        "characteristic" ⟨1, 0, 0⟩ exampleState exampleState ⟨1.4⟩ "il" 0 0 0
        ⟨0, 0, 0, 0, 0⟩).maxWS = 1 ∧
    (RoeFlux Real.sqrt (⟨1, 0, 0, 0, 35⟩ : primVars ℝ) exampleState ⟨1.4⟩
      ((⟨1, 0, 0⟩ : vector3d ℝ).divScalar (vector3d.Mag Real.sqrt ⟨1, 0, 0⟩))).2 = 5 := by
  have h25 : Real.sqrt 25 = 5 := by
    rw [show (25 : ℝ) = 5 * 5 by norm_num]; exact Real.sqrt_mul_self (by norm_num)
  refine ⟨?_, ?_, ?_, ?_⟩
  · intro limiter ghost recon muscl kind areaVec state1 state2 eqnState maxWS0 up2face upwind
      flux0
    have hk : (-2 : ℝ) = -2.0 := by norm_num
    fin_cases kind <;> simp [BoundaryFlux, hk]
  · intro c areaVec state1 state2 eqnState surf maxWS0 up2face upwind flux0
    simp only [BoundaryFlux, stringLiteralAsCondition]
    simp
  · have hsame : BoundaryFlux Real.sqrt
        (⟨-2, "none", fun s name _ _ => if name = "slipWall" then s else ⟨s.rho, s.u, s.v, s.w, 35⟩,
          fun s => s, fun s _ _ _ _ _ _ _ _ => s⟩ : BoundaryCollaborators ℝ)
        "characteristic" ⟨1, 0, 0⟩ exampleState exampleState ⟨1.4⟩ "il" 0 0 0 ⟨0, 0, 0, 0, 0⟩
        = BoundaryFlux Real.sqrt
        (⟨-2, "none", fun s name _ _ => if name = "slipWall" then s else ⟨s.rho, s.u, s.v, s.w, 35⟩,
          fun s => s, fun s _ _ _ _ _ _ _ _ => s⟩ : BoundaryCollaborators ℝ)
        "slipWall" ⟨1, 0, 0⟩ exampleState exampleState ⟨1.4⟩ "il" 0 0 0 ⟨0, 0, 0, 0, 0⟩ := by
      simp only [BoundaryFlux, stringLiteralAsCondition]
      simp
    rw [hsame, BoundaryFlux_slipWall_first_order _ _ _ _ _ _ _ _ _ _ rfl]
    simp only [true_or, if_true]
    obtain ⟨l, hl⟩ : ∃ l, l = roeLocals Real.sqrt (exampleState : primVars ℝ) exampleState
      ⟨1.4⟩ ((⟨1, 0, 0⟩ : vector3d ℝ).divScalar (vector3d.Mag Real.sqrt ⟨1, 0, 0⟩)) := ⟨_, rfl⟩
    rw [RoeFlux_snd, ← hl]
    obtain ⟨-, -, h2, h3, h4, -, h6⟩ := roeLocals_same_state (exampleState : primVars ℝ) ⟨1.4⟩
      ((⟨1, 0, 0⟩ : vector3d ℝ).divScalar (vector3d.Mag Real.sqrt ⟨1, 0, 0⟩))
      (by norm_num [exampleState]) (by norm_num) hl
    obtain ⟨-, -, -, -, -, -, -, -, hq, -⟩ := roeLocals_fields Real.sqrt _ _ _ _ hl
    rw [h6, hq, h2, h3, h4]
    norm_num [exampleState]
  · obtain ⟨l, hl⟩ : ∃ l, l = roeLocals Real.sqrt (⟨1, 0, 0, 0, 35⟩ : primVars ℝ) exampleState
      ⟨1.4⟩ ((⟨1, 0, 0⟩ : vector3d ℝ).divScalar (vector3d.Mag Real.sqrt ⟨1, 0, 0⟩)) := ⟨_, rfl⟩
    rw [RoeFlux_snd, ← hl]
    obtain ⟨hd, -, h2, h3, h4, h5, h6, -, hq, -⟩ := roeLocals_fields Real.sqrt _ _ _ _ hl
    have d1 : l.denRatio = 1 := by rw [hd]; norm_num [exampleState]
    rw [d1] at h2 h3 h4 h5
    have e2 : l.uR = 0 := by rw [h2]; norm_num [exampleState]
    have e3 : l.vR = 0 := by rw [h3]; norm_num [exampleState]
    have e4 : l.wR = 0 := by rw [h4]; norm_num [exampleState]
    have e5 : l.hR = 125 / 2 := by
      rw [h5]; norm_num [exampleState, primVars.Enthalpy, idealGas.Gamma, primVars.P,
        primVars.Rho, primVars.Velocity, vector3d.MagSq]
    rw [hq, h6, e2, e3, e4, e5]
    rw [show ((⟨1.4⟩ : idealGas ℝ).gamma - 1) * (125 / 2 - 1 / 2 * (0 * 0 + 0 * 0 + 0 * 0)) = 25
      by norm_num, h25]
    norm_num

/-- C23. Left/right assignment by face side. With first-order reconstruction
(`Kappa == -2`, constant reconstruction returning the state itself), for each of
"subsonicInflow", "subsonicOutflow", "supersonicInflow", "supersonicOutflow"
and with `ghost` the ghost state of the kind and `n = A/|A|`: `BoundaryFlux` is
`RoeFlux(ghost, interior, n)` on the sides "il", "jl", "kl" and
`RoeFlux(interior, ghost, n)` on every other side. For these four kinds and
"characteristic", `BoundaryFluxJacobian` returns the second matrix (`dF_dUr`)
of the routine selected by `fluxJacType`, called on `(ghost, interior)`, on the
lower sides, and its first matrix (`dF_dUl`), called on `(interior, ghost)`, on
the other sides: in both cases the matrix for the interior state. -/
theorem boundary_left_right_by_face_side (c : BoundaryCollaborators ℝ) (bcName : String)
    (areaVec : vector3d ℝ) (state1 state2 : primVars ℝ) (eqnState : idealGas ℝ)
    (surf : String) (maxWS0 up2face upwind : ℝ) (flux0 : inviscidFlux ℝ)
    (fluxJac0 : squareMatrix ℝ)
    (hk : c.Kappa = -2) (hrecon : ∀ s, c.FaceReconConst s = s)
    (hb : bcName = "subsonicInflow" ∨ bcName = "subsonicOutflow"
      ∨ bcName = "supersonicInflow" ∨ bcName = "supersonicOutflow") :
    let n := areaVec.divScalar (areaVec.Mag Real.sqrt)
    let ghost := c.GetGhostState state1 bcName n surf
    let lower := surf = "il" ∨ surf = "jl" ∨ surf = "kl"
    (lower → BoundaryFlux Real.sqrt c bcName areaVec state1 state2 eqnState surf maxWS0
        up2face upwind flux0
      = { flux := (RoeFlux Real.sqrt ghost state1 eqnState n).1
          maxWS := (RoeFlux Real.sqrt ghost state1 eqnState n).2
          message := none }) ∧
    (¬ lower → BoundaryFlux Real.sqrt c bcName areaVec state1 state2 eqnState surf maxWS0
        up2face upwind flux0
      = { flux := (RoeFlux Real.sqrt state1 ghost eqnState n).1
          maxWS := (RoeFlux Real.sqrt state1 ghost eqnState n).2
          message := none }) ∧
    (∀ name : String, name = bcName ∨ name = "characteristic" →
      let g := c.GetGhostState state1 name n surf
      (lower →
        BoundaryFluxJacobian Real.sqrt c name areaVec state1 eqnState surf "approximateRoe"
            maxWS0 fluxJac0
          = Outcome.returned ⟨(ApproxRoeFluxJacobian Real.sqrt g state1 eqnState n).2,
              maxWS0, none⟩ ∧
        BoundaryFluxJacobian Real.sqrt c name areaVec state1 eqnState surf "exactRoe"
            maxWS0 fluxJac0
          = Outcome.returned ⟨(RoeFluxJacobian Real.sqrt g state1 eqnState n).2,
              maxWS0, none⟩ ∧
        BoundaryFluxJacobian Real.sqrt c name areaVec state1 eqnState surf "laxFriedrichs"
            maxWS0 fluxJac0
          = Outcome.returned ⟨(LaxFriedrichsFluxJacobian Real.sqrt g state1 eqnState n).dF_dUr,
              (LaxFriedrichsFluxJacobian Real.sqrt g state1 eqnState n).specRadR, none⟩) ∧
      (¬ lower →
        BoundaryFluxJacobian Real.sqrt c name areaVec state1 eqnState surf "approximateRoe"
            maxWS0 fluxJac0
          = Outcome.returned ⟨(ApproxRoeFluxJacobian Real.sqrt state1 g eqnState n).1,
              maxWS0, none⟩ ∧
        BoundaryFluxJacobian Real.sqrt c name areaVec state1 eqnState surf "exactRoe"
            maxWS0 fluxJac0
          = Outcome.returned ⟨(RoeFluxJacobian Real.sqrt state1 g eqnState n).1,
              maxWS0, none⟩ ∧
        BoundaryFluxJacobian Real.sqrt c name areaVec state1 eqnState surf "laxFriedrichs"
            maxWS0 fluxJac0
          = Outcome.returned ⟨(LaxFriedrichsFluxJacobian Real.sqrt state1 g eqnState n).dF_dUl,
              (LaxFriedrichsFluxJacobian Real.sqrt state1 g eqnState n).specRadL,
              none⟩)) := by
  intro n ghost lower
  have hk' : c.Kappa = -2.0 := by rw [hk]; norm_num
  refine ⟨?_, ?_, ?_⟩
  · intro hl
    have hl' : surf = "il" ∨ surf = "jl" ∨ surf = "kl" := hl
    rcases hb with hb | hb | hb | hb <;> subst hb <;>
      simp [BoundaryFlux, hk', hl', hrecon, n, ghost]
  · intro hl
    have hl' : ¬(surf = "il" ∨ surf = "jl" ∨ surf = "kl") := hl
    rcases hb with hb | hb | hb | hb <;> subst hb <;>
      simp [BoundaryFlux, hk', hl', hrecon, n, ghost]
  · intro name hname g
    have h5 : name = "subsonicInflow" ∨ name = "subsonicOutflow" ∨ name = "supersonicInflow"
        ∨ name = "supersonicOutflow" ∨ name = "characteristic" := by
      rcases hname with h | h
      · rw [h]; rcases hb with hb | hb | hb | hb <;> simp [hb]
      · simp [h]
    constructor
    · intro hl
      have hl' : surf = "il" ∨ surf = "jl" ∨ surf = "kl" := hl
      refine ⟨?_, ?_, ?_⟩ <;>
        simp [BoundaryFluxJacobian, BoundaryFluxJacobian.dispatch, h5, hl', hrecon, n, g]
    · intro hl
      have hl' : ¬(surf = "il" ∨ surf = "jl" ∨ surf = "kl") := hl
      refine ⟨?_, ?_, ?_⟩ <;>
        simp [BoundaryFluxJacobian, BoundaryFluxJacobian.dispatch, h5, hl', hrecon, n, g]

/-- An instance of C23: first-order reconstruction, kind "subsonicInflow",
a ghost-state rule that answers `(rho=1, u=v=w=0, p=35)`, interior state `(rho=1,
u=v=w=0, p=1/1.4)`, area vector `(2,0,0)`. On side "il" the flux is
`RoeFlux(ghost, interior, n)`, on side "iu" it is `RoeFlux(interior, ghost, n)`,
and the exact-Roe boundary Jacobian on side "il" is the routine's `dF_dUr`. -/
theorem boundary_left_right_by_face_side_witness :
    (BoundaryFlux Real.sqrt
        (⟨-2, "none", fun _ _ _ _ => ⟨1, 0, 0, 0, 35⟩, fun s => s,
          fun s _ _ _ _ _ _ _ _ => s⟩ : BoundaryCollaborators ℝ)
        "subsonicInflow" ⟨2, 0, 0⟩ exampleState exampleState ⟨1.4⟩ "il" 0 0 0
        ⟨0, 0, 0, 0, 0⟩).flux
      = (RoeFlux Real.sqrt ⟨1, 0, 0, 0, 35⟩ exampleState ⟨1.4⟩
          ((⟨2, 0, 0⟩ : vector3d ℝ).divScalar (vector3d.Mag Real.sqrt ⟨2, 0, 0⟩))).1 ∧
    (BoundaryFlux Real.sqrt
        (⟨-2, "none", fun _ _ _ _ => ⟨1, 0, 0, 0, 35⟩, fun s => s,
          fun s _ _ _ _ _ _ _ _ => s⟩ : BoundaryCollaborators ℝ)
        "subsonicInflow" ⟨2, 0, 0⟩ exampleState exampleState ⟨1.4⟩ "iu" 0 0 0
        ⟨0, 0, 0, 0, 0⟩).flux
      = (RoeFlux Real.sqrt exampleState ⟨1, 0, 0, 0, 35⟩ ⟨1.4⟩
          ((⟨2, 0, 0⟩ : vector3d ℝ).divScalar (vector3d.Mag Real.sqrt ⟨2, 0, 0⟩))).1 ∧
    BoundaryFluxJacobian Real.sqrt
        (⟨-2, "none", fun _ _ _ _ => ⟨1, 0, 0, 0, 35⟩, fun s => s,
          fun s _ _ _ _ _ _ _ _ => s⟩ : BoundaryCollaborators ℝ)
        "subsonicInflow" ⟨2, 0, 0⟩ exampleState ⟨1.4⟩ "il" "exactRoe" 0 squareMatrix.Zero
      = Outcome.returned
          ⟨(RoeFluxJacobian Real.sqrt ⟨1, 0, 0, 0, 35⟩ exampleState ⟨1.4⟩
            ((⟨2, 0, 0⟩ : vector3d ℝ).divScalar (vector3d.Mag Real.sqrt ⟨2, 0, 0⟩))).2,
            0, none⟩ := by
  have hl := boundary_left_right_by_face_side
    (⟨-2, "none", fun _ _ _ _ => ⟨1, 0, 0, 0, 35⟩, fun s => s,
      fun s _ _ _ _ _ _ _ _ => s⟩ : BoundaryCollaborators ℝ)
    "subsonicInflow" ⟨2, 0, 0⟩ exampleState exampleState ⟨1.4⟩ "il" 0 0 0 ⟨0, 0, 0, 0, 0⟩
    squareMatrix.Zero rfl (fun _ => rfl) (Or.inl rfl)
  have hu := boundary_left_right_by_face_side
    (⟨-2, "none", fun _ _ _ _ => ⟨1, 0, 0, 0, 35⟩, fun s => s,
      fun s _ _ _ _ _ _ _ _ => s⟩ : BoundaryCollaborators ℝ)
    "subsonicInflow" ⟨2, 0, 0⟩ exampleState exampleState ⟨1.4⟩ "iu" 0 0 0 ⟨0, 0, 0, 0, 0⟩
    squareMatrix.Zero rfl (fun _ => rfl) (Or.inl rfl)
  refine ⟨?_, ?_, ?_⟩
  · have h1 := congrArg BoundaryFluxResult.flux (hl.1 (Or.inl rfl))
    simpa only using h1
  · have h2 := congrArg BoundaryFluxResult.flux (hu.2.1 (by decide))
    simpa only using h2
  · have h3 := ((hl.2.2 "subsonicInflow" (Or.inl rfl)).1 (Or.inl rfl)).2.1
    simpa only using h3

/-- C24. The wall flux is pressure-only in shape: for every state `S` of
positive density, every non-zero area vector `A` with unit normal `n = A/|A|`
and the wall reflection `S*` of `S` (same density and pressure, velocity
`v - 2 (v.n) n`), both `RoeFlux(S, S*, A)` and `RoeFlux(S*, S, A)` have mass
flux 0 and energy flux 0, and their momentum flux is a multiple `c * n` of the
normal, with `c = p` when `v.n = 0`. -/
theorem wall_flux_pressure_only_shape (S : primVars ℝ) (eqnState : idealGas ℝ)
    (A : vector3d ℝ) (hrho : 0 < S.rho) (hA : A ≠ ⟨0, 0, 0⟩) :
    let n := A.divScalar (A.Mag Real.sqrt)
    let F1 := (RoeFlux Real.sqrt S (wallReflection S n) eqnState A).1
    let F2 := (RoeFlux Real.sqrt (wallReflection S n) S eqnState A).1
    (F1.rhoVel = 0 ∧ F1.rhoVelH = 0 ∧
      ∃ c : ℝ, F1.rhoVelU = c * n.x ∧ F1.rhoVelV = c * n.y ∧ F1.rhoVelW = c * n.z ∧
        (S.Velocity.DotProd n = 0 → c = S.p)) ∧
    (F2.rhoVel = 0 ∧ F2.rhoVelH = 0 ∧
      ∃ c : ℝ, F2.rhoVelU = c * n.x ∧ F2.rhoVelV = c * n.y ∧ F2.rhoVelW = c * n.z ∧
        (S.Velocity.DotProd n = 0 → c = S.p)) := by
  intro n F1 F2
  have hnn : n.x * n.x + n.y * n.y + n.z * n.z = 1 := vector3d.normalized_sumSq A hA
  have hqr : (wallReflection S n).Velocity.DotProd n = -S.Velocity.DotProd n := by
    simp only [wallReflection, primVars.Velocity, vector3d.DotProd]
    linear_combination (-2 * (S.u * n.x + S.v * n.y + S.w * n.z)) * hnn
  constructor
  · exact RoeFlux_mirror_states S (wallReflection S n) eqnState A hA hrho rfl rfl rfl rfl rfl
  · obtain ⟨h1, h2, c, h3, h4, h5, h6⟩ :=
      RoeFlux_mirror_states (wallReflection S n) S eqnState A hA hrho rfl rfl
        (by rw [hqr]; simp only [wallReflection]; ring)
        (by rw [hqr]; simp only [wallReflection]; ring)
        (by rw [hqr]; simp only [wallReflection]; ring)
    refine ⟨h1, h2, c, h3, h4, h5, ?_⟩
    intro hq0
    exact h6 (by rw [hqr, hq0, neg_zero])

/-- An instance of C24: the state `(rho=1, u=1, v=2, w=0, p=1/1.4)` at a wall
with area vector `(2,0,0)`, whose reflection is `(rho=1, u=-1, v=2, w=0,
p=1/1.4)`: the Roe flux has no mass or energy component, and its momentum
components in `y` and `z` vanish. -/
theorem wall_flux_pressure_only_shape_witness :
    (RoeFlux Real.sqrt (⟨1, 1, 2, 0, 1 / 1.4⟩ : primVars ℝ)
      (wallReflection ⟨1, 1, 2, 0, 1 / 1.4⟩
        ((⟨2, 0, 0⟩ : vector3d ℝ).divScalar (vector3d.Mag Real.sqrt ⟨2, 0, 0⟩)))
      ⟨1.4⟩ ⟨2, 0, 0⟩).1.rhoVel = 0 ∧
    (RoeFlux Real.sqrt (⟨1, 1, 2, 0, 1 / 1.4⟩ : primVars ℝ)
      (wallReflection ⟨1, 1, 2, 0, 1 / 1.4⟩
        ((⟨2, 0, 0⟩ : vector3d ℝ).divScalar (vector3d.Mag Real.sqrt ⟨2, 0, 0⟩)))
      ⟨1.4⟩ ⟨2, 0, 0⟩).1.rhoVelH = 0 ∧
    wallReflection (⟨1, 1, 2, 0, 1 / 1.4⟩ : primVars ℝ)
        ((⟨2, 0, 0⟩ : vector3d ℝ).divScalar (vector3d.Mag Real.sqrt ⟨2, 0, 0⟩))
      = ⟨1, -1, 2, 0, 1 / 1.4⟩ := by
  have h := wall_flux_pressure_only_shape (⟨1, 1, 2, 0, 1 / 1.4⟩ : primVars ℝ) ⟨1.4⟩
    ⟨2, 0, 0⟩ (by norm_num) (by simp)
  refine ⟨h.1.1, h.1.2.1, ?_⟩
  have h4 : Real.sqrt (2 * 2) = 2 := Real.sqrt_mul_self (by norm_num)
  simp only [wallReflection, vector3d.divScalar, vector3d.Mag, primVars.Velocity,
    vector3d.DotProd, mul_zero, add_zero, h4]
  norm_num

/-- C25. The flux depends on the area vector only through its direction: for
all states, every non-zero area vector `A` and every `k > 0`, the physical flux
built from `k*A` by the constructor or by `SetFlux` is the one built from `A`,
`RoeFlux(L, R, k*A)` returns the flux and the `maxWS` of `RoeFlux(L, R, A)`, and
building the physical flux from the already normalised `A/|A|`, as `RoeFlux`
does, gives the flux built from `A`. -/
theorem flux_depends_on_area_direction_only (L R S : primVars ℝ) (eqnState : idealGas ℝ)
    (A : vector3d ℝ) (k : ℝ) (F0 : inviscidFlux ℝ) (hA : A ≠ ⟨0, 0, 0⟩) (hk : 0 < k) :
    inviscidFlux.ofState Real.sqrt S eqnState (vector3d.lscale k A)
      = inviscidFlux.ofState Real.sqrt S eqnState A ∧
    inviscidFlux.SetFlux Real.sqrt F0 S eqnState (vector3d.lscale k A)
      = inviscidFlux.SetFlux Real.sqrt F0 S eqnState A ∧
    inviscidFlux.SetFlux Real.sqrt F0 S eqnState A
      = inviscidFlux.ofState Real.sqrt S eqnState A ∧
    RoeFlux Real.sqrt L R eqnState (vector3d.lscale k A) = RoeFlux Real.sqrt L R eqnState A ∧
    inviscidFlux.ofState Real.sqrt S eqnState (A.divScalar (A.Mag Real.sqrt))
      = inviscidFlux.ofState Real.sqrt S eqnState A := by
  have hn := vector3d.normalize_lscale A k hA hk
  refine ⟨?_, ?_, rfl, ?_, ?_⟩
  · simp only [inviscidFlux.ofState, hn]
  · simp only [inviscidFlux.SetFlux, hn]
  · simp only [RoeFlux, roeLocals, hn]
  · simp only [inviscidFlux.ofState, vector3d.normalize_idem A hA]

/-- An instance of C25: doubling the area vector `(1,0,0)` changes neither the
Roe flux nor `maxWS` for the states `(rho=1, u=v=w=0, p=35)` and `(rho=1,
u=v=w=0, p=1/1.4)`. -/
theorem flux_depends_on_area_direction_only_witness :
    RoeFlux Real.sqrt (⟨1, 0, 0, 0, 35⟩ : primVars ℝ) exampleState ⟨1.4⟩
        (vector3d.lscale 2 ⟨1, 0, 0⟩)
      = RoeFlux Real.sqrt (⟨1, 0, 0, 0, 35⟩ : primVars ℝ) exampleState ⟨1.4⟩ ⟨1, 0, 0⟩ :=
  (flux_depends_on_area_direction_only ⟨1, 0, 0, 0, 35⟩ exampleState exampleState ⟨1.4⟩
    ⟨1, 0, 0⟩ 2 ⟨0, 0, 0, 0, 0⟩ (by simp) (by norm_num)).2.2.2.1

/-- C26. The arithmetic of `inviscidFlux` is componentwise on the five
components: for all fluxes `a`, `b`, `flux` and every scalar `s` different from
zero, `(a + b) - b = a`, `flux * s = s * flux`, `(flux / s) * s = flux`, the
division with the scalar on the left has the components `s / flux_i`, and
`ConvertToColMatrix` lists the components in the order `rhoVel`, `rhoVelU`,
`rhoVelV`, `rhoVelW`, `rhoVelH`; sum, difference, product and quotient act on
each entry of that column separately. -/
theorem inviscidFlux_arithmetic (a b flux : inviscidFlux ℝ) (s : ℝ) (hs : s ≠ 0) :
    (a.add b).sub b = a ∧
    flux.mulScalar s = inviscidFlux.scalarMul s flux ∧
    (flux.divScalar s).mulScalar s = flux ∧
    inviscidFlux.scalarDiv s flux
      = ⟨s / flux.rhoVel, s / flux.rhoVelU, s / flux.rhoVelV, s / flux.rhoVelW,
          s / flux.rhoVelH⟩ ∧
    flux.ConvertToColMatrix
      = ![flux.rhoVel, flux.rhoVelU, flux.rhoVelV, flux.rhoVelW, flux.rhoVelH] ∧
    (∀ i : Fin 5, (a.add b).ConvertToColMatrix i
      = a.ConvertToColMatrix i + b.ConvertToColMatrix i) ∧
    (∀ i : Fin 5, (a.sub b).ConvertToColMatrix i
      = a.ConvertToColMatrix i - b.ConvertToColMatrix i) ∧
    (∀ i : Fin 5, (flux.mulScalar s).ConvertToColMatrix i = flux.ConvertToColMatrix i * s) ∧
    (∀ i : Fin 5, (flux.divScalar s).ConvertToColMatrix i = flux.ConvertToColMatrix i / s) ∧
    (∀ i : Fin 5, (inviscidFlux.scalarDiv s flux).ConvertToColMatrix i
      = s / flux.ConvertToColMatrix i) := by
  refine ⟨?_, rfl, ?_, rfl, rfl, ?_, ?_, ?_, ?_, ?_⟩
  · cases a
    simp [inviscidFlux.add, inviscidFlux.sub]
  · cases flux
    simp [inviscidFlux.divScalar, inviscidFlux.mulScalar, hs]
  · intro i; fin_cases i <;> rfl
  · intro i; fin_cases i <;> rfl
  · intro i; fin_cases i <;> rfl
  · intro i; fin_cases i <;> rfl
  · intro i; fin_cases i <;> rfl

/-- An instance of C26: with `flux = (1, 2, 3, 4, 5)` and `s = 2`,
`(flux / 2) * 2 = flux` and `2 / flux = (2, 1, 2/3, 1/2, 2/5)`. -/
theorem inviscidFlux_arithmetic_witness :
    ((⟨1, 2, 3, 4, 5⟩ : inviscidFlux ℝ).divScalar 2).mulScalar 2 = ⟨1, 2, 3, 4, 5⟩ ∧
    inviscidFlux.scalarDiv 2 (⟨1, 2, 3, 4, 5⟩ : inviscidFlux ℝ)
      = ⟨2 / 1, 2 / 2, 2 / 3, 2 / 4, 2 / 5⟩ :=
  ⟨(inviscidFlux_arithmetic ⟨0, 0, 0, 0, 0⟩ ⟨0, 0, 0, 0, 0⟩ ⟨1, 2, 3, 4, 5⟩ 2
      (by norm_num)).2.2.1,
    (inviscidFlux_arithmetic ⟨0, 0, 0, 0, 0⟩ ⟨0, 0, 0, 0, 0⟩ ⟨1, 2, 3, 4, 5⟩ 2
      (by norm_num)).2.2.2.1⟩

/-- C27. `fluxJacobian` keeps its two blocks in step: `+=`, `-=`, `*=`, `/=`
with another `fluxJacobian` or with a `double`, and `Zero()`, apply one and the
same matrix operation to the flow block and to the turbulence block;
`AddToFlowJacobian` and `SubtractFromFlowJacobian` change the flow block only,
`AddToTurbJacobian` and `SubtractFromTurbJacobian` the turbulence block only;
with the scalar on the left, `s - J` has the blocks `s - flow`, `s - turb` and
`s / J` the blocks `s / flow`, `s / turb`. -/
theorem fluxJacobian_blocks_in_step {M K : Type} (ops : squareMatrixOps M K)
    (J other : fluxJacobian M) (jac : M) (s : K) :
    (fluxJacobian.addAssign ops J other
      = ⟨ops.addAssign J.FlowJacobian other.FlowJacobian,
          ops.addAssign J.TurbulenceJacobian other.TurbulenceJacobian⟩ ∧
    fluxJacobian.subAssign ops J other
      = ⟨ops.subAssign J.FlowJacobian other.FlowJacobian,
          ops.subAssign J.TurbulenceJacobian other.TurbulenceJacobian⟩ ∧
    fluxJacobian.mulAssign ops J other
      = ⟨ops.mulAssign J.FlowJacobian other.FlowJacobian,
          ops.mulAssign J.TurbulenceJacobian other.TurbulenceJacobian⟩ ∧
    fluxJacobian.divAssign ops J other
      = ⟨ops.divAssign J.FlowJacobian other.FlowJacobian,
          ops.divAssign J.TurbulenceJacobian other.TurbulenceJacobian⟩) ∧
    (fluxJacobian.addAssignScalar ops J s
      = ⟨ops.addAssignScalar J.FlowJacobian s, ops.addAssignScalar J.TurbulenceJacobian s⟩ ∧
    fluxJacobian.subAssignScalar ops J s
      = ⟨ops.subAssignScalar J.FlowJacobian s, ops.subAssignScalar J.TurbulenceJacobian s⟩ ∧
    fluxJacobian.mulAssignScalar ops J s
      = ⟨ops.mulAssignScalar J.FlowJacobian s, ops.mulAssignScalar J.TurbulenceJacobian s⟩ ∧
    fluxJacobian.divAssignScalar ops J s
      = ⟨ops.divAssignScalar J.FlowJacobian s,
          ops.divAssignScalar J.TurbulenceJacobian s⟩) ∧
    fluxJacobian.Zero ops J = ⟨ops.Zero J.FlowJacobian, ops.Zero J.TurbulenceJacobian⟩ ∧
    ((fluxJacobian.AddToFlowJacobian ops J jac).FlowJacobian
        = ops.addAssign J.FlowJacobian jac ∧
      (fluxJacobian.AddToFlowJacobian ops J jac).TurbulenceJacobian
        = J.TurbulenceJacobian ∧
      (fluxJacobian.SubtractFromFlowJacobian ops J jac).FlowJacobian
        = ops.subAssign J.FlowJacobian jac ∧
      (fluxJacobian.SubtractFromFlowJacobian ops J jac).TurbulenceJacobian
        = J.TurbulenceJacobian) ∧
    ((fluxJacobian.AddToTurbJacobian ops J jac).TurbulenceJacobian
        = ops.addAssign J.TurbulenceJacobian jac ∧
      (fluxJacobian.AddToTurbJacobian ops J jac).FlowJacobian = J.FlowJacobian ∧
      (fluxJacobian.SubtractFromTurbJacobian ops J jac).TurbulenceJacobian
        = ops.subAssign J.TurbulenceJacobian jac ∧
      (fluxJacobian.SubtractFromTurbJacobian ops J jac).FlowJacobian = J.FlowJacobian) ∧
    fluxJacobian.scalarSub ops s J
      = ⟨ops.scalarSub s J.FlowJacobian, ops.scalarSub s J.TurbulenceJacobian⟩ ∧
    fluxJacobian.scalarDiv ops s J
      = ⟨ops.scalarDiv s J.FlowJacobian, ops.scalarDiv s J.TurbulenceJacobian⟩ :=
  ⟨⟨rfl, rfl, rfl, rfl⟩, ⟨rfl, rfl, rfl, rfl⟩, rfl, ⟨rfl, rfl, rfl, rfl⟩,
    ⟨rfl, rfl, rfl, rfl⟩, rfl, rfl⟩

/-- C28. For every specific energy `e` and every mass-fraction vector `mf`
whose length is `NumSpecies`, `Cv(t, mf)` and `Cp(t, mf)` are the sums over all
species of `mf[s] * SpeciesCv(t, s)` and `mf[s] * SpeciesCp(t, s)`, and
`caloricallyPerfect::TemperatureFromSpecEnergy(e, mf)` returns `e / Cv(1, mf)`:
a closed form, linear in `e`. -/
theorem caloricallyPerfect_temperature_closed_form (th : thermodynamic ℝ) (e : ℝ)
    (mf : List ℝ) (h : th.NumSpecies = mf.length) :
    (∀ t : ℝ, th.Cv t mf = Outcome.returned
      (∑ ss in Finset.range th.NumSpecies, mf.getD ss 0 * th.SpeciesCv t ss)) ∧
    (∀ t : ℝ, th.Cp t mf = Outcome.returned
      (∑ ss in Finset.range th.NumSpecies, mf.getD ss 0 * th.SpeciesCp t ss)) ∧
    caloricallyPerfect.TemperatureFromSpecEnergy th e mf = Outcome.returned
      (e / ∑ ss in Finset.range th.NumSpecies, mf.getD ss 0 * th.SpeciesCv 1 ss) ∧
    (∀ a b e1 e2 : ℝ, ∃ T1 T2 : ℝ,
      caloricallyPerfect.TemperatureFromSpecEnergy th e1 mf = Outcome.returned T1 ∧
      caloricallyPerfect.TemperatureFromSpecEnergy th e2 mf = Outcome.returned T2 ∧
      caloricallyPerfect.TemperatureFromSpecEnergy th (a * e1 + b * e2) mf
        = Outcome.returned (a * T1 + b * T2)) := by
  have hcv : ∀ t : ℝ, th.Cv t mf = Outcome.returned
      (∑ ss in Finset.range th.NumSpecies, mf.getD ss 0 * th.SpeciesCv t ss) := by
    intro t
    simp only [thermodynamic.Cv, h, ne_eq, not_true_eq_false, if_false, zero_lit]
    rw [foldl_range_add]
  have hcp : ∀ t : ℝ, th.Cp t mf = Outcome.returned
      (∑ ss in Finset.range th.NumSpecies, mf.getD ss 0 * th.SpeciesCp t ss) := by
    intro t
    simp only [thermodynamic.Cp, h, ne_eq, not_true_eq_false, if_false, zero_lit]
    rw [foldl_range_add]
  have hT : ∀ x : ℝ, caloricallyPerfect.TemperatureFromSpecEnergy th x mf = Outcome.returned
      (x / ∑ ss in Finset.range th.NumSpecies, mf.getD ss 0 * th.SpeciesCv 1 ss) := by
    intro x
    simp only [caloricallyPerfect.TemperatureFromSpecEnergy, hcv]
    norm_num
  refine ⟨hcv, hcp, hT e, ?_⟩
  intro a b e1 e2
  refine ⟨_, _, hT e1, hT e2, ?_⟩
  rw [hT]
  congr 1
  ring

/-- An instance of C28: two species with `SpeciesCv = 2` and `3`, mass
fractions `(1/2, 1/2)` and `e = 5` give `Cv = 5/2` and the temperature 2. -/
theorem caloricallyPerfect_temperature_closed_form_witness :
    caloricallyPerfect.TemperatureFromSpecEnergy
      (⟨2, fun _ _ => 1, fun _ ss => if ss = 0 then 2 else 3⟩ : thermodynamic ℝ) 5
      [1 / 2, 1 / 2] = Outcome.returned 2 := by
  rw [(caloricallyPerfect_temperature_closed_form
    (⟨2, fun _ _ => 1, fun _ ss => if ss = 0 then 2 else 3⟩ : thermodynamic ℝ) 5
    [1 / 2, 1 / 2] rfl).2.2.1]
  norm_num [Finset.sum_range_succ]

/-- C30. The wall branch is the fall-through default: for every `bcName` other
than "subsonicInflow", "subsonicOutflow", "supersonicInflow" and
"supersonicOutflow" (so also for "viscousWall", "characteristic" and any other
name) `BoundaryFlux` returns what it returns for "slipWall" with the same
remaining arguments; for every such `bcName` that is not "characteristic"
either, `BoundaryFluxJacobian` returns the wall Jacobian; and neither function
ever reports an unrecognized boundary condition. -/
theorem wall_branch_is_fallthrough_default (c : BoundaryCollaborators ℝ) (bcName : String)
    (areaVec : vector3d ℝ) (state1 state2 : primVars ℝ) (eqnState : idealGas ℝ)
    (surf fluxJacType : String) (maxWS0 up2face upwind : ℝ) (flux0 : inviscidFlux ℝ)
    (fluxJac0 : squareMatrix ℝ)
    (h : bcName ≠ "subsonicInflow" ∧ bcName ≠ "subsonicOutflow"
      ∧ bcName ≠ "supersonicInflow" ∧ bcName ≠ "supersonicOutflow") :
    BoundaryFlux Real.sqrt c bcName areaVec state1 state2 eqnState surf maxWS0 up2face
        upwind flux0
      = BoundaryFlux Real.sqrt c "slipWall" areaVec state1 state2 eqnState surf maxWS0
        up2face upwind flux0 ∧
    (bcName ≠ "characteristic" →
      BoundaryFluxJacobian Real.sqrt c bcName areaVec state1 eqnState surf fluxJacType
          maxWS0 fluxJac0
        = Outcome.returned
            { fluxJac := BoundaryFluxJacobian.wallJacobian state1 eqnState
                (areaVec.divScalar (areaVec.Mag Real.sqrt))
              maxWS := state1.SoS Real.sqrt eqnState
              message := none }) ∧
    (∀ name : String,
      (BoundaryFlux Real.sqrt c name areaVec state1 state2 eqnState surf maxWS0 up2face
        upwind flux0).message = none) ∧
    (∀ (name : String) (r : BoundaryJacobianResult ℝ),
      BoundaryFluxJacobian Real.sqrt c name areaVec state1 eqnState surf fluxJacType
          maxWS0 fluxJac0 = Outcome.returned r → r.message = none) := by
  obtain ⟨h1, h2, h3, h4⟩ := h
  refine ⟨?_, ?_, ?_, ?_⟩
  · simp only [BoundaryFlux, stringLiteralAsCondition]
    simp [h1, h2, h3, h4]
  · intro h5
    simp only [BoundaryFluxJacobian, stringLiteralAsCondition]
    simp [h1, h2, h3, h4, h5]
  · intro name
    simp only [BoundaryFlux, stringLiteralAsCondition]
    simp only [or_true, if_true]
    split_ifs <;> rfl
  · intro name r
    simp only [BoundaryFluxJacobian, BoundaryFluxJacobian.dispatch, stringLiteralAsCondition]
    simp only [or_true, if_true]
    split_ifs <;> intro hr <;> first
      | (cases hr; rfl)
      | (exact absurd hr (by simp))

/-- An instance of C30: for "viscousWall" `BoundaryFlux` returns what it returns
for "slipWall", and `BoundaryFluxJacobian` returns the wall Jacobian. -/
theorem wall_branch_is_fallthrough_default_witness :
    BoundaryFlux Real.sqrt
        (⟨-2, "none", fun s _ _ _ => s, fun s => s, fun s _ _ _ _ _ _ _ _ => s⟩ :
          BoundaryCollaborators ℝ)
        "viscousWall" ⟨1, 0, 0⟩ exampleState exampleState ⟨1.4⟩ "il" 0 0 0 ⟨0, 0, 0, 0, 0⟩
      = BoundaryFlux Real.sqrt
        (⟨-2, "none", fun s _ _ _ => s, fun s => s, fun s _ _ _ _ _ _ _ _ => s⟩ :
          BoundaryCollaborators ℝ)
        "slipWall" ⟨1, 0, 0⟩ exampleState exampleState ⟨1.4⟩ "il" 0 0 0 ⟨0, 0, 0, 0, 0⟩ ∧
    BoundaryFluxJacobian Real.sqrt
        (⟨-2, "none", fun s _ _ _ => s, fun s => s, fun s _ _ _ _ _ _ _ _ => s⟩ :
          BoundaryCollaborators ℝ)
        "viscousWall" ⟨1, 0, 0⟩ exampleState ⟨1.4⟩ "il" "exactRoe" 0 squareMatrix.Zero
      = Outcome.returned
          { fluxJac := BoundaryFluxJacobian.wallJacobian exampleState ⟨1.4⟩
              ((⟨1, 0, 0⟩ : vector3d ℝ).divScalar (vector3d.Mag Real.sqrt ⟨1, 0, 0⟩))
            maxWS := exampleState.SoS Real.sqrt ⟨1.4⟩
            message := none } :=
  ⟨(wall_branch_is_fallthrough_default _ "viscousWall" ⟨1, 0, 0⟩ exampleState exampleState
      ⟨1.4⟩ "il" "exactRoe" 0 0 0 ⟨0, 0, 0, 0, 0⟩ squareMatrix.Zero
      ⟨by decide, by decide, by decide, by decide⟩).1,
    (wall_branch_is_fallthrough_default _ "viscousWall" ⟨1, 0, 0⟩ exampleState exampleState
      ⟨1.4⟩ "il" "exactRoe" 0 0 0 ⟨0, 0, 0, 0, 0⟩ squareMatrix.Zero
      ⟨by decide, by decide, by decide, by decide⟩).2.1 (by decide)⟩

/-- C31: for positive densities the arrays `dR_dUl`, `dU_dUl`, `dV_dUl`, `dW_dUl` and
`dQr_dUl` of `RoeFluxJacobian` are the derivatives, with respect to each left
conserved variable `j` (the other four and the right state held fixed), of the Roe
density, which is `sqrt (rhoL * rhoR)`, of the three Roe velocity components and of
the Roe normal velocity; the `dR_dUr`, `dU_dUr`, `dV_dUr`, `dW_dUr` and `dQr_dUr`
arrays are the same derivatives with respect to the right conserved variables. -/
theorem roe_average_derivative_arrays (L R : primVars ℝ) (g : idealGas ℝ) (A : vector3d ℝ)
    (hL : 0 < L.rho) (hR : 0 < R.rho) (j : Fin 5) :
    (roeLocals Real.sqrt L R g A).rhoR = Real.sqrt (L.rho * R.rho) ∧
    (HasDerivAt (fun t : ℝ => (roeLocals Real.sqrt (primVars.ofConserved Real.sqrt
        (fun k => L.ConsVars g k + if k = j then t else 0) g) R g A).rhoR)
      ((RoeFluxJacobian.leftArrays Real.sqrt L g (roeLocals Real.sqrt L R g A)).dR j) 0 ∧
    HasDerivAt (fun t : ℝ => (roeLocals Real.sqrt (primVars.ofConserved Real.sqrt
        (fun k => L.ConsVars g k + if k = j then t else 0) g) R g A).uR)
      ((RoeFluxJacobian.leftArrays Real.sqrt L g (roeLocals Real.sqrt L R g A)).dU j) 0 ∧
    HasDerivAt (fun t : ℝ => (roeLocals Real.sqrt (primVars.ofConserved Real.sqrt
        (fun k => L.ConsVars g k + if k = j then t else 0) g) R g A).vR)
      ((RoeFluxJacobian.leftArrays Real.sqrt L g (roeLocals Real.sqrt L R g A)).dV j) 0 ∧
    HasDerivAt (fun t : ℝ => (roeLocals Real.sqrt (primVars.ofConserved Real.sqrt
        (fun k => L.ConsVars g k + if k = j then t else 0) g) R g A).wR)
      ((RoeFluxJacobian.leftArrays Real.sqrt L g (roeLocals Real.sqrt L R g A)).dW j) 0 ∧
    HasDerivAt (fun t : ℝ => (roeLocals Real.sqrt (primVars.ofConserved Real.sqrt
        (fun k => L.ConsVars g k + if k = j then t else 0) g) R g A).velRSum)
      ((RoeFluxJacobian.leftArrays Real.sqrt L g (roeLocals Real.sqrt L R g A)).dQr j) 0) ∧
    (HasDerivAt (fun t : ℝ => (roeLocals Real.sqrt L (primVars.ofConserved Real.sqrt
        (fun k => R.ConsVars g k + if k = j then t else 0) g) g A).rhoR)
      ((RoeFluxJacobian.rightArrays Real.sqrt R g (roeLocals Real.sqrt L R g A)).dR j) 0 ∧
    HasDerivAt (fun t : ℝ => (roeLocals Real.sqrt L (primVars.ofConserved Real.sqrt
        (fun k => R.ConsVars g k + if k = j then t else 0) g) g A).uR)
      ((RoeFluxJacobian.rightArrays Real.sqrt R g (roeLocals Real.sqrt L R g A)).dU j) 0 ∧
    HasDerivAt (fun t : ℝ => (roeLocals Real.sqrt L (primVars.ofConserved Real.sqrt
        (fun k => R.ConsVars g k + if k = j then t else 0) g) g A).vR)
      ((RoeFluxJacobian.rightArrays Real.sqrt R g (roeLocals Real.sqrt L R g A)).dV j) 0 ∧
    HasDerivAt (fun t : ℝ => (roeLocals Real.sqrt L (primVars.ofConserved Real.sqrt
        (fun k => R.ConsVars g k + if k = j then t else 0) g) g A).wR)
      ((RoeFluxJacobian.rightArrays Real.sqrt R g (roeLocals Real.sqrt L R g A)).dW j) 0 ∧
    HasDerivAt (fun t : ℝ => (roeLocals Real.sqrt L (primVars.ofConserved Real.sqrt
        (fun k => R.ConsVars g k + if k = j then t else 0) g) g A).velRSum)
      ((RoeFluxJacobian.rightArrays Real.sqrt R g (roeLocals Real.sqrt L R g A)).dQr j) 0) := by
  refine ⟨?_, roeAverages_left_hasDerivAt L R g A hL hR j,
    roeAverages_right_hasDerivAt L R g A hL hR j⟩
  rw [(roeLocals_averages Real.sqrt L R g A).1]
  have h1 : L.rho * R.rho = L.rho * L.rho * (R.rho / L.rho) := by
    field_simp
    ring
  rw [h1, Real.sqrt_mul (mul_self_nonneg _), Real.sqrt_mul_self hL.le]

/-- An instance of C31: at the left state `(1, 3, 2, 0, 1)`, the right state
`(4, 6, 0, 0, 4/7)`, `gamma = 1.4` and the area vector `(1, 0, 0)`, the derivative
of the Roe density with respect to the left density is the entry `dR_dUl[0]`. -/
theorem roe_average_derivative_arrays_witness :
    (0 : ℝ) < (⟨1, 3, 2, 0, 1⟩ : primVars ℝ).rho ∧
    (0 : ℝ) < (⟨4, 6, 0, 0, 4 / 7⟩ : primVars ℝ).rho ∧
    HasDerivAt (fun t : ℝ => (roeLocals Real.sqrt (primVars.ofConserved Real.sqrt
        (fun k => (⟨1, 3, 2, 0, 1⟩ : primVars ℝ).ConsVars ⟨1.4⟩ k
          + if k = 0 then t else 0) ⟨1.4⟩) ⟨4, 6, 0, 0, 4 / 7⟩ ⟨1.4⟩ ⟨1, 0, 0⟩).rhoR)
      ((RoeFluxJacobian.leftArrays Real.sqrt ⟨1, 3, 2, 0, 1⟩ ⟨1.4⟩
        (roeLocals Real.sqrt ⟨1, 3, 2, 0, 1⟩ ⟨4, 6, 0, 0, 4 / 7⟩ ⟨1.4⟩ ⟨1, 0, 0⟩)).dR 0) 0 :=
  ⟨by norm_num, by norm_num,
    (roe_average_derivative_arrays ⟨1, 3, 2, 0, 1⟩ ⟨4, 6, 0, 0, 4 / 7⟩ ⟨1.4⟩ ⟨1, 0, 0⟩
      (by norm_num) (by norm_num) 0).2.1.1⟩

/-- C32. The Roe wave decomposition reproduces the jump in the conserved
variables: for all states `L`, `R` of positive density, every area vector and
every `gamma`, if the Roe speed of sound `aR` is not zero (so that
`aR^2 = (gamma-1)(hR - 0.5|velR|^2) > 0`), then
`waveStrength[0]*lAcousticEigV + waveStrength[1]*entropyEigV +
waveStrength[2]*rAcousticEigV + waveStrength[3]*shearEigV` equals `U_R - U_L`
in all five components: mass, the three momenta and the ideal-gas energy. -/
theorem roe_wave_decomposition_reproduces_jump (L R : primVars ℝ) (eqnState : idealGas ℝ)
    (A : vector3d ℝ) (hL : 0 < L.rho) (hR : 0 < R.rho)
    (ha : (roeLocals Real.sqrt L R eqnState A).aR ≠ 0) (i : Fin 5) :
    (roeLocals Real.sqrt L R eqnState A).waveStrength 0
        * (roeLocals Real.sqrt L R eqnState A).lAcousticEigV i
      + (roeLocals Real.sqrt L R eqnState A).waveStrength 1
        * (roeLocals Real.sqrt L R eqnState A).entropyEigV i
      + (roeLocals Real.sqrt L R eqnState A).waveStrength 2
        * (roeLocals Real.sqrt L R eqnState A).rAcousticEigV i
      + (roeLocals Real.sqrt L R eqnState A).waveStrength 3
        * (roeLocals Real.sqrt L R eqnState A).shearEigV i
      = R.ConsVars eqnState i - L.ConsVars eqnState i := by
  obtain ⟨l, hl⟩ : ∃ l, l = roeLocals Real.sqrt L R eqnState A := ⟨_, rfl⟩
  rw [← hl] at ha ⊢
  obtain ⟨hd, hr, h2, h3, h4, -, h6, -, hq, hdv⟩ := roeLocals_fields Real.sqrt L R eqnState A hl
  obtain ⟨w1, -, -, w4, w5, w6, w7, -⟩ := roeLocals_waves Real.sqrt L R eqnState A hl
  obtain ⟨n, hn⟩ : ∃ n : vector3d ℝ, n = l.areaNorm := ⟨_, rfl⟩
  rw [← hn] at hq hdv w4 w6 w7
  obtain ⟨D, hD⟩ : ∃ D : ℝ, D = l.denRatio := ⟨_, rfl⟩
  rw [← hD] at hd hr h2 h3 h4
  have hDpos : 0 < D := by rw [hd]; exact Real.sqrt_pos.mpr (div_pos hR hL)
  have hDD : D * D = R.rho / L.rho := by rw [hd]; exact Real.mul_self_sqrt (div_pos hR hL).le
  have hRrho : R.rho = L.rho * (D * D) := by rw [hDD]; field_simp
  have h1D : 1 + D ≠ 0 := by positivity
  have harg : 0 < (eqnState.gamma - 1)
      * (l.hR - 1 / 2 * (l.uR * l.uR + l.vR * l.vR + l.wR * l.wR)) := by
    by_contra hneg
    exact ha (by rw [h6]; exact Real.sqrt_eq_zero_of_nonpos (not_lt.mp hneg))
  have haa : l.aR * l.aR = (eqnState.gamma - 1)
      * (l.hR - 1 / 2 * (l.uR * l.uR + l.vR * l.vR + l.wR * l.wR)) := by
    rw [h6]; exact Real.mul_self_sqrt harg.le
  have hg1 : eqnState.gamma - 1 ≠ 0 := by
    intro h0; rw [h0, zero_mul] at harg; exact lt_irrefl _ harg
  have hH : l.hR = l.aR * l.aR / (eqnState.gamma - 1)
      + 1 / 2 * (l.uR * l.uR + l.vR * l.vR + l.wR * l.wR) := by
    rw [haa]; field_simp; ring
  obtain ⟨a, hadef⟩ : ∃ a : ℝ, a = l.aR := ⟨_, rfl⟩
  rw [← hadef] at ha hH w1 w4 w6
  have h05 : (0.5 : ℝ) = 1 / 2 := by norm_num
  have h10 : (1.0 : ℝ) = 1 := by norm_num
  have hx := roeAverage_jump_linear L.rho D L.u R.u h1D
  have hy := roeAverage_jump_linear L.rho D L.v R.v h1D
  have hz := roeAverage_jump_linear L.rho D L.w R.w h1D
  have hxx := roeAverage_jump_square L.rho D L.u R.u h1D
  have hyy := roeAverage_jump_square L.rho D L.v R.v h1D
  have hzz := roeAverage_jump_square L.rho D L.w R.w h1D
  rw [← h2] at hx hxx
  rw [← h3] at hy hyy
  rw [← h4] at hz hzz
  rw [← hr, ← hRrho] at hx hy hz hxx hyy hzz
  rw [w1, w4, w5, w6, w7]
  fin_cases i
  · simp only [Fin.zero_eta, Fin.isValue, Matrix.cons_val_zero, Matrix.cons_val_one,
      Matrix.head_cons, Matrix.cons_val_two, Matrix.tail_cons, Matrix.cons_val_three,
      primVars.ConsVars, primVars.Rho]
    exact roeWaveSum_mass a _ _ _ _ ha
  · simp only [Fin.mk_one, Fin.isValue, Matrix.cons_val_zero, Matrix.cons_val_one,
      Matrix.head_cons, Matrix.cons_val_two, Matrix.tail_cons, Matrix.cons_val_three,
      primVars.ConsVars, primVars.Rho, primVars.U]
    rw [roeWaveSum_momentum a _ _ _ _ _ _ _ ha]
    exact hx
  · simp only [Fin.reduceFinMk, Fin.isValue, Matrix.cons_val_zero, Matrix.cons_val_one,
      Matrix.head_cons, Matrix.cons_val_two, Matrix.tail_cons, Matrix.cons_val_three,
      primVars.ConsVars, primVars.Rho, primVars.V]
    rw [roeWaveSum_momentum a _ _ _ _ _ _ _ ha]
    exact hy
  · simp only [Fin.reduceFinMk, Fin.isValue, Matrix.cons_val_zero, Matrix.cons_val_one,
      Matrix.head_cons, Matrix.cons_val_two, Matrix.tail_cons, Matrix.cons_val_three,
      primVars.ConsVars, primVars.Rho, primVars.W]
    rw [roeWaveSum_momentum a _ _ _ _ _ _ _ ha]
    exact hz
  · simp only [Fin.reduceFinMk, Fin.isValue, Matrix.cons_val_zero, Matrix.cons_val_one,
      Matrix.head_cons, Matrix.cons_val_two, Matrix.tail_cons, Matrix.cons_val_three,
      Matrix.cons_val_four, primVars.ConsVars, primVars.Rho, primVars.P, primVars.Velocity,
      vector3d.MagSq, idealGas.Gamma, h05, h10]
    rw [hH, roeWaveSum_energy a _ _ _ _ _ _ _ _ ha hg1]
    have hsplit : R.p / (eqnState.gamma - 1) + 1 / 2 * R.rho * (R.u * R.u + R.v * R.v + R.w * R.w)
        - (L.p / (eqnState.gamma - 1) + 1 / 2 * L.rho * (L.u * L.u + L.v * L.v + L.w * L.w))
        = (R.p - L.p) / (eqnState.gamma - 1)
          + 1 / 2 * ((R.rho * (R.u * R.u) - L.rho * (L.u * L.u))
            + (R.rho * (R.v * R.v) - L.rho * (L.v * L.v))
            + (R.rho * (R.w * R.w) - L.rho * (L.w * L.w))) := by ring
    rw [hsplit, ← hxx, ← hyy, ← hzz]
    ring

/-- An instance of C32: for `L = (rho=1, u=3, v=w=0, p=1)`, `R = (rho=4, u=6,
v=w=0, p=4/7)`, `gamma = 1.4` and the area vector `(1,0,0)` (Roe speed of sound
1) the four waves add up to the momentum jump `4*6 - 1*3 = 21` in the second
component. -/
theorem roe_wave_decomposition_reproduces_jump_witness :
    (roeLocals Real.sqrt (⟨1, 3, 0, 0, 1⟩ : primVars ℝ) ⟨4, 6, 0, 0, 4 / 7⟩ ⟨1.4⟩
        ⟨1, 0, 0⟩).waveStrength 0
        * (roeLocals Real.sqrt (⟨1, 3, 0, 0, 1⟩ : primVars ℝ) ⟨4, 6, 0, 0, 4 / 7⟩ ⟨1.4⟩
          ⟨1, 0, 0⟩).lAcousticEigV 1
      + (roeLocals Real.sqrt (⟨1, 3, 0, 0, 1⟩ : primVars ℝ) ⟨4, 6, 0, 0, 4 / 7⟩ ⟨1.4⟩
        ⟨1, 0, 0⟩).waveStrength 1
        * (roeLocals Real.sqrt (⟨1, 3, 0, 0, 1⟩ : primVars ℝ) ⟨4, 6, 0, 0, 4 / 7⟩ ⟨1.4⟩
          ⟨1, 0, 0⟩).entropyEigV 1
      + (roeLocals Real.sqrt (⟨1, 3, 0, 0, 1⟩ : primVars ℝ) ⟨4, 6, 0, 0, 4 / 7⟩ ⟨1.4⟩
        ⟨1, 0, 0⟩).waveStrength 2
        * (roeLocals Real.sqrt (⟨1, 3, 0, 0, 1⟩ : primVars ℝ) ⟨4, 6, 0, 0, 4 / 7⟩ ⟨1.4⟩
          ⟨1, 0, 0⟩).rAcousticEigV 1
      + (roeLocals Real.sqrt (⟨1, 3, 0, 0, 1⟩ : primVars ℝ) ⟨4, 6, 0, 0, 4 / 7⟩ ⟨1.4⟩
        ⟨1, 0, 0⟩).waveStrength 3
        * (roeLocals Real.sqrt (⟨1, 3, 0, 0, 1⟩ : primVars ℝ) ⟨4, 6, 0, 0, 4 / 7⟩ ⟨1.4⟩
          ⟨1, 0, 0⟩).shearEigV 1
      = 21 := by
  rw [roe_wave_decomposition_reproduces_jump (⟨1, 3, 0, 0, 1⟩ : primVars ℝ)
    ⟨4, 6, 0, 0, 4 / 7⟩ ⟨1.4⟩ ⟨1, 0, 0⟩ (by norm_num) (by norm_num)
    (by rw [(supersonic_example_locals rfl).2]; norm_num) 1]
  simp only [primVars.ConsVars, primVars.Rho, primVars.U, Matrix.cons_val_one,
    Matrix.head_cons]
  norm_num

/-- C33. Full upwinding in supersonic flow: for all states `L`, `R` of positive
density and pressure, `gamma > 1` and every non-zero area vector, if the Roe
state satisfies `q - a >= 0.1` then `RoeFlux(L, R, A)` is the physical flux of
the left state, and if `q + a <= -0.1` it is the physical flux of the right
state. -/
theorem RoeFlux_supersonic_upwinding (L R : primVars ℝ) (eqnState : idealGas ℝ)
    (A : vector3d ℝ) (hL : 0 < L.rho) (hR : 0 < R.rho) (hpL : 0 < L.p) (hpR : 0 < R.p)
    (hg : 1 < eqnState.gamma) (hA : A ≠ ⟨0, 0, 0⟩) :
    (0.1 ≤ (roeLocals Real.sqrt L R eqnState A).velRSum
        - (roeLocals Real.sqrt L R eqnState A).aR →
      (RoeFlux Real.sqrt L R eqnState A).1 = inviscidFlux.ofState Real.sqrt L eqnState A) ∧
    ((roeLocals Real.sqrt L R eqnState A).velRSum
        + (roeLocals Real.sqrt L R eqnState A).aR ≤ -0.1 →
      (RoeFlux Real.sqrt L R eqnState A).1 = inviscidFlux.ofState Real.sqrt R eqnState A) := by
  obtain ⟨l, hl⟩ : ∃ l, l = roeLocals Real.sqrt L R eqnState A := ⟨_, rfl⟩
  have harg := roeLocals_aR_arg_pos L R eqnState A hL hR hpL hpR hg hl
  obtain ⟨-, -, -, -, -, -, h6, -, -, -⟩ := roeLocals_fields Real.sqrt L R eqnState A hl
  obtain ⟨-, -, w3, -, -, -, -, -⟩ := roeLocals_waves Real.sqrt L R eqnState A hl
  have hapos : 0 < l.aR := by rw [h6]; exact Real.sqrt_pos.mpr harg
  rw [RoeFlux_fst L R eqnState A hA, ← hl]
  have h01 : (0.1 : ℝ) = 1 / 10 := by norm_num
  constructor
  · intro h
    rw [h01] at h
    have hws : l.waveSpeed = ![1 * (l.velRSum - l.aR), 1 * l.velRSum, 1 * (l.velRSum + l.aR),
        1 * l.velRSum] := by
      rw [w3, abs_of_pos (by linarith : 0 < l.velRSum - l.aR),
        abs_of_pos (by linarith : 0 < l.velRSum),
        abs_of_pos (by linarith : 0 < l.velRSum + l.aR)]
      simp only [entropyFixed, h01, one_mul,
        if_neg (not_lt.mpr h), if_neg (not_lt.mpr (by linarith : 1 / 10 ≤ l.velRSum + l.aR))]
    exact (inviscidFlux.upwind_combination _ _ l.dissipation 1
      (roeLocals_dissipation_signed L R eqnState A hL hR 1 hl hapos.ne' hws)).1 rfl
  · intro h
    rw [show (-0.1 : ℝ) = -(1 / 10) by norm_num] at h
    have hws : l.waveSpeed = ![-1 * (l.velRSum - l.aR), -1 * l.velRSum,
        -1 * (l.velRSum + l.aR), -1 * l.velRSum] := by
      rw [w3, abs_of_neg (by linarith : l.velRSum - l.aR < 0),
        abs_of_neg (by linarith : l.velRSum < 0),
        abs_of_neg (by linarith : l.velRSum + l.aR < 0)]
      simp only [entropyFixed, h01, neg_one_mul,
        if_neg (not_lt.mpr (by linarith : 1 / 10 ≤ -(l.velRSum - l.aR))),
        if_neg (not_lt.mpr (by linarith : 1 / 10 ≤ -(l.velRSum + l.aR)))]
    exact (inviscidFlux.upwind_combination _ _ l.dissipation (-1)
      (roeLocals_dissipation_signed L R eqnState A hL hR (-1) hl hapos.ne' hws)).2 rfl

/-- An instance of C33: for `L = (rho=1, u=3, v=w=0, p=1)`, `R = (rho=4, u=6,
v=w=0, p=4/7)`, `gamma = 1.4` and the area vector `(1,0,0)` the Roe state has
`q - a = 4`, and the Roe flux is the physical flux `(3, 10, 0, 0, 24)` of `L`;
for the area vector `(-1,0,0)` it has `q + a = -4`, and the Roe flux is the
physical flux `(-24, -1012/7, 0, 0, -444)` of `R`. -/
theorem RoeFlux_supersonic_upwinding_witness :
    (RoeFlux Real.sqrt (⟨1, 3, 0, 0, 1⟩ : primVars ℝ) ⟨4, 6, 0, 0, 4 / 7⟩ ⟨1.4⟩ ⟨1, 0, 0⟩).1
      = ⟨3, 10, 0, 0, 24⟩ ∧
    (RoeFlux Real.sqrt (⟨1, 3, 0, 0, 1⟩ : primVars ℝ) ⟨4, 6, 0, 0, 4 / 7⟩ ⟨1.4⟩ ⟨-1, 0, 0⟩).1
      = ⟨-24, -(1012 / 7), 0, 0, -444⟩ := by
  obtain ⟨hq, ha⟩ := supersonic_example_locals rfl
  obtain ⟨hq', ha'⟩ := supersonic_example_locals_reversed rfl
  constructor
  · rw [(RoeFlux_supersonic_upwinding (⟨1, 3, 0, 0, 1⟩ : primVars ℝ) ⟨4, 6, 0, 0, 4 / 7⟩ ⟨1.4⟩
      ⟨1, 0, 0⟩ (by norm_num) (by norm_num) (by norm_num) (by norm_num) (by norm_num)
      (by simp)).1 (by rw [hq, ha]; norm_num)]
    simp only [inviscidFlux.ofState, vector3d.divScalar, vector3d.Mag, primVars.Velocity,
      vector3d.DotProd, primVars.Rho, primVars.P, primVars.Enthalpy, idealGas.Gamma,
      vector3d.MagSq]
    norm_num
  · rw [(RoeFlux_supersonic_upwinding (⟨1, 3, 0, 0, 1⟩ : primVars ℝ) ⟨4, 6, 0, 0, 4 / 7⟩ ⟨1.4⟩
      ⟨-1, 0, 0⟩ (by norm_num) (by norm_num) (by norm_num) (by norm_num) (by norm_num)
      (by simp)).2 (by rw [hq', ha']; norm_num)]
    simp only [inviscidFlux.ofState, vector3d.divScalar, vector3d.Mag, primVars.Velocity,
      vector3d.DotProd, primVars.Rho, primVars.P, primVars.Enthalpy, idealGas.Gamma,
      vector3d.MagSq]
    norm_num

/-- C34: left/right mirror symmetry of the exact Roe Jacobian.  For two states of
positive density and away from the sign ties (Roe normal velocity `q` non-zero,
`q - a` and `q + a` non-zero, `a` the Roe speed of sound), every entry of the
`dF_dUr` that `RoeFluxJacobian` returns for `(L, R, A)` is the negative of the same
entry of the `dF_dUl` that it returns for `(R, L, -A)`. -/
theorem RoeFluxJacobian_mirror_symmetry (L R : primVars ℝ) (eqnState : idealGas ℝ)
    (A : vector3d ℝ) (hL : 0 < L.rho) (hR : 0 < R.rho)
    (hq : (roeLocals Real.sqrt L R eqnState A).velRSum ≠ 0)
    (hm : (roeLocals Real.sqrt L R eqnState A).velRSum
      - (roeLocals Real.sqrt L R eqnState A).aR ≠ 0)
    (hp : (roeLocals Real.sqrt L R eqnState A).velRSum
      + (roeLocals Real.sqrt L R eqnState A).aR ≠ 0) (i j : Fin 5) :
    (RoeFluxJacobian Real.sqrt L R eqnState A).2 i j
      = -(RoeFluxJacobian Real.sqrt R L eqnState A.neg).1 i j := by
  obtain ⟨l, hl⟩ : ∃ l, l = roeLocals Real.sqrt L R eqnState A := ⟨_, rfl⟩
  obtain ⟨l', hl'⟩ : ∃ l', l' = roeLocals Real.sqrt R L eqnState A.neg := ⟨_, rfl⟩
  obtain ⟨e1, e2, e3, e4, e5, e6, e7, e8, e9⟩ := roeLocals_swap L R eqnState A hL hR hl hl'
  obtain ⟨⟨s0, s1, s2, s3⟩, ⟨v0, v1, v2, v3⟩, g0, g1, g2, g3⟩ :=
    roeLocals_waves_swap L R eqnState A hL hR hl hl'
  have ev : l'.velR = l.velR := by
    have h1 : l.velR = ⟨l.uR, l.vR, l.wR⟩ := by rw [hl]; rfl
    have h2 : l'.velR = ⟨l'.uR, l'.vR, l'.wR⟩ := by rw [hl']; rfl
    rw [h1, h2, e2, e3, e4]
  rw [← hl] at hq hm hp
  have harr := RoeFluxJacobian.arrays_swap R eqnState l l' e1 e2 e3 e4 e5 ev e6 e7 e8 hq
  have hW := RoeFluxJacobian.dWs_swap l l'
    (RoeFluxJacobian.rightArrays Real.sqrt R eqnState l)
    (RoeFluxJacobian.leftArrays Real.sqrt R eqnState l') e6 e8 v0 v2
    (fun kk => (harr kk).1) (fun kk => (harr kk).2.2.1) hm hp
  have hphys : ∀ i j, RoeFluxJacobian.physicalLeft Real.sqrt R L eqnState A.neg i j
      = -RoeFluxJacobian.physicalRight Real.sqrt L R eqnState A i j := by
    intro i j
    simp only [RoeFluxJacobian.physicalLeft, RoeFluxJacobian.physicalRight, ← hl, ← hl', e7]
    rw [← RoeFluxJacobian.physicalTerm_neg]
    congr 1
    simp only [vector3d.DotProd, vector3d.neg]
    ring
  have key := RoeFluxJacobian.assemble_mirror L R l l'
    (RoeFluxJacobian.rightArrays Real.sqrt R eqnState l)
    (RoeFluxJacobian.leftArrays Real.sqrt R eqnState l')
    (RoeFluxJacobian.physicalRight Real.sqrt L R eqnState A)
    (RoeFluxJacobian.physicalLeft Real.sqrt R L eqnState A.neg)
    hphys e1 e2 e3 e4 e6 e7 e8 e9 s0 s1 s2 s3 v0 v1 v2 v3 g0 g1 g2 g3
    (fun kk => (harr kk).1) (fun kk => (harr kk).2.1) (fun kk => (harr kk).2.2.1)
    (fun kk => (harr kk).2.2.2.1) (fun kk => (harr kk).2.2.2.2.1)
    (fun kk => (harr kk).2.2.2.2.2.1) (fun kk => (harr kk).2.2.2.2.2.2.1)
    (fun kk => (harr kk).2.2.2.2.2.2.2.1) (fun kk => (harr kk).2.2.2.2.2.2.2.2.1)
    (fun kk => (harr kk).2.2.2.2.2.2.2.2.2.1) (fun kk => (harr kk).2.2.2.2.2.2.2.2.2.2.1)
    (fun kk => (harr kk).2.2.2.2.2.2.2.2.2.2.2.1)
    (fun kk => (harr kk).2.2.2.2.2.2.2.2.2.2.2.2.1)
    (fun kk => (harr kk).2.2.2.2.2.2.2.2.2.2.2.2.2)
    (fun kk => (hW kk).1) (fun kk => (hW kk).2) i j
  have hA : (RoeFluxJacobian Real.sqrt L R eqnState A).2
      = RoeFluxJacobian.assemble L R l (RoeFluxJacobian.rightArrays Real.sqrt R eqnState l)
          (RoeFluxJacobian.physicalRight Real.sqrt L R eqnState A) := by
    rw [hl]; rfl
  have hB : (RoeFluxJacobian Real.sqrt R L eqnState A.neg).1
      = RoeFluxJacobian.assemble R L l' (RoeFluxJacobian.leftArrays Real.sqrt R eqnState l')
          (RoeFluxJacobian.physicalLeft Real.sqrt R L eqnState A.neg) := by
    rw [hl']; rfl
  rw [hA, hB, key, neg_neg]

/-- An instance of C34: for `L = (rho=1, u=3, v=w=0, p=1)`, `R = (rho=4, u=6,
v=w=0, p=4/7)`, `gamma = 1.4` and the area vector `(1,0,0)` the Roe state has
`q = 5` and `a = 1`, so no sign tie occurs, and the mirror identity holds for the
entries in row 1 and column 0. -/
theorem RoeFluxJacobian_mirror_symmetry_witness :
    (roeLocals Real.sqrt (⟨1, 3, 0, 0, 1⟩ : primVars ℝ) ⟨4, 6, 0, 0, 4 / 7⟩ ⟨1.4⟩
      ⟨1, 0, 0⟩).velRSum = 5 ∧
    (roeLocals Real.sqrt (⟨1, 3, 0, 0, 1⟩ : primVars ℝ) ⟨4, 6, 0, 0, 4 / 7⟩ ⟨1.4⟩
      ⟨1, 0, 0⟩).aR = 1 ∧
    (RoeFluxJacobian Real.sqrt (⟨1, 3, 0, 0, 1⟩ : primVars ℝ) ⟨4, 6, 0, 0, 4 / 7⟩ ⟨1.4⟩
      ⟨1, 0, 0⟩).2 1 0
      = -(RoeFluxJacobian Real.sqrt (⟨4, 6, 0, 0, 4 / 7⟩ : primVars ℝ) ⟨1, 3, 0, 0, 1⟩ ⟨1.4⟩
          (vector3d.neg ⟨1, 0, 0⟩)).1 1 0 := by
  obtain ⟨hq, ha⟩ := supersonic_example_locals rfl
  exact ⟨hq, ha, RoeFluxJacobian_mirror_symmetry (⟨1, 3, 0, 0, 1⟩ : primVars ℝ)
    ⟨4, 6, 0, 0, 4 / 7⟩ ⟨1.4⟩ ⟨1, 0, 0⟩ (by norm_num) (by norm_num)
    (by rw [hq]; norm_num) (by rw [hq, ha]; norm_num) (by rw [hq, ha]; norm_num) 1 0⟩

/-- C35 (evaluated at a failing input). At the coincident states
`L = R = (rho=1, u=3, v=2, w=0, p=1/1.4)`, `gamma = 1.4`, unit normal
`(1,0,0)`, `RoeFluxJacobian` returns `dF_dUl(0,1) = 1/2` and
`dF_dUr(0,1) = -1/2`, so entry (0,1) of `dF_dUl + dF_dUr` is 0, whereas
`LaxFriedrichsFluxJacobian` returns matrices whose sum has the entry 1 there,
which is the derivative of the mass flux with respect to `rho*u`. -/
theorem RoeFluxJacobian_coincident_sum_mismatch :
    let S : primVars ℝ := ⟨1, 3, 2, 0, 1 / 1.4⟩
    (RoeFluxJacobian Real.sqrt S S ⟨1.4⟩ ⟨1, 0, 0⟩).1 0 1 = 1 / 2 ∧
    (RoeFluxJacobian Real.sqrt S S ⟨1.4⟩ ⟨1, 0, 0⟩).2 0 1 = -(1 / 2) ∧
    (RoeFluxJacobian Real.sqrt S S ⟨1.4⟩ ⟨1, 0, 0⟩).1 0 1
      + (RoeFluxJacobian Real.sqrt S S ⟨1.4⟩ ⟨1, 0, 0⟩).2 0 1 = 0 ∧
    (LaxFriedrichsFluxJacobian Real.sqrt S S ⟨1.4⟩ ⟨1, 0, 0⟩).dF_dUl 0 1
      + (LaxFriedrichsFluxJacobian Real.sqrt S S ⟨1.4⟩ ⟨1, 0, 0⟩).dF_dUr 0 1 = 1 ∧
    HasDerivAt (fun t : ℝ =>
      (inviscidFlux.ofState Real.sqrt
        (primVars.ofConserved Real.sqrt
          (fun k => S.ConsVars ⟨1.4⟩ k + if k = 1 then t else 0) ⟨1.4⟩) ⟨1.4⟩
        ⟨1, 0, 0⟩).ConvertToColMatrix 0) 1 0 := by
  intro S
  obtain ⟨l, hl⟩ : ∃ l, l = roeLocals Real.sqrt S S ⟨1.4⟩ ⟨1, 0, 0⟩ := ⟨_, rfl⟩
  obtain ⟨r1, e2, e3, e4, e5, e6, hn, hq, hv, hdv⟩ := S1_locals_x hl
  obtain ⟨w1, w2, w3, w4, w5, w6, w7, -⟩ := roeLocals_waves Real.sqrt S S ⟨1.4⟩ ⟨1, 0, 0⟩ hl
  have key1 : (RoeFluxJacobian Real.sqrt S S ⟨1.4⟩ ⟨1, 0, 0⟩).1 0 1 = 1 / 2 := by
    simp only [RoeFluxJacobian, RoeFluxJacobian.assemble, RoeFluxJacobian.physicalLeft,
      RoeFluxJacobian.physicalTerm, squareMatrix.sub, squareMatrix.lscale, squareMatrix.Data,
      squareMatrix.SetData, squareMatrix.scale, squareMatrix.Zero,
      RoeFluxJacobian.dWs1, RoeFluxJacobian.dWs3, RoeFluxJacobian.dWs1Unfixed,
      RoeFluxJacobian.dWs3Unfixed, RoeFluxJacobian.leftArrays, ← hl]
    rw [w1, w3, w4, w5, w6, w7]
    simp only [hv, e6, hn, hq, hdv, e5, e2, e3, e4, r1]
    simp [S, primVars.Enthalpy, idealGas.Gamma, primVars.P, primVars.Rho, primVars.U,
      primVars.V, primVars.W, primVars.Velocity, vector3d.MagSq, vector3d.DotProd,
      primVars.SoS, entropyFixed, copysignOne]
    norm_num [abs_of_pos]
  have key2 : (RoeFluxJacobian Real.sqrt S S ⟨1.4⟩ ⟨1, 0, 0⟩).2 0 1 = -(1 / 2) := by
    simp only [RoeFluxJacobian, RoeFluxJacobian.assemble, RoeFluxJacobian.physicalRight,
      RoeFluxJacobian.physicalTerm, squareMatrix.sub, squareMatrix.lscale, squareMatrix.Data,
      squareMatrix.SetData, squareMatrix.scale, squareMatrix.Zero,
      RoeFluxJacobian.dWs1, RoeFluxJacobian.dWs3, RoeFluxJacobian.dWs1Unfixed,
      RoeFluxJacobian.dWs3Unfixed, RoeFluxJacobian.rightArrays, ← hl]
    rw [w1, w3, w4, w5, w6, w7]
    simp only [hv, e6, hn, hq, hdv, e5, e2, e3, e4, r1]
    simp [S, primVars.Enthalpy, idealGas.Gamma, primVars.P, primVars.Rho, primVars.U,
      primVars.V, primVars.W, primVars.Velocity, vector3d.MagSq, vector3d.DotProd,
      primVars.SoS, entropyFixed, copysignOne]
    norm_num [abs_of_pos]
  refine ⟨key1, key2, by rw [key1, key2]; norm_num, ?_, ?_⟩
  · simp only [LaxFriedrichsFluxJacobian, squareMatrix.lscale, squareMatrix.add,
      squareMatrix.sub, squareMatrix.Identity, LaxFriedrichsFluxJacobian.physicalStores,
      squareMatrix.SetData, squareMatrix.Zero]
    simp [vector3d.divScalar, vector3d.Mag]
    norm_num
  · refine (eulerJacobian_hasDerivAt S ⟨1.4⟩ ⟨1, 0, 0⟩ (by norm_num [S]) (by norm_num)
      0 1).congr_deriv ?_
    simp [LaxFriedrichsFluxJacobian.physicalStores, squareMatrix.SetData, squareMatrix.Zero,
      vector3d.divScalar, vector3d.Mag]

/-- C36 (evaluated at a failing input). For coincident states the two matrices
of `ApproxRoeFluxJacobian` differ by its dissipation matrix `A`, for every
input. At `L = R = (rho=1, u=3, v=2, w=0, p=1/1.4)`, `gamma = 1.4`, unit normal
`(1,0,0)` the Roe state has `q - a = 2 > 0`, and entry (1,0) of
`dF_dUl - dF_dUr = A` is -77/5, whereas entry (1,0) of the Euler flux Jacobian
(the derivative of the x-momentum flux with respect to `rho`, and the entry of
`dF_dUl + dF_dUr` of `LaxFriedrichsFluxJacobian`) is -32/5. -/
theorem ApproxRoe_dissipation_matrix_is_not_flux_jacobian :
    let S : primVars ℝ := ⟨1, 3, 2, 0, 1 / 1.4⟩
    let l := roeLocals Real.sqrt S S ⟨1.4⟩ ⟨1, 0, 0⟩
    l.velRSum - l.aR = 2 ∧
    (∀ (T : primVars ℝ) (g : idealGas ℝ) (A : vector3d ℝ) (i j : Fin 5),
      (ApproxRoeFluxJacobian Real.sqrt T T g A).1 i j
          - (ApproxRoeFluxJacobian Real.sqrt T T g A).2 i j
        = ApproxRoeFluxJacobian.dissipationMatrix g (roeLocals Real.sqrt T T g A) i j) ∧
    ApproxRoeFluxJacobian.dissipationMatrix ⟨1.4⟩ l 1 0 = -(77 / 5) ∧
    (ApproxRoeFluxJacobian Real.sqrt S S ⟨1.4⟩ ⟨1, 0, 0⟩).1 1 0
      - (ApproxRoeFluxJacobian Real.sqrt S S ⟨1.4⟩ ⟨1, 0, 0⟩).2 1 0 = -(77 / 5) ∧
    (LaxFriedrichsFluxJacobian Real.sqrt S S ⟨1.4⟩ ⟨1, 0, 0⟩).dF_dUl 1 0
      + (LaxFriedrichsFluxJacobian Real.sqrt S S ⟨1.4⟩ ⟨1, 0, 0⟩).dF_dUr 1 0 = -(32 / 5) ∧
    HasDerivAt (fun t : ℝ =>
      (inviscidFlux.ofState Real.sqrt
        (primVars.ofConserved Real.sqrt
          (fun k => S.ConsVars ⟨1.4⟩ k + if k = 0 then t else 0) ⟨1.4⟩) ⟨1.4⟩
        ⟨1, 0, 0⟩).ConvertToColMatrix 1) (-(32 / 5)) 0 := by
  intro S l
  obtain ⟨r1, e2, e3, e4, e5, e6, hn, hq, hv, hdv⟩ := S1_locals_x (rfl : l = _)
  have hdiff : ∀ (T : primVars ℝ) (g : idealGas ℝ) (A : vector3d ℝ) (i j : Fin 5),
      (ApproxRoeFluxJacobian Real.sqrt T T g A).1 i j
          - (ApproxRoeFluxJacobian Real.sqrt T T g A).2 i j
        = ApproxRoeFluxJacobian.dissipationMatrix g (roeLocals Real.sqrt T T g A) i j := by
    intro T g A i j
    simp only [ApproxRoeFluxJacobian, squareMatrix.lscale, squareMatrix.add, squareMatrix.sub]
    ring
  have hA : ApproxRoeFluxJacobian.dissipationMatrix ⟨1.4⟩ l 1 0 = -(77 / 5) := by
    simp only [ApproxRoeFluxJacobian.dissipationMatrix,
      ApproxRoeFluxJacobian.normalVelocityTerm, ApproxRoeFluxJacobian.leftAcousticTerm,
      ApproxRoeFluxJacobian.rightAcousticTerm, squareMatrix.lscale, squareMatrix.add]
    simp only [e2, e3, e4, e5, e6, hn, hq, hv]
    simp [squareMatrix.SetData, squareMatrix.Zero, idealGas.Gamma, vector3d.MagSq]
    norm_num [abs_of_pos]
  refine ⟨by rw [hq, e6]; norm_num, hdiff, hA, by rw [hdiff]; exact hA, ?_, ?_⟩
  · simp only [LaxFriedrichsFluxJacobian, squareMatrix.lscale, squareMatrix.add,
      squareMatrix.sub, squareMatrix.Identity, LaxFriedrichsFluxJacobian.physicalStores,
      squareMatrix.SetData, squareMatrix.Zero]
    simp [S, vector3d.divScalar, vector3d.Mag, primVars.Velocity, vector3d.MagSq,
      vector3d.DotProd, idealGas.Gamma, primVars.U]
    norm_num
  · refine (eulerJacobian_hasDerivAt S ⟨1.4⟩ ⟨1, 0, 0⟩ (by norm_num [S]) (by norm_num)
      1 0).congr_deriv ?_
    simp [S, LaxFriedrichsFluxJacobian.physicalStores, squareMatrix.SetData, squareMatrix.Zero,
      vector3d.divScalar, vector3d.Mag, primVars.Velocity, vector3d.MagSq,
      vector3d.DotProd, idealGas.Gamma, primVars.U]
    norm_num

/-- C37. `RoeFluxJacobian` and `ApproxRoeFluxJacobian` never write their `maxWS`
output parameter: after either call it holds the value passed in. Hence, for
each of the five non-wall kinds and on every side, `BoundaryFluxJacobian` with
`fluxJacType` "exactRoe" or "approximateRoe" returns with `maxWS` unchanged;
with "laxFriedrichs" it returns with `maxWS` equal to the spectral radius of the
Lax-Friedrichs routine for the two face states, which is the same for both
sides; and for "slipWall" and "viscousWall" with the speed of sound of the
state. -/
theorem maxWS_written_only_by_laxFriedrichs_and_wall (c : BoundaryCollaborators ℝ)
    (kind : Fin 5) (areaVec : vector3d ℝ) (left right state : primVars ℝ)
    (eqnState : idealGas ℝ) (surf fluxJacType : String) (entry : JacobianOutputs ℝ)
    (maxWS0 : ℝ) (fluxJac0 : squareMatrix ℝ) :
    let bcName := ![("subsonicInflow" : String), "subsonicOutflow", "supersonicInflow",
      "supersonicOutflow", "characteristic"] kind
    let n := areaVec.divScalar (areaVec.Mag Real.sqrt)
    let ghost := c.FaceReconConst (c.GetGhostState state bcName n surf)
    let inner := c.FaceReconConst state
    let lState := if surf = "il" ∨ surf = "jl" ∨ surf = "kl" then ghost else inner
    let rState := if surf = "il" ∨ surf = "jl" ∨ surf = "kl" then inner else ghost
    (RoeFluxJacobian.call Real.sqrt left right eqnState areaVec entry).maxWS = entry.maxWS ∧
    (ApproxRoeFluxJacobian.call Real.sqrt left right eqnState areaVec entry).maxWS
      = entry.maxWS ∧
    (∃ r, BoundaryFluxJacobian Real.sqrt c bcName areaVec state eqnState surf "exactRoe"
        maxWS0 fluxJac0 = Outcome.returned r ∧ r.maxWS = maxWS0) ∧
    (∃ r, BoundaryFluxJacobian Real.sqrt c bcName areaVec state eqnState surf
        "approximateRoe" maxWS0 fluxJac0 = Outcome.returned r ∧ r.maxWS = maxWS0) ∧
    (∃ r, BoundaryFluxJacobian Real.sqrt c bcName areaVec state eqnState surf
        "laxFriedrichs" maxWS0 fluxJac0 = Outcome.returned r ∧
      r.maxWS = (LaxFriedrichsFluxJacobian Real.sqrt lState rState eqnState n).specRadL ∧
      r.maxWS = (LaxFriedrichsFluxJacobian Real.sqrt lState rState eqnState n).specRadR ∧
      r.maxWS = |(vector3d.lscale 0.5 (lState.Velocity.add rState.Velocity)).DotProd
          (n.divScalar (n.Mag Real.sqrt))|
        + 0.5 * (lState.SoS Real.sqrt eqnState + rState.SoS Real.sqrt eqnState)) ∧
    (∃ r, BoundaryFluxJacobian Real.sqrt c "slipWall" areaVec state eqnState surf
        fluxJacType maxWS0 fluxJac0 = Outcome.returned r ∧
      r.maxWS = state.SoS Real.sqrt eqnState) ∧
    (∃ r, BoundaryFluxJacobian Real.sqrt c "viscousWall" areaVec state eqnState surf
        fluxJacType maxWS0 fluxJac0 = Outcome.returned r ∧
      r.maxWS = state.SoS Real.sqrt eqnState) := by
  intro bcName n ghost inner lState rState
  refine ⟨rfl, rfl, ?_, ?_, ?_, ?_, ?_⟩
  · by_cases hs : surf = "il" ∨ surf = "jl" ∨ surf = "kl" <;> fin_cases kind <;>
      simp [BoundaryFluxJacobian, BoundaryFluxJacobian.dispatch, hs, bcName]
  · by_cases hs : surf = "il" ∨ surf = "jl" ∨ surf = "kl" <;> fin_cases kind <;>
      simp [BoundaryFluxJacobian, BoundaryFluxJacobian.dispatch, hs, bcName]
  · by_cases hs : surf = "il" ∨ surf = "jl" ∨ surf = "kl" <;> fin_cases kind <;>
      simp [BoundaryFluxJacobian, BoundaryFluxJacobian.dispatch, hs, bcName, lState, rState,
        ghost, inner, n] <;> exact ⟨rfl, rfl⟩
  · exact ⟨⟨BoundaryFluxJacobian.wallJacobian state eqnState n, state.SoS Real.sqrt eqnState,
      none⟩, by simp [BoundaryFluxJacobian, stringLiteralAsCondition, n], rfl⟩
  · exact ⟨⟨BoundaryFluxJacobian.wallJacobian state eqnState n, state.SoS Real.sqrt eqnState,
      none⟩, by simp [BoundaryFluxJacobian, stringLiteralAsCondition, n], rfl⟩

/-- C38. Thermally-perfect enthalpy and energy differ by `R*T`: for every
temperature `t` and every species index `ss` that passes the assertion of the
two species functions, `SpeciesSpecEnthalpy(t, ss) - SpeciesSpecEnergy(t, ss) =
R(ss) * t`; and for every mass-fraction vector `mf` of length `NumSpecies`,
`SpecEnthalpy(t, mf) - SpecEnergy(t, mf) = t * sum over species of
mf[s] * R(s)`. -/
theorem thermallyPerfect_enthalpy_minus_energy (th : thermallyPerfect ℝ) (t : ℝ)
    (mf : List ℝ) (hlen : th.NumSpecies = mf.length) :
    (∀ ss : Int, ss ≤ (th.NumSpecies : Int) → ∃ h e : ℝ,
      th.SpeciesSpecEnthalpy t ss = Outcome.returned h ∧
      th.SpeciesSpecEnergy t ss = Outcome.returned e ∧ h - e = th.R ss * t) ∧
    (∃ h e : ℝ, th.SpecEnthalpy t mf = Outcome.returned h ∧
      th.SpecEnergy t mf = Outcome.returned e ∧
      h - e = t * ∑ ss in Finset.range th.NumSpecies, mf.getD ss 0 * th.R (ss : Int)) := by
  constructor
  · intro ss hss
    refine ⟨_, _, if_neg (not_not.mpr hss), if_neg (not_not.mpr hss), ?_⟩
    ring
  · have hle : ∀ ss : Nat, ss < th.NumSpecies → ¬¬ ((ss : Int) ≤ (th.NumSpecies : Int)) :=
      fun ss h => not_not.mpr (by exact_mod_cast h.le)
    have hH := foldl_accumulateSpecies mf (th.SpeciesSpecEnthalpy t)
      (fun ss => th.R (ss : Int) * ((th.N (ss : Int) + 1) * t + th.VibEqTerm t (ss : Int)))
      th.NumSpecies (fun ss h => if_neg (hle ss h)) 0
    have hE := foldl_accumulateSpecies mf (th.SpeciesSpecEnergy t)
      (fun ss => th.R (ss : Int) * (th.N (ss : Int) * t + th.VibEqTerm t (ss : Int)))
      th.NumSpecies (fun ss h => if_neg (hle ss h)) 0
    refine ⟨0 + ∑ ss in Finset.range th.NumSpecies, mf.getD ss 0
        * (th.R (ss : Int) * ((th.N (ss : Int) + 1) * t + th.VibEqTerm t (ss : Int))),
      0 + ∑ ss in Finset.range th.NumSpecies, mf.getD ss 0
        * (th.R (ss : Int) * (th.N (ss : Int) * t + th.VibEqTerm t (ss : Int))), ?_, ?_, ?_⟩
    · simp only [thermallyPerfect.SpecEnthalpy, hlen, ne_eq, not_true_eq_false, if_false,
        zero_lit]
      rw [← hlen]; exact hH
    · simp only [thermallyPerfect.SpecEnergy, hlen, ne_eq, not_true_eq_false, if_false,
        zero_lit]
      rw [← hlen]; exact hE
    · rw [zero_add, zero_add, ← Finset.sum_sub_distrib, Finset.mul_sum]
      refine Finset.sum_congr rfl fun ss _ => ?_
      ring

/-- An instance of C38: two species with `R = 2` and `R = 3`, mass fractions
`(1/2, 1/2)` and `t = 4`: the enthalpy of species 0 exceeds its energy by
`2 * 4 = 8`, and the mixture enthalpy exceeds the mixture energy by
`4 * (1/2 * 2 + 1/2 * 3) = 10`. -/
theorem thermallyPerfect_enthalpy_minus_energy_witness :
    (∃ h e : ℝ,
      thermallyPerfect.SpeciesSpecEnthalpy
        (⟨2, fun ss => if ss = 0 then 2 else 3, fun _ => 5 / 2, fun _ _ => 1⟩ :
          thermallyPerfect ℝ) 4 0 = Outcome.returned h ∧
      thermallyPerfect.SpeciesSpecEnergy
        (⟨2, fun ss => if ss = 0 then 2 else 3, fun _ => 5 / 2, fun _ _ => 1⟩ :
          thermallyPerfect ℝ) 4 0 = Outcome.returned e ∧
      h - e = 8) ∧
    ∃ h e : ℝ,
      thermallyPerfect.SpecEnthalpy
        (⟨2, fun ss => if ss = 0 then 2 else 3, fun _ => 5 / 2, fun _ _ => 1⟩ :
          thermallyPerfect ℝ) 4 [1 / 2, 1 / 2] = Outcome.returned h ∧
      thermallyPerfect.SpecEnergy
        (⟨2, fun ss => if ss = 0 then 2 else 3, fun _ => 5 / 2, fun _ _ => 1⟩ :
          thermallyPerfect ℝ) 4 [1 / 2, 1 / 2] = Outcome.returned e ∧
      h - e = 10 := by
  obtain ⟨hs, h, e, h1, h2, h3⟩ := thermallyPerfect_enthalpy_minus_energy
    (⟨2, fun ss => if ss = 0 then 2 else 3, fun _ => 5 / 2, fun _ _ => 1⟩ :
      thermallyPerfect ℝ) 4 [1 / 2, 1 / 2] rfl
  obtain ⟨h0, e0, k1, k2, k3⟩ := hs 0 (by norm_num)
  refine ⟨⟨h0, e0, k1, k2, ?_⟩, h, e, h1, h2, ?_⟩
  · rw [k3]; norm_num
  · rw [h3]
    norm_num [Finset.sum_range_succ]

/-- C39 (evaluated at a failing input). The assertion of
`thermallyPerfect::SpeciesSpecEnergy` and `SpeciesSpecEnthalpy` is
`ss <= NumSpecies()`: for every object it passes at `ss = NumSpecies` and at
`ss = -1`, neither of which is an index `0 <= ss < NumSpecies`, and the
functions go on to read `R(ss)`, `N(ss)` and `VibEqTerm(t, ss)` there. With one
species, `ss = 1` passes and the functions return a value built from the
lookups at index 1. -/
theorem species_index_guard_admits_out_of_range :
    (∀ (th : thermallyPerfect ℝ) (t : ℝ),
      th.SpeciesSpecEnergy t (th.NumSpecies : Int)
        = Outcome.returned (th.R (th.NumSpecies : Int)
          * (th.N (th.NumSpecies : Int) * t + th.VibEqTerm t (th.NumSpecies : Int))) ∧
      th.SpeciesSpecEnthalpy t (th.NumSpecies : Int)
        = Outcome.returned (th.R (th.NumSpecies : Int)
          * ((th.N (th.NumSpecies : Int) + 1) * t + th.VibEqTerm t (th.NumSpecies : Int))) ∧
      th.SpeciesSpecEnergy t (-1)
        = Outcome.returned (th.R (-1) * (th.N (-1) * t + th.VibEqTerm t (-1))) ∧
      ¬ ((0 : Int) ≤ (th.NumSpecies : Int) ∧ (th.NumSpecies : Int) < (th.NumSpecies : Int)) ∧
      ¬ ((0 : Int) ≤ -1 ∧ (-1 : Int) < (th.NumSpecies : Int))) ∧
    thermallyPerfect.SpeciesSpecEnergy
        (⟨1, fun ss => if ss = 0 then 2 else 7, fun _ => 5 / 2, fun _ _ => 0⟩ :
          thermallyPerfect ℝ) 4 1 = Outcome.returned 70 ∧
    ¬ ((0 : Int) ≤ 1 ∧ (1 : Int) < ((1 : Nat) : Int)) := by
  refine ⟨fun th t => ⟨?_, ?_, ?_, ?_, ?_⟩, ?_, ?_⟩
  · simp [thermallyPerfect.SpeciesSpecEnergy]
  · simp [thermallyPerfect.SpeciesSpecEnthalpy]
  · have h : (-1 : Int) ≤ (th.NumSpecies : Int) := by
      have := Int.natCast_nonneg th.NumSpecies
      omega
    simp [thermallyPerfect.SpeciesSpecEnergy, h]
  · simp
  · simp
  · simp [thermallyPerfect.SpeciesSpecEnergy]
    norm_num
  · simp

end Aither
